import Mathlib

/-!
# gnMsup1: master/slave serial protocol engine

A shallow embedding of `src/gnMsup1.cpp` / `src/gnMsup1.h` (with the values of `src/config.h`).

Conventions of the embedding:

* the object is the record `gnMsup1`; every member function takes the record and returns the
  updated record together with its C++ return value;
* `uint8_t`, `uint16_t` and `uint32_t` values are natural numbers, reduced modulo `2^8`, `2^16`
  and `2^32` at the places where the C++ arithmetic can wrap;
* the transport (`_stream`) and the clock (`millis()`) are external: the bytes a function reads
  and the clock value it sees are arguments, the bytes it writes are appended to the ghost
  field `written`; during one call of a member function every `millis()` returns the same
  value;
* a loop that waits for the outside world (`while (...) handleCommunication();`) runs on a
  list of `Tick`s, one for each pass, each with its own clock value and input; a function
  that contains such a loop, or a loop that need not end, returns an `Option`, `none` when
  the loop has not ended after the last tick or pass it was given;
* service handlers are function pointers: a handler is identified by a number and every
  invocation is appended to the ghost field `invoked`;
* a store beyond the end of an array of the object (the 13 bytes of `_frameBuffer`, the
  entries of `_callbackStore`, the payload bytes of a push entry) is undefined behaviour in
  C++: the model drops the store and raises the ghost flag `bufferOverrun`; reads beyond the
  end of an array yield nothing (`List.take`) or 0 (`List.getD`), so that a state with
  `bufferOverrun` raised no longer describes the C++ object;
* debug output and the RS485 driver-enable pin are not modelled; `config.h` defines
  `GNMSUP1_DEBUG`, so the code inside `#ifdef GNMSUP1_DEBUG` is compiled in, and where such a
  block changes the state it is modelled, guarded by the member `_debugAttached`.
-/

/-! ## Constants of `config.h` and `gnMsup1.h` -/

def GNMSUP1_MAXPAYLOADBUFFER : Nat := 8
def GNMSUP1_DEFAULTPUSHQEUETIMEOUT : Nat := 20000
def GNMSUP1_MAXPUSHQEUEENTRYS : Nat := 10
def GNMSUP1_MAXSERVICECOUNT : Nat := 10
def GNMSUP1_PUSHTIMEOUT : Nat := 50
def GNMSUP1_MAXSLAVEADDRESS : Nat := 0x1F
def GNMSUP1_FRAMELENGHTTIMEOUT : Nat := 30
def GNMSUP1_SCAVENGINGINACTIVEINTERVAL : Nat := 10000

def GNMSUP1_NOTINSTORE : Nat := 0xFF
def GNMSUP1_MASTERPSEUDOADDRESS : Nat := 0xFF
def GNMSUP1_SYSTEMSERVICENUMBER : Nat := 0xFF
def GNMSUP1_SYSTEMSERVICE_QUERYALIVE : Nat := 0x00
def GNMSUP1_SYSTEMSERVICE_IGNORE : Nat := 0x01
def GNMSUP1_FRAMEFLAG_DIRECTION : Nat := 7
def GNMSUP1_FRAMEFLAG_SERVICE : Nat := 6
def GNMSUP1_FRAMEFLAG_PUSH : Nat := 5
def GNMSUP1_FRAMEFLAG_COMMITRECEIVE : Nat := 4
def GNMSUP1_FRAMESTART1 : Nat := 0xAA
def GNMSUP1_FRAMESTART2 : Nat := 0x55
def GNMSUP1_FRAMESTOP1 : Nat := 0xCC
def GNMSUP1_FRAMESTOP2 : Nat := 0x33
def GNMSUP1_FRAMEBUF_FLAG : Nat := 0
def GNMSUP1_FRAMEBUF_ADDRESS : Nat := 1
def GNMSUP1_FRAMEBUF_PAYLOADSIZE : Nat := 2
def GNMSUP1_FRAMEBUF_SERVICE : Nat := 3
def GNMSUP1_FRAMEBUF_SUBSERVICE : Nat := 4
def GNMSUP1_FRAMEBUF_PAYLOADSTART : Nat := 5
def GNMSUP1_PUSHSTOREEMPTY : Nat := 0xFF
def GNMSUP1_PUSHSTOREFULL : Nat := 0xFF
def GNMSUP1_PUSHBUFFLAG_PENDING : Nat := 7
def GNMSUP1_PUSHBUFFLAG_COMMITRECEIVE : Nat := 6

/-- Size of `_frameBuffer`: `GNMSUP1_FRAMEBUF_PAYLOADSTART + GNMSUP1_MAXPAYLOADBUFFER`. -/
def frameBufferSize : Nat := GNMSUP1_FRAMEBUF_PAYLOADSTART + GNMSUP1_MAXPAYLOADBUFFER

/-! ## Arduino core helpers and the CRC of the FastCRC library -/

/-- Modelled from the spec: the Arduino core macro `bitRead(value, bit)`, which is not among the
sources; it reads one bit of a byte (`((value) >> (bit)) & 0x01`), bit 7 being the most
significant bit of the flag byte `D S P C 0 0 0 0`. -/
def bitRead (value bit : Nat) : Bool := Nat.testBit value bit

/-- Modelled from the spec: the Arduino core macro `bitWrite(value, bit, bitvalue)` on a byte,
which is not among the sources; it sets the bit (`value |= 1 << bit`) or clears it
(`value &= ~(1 << bit)`). -/
def bitWrite (value bit : Nat) (bitvalue : Bool) : Nat :=
  if bitvalue then (value ||| (1 <<< bit)) % 256 else value &&& (0xFF ^^^ (1 <<< bit))

/-- Modelled from the spec: the Arduino core macro `highByte(w)` of a 16-bit word (the first
byte of the big-endian CRC on the wire). -/
def highByte (w : Nat) : Nat := (w / 256) % 256

/-- Modelled from the spec: the Arduino core macro `lowByte(w)` (the second byte of the
big-endian CRC on the wire). -/
def lowByte (w : Nat) : Nat := w % 256

/-- Difference of two `uint32_t` clock values, as computed by `millis() - t`. -/
def sub32 (a b : Nat) : Nat := (a + 4294967296 - b % 4294967296) % 4294967296

/-- One shift step of the CRC register (16 bits wide, polynomial 0x1021, no reflection). -/
def crcShift (crc : Nat) : Nat :=
  if 32768 ≤ crc % 65536 then ((crc * 2) % 65536) ^^^ 0x1021 else (crc * 2) % 65536

/-- The CRC register after one more message byte: the byte is xor-ed into the high half and
the register is shifted eight times. -/
def crcByte (crc byte : Nat) : Nat :=
  crcShift (crcShift (crcShift (crcShift (crcShift (crcShift (crcShift (crcShift
    ((crc % 65536) ^^^ ((byte % 256) * 256)))))))))

/-- Modelled from the spec: `CRC16.ccitt(data, len)` of the FastCRC library, which is not among
the sources. Section 4.1 fixes it as CRC-16/CCITT-FALSE: polynomial 0x1021, initial value
0xFFFF, no reflection, no final XOR. -/
def ccitt (data : List Nat) : Nat := data.foldl crcByte 0xFFFF

/-! ## Data model -/

/-- The type `gnMsup1::BlockingMode`. -/
inductive BlockingMode where
  | Synchronous
  | NearlyAsynchronous
  | FullyAsynchronous
deriving DecidableEq, Repr

/-- The type `gnMsup1::ComErrorCode`. -/
inductive ComErrorCode where
  | None
  | Err_CRTimeout
  | Err_CRInvalid
deriving DecidableEq, Repr

/-- The type `gnMsup1::comError_t`. -/
structure comError_t where
  comErrorCode : ComErrorCode
  address : Nat
deriving DecidableEq, Repr

/-- The type `_callbackStore_t`; the function pointer is represented by a number. -/
structure _callbackStore_t where
  serviceNumber : Nat
  serviceHandler : Nat
deriving DecidableEq, Repr

/-- The type `_pushStore_t`. -/
structure _pushStore_t where
  flags : Nat
  timestamp : Nat
  serviceNumber : Nat
  subserviceNumber : Nat
  payloadSize : Nat
  payload : List Nat
deriving DecidableEq, Repr

/-- A recorded call of a user callback: which function pointer was called, with which
arguments (`ServiceHandlerCallback` or `CatchAllServiceHandlerCallback`). -/
inductive Invocation where
  | service (handler subserviceNumber : Nat) (payload : List Nat)
      (payloadSize sourceAddress : Nat)
  | catchAll (handler serviceNumber subserviceNumber : Nat) (payload : List Nat)
      (payloadSize sourceAddress : Nat)
deriving DecidableEq, Repr

/-- What one emission of `_sendFrame` sees of the outside world: the value of `millis()` and
the bytes that `_stream->readBytes(crBuffer, 2)` obtains before its timeout. -/
structure Attempt where
  now : Nat
  reply : List Nat
deriving DecidableEq, Repr

/-- The private members of `class gnMsup1`, followed by the ghost fields `written` (bytes
written to `_stream`, oldest first), `invoked` (callback calls, oldest first) and
`bufferOverrun` (a store beyond the end of an array of the object was attempted). -/
structure gnMsup1 where
  _initialized : Bool
  _address : Nat
  _blockingMode : BlockingMode
  _lastComError : comError_t
  _callbackStore : List _callbackStore_t
  _callbackStoreNextFree : Nat
  _callbackCatchAllHandler : Nat
  _callbackCatchAllActive : Bool
  _framePosition : Nat
  _frameBuffer : List Nat
  _frameChecksum : Nat
  _frameStartTime : Nat
  _frameTimeout : Nat
  _additionalPushMsgAvailable : Bool
  _pushStore : List _pushStore_t
  _pushBlockingTimer : Nat
  _ignoreInactiveNodes : Bool
  _ignoreStore : List Nat
  _activeStore : List Nat
  _scavengingInactiveLastTimestamp : Nat
  _scavengingInactiveNextAddress : Nat
  _debugAttached : Bool
  written : List Nat
  invoked : List Invocation
  bufferOverrun : Bool
deriving DecidableEq, Repr

namespace gnMsup1

/-- The member function `_ownsMasterRole`. -/
def _ownsMasterRole (s : gnMsup1) : Bool := s._address == GNMSUP1_MASTERPSEUDOADDRESS

/-- Read of `_frameBuffer[i]`. -/
def frameByte (s : gnMsup1) (i : Nat) : Nat := s._frameBuffer.getD i 0

/-- Store `_frameBuffer[i] = v`; beyond the end of the array the store is dropped and
`bufferOverrun` is raised. -/
def setFrameByte (s : gnMsup1) (i v : Nat) : gnMsup1 :=
  if i < frameBufferSize then { s with _frameBuffer := s._frameBuffer.set i v }
  else { s with bufferOverrun := true }

/-- The increment `_framePosition++` of the `uint8_t` frame position. -/
def nextPosition (s : gnMsup1) : gnMsup1 :=
  { s with _framePosition := (s._framePosition + 1) % 256 }

/-- The member function `_resetFramebuffer`. -/
def _resetFramebuffer (s : gnMsup1) : gnMsup1 :=
  { s with _frameBuffer := List.replicate frameBufferSize 0, _frameChecksum := 0 }

/-- The member function `_resetAndStartFrame`. -/
def _resetAndStartFrame (s : gnMsup1) (inputBuffer : Nat) : gnMsup1 :=
  if inputBuffer == GNMSUP1_FRAMESTART1 then
    _resetFramebuffer { s with _framePosition := 1 }
  else
    { s with _framePosition := 0 }

/-- Read of bit `address % 8` of byte `address / 8` of a liveness bitmap. -/
def storeBit (store : List Nat) (address : Nat) : Bool :=
  bitRead (store.getD (address / 8) 0) (address % 8)

/-- Write of bit `address % 8` of byte `address / 8` of a liveness bitmap. -/
def setStoreBit (store : List Nat) (address : Nat) (v : Bool) : List Nat :=
  store.set (address / 8) (bitWrite (store.getD (address / 8) 0) (address % 8) v)

/-- The member function `_queryIgnore`. -/
def _queryIgnore (s : gnMsup1) (address : Nat) : Bool :=
  if !s._ownsMasterRole || !s._ignoreInactiveNodes then false
  else if address > GNMSUP1_MAXSLAVEADDRESS then false
  else storeBit s._ignoreStore address

/-- The member function `_markActive`. -/
def _markActive (s : gnMsup1) (address : Nat) : gnMsup1 :=
  if address ≤ GNMSUP1_MAXSLAVEADDRESS then
    { s with _activeStore := setStoreBit s._activeStore address true,
             _ignoreStore := setStoreBit s._ignoreStore address false }
  else s

/-- The member function `_markIgnore`. -/
def _markIgnore (s : gnMsup1) (address : Nat) : gnMsup1 :=
  if address ≤ GNMSUP1_MAXSLAVEADDRESS then
    { s with _activeStore := setStoreBit s._activeStore address false,
             _ignoreStore := setStoreBit s._ignoreStore address true }
  else s

/-- The member function `_validateFrame`: CRC check, liveness mark, address filter, direction
filter, commit-receive echo. -/
def _validateFrame (s : gnMsup1) : gnMsup1 × Bool :=
  if s._frameChecksum != ccitt (s._frameBuffer.take (s._framePosition - 6)) then (s, false)
  else
    let s1 := s._markActive (s.frameByte GNMSUP1_FRAMEBUF_ADDRESS)
    if s1._address != s1.frameByte GNMSUP1_FRAMEBUF_ADDRESS && !s1._ownsMasterRole then
      (s1, false)
    else if !s1._ownsMasterRole &&
        bitRead (s1.frameByte GNMSUP1_FRAMEBUF_FLAG) GNMSUP1_FRAMEFLAG_DIRECTION then
      (s1, false)
    else if bitRead (s1.frameByte GNMSUP1_FRAMEBUF_FLAG) GNMSUP1_FRAMEFLAG_COMMITRECEIVE then
      ({ s1 with written :=
          s1.written ++ [highByte s1._frameChecksum, lowByte s1._frameChecksum] }, true)
    else (s1, true)

/-- The validation at a final stop byte inside `_readInput`: `return true` when the frame is
valid, else `_resetAndStartFrame(inputBuffer)` and `return false`. -/
def finishFrame (s : gnMsup1) (inputBuffer : Nat) : gnMsup1 × Option Bool :=
  match s._validateFrame with
  | (s1, true) => (s1, some true)
  | (s1, false) => (s1._resetAndStartFrame inputBuffer, some false)

/-- The body of the `while (_stream->available())` loop of `_readInput` for one byte read from
the stream. The second component is `some r` when the body executes `return r` and `none`
when the loop goes on. -/
def readInputByte (s : gnMsup1) (now inputBuffer : Nat) : gnMsup1 × Option Bool :=
  let service := bitRead (s.frameByte GNMSUP1_FRAMEBUF_FLAG) GNMSUP1_FRAMEFLAG_SERVICE
  let payloadSize := s.frameByte GNMSUP1_FRAMEBUF_PAYLOADSIZE
  let pos := s._framePosition
  if pos == 0 && inputBuffer == GNMSUP1_FRAMESTART1 then
    (s._resetAndStartFrame inputBuffer, none)
  else if pos == 1 then
    if inputBuffer == GNMSUP1_FRAMESTART2 then
      (nextPosition { s with _frameStartTime := now }, none)
    else (s._resetAndStartFrame inputBuffer, none)
  else if pos == 2 then
    (nextPosition (s.setFrameByte GNMSUP1_FRAMEBUF_FLAG inputBuffer), none)
  else if pos == 3 then
    (nextPosition (s.setFrameByte GNMSUP1_FRAMEBUF_ADDRESS inputBuffer), none)
  else if pos == 4 && service then
    (nextPosition (s.setFrameByte GNMSUP1_FRAMEBUF_PAYLOADSIZE inputBuffer), none)
  else if pos == 4 && !service then
    (nextPosition { s with _frameChecksum := (inputBuffer * 256) % 65536 }, none)
  else if pos == 5 && service then
    (nextPosition (s.setFrameByte GNMSUP1_FRAMEBUF_SERVICE inputBuffer), none)
  else if pos == 5 && !service then
    (nextPosition { s with _frameChecksum := s._frameChecksum ||| inputBuffer }, none)
  else if pos == 6 && service then
    (nextPosition (s.setFrameByte GNMSUP1_FRAMEBUF_SUBSERVICE inputBuffer), none)
  else if pos == 6 && !service then
    if inputBuffer == GNMSUP1_FRAMESTOP1 then (nextPosition s, none)
    else (s._resetAndStartFrame inputBuffer, none)
  else if decide (7 ≤ pos) && decide (pos < 7 + payloadSize) && service then
    (nextPosition (s.setFrameByte (GNMSUP1_FRAMEBUF_PAYLOADSTART + pos - 7) inputBuffer), none)
  else if pos == 7 && !service then
    if inputBuffer == GNMSUP1_FRAMESTOP2 then finishFrame (nextPosition s) inputBuffer
    else (s._resetAndStartFrame inputBuffer, none)
  else if pos == 7 + payloadSize && service then
    (nextPosition { s with _frameChecksum := (inputBuffer * 256) % 65536 }, none)
  else if pos == 8 + payloadSize && service then
    (nextPosition { s with _frameChecksum := s._frameChecksum ||| inputBuffer }, none)
  else if pos == 9 + payloadSize && service then
    if inputBuffer == GNMSUP1_FRAMESTOP1 then (nextPosition s, none)
    else (s._resetAndStartFrame inputBuffer, none)
  else if pos == 10 + payloadSize && service then
    if inputBuffer == GNMSUP1_FRAMESTOP2 then finishFrame (nextPosition s) inputBuffer
    else ((nextPosition s)._resetAndStartFrame inputBuffer, none)
  else (s._resetAndStartFrame inputBuffer, none)

/-- The `while (_stream->available())` loop of `_readInput` over the bytes available in the
stream: the state at the return, the bytes left in the stream, and the value returned
(`false` when the stream runs empty). -/
def readLoop (s : gnMsup1) (now : Nat) : List Nat → gnMsup1 × List Nat × Bool
  | [] => (s, [], false)
  | inputBuffer :: rest =>
    match s.readInputByte now inputBuffer with
    | (s1, some r) => (s1, rest, r)
    | (s1, none) => readLoop s1 now rest

/-- The member function `_readInput`, called at clock value `now` with the bytes `available`
in the stream: first the frame-timeout check, then the read loop. -/
def _readInput (s : gnMsup1) (now : Nat) (available : List Nat) : gnMsup1 × List Nat × Bool :=
  let s1 :=
    if s._framePosition > 1 && decide (sub32 now s._frameStartTime > s._frameTimeout) then
      s._resetAndStartFrame (GNMSUP1_FRAMESTART1 + 1)
    else s
  s1.readLoop now available

/-! ### Push store -/

/-- Read of `_pushStore[i]`. -/
def pushEntry (s : gnMsup1) (i : Nat) : _pushStore_t :=
  s._pushStore.getD i ⟨0, 0, 0, 0, 0, List.replicate GNMSUP1_MAXPAYLOADBUFFER 0⟩

/-- The member function `_pushStoreNextToSend` at clock value `now`. The local variable
`timestamp` is initialised with `millis()` and is not assigned in the loop. -/
def _pushStoreNextToSend (s : gnMsup1) (now : Nat) : Nat :=
  let millisbuffer := now
  let timestamp := millisbuffer
  (List.range GNMSUP1_MAXPUSHQEUEENTRYS).foldl (fun storeEntry i =>
    if bitRead (s.pushEntry i).flags GNMSUP1_PUSHBUFFLAG_PENDING &&
        decide (sub32 millisbuffer (s.pushEntry i).timestamp ≤ GNMSUP1_DEFAULTPUSHQEUETIMEOUT) &&
        decide ((s.pushEntry i).timestamp < timestamp) then i
    else storeEntry) GNMSUP1_PUSHSTOREEMPTY

/-- The member function `_pushStoreNextFree` at clock value `now`. -/
def _pushStoreNextFree (s : gnMsup1) (now : Nat) : Nat :=
  match (List.range GNMSUP1_MAXPUSHQEUEENTRYS).find? (fun i =>
    !bitRead (s.pushEntry i).flags GNMSUP1_PUSHBUFFLAG_PENDING ||
      decide (sub32 now (s.pushEntry i).timestamp > GNMSUP1_DEFAULTPUSHQEUETIMEOUT)) with
  | some i => i
  | none => GNMSUP1_PUSHSTOREFULL

/-- The store `bitWrite(_pushStore[i].flags, GNMSUP1_PUSHBUFFLAG_PENDING, v)`. -/
def setPending (s : gnMsup1) (i : Nat) (v : Bool) : gnMsup1 :=
  let e := s.pushEntry i
  let e1 : _pushStore_t := { e with flags := bitWrite e.flags GNMSUP1_PUSHBUFFLAG_PENDING v }
  { s with _pushStore := s._pushStore.set i e1 }

/-- The part of `push` that adds the entry to the store at `storePosition` (from "Prepare Flag
Byte" to the end of the copy loop), at clock value `now`. A store beyond the
`GNMSUP1_MAXPAYLOADBUFFER` bytes of the payload array is dropped and raises `bufferOverrun`. -/
def storePushEntry (s : gnMsup1) (now storePosition serviceNumber subserviceNumber : Nat)
    (payload : List Nat) (payloadSize : Nat) (commitReceivedFlag : Bool) : gnMsup1 :=
  let flagbyte := bitWrite (bitWrite 0x00 GNMSUP1_PUSHBUFFLAG_PENDING true)
    GNMSUP1_PUSHBUFFLAG_COMMITRECEIVE commitReceivedFlag
  let copied := (List.range payloadSize).foldl (fun (acc : List Nat × Bool) i =>
    if i < GNMSUP1_MAXPAYLOADBUFFER then (acc.1.set i (payload.getD i 0), acc.2)
    else (acc.1, true)) ((s.pushEntry storePosition).payload, s.bufferOverrun)
  { s with
    _pushStore := s._pushStore.set storePosition
      ⟨flagbyte, now, serviceNumber, subserviceNumber, payloadSize, copied.1⟩,
    bufferOverrun := copied.2 }

/-! ### Transmit path -/

/-- The flag byte built by `_sendFrame` with four `bitWrite` calls on `0x00`. -/
def flagByte (s : gnMsup1) (serviceFlag pushFlag commitReceivedFlag : Bool) : Nat :=
  bitWrite (bitWrite (bitWrite (bitWrite 0x00 GNMSUP1_FRAMEFLAG_DIRECTION (!s._ownsMasterRole))
    GNMSUP1_FRAMEFLAG_SERVICE serviceFlag) GNMSUP1_FRAMEFLAG_PUSH pushFlag)
    GNMSUP1_FRAMEFLAG_COMMITRECEIVE commitReceivedFlag

/-- The part of `_sendFrame` that builds the frame in `_frameBuffer` (from `_resetFramebuffer`
to the CRC); returns the state and `framebufferLength`. -/
def buildFrame (s : gnMsup1) (address serviceNumber subserviceNumber : Nat)
    (serviceFlag pushFlag commitReceivedFlag : Bool) (payload : List Nat) (payloadSize : Nat) :
    gnMsup1 × Nat :=
  let s1 := (s._resetFramebuffer.setFrameByte GNMSUP1_FRAMEBUF_FLAG
    (s.flagByte serviceFlag pushFlag commitReceivedFlag)).setFrameByte
      GNMSUP1_FRAMEBUF_ADDRESS address
  let (s2, framebufferLength) :=
    if serviceFlag then
      let s3 := ((s1.setFrameByte GNMSUP1_FRAMEBUF_PAYLOADSIZE payloadSize).setFrameByte
        GNMSUP1_FRAMEBUF_SERVICE serviceNumber).setFrameByte
          GNMSUP1_FRAMEBUF_SUBSERVICE subserviceNumber
      ((List.range payloadSize).foldl (fun st i =>
        st.setFrameByte (GNMSUP1_FRAMEBUF_PAYLOADSTART + i) (payload.getD i 0)) s3,
       5 + payloadSize)
    else (s1, 2)
  ({ s2 with _frameChecksum := ccitt (s2._frameBuffer.take framebufferLength) },
   framebufferLength)

/-- The part of `_sendFrame` from `_resetFramebuffer` to `_stream->flush()`: build the frame,
write the start bytes, set the push blocker (master with push flag), write the frame buffer,
the CRC (high byte first) and the stop bytes. -/
def emitFrame (s : gnMsup1) (now : Nat) (address serviceNumber subserviceNumber : Nat)
    (serviceFlag pushFlag commitReceivedFlag : Bool) (payload : List Nat) (payloadSize : Nat) :
    gnMsup1 :=
  let (s1, framebufferLength) := s.buildFrame address serviceNumber subserviceNumber
    serviceFlag pushFlag commitReceivedFlag payload payloadSize
  let s2 := { s1 with written := s1.written ++ [GNMSUP1_FRAMESTART1, GNMSUP1_FRAMESTART2] }
  let s3 := if s2._ownsMasterRole && pushFlag then { s2 with _pushBlockingTimer := now } else s2
  { s3 with written := s3.written ++ s3._frameBuffer.take framebufferLength ++
      [highByte s3._frameChecksum, lowByte s3._frameChecksum,
       GNMSUP1_FRAMESTOP1, GNMSUP1_FRAMESTOP2] }

/-- The body of `_sendFrame` for one call. `retryCall` stands for the recursive call
`_sendFrame(..., retryOnCrFailure = false, ...)` and `wait` for
`_pushBlockingWaitForRelease()`, which re-enters `handleCommunication`. -/
def sendFrameBody (retryCall : gnMsup1 → gnMsup1 × Bool) (wait : gnMsup1 → gnMsup1)
    (s : gnMsup1) (a : Attempt) (address serviceNumber subserviceNumber : Nat)
    (serviceFlag pushFlag waitForPushAnswer commitReceivedFlag retryOnCrFailure : Bool)
    (payload : List Nat) (payloadSize : Nat) : gnMsup1 × Bool :=
  if s._queryIgnore address then (s, false)
  else
    let s1 := s.emitFrame a.now address serviceNumber subserviceNumber serviceFlag pushFlag
      commitReceivedFlag payload payloadSize
    let finish (st : gnMsup1) : gnMsup1 × Bool :=
      if st._ownsMasterRole && pushFlag && waitForPushAnswer then (wait st, true)
      else (st, true)
    if commitReceivedFlag then
      match a.reply with
      | c0 :: c1 :: _ =>
        if c0 == highByte s1._frameChecksum && c1 == lowByte s1._frameChecksum then
          finish (s1._markActive address)
        else
          let s2 := { s1 with _lastComError := ⟨ComErrorCode.Err_CRInvalid, address⟩ }
          if retryOnCrFailure && s2._ownsMasterRole then retryCall s2 else (s2, false)
      | _ =>
        let s2 := { s1 with _lastComError := ⟨ComErrorCode.Err_CRTimeout, address⟩ }
        if retryOnCrFailure && s2._ownsMasterRole then retryCall s2
        else (s2._markIgnore address, false)
    else finish s1

/-- The member function `_sendFrame`. `first` is what the call sees of the clock and of the
commit-receive reply, `second` what the retry sees (used only when the retry happens). -/
def _sendFrame (s : gnMsup1) (wait : gnMsup1 → gnMsup1) (first second : Attempt)
    (address serviceNumber subserviceNumber : Nat)
    (serviceFlag pushFlag waitForPushAnswer commitReceivedFlag retryOnCrFailure : Bool)
    (payload : List Nat) (payloadSize : Nat) : gnMsup1 × Bool :=
  sendFrameBody
    (fun s1 => sendFrameBody (fun s2 => (s2, false)) wait s1 second address serviceNumber
      subserviceNumber serviceFlag pushFlag waitForPushAnswer commitReceivedFlag false
      payload payloadSize)
    wait s first address serviceNumber subserviceNumber serviceFlag pushFlag waitForPushAnswer
    commitReceivedFlag retryOnCrFailure payload payloadSize

/-! ### Dispatch -/

/-- The member function `_getCallbackStoreNr`. The loop compares the stored service numbers
with `_frameBuffer[GNMSUP1_FRAMEBUF_SERVICE]`; the parameter `serviceNumber` is not read. -/
def _getCallbackStoreNr (s : gnMsup1) (_serviceNumber : Nat) : Nat :=
  match (List.range s._callbackStoreNextFree).find? (fun i =>
    (s._callbackStore.getD i ⟨0, 0⟩).serviceNumber == s.frameByte GNMSUP1_FRAMEBUF_SERVICE) with
  | some i => i
  | none => GNMSUP1_NOTINSTORE

/-- The member function `attachService`. A store beyond the `GNMSUP1_MAXSERVICECOUNT` entries
of `_callbackStore` is dropped and raises `bufferOverrun`. -/
def attachService (s : gnMsup1) (serviceNumber serviceHandler : Nat) : gnMsup1 × Bool :=
  if serviceNumber == 0xFF then (s, false)
  else if s._getCallbackStoreNr serviceNumber == GNMSUP1_NOTINSTORE then
    let s1 :=
      if s._callbackStoreNextFree < GNMSUP1_MAXSERVICECOUNT then
        { s with _callbackStore :=
            s._callbackStore.set s._callbackStoreNextFree ⟨serviceNumber, serviceHandler⟩ }
      else { s with bufferOverrun := true }
    ({ s1 with _callbackStoreNextFree := (s1._callbackStoreNextFree + 1) % 256 }, true)
  else (s, false)

/-- The member function `attachCatchAllService`. -/
def attachCatchAllService (s : gnMsup1) (serviceHandler : Nat) : gnMsup1 :=
  { s with _callbackCatchAllActive := true, _callbackCatchAllHandler := serviceHandler }

/-- The member function `_handleSystemService`; `a` is what the slave's answer frame sees of
the clock and of the commit-receive reply. -/
def _handleSystemService (s : gnMsup1) (a : Attempt) (pushFlag : Bool) : gnMsup1 × Bool :=
  let pushAnswerCommitReceiveFlag :=
    bitRead (s.frameByte GNMSUP1_FRAMEBUF_FLAG) GNMSUP1_FRAMEFLAG_COMMITRECEIVE
  if s._ownsMasterRole then (s, pushFlag)
  else
    let additionalPushMessagesFlag := s._pushStoreNextToSend a.now != GNMSUP1_PUSHSTOREEMPTY
    if s.frameByte GNMSUP1_FRAMEBUF_SUBSERVICE == GNMSUP1_SYSTEMSERVICE_QUERYALIVE then
      ((s._sendFrame id a a s._address GNMSUP1_SYSTEMSERVICENUMBER
        GNMSUP1_SYSTEMSERVICE_QUERYALIVE true additionalPushMessagesFlag false
        pushAnswerCommitReceiveFlag false [] 0).1, false)
    else (s, pushFlag)

/-- The first part of `_processFrame`: the call of the system service or of a user callback.
Returns the state and the local variable `pushFlag`. -/
def dispatchService (s : gnMsup1) (a : Attempt) : gnMsup1 × Bool :=
  let pushFlag := bitRead (s.frameByte GNMSUP1_FRAMEBUF_FLAG) GNMSUP1_FRAMEFLAG_PUSH
  if bitRead (s.frameByte GNMSUP1_FRAMEBUF_FLAG) GNMSUP1_FRAMEFLAG_SERVICE then
    if s.frameByte GNMSUP1_FRAMEBUF_SERVICE == GNMSUP1_SYSTEMSERVICENUMBER then
      s._handleSystemService a pushFlag
    else
      let storeEntry := s._getCallbackStoreNr (s.frameByte GNMSUP1_FRAMEBUF_SERVICE)
      if storeEntry == GNMSUP1_NOTINSTORE && !s._callbackCatchAllActive then (s, pushFlag)
      else
        let payload := (List.range (s.frameByte GNMSUP1_FRAMEBUF_PAYLOADSIZE)).map
          (fun i => s.frameByte (GNMSUP1_FRAMEBUF_PAYLOADSTART + i))
        if storeEntry == GNMSUP1_NOTINSTORE then
          ({ s with invoked := s.invoked ++ [Invocation.catchAll s._callbackCatchAllHandler
              (s.frameByte GNMSUP1_FRAMEBUF_SERVICE) (s.frameByte GNMSUP1_FRAMEBUF_SUBSERVICE)
              payload (s.frameByte GNMSUP1_FRAMEBUF_PAYLOADSIZE)
              (s.frameByte GNMSUP1_FRAMEBUF_ADDRESS)] }, pushFlag)
        else
          ({ s with invoked := s.invoked ++ [Invocation.service
              (s._callbackStore.getD storeEntry ⟨0, 0⟩).serviceHandler
              (s.frameByte GNMSUP1_FRAMEBUF_SUBSERVICE)
              payload (s.frameByte GNMSUP1_FRAMEBUF_PAYLOADSIZE)
              (s.frameByte GNMSUP1_FRAMEBUF_ADDRESS)] }, pushFlag)
  else (s, pushFlag)

/-- The second part of `_processFrame` on a slave that got push clearance: send the next
pending push message, or tell the master that there is none. -/
def answerPushClearance (s : gnMsup1) (a : Attempt) : gnMsup1 :=
  if sub32 a.now s._frameStartTime ≤ GNMSUP1_PUSHTIMEOUT then
    let pushStoreEntry := s._pushStoreNextToSend a.now
    if pushStoreEntry != GNMSUP1_PUSHSTOREEMPTY then
      let s1 := s.setPending pushStoreEntry false
      let additionalPushMessagesFlag := s1._pushStoreNextToSend a.now != GNMSUP1_PUSHSTOREEMPTY
      let commitReceive :=
        bitRead (s1.pushEntry pushStoreEntry).flags GNMSUP1_PUSHBUFFLAG_COMMITRECEIVE
      let (s2, sent) := s1._sendFrame id a a s1._address
        (s1.pushEntry pushStoreEntry).serviceNumber
        (s1.pushEntry pushStoreEntry).subserviceNumber true additionalPushMessagesFlag false
        commitReceive false (s1.pushEntry pushStoreEntry).payload
        (s1.pushEntry pushStoreEntry).payloadSize
      if !sent && bitRead (s2.pushEntry pushStoreEntry).flags GNMSUP1_PUSHBUFFLAG_COMMITRECEIVE
          && s2._debugAttached then
        s2.setPending pushStoreEntry true
      else s2
    else (s._sendFrame id a a s._address 0 0 false false false false false [] 0).1
  else s

/-- The member function `_processFrame`; `a` is the clock value during the call and the
commit-receive reply to a frame the call sends. Callbacks are recorded in `invoked`; a
callback that calls back into the object is not modelled. -/
def _processFrame (s : gnMsup1) (a : Attempt) : gnMsup1 :=
  let (s1, pushFlag) := s.dispatchService a
  let s2 := { s1 with _framePosition := 0 }
  if s2._ownsMasterRole then
    { s2 with _pushBlockingTimer := sub32 (sub32 a.now GNMSUP1_PUSHTIMEOUT) 1,
              _additionalPushMsgAvailable := pushFlag }
  else if pushFlag then s2.answerPushClearance a
  else s2

/-- The statement `if (_readInput()) { _processFrame(); }` of `handleCommunication`, with the
bytes `available` in the stream; returns the state and the bytes left in the stream. -/
def readAndProcess (s : gnMsup1) (a : Attempt) (available : List Nat) : gnMsup1 × List Nat :=
  match s._readInput a.now available with
  | (s1, rest, true) => (s1._processFrame a, rest)
  | (s1, rest, false) => (s1, rest)

/-! ### Liveness queries and the scavenger -/

/-- The member function `_queryActive`. -/
def _queryActive (s : gnMsup1) (address : Nat) : Bool :=
  if !s._ignoreInactiveNodes then true
  else if address > GNMSUP1_MAXSLAVEADDRESS then false
  else storeBit s._activeStore address

/-- The member function `_resetActiveIgnore`. -/
def _resetActiveIgnore (s : gnMsup1) (address : Nat) : gnMsup1 :=
  if address ≤ GNMSUP1_MAXSLAVEADDRESS then
    { s with _activeStore := setStoreBit s._activeStore address false,
             _ignoreStore := setStoreBit s._ignoreStore address false }
  else s

/-- One pass of the body of the `while (!scavengingOk)` loop of `_scavengingInactive` at
`address`; `probe` is what the probe frame sees of the clock and of the commit-receive reply.
Returns the state, the next value of `address` (a `uint8_t`) and `scavengingOk`. -/
def scavengingPass (s : gnMsup1) (probe : Attempt) (address : Nat) : gnMsup1 × Nat × Bool :=
  let (s1, scavengingOk) :=
    if s._queryActive address then (s._resetActiveIgnore address, false)
    else if s._queryIgnore address then
      let s2 := s._resetActiveIgnore address
      let lastComError := s2._lastComError
      let (s3, sent) := s2._sendFrame id probe probe address GNMSUP1_SYSTEMSERVICENUMBER
        GNMSUP1_SYSTEMSERVICE_IGNORE true false false true false [] 0
      let s4 := if sent then s3._markActive address else s3._markIgnore address
      ({ s4 with _lastComError := lastComError }, true)
    else (s, false)
  let address1 := (address + 1) % 256
  let address2 := if address1 > GNMSUP1_MAXSLAVEADDRESS then 0 else address1
  (s1, address2, scavengingOk || address2 == s1._scavengingInactiveNextAddress)

/-- The `while (!scavengingOk)` loop of `_scavengingInactive` followed by the store of the
cursor, for at most `passes` passes of the body; `none` when the loop has not ended by then. -/
def scavengingWalk : Nat → gnMsup1 → Attempt → Nat → Option gnMsup1
  | 0, _, _, _ => none
  | passes + 1, s, probe, address =>
    match s.scavengingPass probe address with
    | (s1, address1, true) => some { s1 with _scavengingInactiveNextAddress := address1 }
    | (s1, address1, false) => scavengingWalk passes s1 probe address1

/-- The member function `_scavengingInactive` at clock value `now`. The loop is given 256
passes, one for every value of the `uint8_t` variable `address`; a loop that has not ended
after these never ends, since by then no address is left that is active or ignored, and the
result is `none`. -/
def _scavengingInactive (s : gnMsup1) (now : Nat) (probe : Attempt) : Option gnMsup1 :=
  if s._ignoreInactiveNodes then
    if sub32 now s._scavengingInactiveLastTimestamp > GNMSUP1_SCAVENGINGINACTIVEINTERVAL then
      scavengingWalk 256 { s with _scavengingInactiveLastTimestamp := now } probe
        s._scavengingInactiveNextAddress
    else some s
  else some s

end gnMsup1

/-- What one call of `handleCommunication` sees of the outside world: the value of `millis()`,
the bytes available in `_stream`, the commit-receive reply to a frame that `_processFrame`
sends and the commit-receive reply to the probe of the scavenger. -/
structure Tick where
  now : Nat
  available : List Nat
  reply : List Nat
  probeReply : List Nat
deriving DecidableEq, Repr

namespace gnMsup1

/-- The member function `handleCommunication`; `none` when it does not return. -/
def handleCommunication (s : gnMsup1) (t : Tick) : Option gnMsup1 :=
  if !s._initialized then some s
  else (s.readAndProcess ⟨t.now, t.reply⟩ t.available).1._scavengingInactive t.now
    ⟨t.now, t.probeReply⟩

/-- The member function `pushBlockingActive` of `gnMsup1.h` (`gnMsup1.cpp` calls it as
`_pushBlockingActive()`), at clock value `now`. -/
def pushBlockingActive (s : gnMsup1) (now : Nat) : Bool :=
  decide (sub32 now s._pushBlockingTimer < GNMSUP1_PUSHTIMEOUT)

/-- The member function `_pushBlockingWaitForRelease`: the loop
`while (_pushBlockingActive()) handleCommunication();`, one `Tick` per test of the loop
condition; `none` when the loop has not ended after the last of `ticks`. -/
def _pushBlockingWaitForRelease : gnMsup1 → List Tick → Option gnMsup1
  | _, [] => none
  | s, t :: ticks =>
    if s.pushBlockingActive t.now then
      match s.handleCommunication t with
      | none => none
      | some s1 => _pushBlockingWaitForRelease s1 ticks
    else some s

/-- The member function `_sendFrame` with its call of `_pushBlockingWaitForRelease()` run on
`ticks`. That call is the last statement before `return true`, so the call is `_sendFrame`
without the wait, followed by the wait when `_sendFrame` is about to return `true` with
`_ownsMasterRole() && pushFlag && waitForPushAnswer`. -/
def sendFrameThenWait (s : gnMsup1) (first second : Attempt) (ticks : List Tick)
    (address serviceNumber subserviceNumber : Nat)
    (serviceFlag pushFlag waitForPushAnswer commitReceivedFlag retryOnCrFailure : Bool)
    (payload : List Nat) (payloadSize : Nat) : Option (gnMsup1 × Bool) :=
  match s._sendFrame id first second address serviceNumber subserviceNumber serviceFlag
      pushFlag waitForPushAnswer commitReceivedFlag retryOnCrFailure payload payloadSize with
  | (s1, true) =>
    if s1._ownsMasterRole && pushFlag && waitForPushAnswer then
      (s1._pushBlockingWaitForRelease ticks).map (fun s2 => (s2, true))
    else some (s1, true)
  | (s1, false) => some (s1, false)

/-! ### Public member functions -/

/-- The member function `blockingMode` of `gnMsup1.h`. -/
def blockingMode (s : gnMsup1) (mode : BlockingMode) : gnMsup1 := { s with _blockingMode := mode }

/-- The member function `setIgnoreInactiveNodes` of `gnMsup1.h`. -/
def setIgnoreInactiveNodes (s : gnMsup1) (value : Bool) : gnMsup1 :=
  { s with _ignoreInactiveNodes := value }

/-- The frame timeout that `begin` computes: `int` factors, an `unsigned long` quotient,
product and sum (32 bits), stored in the `uint16_t` member `_frameTimeout`. -/
def frameTimeoutFor (baudRate : Nat) : Nat :=
  ((((10 + GNMSUP1_MAXPAYLOADBUFFER) * GNMSUP1_FRAMELENGHTTIMEOUT * (10000000 / baudRate))
    % 4294967296 + 501) % 4294967296 / 1000) % 65536

/-- The member function `begin(baudRate, address)`. The division `10000000ul / baudRate` by
zero is undefined behaviour: the result is `none`. The calls that set up the serial port and
the driver-enable pin are not modelled. -/
def begin (s : gnMsup1) (baudRate address : Nat) : Option (gnMsup1 × Bool) :=
  if !((s._ownsMasterRole && address == GNMSUP1_MASTERPSEUDOADDRESS) ||
      (!s._ownsMasterRole && decide (address < 0xF0))) then some (s, false)
  else if baudRate == 0 then none
  else
    some ({ s with _address := address,
                   _frameTimeout := frameTimeoutFor baudRate,
                   _ignoreStore := List.replicate (GNMSUP1_MAXSLAVEADDRESS + 1) 0,
                   _initialized := true }, true)

/-- The loop `while (storePosition == GNMSUP1_PUSHSTOREFULL) { handleCommunication();
storePosition = _pushStoreNextFree(); }` of `push`, entered with a full store; one `Tick` per
pass. Returns the state, `storePosition`, the clock value of the last pass and the ticks not
used; `none` when the loop has not ended after the last of `ticks`. -/
def waitForFreeSlot : gnMsup1 → List Tick → Option (gnMsup1 × Nat × Nat × List Tick)
  | _, [] => none
  | s, t :: ticks =>
    match s.handleCommunication t with
    | none => none
    | some s1 =>
      if s1._pushStoreNextFree t.now == GNMSUP1_PUSHSTOREFULL then waitForFreeSlot s1 ticks
      else some (s1, s1._pushStoreNextFree t.now, t.now, ticks)

/-- The loop `while (_pushStoreNextFree() != storePosition) handleCommunication();` of `push`
in synchronous mode; the first test of the condition is made at clock value `now`, each later
one at the clock value of the pass before it. -/
def waitForDelivery (storePosition : Nat) : List Tick → gnMsup1 → Nat → Option gnMsup1
  | [], s, now => if s._pushStoreNextFree now != storePosition then none else some s
  | t :: ticks, s, now =>
    if s._pushStoreNextFree now != storePosition then
      match s.handleCommunication t with
      | none => none
      | some s1 => waitForDelivery storePosition ticks s1 t.now
    else some s

/-- The member function `push`, called at clock value `now`; `ticks` are the passes of its
waiting loops. `none` when a waiting loop has not ended after the last of `ticks`. -/
def push (s : gnMsup1) (now : Nat) (ticks : List Tick) (serviceNumber subserviceNumber : Nat)
    (payload : List Nat) (payloadSize : Nat) (commitReceivedFlag : Bool) :
    Option (gnMsup1 × Bool) :=
  if s._ownsMasterRole || !s._initialized then some (s, false)
  else
    let storePosition := s._pushStoreNextFree now
    if storePosition == GNMSUP1_PUSHSTOREFULL &&
        s._blockingMode == BlockingMode.FullyAsynchronous then some (s, false)
    else
      let found : Option (gnMsup1 × Nat × Nat × List Tick) :=
        if storePosition == GNMSUP1_PUSHSTOREFULL then s.waitForFreeSlot ticks
        else some (s, storePosition, now, ticks)
      match found with
      | none => none
      | some (s1, storePosition1, now1, ticks1) =>
        let s2 := s1.storePushEntry now1 storePosition1 serviceNumber subserviceNumber payload
          payloadSize commitReceivedFlag
        if s2._blockingMode == BlockingMode.Synchronous then
          (waitForDelivery storePosition1 ticks1 s2 now1).map (fun s3 => (s3, true))
        else some (s2, true)

/-- The member function `send`, called at clock value `now`. `entry` are the passes of the
wait for an open push-blocking window, `first` and `second` what the emission and its retry
see, `ticks` the passes of the wait for the push answer. -/
def send (s : gnMsup1) (now : Nat) (entry : List Tick) (first second : Attempt)
    (ticks : List Tick) (address serviceNumber subserviceNumber : Nat) (payload : List Nat)
    (payloadSize : Nat) (pushFlag commitReceivedFlag retryOnCrFailure : Bool) :
    Option (gnMsup1 × Bool) :=
  if !s._ownsMasterRole || !s._initialized then some (s, false)
  else if address > GNMSUP1_MAXSLAVEADDRESS then some (s, false)
  else if s.pushBlockingActive now && s._blockingMode == BlockingMode.FullyAsynchronous then
    some (s, false)
  else
    match (if s.pushBlockingActive now then s._pushBlockingWaitForRelease entry else some s) with
    | none => none
    | some s1 =>
      let waitForPushAnswer := s1._blockingMode == BlockingMode.Synchronous
      s1.sendFrameThenWait first second ticks address serviceNumber subserviceNumber true
        pushFlag waitForPushAnswer commitReceivedFlag retryOnCrFailure payload payloadSize

end gnMsup1

/-- What one call of `_sendFrame` made by `pollRange` sees of the outside world: the emission,
its retry, and the passes of the wait for the push answer. -/
structure PollCall where
  first : Attempt
  second : Attempt
  ticks : List Tick
deriving DecidableEq, Repr

/-- A recorded call of `_sendFrame` made by `pollRange`: the arguments, the value returned
and the member `_additionalPushMsgAvailable` after the call. -/
structure PollRequest where
  address : Nat
  serviceNumber : Nat
  subserviceNumber : Nat
  serviceFlag : Bool
  pushFlag : Bool
  waitForPushAnswer : Bool
  commitReceivedFlag : Bool
  retryOnCrFailure : Bool
  payloadSize : Nat
  result : Bool
  additionalPush : Bool
deriving DecidableEq, Repr

namespace gnMsup1

/-- The statement `switch (_blockingMode)` of `pollRange`, which determines
`waitForPushAnswer` for one push request. -/
def pollWaitForPushAnswer (mode : BlockingMode) (address endAddress remainingMessages : Nat) :
    Bool :=
  match mode with
  | BlockingMode.FullyAsynchronous => false
  | BlockingMode.NearlyAsynchronous => !(address == endAddress && decide (remainingMessages ≤ 1))
  | BlockingMode.Synchronous => true

/-- The inner loop of `pollRange` for one `address`, entered with `remainingMessages` and
`returnValue`. `world address remainingMessages` is what the call of `_sendFrame` of that
pass sees. Returns the state, `returnValue` and the calls of `_sendFrame`, oldest first. -/
def pollMessages (world : Nat → Nat → PollCall) (address endAddress : Nat)
    (commitReceivedFlag retryOnCrFailure : Bool) :
    Nat → gnMsup1 → Bool → Option (gnMsup1 × Bool × List PollRequest)
  | 0, s, returnValue => some (s, returnValue, [])
  | remaining + 1, s, returnValue =>
    let remainingMessages := remaining + 1
    let waitForPushAnswer :=
      pollWaitForPushAnswer s._blockingMode address endAddress remainingMessages
    let s1 := { s with _additionalPushMsgAvailable := false }
    match s1.sendFrameThenWait (world address remainingMessages).first
        (world address remainingMessages).second (world address remainingMessages).ticks
        address 0 0 false true waitForPushAnswer commitReceivedFlag retryOnCrFailure [] 0 with
    | none => none
    | some (s2, sent) =>
      let returnValue1 := if !sent then false else returnValue
      let call : PollRequest := ⟨address, 0, 0, false, true, waitForPushAnswer,
        commitReceivedFlag, retryOnCrFailure, 0, sent, s2._additionalPushMsgAvailable⟩
      if !s2._additionalPushMsgAvailable then some (s2, returnValue1, [call])
      else
        (pollMessages world address endAddress commitReceivedFlag retryOnCrFailure remaining
          s2 returnValue1).map (fun r => (r.1, r.2.1, call :: r.2.2))

/-- The outer loop `for (address = beginAddress; address <= endAddress; address++)` of
`pollRange`, for at most `passes` passes; `none` when the loop has not ended by then. -/
def pollAddresses (world : Nat → Nat → PollCall) (endAddress maxMessagesPerSlave : Nat)
    (commitReceivedFlag retryOnCrFailure : Bool) :
    Nat → gnMsup1 → Nat → Bool → Option (gnMsup1 × Bool × List PollRequest)
  | passes, s, address, returnValue =>
    if address ≤ endAddress then
      match passes with
      | 0 => none
      | passes1 + 1 =>
        match pollMessages world address endAddress commitReceivedFlag retryOnCrFailure
            maxMessagesPerSlave s returnValue with
        | none => none
        | some (s1, returnValue1, calls) =>
          (pollAddresses world endAddress maxMessagesPerSlave commitReceivedFlag
            retryOnCrFailure passes1 s1 ((address + 1) % 256) returnValue1).map
            (fun r => (r.1, r.2.1, calls ++ r.2.2))
    else some (s, returnValue, [])

/-- The member function `pollRange`, called at clock value `now`; `entry` are the passes of
the wait for an open push-blocking window. Returns the state, the value returned and the
calls of `_sendFrame` it made, oldest first. The outer loop is given 256 passes, one for
every value of the `uint8_t` variable `address`. -/
def pollRange (s : gnMsup1) (now : Nat) (entry : List Tick) (world : Nat → Nat → PollCall)
    (beginAddress endAddress maxMessagesPerSlave : Nat)
    (commitReceivedFlag retryOnCrFailure : Bool) :
    Option (gnMsup1 × Bool × List PollRequest) :=
  if !s._ownsMasterRole || !s._initialized then some (s, false, [])
  else if endAddress > GNMSUP1_MAXSLAVEADDRESS then some (s, false, [])
  else if decide (maxMessagesPerSlave < 1) ||
      s._blockingMode == BlockingMode.FullyAsynchronous then some (s, false, [])
  else if s._blockingMode == BlockingMode.FullyAsynchronous && beginAddress != endAddress then
    some (s, false, [])
  else if s.pushBlockingActive now && s._blockingMode == BlockingMode.FullyAsynchronous then
    some (s, false, [])
  else
    match (if s.pushBlockingActive now then s._pushBlockingWaitForRelease entry else some s) with
    | none => none
    | some s1 =>
      pollAddresses world endAddress maxMessagesPerSlave commitReceivedFlag retryOnCrFailure
        256 s1 beginAddress true

/-- The member function `poll` of `gnMsup1.h`. -/
def poll (s : gnMsup1) (now : Nat) (entry : List Tick) (world : Nat → Nat → PollCall)
    (address maxMessagesPerSlave : Nat) (commitReceivedFlag retryOnCrFailure : Bool) :
    Option (gnMsup1 × Bool × List PollRequest) :=
  s.pollRange now entry world address address maxMessagesPerSlave commitReceivedFlag
    retryOnCrFailure

/-- The member function `getLastComError`: it returns the stored error and replaces it with a
default-constructed `comError_t`, whose members are `None` and `GNMSUP1_MASTERPSEUDOADDRESS`. -/
def getLastComError (s : gnMsup1) : gnMsup1 × comError_t :=
  let last := s._lastComError
  let empty : comError_t := ⟨ComErrorCode.None, GNMSUP1_MASTERPSEUDOADDRESS⟩
  ({ s with _lastComError := empty }, last)

end gnMsup1

/-! ## Definitions used to state the properties -/

/-- The logical bytes of a frame as section 3 of the specification lays them out: flag and
address, and, when the service bit of the flag is set, payload size, service, subservice and
the payload. -/
def logicalFrame (flag address payloadSize service subservice : Nat) (payload : List Nat) :
    List Nat :=
  if bitRead flag GNMSUP1_FRAMEFLAG_SERVICE then
    [flag, address, payloadSize, service, subservice] ++ payload
  else [flag, address]

/-- The wire format of section 6 of the specification for the logical bytes `L`:
`AA 55 | L | CRC_HI CRC_LO | CC 33`. -/
def wireFrame (L : List Nat) : List Nat :=
  [0xAA, 0x55] ++ L ++ [highByte (ccitt L), lowByte (ccitt L), 0xCC, 0x33]

/-- The byte sequence `bytes` with bit `j` of the byte at index `i` flipped. -/
def flipBit (bytes : List Nat) (i j : Nat) : List Nat :=
  bytes.set i (bytes.getD i 0 ^^^ 2 ^ j)

namespace gnMsup1

/-- Runs the loop body of `_readInput` over `bytes` as long as it does not return: `some` of
the state reached when no byte makes `_readInput` return, `none` otherwise. -/
def quietRun (s : gnMsup1) (now : Nat) : List Nat → Option gnMsup1
  | [] => some s
  | inputBuffer :: rest =>
    match s.readInputByte now inputBuffer with
    | (s1, none) => quietRun s1 now rest
    | (_, some _) => none

/-- The object of a program that constructs it at clock value 0 and calls
`begin(115200, address)` with success: the member initialisers of `gnMsup1.h`, the address
stored by the constructor (master) or by `begin` (slave), `_frameTimeout` as `begin` computes
it for 115200 baud, `(18 * 30 * (10000000 / 115200) + 501) / 1000 = 46`, and the arrays of the
object (static storage) zeroed. -/
def afterBegin (address : Nat) : gnMsup1 :=
  { _initialized := true
    _address := address
    _blockingMode := BlockingMode.NearlyAsynchronous
    _lastComError := ⟨ComErrorCode.None, GNMSUP1_MASTERPSEUDOADDRESS⟩
    _callbackStore := List.replicate GNMSUP1_MAXSERVICECOUNT ⟨0, 0⟩
    _callbackStoreNextFree := 0
    _callbackCatchAllHandler := 0
    _callbackCatchAllActive := false
    _framePosition := 0
    _frameBuffer := List.replicate frameBufferSize 0
    _frameChecksum := 0
    _frameStartTime := 0
    _frameTimeout := 46
    _additionalPushMsgAvailable := false
    _pushStore := List.replicate GNMSUP1_MAXPUSHQEUEENTRYS
      ⟨0, 0, 0, 0, 0, List.replicate GNMSUP1_MAXPAYLOADBUFFER 0⟩
    _pushBlockingTimer := sub32 (sub32 0 GNMSUP1_PUSHTIMEOUT) 1
    _ignoreInactiveNodes := false
    _ignoreStore := List.replicate (GNMSUP1_MAXSLAVEADDRESS + 1) 0
    _activeStore := List.replicate (GNMSUP1_MAXSLAVEADDRESS + 1) 0
    _scavengingInactiveLastTimestamp := 0
    _scavengingInactiveNextAddress := 0
    _debugAttached := false
    written := []
    invoked := []
    bufferOverrun := false }

/-- Slave 0x05 after `begin` and two calls of `push` that found the queue not full:
`push(0x20, 0x00)` at clock value 1 and `push(0x20, 0x01)` at clock value 2, each stored in
the slot that `_pushStoreNextFree` returned (slots 0 and 1). -/
def twoPushes : gnMsup1 :=
  let q := (afterBegin 0x05).storePushEntry 1 ((afterBegin 0x05)._pushStoreNextFree 1)
    0x20 0x00 [] 0 false
  q.storePushEntry 2 (q._pushStoreNextFree 2) 0x20 0x01 [] 0 false

/-- The receiver state inside a frame that started at clock value `now`: frame buffer, frame
position and checksum as given, everything else as in `s`. -/
def midFrame (s : gnMsup1) (now : Nat) (buffer : List Nat) (position crc : Nat) : gnMsup1 :=
  { s with _framePosition := position, _frameBuffer := buffer, _frameChecksum := crc,
           _frameStartTime := now }

/-- The receiver state in which a complete frame with logical bytes `L` is validated: the
frame position after the last stop byte, the frame buffer holding `L`, the received checksum
`crc` and the frame start time. -/
def received (s : gnMsup1) (now : Nat) (L : List Nat) (crc : Nat) : gnMsup1 :=
  { s with _framePosition := L.length + 6,
           _frameBuffer := L ++ List.replicate (frameBufferSize - L.length) 0,
           _frameChecksum := crc,
           _frameStartTime := now }

/-- The object right after its constructor, run at clock value 0 for a global object: the
member initialisers of `gnMsup1.h`, the pseudo address 0xFF stored by the constructor for the
master role, and zero in the members without initialiser (static storage). -/
def constructed (master : Bool) : gnMsup1 :=
  { _initialized := false
    _address := if master then GNMSUP1_MASTERPSEUDOADDRESS else 0
    _blockingMode := BlockingMode.NearlyAsynchronous
    _lastComError := ⟨ComErrorCode.None, GNMSUP1_MASTERPSEUDOADDRESS⟩
    _callbackStore := List.replicate GNMSUP1_MAXSERVICECOUNT ⟨0, 0⟩
    _callbackStoreNextFree := 0
    _callbackCatchAllHandler := 0
    _callbackCatchAllActive := false
    _framePosition := 0
    _frameBuffer := List.replicate frameBufferSize 0
    _frameChecksum := 0
    _frameStartTime := 0
    _frameTimeout := 0
    _additionalPushMsgAvailable := false
    _pushStore := List.replicate GNMSUP1_MAXPUSHQEUEENTRYS
      ⟨0, 0, 0, 0, 0, List.replicate GNMSUP1_MAXPAYLOADBUFFER 0⟩
    _pushBlockingTimer := sub32 (sub32 0 GNMSUP1_PUSHTIMEOUT) 1
    _ignoreInactiveNodes := false
    _ignoreStore := List.replicate (GNMSUP1_MAXSLAVEADDRESS + 1) 0
    _activeStore := List.replicate (GNMSUP1_MAXSLAVEADDRESS + 1) 0
    _scavengingInactiveLastTimestamp := 0
    _scavengingInactiveNextAddress := 0
    _debugAttached := false
    written := []
    invoked := []
    bufferOverrun := false }

/-- Slot `i` of the push store holds a pending entry: bit `GNMSUP1_PUSHBUFFLAG_PENDING` of its
flags is set. -/
def slotPending (s : gnMsup1) (i : Nat) : Bool :=
  bitRead (s.pushEntry i).flags GNMSUP1_PUSHBUFFLAG_PENDING

/-- The entry in slot `i` of the push store is expired at clock value `now`: its age
`millis() - timestamp`, a `uint32_t` difference, exceeds `GNMSUP1_DEFAULTPUSHQEUETIMEOUT`. -/
def slotExpired (s : gnMsup1) (now i : Nat) : Bool :=
  decide (sub32 now (s.pushEntry i).timestamp > GNMSUP1_DEFAULTPUSHQEUETIMEOUT)

/-- Slot `i` of the push store holds a sendable entry at clock value `now`, in the words of
the specification: a pending entry that is not expired. -/
def sendable (s : gnMsup1) (now i : Nat) : Bool :=
  s.slotPending i && !s.slotExpired now i

/-- Slave 0x05 after `begin` and the ten calls `attachService(1, 1)`, ..., `attachService(10, 10)`
(handler `i` for service `i`), made while the frame buffer still holds zeros. -/
def tenServices : gnMsup1 :=
  (List.range GNMSUP1_MAXSERVICECOUNT).foldl
    (fun s i => (s.attachService (i + 1) (i + 1)).1) (afterBegin 0x05)

/-- Slave 0x05 after `begin` and one call `push(0x20, 0x00, payload, 0, commitReceivedFlag)` at
clock value `t` that found the queue empty: the entry is stored in the slot that
`_pushStoreNextFree` returned (slot 0). -/
def onePush (t : Nat) (commitReceivedFlag : Bool) : gnMsup1 :=
  (afterBegin 0x05).storePushEntry t ((afterBegin 0x05)._pushStoreNextFree t) 0x20 0x00 [] 0
    commitReceivedFlag

end gnMsup1

/-- One call of `push`: the clock value at the call, the passes of its waiting loops and its
arguments. -/
structure PushCall where
  now : Nat
  ticks : List Tick
  serviceNumber : Nat
  subserviceNumber : Nat
  payload : List Nat
  payloadSize : Nat
  commitReceivedFlag : Bool

namespace gnMsup1

/-- `SameOthers a s s1`: the liveness bits of every address other than `a` are the same in
`s1` as in `s`. -/
def SameOthers (a : Nat) (s s1 : gnMsup1) : Prop :=
  ∀ b, b ≠ a → storeBit s1._activeStore b = storeBit s._activeStore b ∧
    storeBit s1._ignoreStore b = storeBit s._ignoreStore b

/-- The scavenger pass at `address` sends a probe: the address is not known as active and is
ignored. -/
def probeDue (s : gnMsup1) (address : Nat) : Bool :=
  !s._queryActive address && s._queryIgnore address

/-- Address `a` is unknown: neither its active bit nor its ignore bit is set. -/
def unknown (s : gnMsup1) (a : Nat) : Prop :=
  storeBit s._activeStore a = false ∧ storeBit s._ignoreStore a = false

/-- Consecutive calls of `push` with no other call in between: the final state and the values
returned, oldest first; `none` when one of the calls does not return. -/
def pushAll : gnMsup1 → List PushCall → Option (gnMsup1 × List Bool)
  | s, [] => some (s, [])
  | s, c :: calls =>
    match s.push c.now c.ticks c.serviceNumber c.subserviceNumber c.payload c.payloadSize
        c.commitReceivedFlag with
    | none => none
    | some (s1, r) => (pushAll s1 calls).map (fun x => (x.1, r :: x.2))

/-- The push store of a slave in fully asynchronous mode whose slots below `k` hold pending
entries that stay unexpired at the clock values `later`, and whose other slots are free. -/
structure Filled (s : gnMsup1) (k : Nat) (later : List Nat) : Prop where
  initialized : s._initialized = true
  slave : s._ownsMasterRole = false
  mode : s._blockingMode = BlockingMode.FullyAsynchronous
  size : s._pushStore.length = GNMSUP1_MAXPUSHQEUEENTRYS
  pending : ∀ i, i < k → s.slotPending i = true ∧
    ∀ t, t ∈ later → sub32 t (s.pushEntry i).timestamp ≤ GNMSUP1_DEFAULTPUSHQEUETIMEOUT
  free : ∀ i, k ≤ i → i < GNMSUP1_MAXPUSHQEUEENTRYS → s.slotPending i = false

end gnMsup1

/-- A push request of `pollRange` to `address`: service flag clear, push flag set, service and
subservice 0, no payload. -/
def PollRequest.isPushRequest (c : PollRequest) (address : Nat) : Prop :=
  c.address = address ∧ c.serviceNumber = 0 ∧ c.subserviceNumber = 0 ∧ c.serviceFlag = false ∧
    c.pushFlag = true ∧ c.payloadSize = 0

/-- The calls `g` are what `pollRange` does for one `address` with `m` as
`maxMessagesPerSlave`: at least one and at most `m` push requests to `address`; every request
but the last left `_additionalPushMsgAvailable` set, and the last one left it clear unless it
was the `m`-th. -/
def PollGroup (address m : Nat) (g : List PollRequest) : Prop :=
  1 ≤ g.length ∧ g.length ≤ m ∧
  (∀ c, c ∈ g → c.isPushRequest address) ∧
  (∀ i c, i + 1 < g.length → g[i]? = some c → c.additionalPush = true) ∧
  (g.length < m → ∀ c, g.getLast? = some c → c.additionalPush = false)

/-- `Kept s s1`: the members of the object that sending a frame and marking a node never
change have in `s1` the value they have in `s`, and the two liveness bitmaps have kept their
size. -/
structure Kept (s s1 : gnMsup1) : Prop where
  initialized : s1._initialized = s._initialized
  address : s1._address = s._address
  blockingMode : s1._blockingMode = s._blockingMode
  callbackStore : s1._callbackStore = s._callbackStore
  callbackStoreNextFree : s1._callbackStoreNextFree = s._callbackStoreNextFree
  callbackCatchAllHandler : s1._callbackCatchAllHandler = s._callbackCatchAllHandler
  callbackCatchAllActive : s1._callbackCatchAllActive = s._callbackCatchAllActive
  framePosition : s1._framePosition = s._framePosition
  frameStartTime : s1._frameStartTime = s._frameStartTime
  frameTimeout : s1._frameTimeout = s._frameTimeout
  additionalPush : s1._additionalPushMsgAvailable = s._additionalPushMsgAvailable
  pushStore : s1._pushStore = s._pushStore
  ignoreInactiveNodes : s1._ignoreInactiveNodes = s._ignoreInactiveNodes
  lastTimestamp : s1._scavengingInactiveLastTimestamp = s._scavengingInactiveLastTimestamp
  nextAddress : s1._scavengingInactiveNextAddress = s._scavengingInactiveNextAddress
  debugAttached : s1._debugAttached = s._debugAttached
  invoked : s1.invoked = s.invoked
  ignoreLength : s1._ignoreStore.length = s._ignoreStore.length
  activeLength : s1._activeStore.length = s._activeStore.length

/-- `SameLiveness s s1`: the last communication error and the two liveness bitmaps are the
same in `s1` as in `s`. -/
structure SameLiveness (s s1 : gnMsup1) : Prop where
  lastComError : s1._lastComError = s._lastComError
  ignoreStore : s1._ignoreStore = s._ignoreStore
  activeStore : s1._activeStore = s._activeStore

/-- `Heard s s1`: the members of the object that reading and validating input never changes
have in `s1` the value they have in `s`, and the two liveness bitmaps have kept their size. -/
structure Heard (s s1 : gnMsup1) : Prop where
  initialized : s1._initialized = s._initialized
  address : s1._address = s._address
  blockingMode : s1._blockingMode = s._blockingMode
  lastComError : s1._lastComError = s._lastComError
  callbackStore : s1._callbackStore = s._callbackStore
  callbackStoreNextFree : s1._callbackStoreNextFree = s._callbackStoreNextFree
  callbackCatchAllHandler : s1._callbackCatchAllHandler = s._callbackCatchAllHandler
  callbackCatchAllActive : s1._callbackCatchAllActive = s._callbackCatchAllActive
  frameTimeout : s1._frameTimeout = s._frameTimeout
  additionalPush : s1._additionalPushMsgAvailable = s._additionalPushMsgAvailable
  pushStore : s1._pushStore = s._pushStore
  pushBlockingTimer : s1._pushBlockingTimer = s._pushBlockingTimer
  ignoreInactiveNodes : s1._ignoreInactiveNodes = s._ignoreInactiveNodes
  lastTimestamp : s1._scavengingInactiveLastTimestamp = s._scavengingInactiveLastTimestamp
  nextAddress : s1._scavengingInactiveNextAddress = s._scavengingInactiveNextAddress
  debugAttached : s1._debugAttached = s._debugAttached
  invoked : s1.invoked = s.invoked
  ignoreLength : s1._ignoreStore.length = s._ignoreStore.length
  activeLength : s1._activeStore.length = s._activeStore.length

/-- The frame timeout as section 3 of the specification words it,
`ceil(((10 + MAX_PAYLOAD) * FRAME_LENGTH_TIMEOUT_FACTOR * 10_000_000 / baud + 501) / 1000)`,
computed exactly over the rational numbers. -/
def frameTimeoutSpec (baud : Nat) : Nat :=
  Nat.ceil (((((10 + GNMSUP1_MAXPAYLOADBUFFER) * GNMSUP1_FRAMELENGHTTIMEOUT * 10000000 : Nat) : ℚ)
    / (baud : ℚ) + 501) / 1000)

namespace gnMsup1

/-- Slave 0x05 after `begin` that has read `AA 55 40 05 14 10 01` (header of a frame with
service bit and payload size 0x14 = 20) and then `n` payload bytes `00`. -/
def longFrame (n : Nat) : gnMsup1 :=
  ((afterBegin 0x05)._readInput 1
    ([0xAA, 0x55, 0x40, 0x05, 0x14, 0x10, 0x01] ++ List.replicate n 0)).1

/-- Master after `begin` that has read `AA 55 40 05 FF 10 01` (header of a frame with service
bit and payload size 0xFF = 255) and then `n` payload bytes `FF`, in one call of `_readInput`
at clock value 1. -/
def wideFrame (n : Nat) : gnMsup1 :=
  ((afterBegin 0xFF)._readInput 1
    ([0xAA, 0x55, 0x40, 0x05, 0xFF, 0x10, 0x01] ++ List.replicate n 0xFF)).1

end gnMsup1

/-! ## Sequences of public calls -/

/-- One call of a public member function that can change the object, with what the call sees
of the outside world (clock values, bytes in the stream, commit-receive replies). The member
functions `pushBlockingActive` and `getIgnoreInactiveNodes` only read. -/
inductive Call where
  | begin (baudRate address : Nat)
  | handleCommunication (t : Tick)
  | attachService (serviceNumber serviceHandler : Nat)
  | attachCatchAllService (serviceHandler : Nat)
  | push (now : Nat) (ticks : List Tick) (serviceNumber subserviceNumber : Nat)
      (payload : List Nat) (payloadSize : Nat) (commitReceivedFlag : Bool)
  | send (now : Nat) (entry : List Tick) (first second : Attempt) (ticks : List Tick)
      (address serviceNumber subserviceNumber : Nat) (payload : List Nat) (payloadSize : Nat)
      (pushFlag commitReceivedFlag retryOnCrFailure : Bool)
  | pollRange (now : Nat) (entry : List Tick) (world : Nat → Nat → PollCall)
      (beginAddress endAddress maxMessagesPerSlave : Nat)
      (commitReceivedFlag retryOnCrFailure : Bool)
  | poll (now : Nat) (entry : List Tick) (world : Nat → Nat → PollCall)
      (address maxMessagesPerSlave : Nat) (commitReceivedFlag retryOnCrFailure : Bool)
  | blockingMode (mode : BlockingMode)
  | setIgnoreInactiveNodes (value : Bool)
  | getLastComError
  | attachSerialDebug

namespace gnMsup1

/-- The member function `attachSerialDebug` (both overloads) with `GNMSUP1_DEBUG` defined, as
`config.h` does; the debug stream itself is not modelled. -/
def attachSerialDebug (s : gnMsup1) : gnMsup1 := { s with _debugAttached := true }

/-- The object after one public call; `none` when the call does not return. -/
def call (s : gnMsup1) : Call → Option gnMsup1
  | Call.begin baudRate address => (s.begin baudRate address).map (fun r => r.1)
  | Call.handleCommunication t => s.handleCommunication t
  | Call.attachService serviceNumber serviceHandler =>
    some (s.attachService serviceNumber serviceHandler).1
  | Call.attachCatchAllService serviceHandler => some (s.attachCatchAllService serviceHandler)
  | Call.push now ticks serviceNumber subserviceNumber payload payloadSize commitReceivedFlag =>
    (s.push now ticks serviceNumber subserviceNumber payload payloadSize
      commitReceivedFlag).map (fun r => r.1)
  | Call.send now entry first second ticks address serviceNumber subserviceNumber payload
      payloadSize pushFlag commitReceivedFlag retryOnCrFailure =>
    (s.send now entry first second ticks address serviceNumber subserviceNumber payload
      payloadSize pushFlag commitReceivedFlag retryOnCrFailure).map (fun r => r.1)
  | Call.pollRange now entry world beginAddress endAddress maxMessagesPerSlave
      commitReceivedFlag retryOnCrFailure =>
    (s.pollRange now entry world beginAddress endAddress maxMessagesPerSlave
      commitReceivedFlag retryOnCrFailure).map (fun r => r.1)
  | Call.poll now entry world address maxMessagesPerSlave commitReceivedFlag retryOnCrFailure =>
    (s.poll now entry world address maxMessagesPerSlave commitReceivedFlag
      retryOnCrFailure).map (fun r => r.1)
  | Call.blockingMode mode => some (s.blockingMode mode)
  | Call.setIgnoreInactiveNodes value => some (s.setIgnoreInactiveNodes value)
  | Call.getLastComError => some s.getLastComError.1
  | Call.attachSerialDebug => some s.attachSerialDebug

/-- The object after the public calls `calls`, made one after the other; `none` when one of
them does not return. -/
def run : gnMsup1 → List Call → Option gnMsup1
  | s, [] => some s
  | s, c :: calls =>
    match s.call c with
    | none => none
    | some s1 => run s1 calls

/-- Consecutive calls of `handleCommunication` in none of which `_readInput` returns `true`,
so that no frame is dispatched: the object after the last call; `none` when one of the calls
would dispatch a frame or does not return. -/
def quietTicks : gnMsup1 → List Tick → Option gnMsup1
  | s, [] => some s
  | s, t :: ticks =>
    if (s._readInput t.now t.available).2.2 then none
    else
      match s.handleCommunication t with
      | none => none
      | some s1 => quietTicks s1 ticks

/-- No address `0..GNMSUP1_MAXSLAVEADDRESS` has both its active bit and its ignore bit set. -/
def Exclusive (s : gnMsup1) : Prop :=
  ∀ a, a ≤ GNMSUP1_MAXSLAVEADDRESS →
    ¬ (storeBit s._activeStore a = true ∧ storeBit s._ignoreStore a = true)

/-- `Steady P`: the property `P` of the object depends only on the two liveness bitmaps and on
the scavenger cursor, and it is kept by the three liveness operations, by a store of a slave
address in the cursor and by the `memset` of `begin`. -/
structure Steady (P : gnMsup1 → Prop) : Prop where
  same : ∀ s s1 : gnMsup1, s1._ignoreStore = s._ignoreStore →
    s1._activeStore = s._activeStore →
    s1._scavengingInactiveNextAddress = s._scavengingInactiveNextAddress → P s → P s1
  markActive : ∀ (s : gnMsup1) (a : Nat), P s → P (s._markActive a)
  markIgnore : ∀ (s : gnMsup1) (a : Nat), P s → P (s._markIgnore a)
  resetActiveIgnore : ∀ (s : gnMsup1) (a : Nat), P s → P (s._resetActiveIgnore a)
  cursor : ∀ (s : gnMsup1) (c : Nat), c ≤ GNMSUP1_MAXSLAVEADDRESS → P s →
    P { s with _scavengingInactiveNextAddress := c }
  cleared : ∀ s : gnMsup1, P s →
    P { s with _ignoreStore := List.replicate (GNMSUP1_MAXSLAVEADDRESS + 1) 0 }

end gnMsup1

/-! # Theorems -/

/-! ## Arithmetic of bytes and of the CRC -/

theorem ccitt_step_lt (crc : Nat) : crcShift crc < 65536 := by
  unfold crcShift
  split
  · exact Nat.xor_lt_two_pow (n := 16) (Nat.mod_lt _ (by norm_num)) (by norm_num)
  · exact Nat.mod_lt _ (by norm_num)

theorem crcByte_lt (crc byte : Nat) : crcByte crc byte < 65536 := by
  unfold crcByte
  exact ccitt_step_lt _

theorem foldl_crcByte_lt (data : List Nat) (crc : Nat) (h : crc < 65536) :
    data.foldl crcByte crc < 65536 := by
  induction data generalizing crc with
  | nil => simpa using h
  | cons b rest ih => exact ih _ (crcByte_lt crc b)

theorem ccitt_lt (data : List Nat) : ccitt data < 65536 :=
  foldl_crcByte_lt data 0xFFFF (by norm_num)

theorem highByte_lt (w : Nat) : highByte w < 256 := Nat.mod_lt _ (by norm_num)

theorem lowByte_lt (w : Nat) : lowByte w < 256 := Nat.mod_lt _ (by norm_num)

/-- The checksum assembled by `_readInput` from two bytes (`hi << 8`, then `|= lo`). -/
theorem checksum_join (hi lo : Nat) (hhi : hi < 256) (hlo : lo < 256) :
    (hi * 256) % 65536 ||| lo = hi * 256 + lo := by
  have h1 : (hi * 256) % 65536 = 2 ^ 8 * hi := by
    rw [Nat.mod_eq_of_lt (by omega)]; omega
  rw [h1, ← Nat.mul_add_lt_is_or (by simpa using hlo)]
  omega

theorem checksum_join_bytes (w : Nat) (hw : w < 65536) :
    (highByte w * 256) % 65536 ||| lowByte w = w := by
  rw [checksum_join _ _ (highByte_lt w) (lowByte_lt w)]
  unfold highByte lowByte
  omega

namespace gnMsup1

/-! ## The receive loop -/

/-- The receiver state in the middle of a frame. -/
theorem received_eq (s : gnMsup1) (now : Nat) (L : List Nat) (crc : Nat) :
    s.received now L crc =
      { s with _framePosition := L.length + 6,
               _frameBuffer := L ++ List.replicate (frameBufferSize - L.length) 0,
               _frameChecksum := crc, _frameStartTime := now } := rfl

theorem quietRun_append (s : gnMsup1) (now : Nat) (xs ys : List Nat) :
    s.quietRun now (xs ++ ys) = (s.quietRun now xs).bind (fun s1 => s1.quietRun now ys) := by
  induction xs generalizing s with
  | nil => simp [quietRun]
  | cons b rest ih =>
    simp only [List.cons_append, quietRun]
    rcases h : s.readInputByte now b with ⟨s1, _ | r⟩
    · simpa using ih s1
    · simp

theorem quietRun_take (s s1 : gnMsup1) (now : Nat) (xs : List Nat) (k : Nat)
    (h : s.quietRun now xs = some s1) : ∃ s2, s.quietRun now (xs.take k) = some s2 := by
  have h1 : s.quietRun now (xs.take k ++ xs.drop k) = some s1 := by
    rw [List.take_append_drop]; exact h
  rw [quietRun_append] at h1
  cases h2 : s.quietRun now (xs.take k) with
  | none => rw [h2] at h1; simp at h1
  | some s2 => exact ⟨s2, rfl⟩

theorem readLoop_quiet (s s1 : gnMsup1) (now : Nat) (xs ys : List Nat)
    (h : s.quietRun now xs = some s1) : s.readLoop now (xs ++ ys) = s1.readLoop now ys := by
  induction xs generalizing s with
  | nil => simp [quietRun] at h; subst h; rfl
  | cons b rest ih =>
    simp only [quietRun] at h
    simp only [List.cons_append, readLoop]
    rcases h2 : s.readInputByte now b with ⟨s2, _ | r⟩
    · rw [h2] at h; simpa using ih s2 h
    · rw [h2] at h; simp at h

theorem readLoop_quiet_nil (s s1 : gnMsup1) (now : Nat) (xs : List Nat)
    (h : s.quietRun now xs = some s1) : s.readLoop now xs = (s1, [], false) := by
  have := readLoop_quiet s s1 now xs [] h
  simpa [readLoop] using this

/-- With the frame position at 0 or 1 the timeout check of `_readInput` is skipped. -/
theorem _readInput_eq_readLoop (s : gnMsup1) (now : Nat) (available : List Nat)
    (hpos : s._framePosition ≤ 1) : s._readInput now available = s.readLoop now available := by
  unfold _readInput
  have : ¬ (s._framePosition > 1) := by omega
  simp [this]

end gnMsup1

namespace gnMsup1

/-- The loop body on a payload byte of a frame with the service bit. -/
theorem readInputByte_payload (s : gnMsup1) (now b : Nat)
    (hsvc : bitRead (s.frameByte 0) 6 = true)
    (h7 : 7 ≤ s._framePosition) (hlt : s._framePosition < 7 + s.frameByte 2) :
    s.readInputByte now b = (nextPosition (s.setFrameByte (s._framePosition - 2) b), none) := by
  have h0 : s._framePosition ≠ 0 := by omega
  have h1 : s._framePosition ≠ 1 := by omega
  have h2 : s._framePosition ≠ 2 := by omega
  have h3 : s._framePosition ≠ 3 := by omega
  have h4 : s._framePosition ≠ 4 := by omega
  have h5 : s._framePosition ≠ 5 := by omega
  have h6 : s._framePosition ≠ 6 := by omega
  have e7 : 5 + s._framePosition - 7 = s._framePosition - 2 := by omega
  simp only [frameByte, List.getD_eq_getElem?_getD] at hsvc hlt
  simp [readInputByte, h0, h1, h2, h3, h4, h5, h6, e7, GNMSUP1_FRAMEBUF_FLAG, frameByte,
    GNMSUP1_FRAMEFLAG_SERVICE, GNMSUP1_FRAMEBUF_PAYLOADSIZE, GNMSUP1_FRAMEBUF_PAYLOADSTART,
    hsvc, h7, hlt]

/-- The loop body on the three bytes after the payload of a frame with the service bit. -/
theorem quietRun_trailer (s : gnMsup1) (now hi lo : Nat)
    (hsvc : bitRead (s.frameByte 0) 6 = true)
    (hpos : s._framePosition = 7 + s.frameByte 2) (hn : s.frameByte 2 ≤ 8) :
    s.quietRun now [hi, lo, 0xCC] =
      some { s with _framePosition := 10 + s.frameByte 2,
                    _frameChecksum := (hi * 256) % 65536 ||| lo } := by
  simp only [frameByte, List.getD_eq_getElem?_getD] at hsvc hpos hn ⊢
  generalize hn2 : s._frameBuffer[2]?.getD 0 = n at *
  interval_cases n <;>
  simp [quietRun, readInputByte, hpos, hsvc, hn2, nextPosition, frameByte,
    GNMSUP1_FRAMEBUF_FLAG, GNMSUP1_FRAMEFLAG_SERVICE, GNMSUP1_FRAMEBUF_PAYLOADSIZE,
    GNMSUP1_FRAMESTOP1]

/-- The loop body on the last stop byte of a frame with the service bit. -/
theorem readInputByte_stop2 (s : gnMsup1) (now : Nat)
    (hsvc : bitRead (s.frameByte 0) 6 = true)
    (hpos : s._framePosition = 10 + s.frameByte 2) (hn : s.frameByte 2 ≤ 8) :
    s.readInputByte now 0x33 =
      finishFrame { s with _framePosition := 11 + s.frameByte 2 } 0x33 := by
  simp only [frameByte, List.getD_eq_getElem?_getD] at hsvc hpos hn ⊢
  generalize hn2 : s._frameBuffer[2]?.getD 0 = n at *
  interval_cases n <;>
  simp [readInputByte, hpos, hsvc, hn2, nextPosition, frameByte,
    GNMSUP1_FRAMEBUF_FLAG, GNMSUP1_FRAMEFLAG_SERVICE, GNMSUP1_FRAMEBUF_PAYLOADSIZE,
    GNMSUP1_FRAMESTOP2]

end gnMsup1

namespace gnMsup1

theorem set_after_front (A B : List Nat) (x v : Nat) (k : Nat) (hk : k = A.length) :
    (A ++ x :: B).set k v = A ++ v :: B := by
  subst hk; simp

/-- The payload bytes of a frame with the service bit are stored one after the other. -/
theorem quietRun_payload (s : gnMsup1) (now flag addr n svc sub : Nat)
    (hsvc : bitRead flag 6 = true) (hn : n ≤ 8) :
    ∀ (rest done : List Nat), done.length + rest.length = n →
      (s.midFrame now ([flag, addr, n, svc, sub] ++ done ++ List.replicate (8 - done.length) 0)
        (7 + done.length) 0).quietRun now rest =
      some (s.midFrame now ([flag, addr, n, svc, sub] ++ (done ++ rest) ++
        List.replicate (8 - n) 0) (7 + n) 0) := by
  intro rest
  induction rest with
  | nil =>
    intro done hlen
    simp at hlen
    subst hlen
    simp [quietRun]
  | cons b rest ih =>
    intro done hlen
    simp only [List.length_cons] at hlen
    have hstep := readInputByte_payload
      (s.midFrame now ([flag, addr, n, svc, sub] ++ done ++ List.replicate (8 - done.length) 0)
        (7 + done.length) 0) now b
      (by simpa [frameByte, midFrame] using hsvc)
      (by simp [midFrame])
      (by simp [frameByte, midFrame]; omega)
    have hrep : List.replicate (8 - done.length) 0 =
        0 :: List.replicate (8 - (done ++ [b]).length) 0 := by
      have : 8 - done.length = (8 - (done ++ [b]).length) + 1 := by
        simp only [List.length_append, List.length_singleton]; omega
      rw [this, List.replicate_succ]
    have hnext : nextPosition ((s.midFrame now ([flag, addr, n, svc, sub] ++ done ++
          List.replicate (8 - done.length) 0) (7 + done.length) 0).setFrameByte
          ((s.midFrame now ([flag, addr, n, svc, sub] ++ done ++
          List.replicate (8 - done.length) 0) (7 + done.length) 0)._framePosition - 2) b) =
        s.midFrame now ([flag, addr, n, svc, sub] ++ (done ++ [b]) ++
          List.replicate (8 - (done ++ [b]).length) 0) (7 + (done ++ [b]).length) 0 := by
      have hidx : 7 + done.length - 2 < frameBufferSize := by
        simp [frameBufferSize, GNMSUP1_FRAMEBUF_PAYLOADSTART, GNMSUP1_MAXPAYLOADBUFFER]; omega
      have hset : ([flag, addr, n, svc, sub] ++ done ++ List.replicate (8 - done.length) 0).set
          (7 + done.length - 2) b = [flag, addr, n, svc, sub] ++ (done ++ [b]) ++
          List.replicate (8 - (done ++ [b]).length) 0 := by
        rw [hrep, set_after_front _ _ _ _ _ (by simp; omega)]
        simp
      have hmod : (7 + done.length + 1) % 256 = 7 + (done ++ [b]).length := by
        simp only [List.length_append, List.length_singleton]; omega
      simp only [midFrame, setFrameByte, hidx, if_true, nextPosition, hset, hmod]
    simp only [quietRun, hstep, hnext]
    have := ih (done ++ [b]) (by simp; omega)
    simpa using this

end gnMsup1

namespace gnMsup1

theorem quietRun_header (s : gnMsup1) (now flag addr n svc sub : Nat)
    (hpos : s._framePosition = 0) (hsvc : bitRead flag 6 = true) :
    s.quietRun now [0xAA, 0x55, flag, addr, n, svc, sub] =
      some (s.midFrame now ([flag, addr, n, svc, sub] ++ List.replicate 8 0) 7 0) := by
  simp [quietRun, readInputByte, hpos, hsvc, _resetAndStartFrame, _resetFramebuffer, nextPosition,
    setFrameByte, frameByte, frameBufferSize, GNMSUP1_FRAMESTART1, GNMSUP1_FRAMESTART2,
    GNMSUP1_FRAMEBUF_FLAG, GNMSUP1_FRAMEBUF_ADDRESS, GNMSUP1_FRAMEBUF_PAYLOADSIZE,
    GNMSUP1_FRAMEBUF_SERVICE, GNMSUP1_FRAMEBUF_SUBSERVICE, GNMSUP1_FRAMEBUF_PAYLOADSTART,
    GNMSUP1_MAXPAYLOADBUFFER, GNMSUP1_FRAMEFLAG_SERVICE, List.replicate, midFrame]

theorem quietRun_short (s : gnMsup1) (now flag addr hi lo : Nat)
    (hpos : s._framePosition = 0) (hsvc : bitRead flag 6 = false) :
    s.quietRun now [0xAA, 0x55, flag, addr, hi, lo, 0xCC] =
      some (s.midFrame now ([flag, addr] ++ List.replicate 11 0) 7
        ((hi * 256) % 65536 ||| lo)) := by
  simp [quietRun, readInputByte, hpos, hsvc, _resetAndStartFrame, _resetFramebuffer, nextPosition,
    setFrameByte, frameByte, frameBufferSize, GNMSUP1_FRAMESTART1, GNMSUP1_FRAMESTART2,
    GNMSUP1_FRAMEBUF_FLAG, GNMSUP1_FRAMEBUF_ADDRESS, GNMSUP1_FRAMEBUF_PAYLOADSIZE,
    GNMSUP1_FRAMEBUF_SERVICE, GNMSUP1_FRAMEBUF_SUBSERVICE, GNMSUP1_FRAMEBUF_PAYLOADSTART,
    GNMSUP1_MAXPAYLOADBUFFER, GNMSUP1_FRAMEFLAG_SERVICE, List.replicate, midFrame,
    GNMSUP1_FRAMESTOP1]

theorem readInputByte_short_stop2 (s : gnMsup1) (now flag addr crc : Nat)
    (hsvc : bitRead flag 6 = false) :
    (s.midFrame now ([flag, addr] ++ List.replicate 11 0) 7 crc).readInputByte now 0x33 =
      finishFrame (s.received now [flag, addr] crc) 0x33 := by
  simp [readInputByte, hsvc, nextPosition, frameByte, GNMSUP1_FRAMEBUF_FLAG,
    GNMSUP1_FRAMEBUF_PAYLOADSIZE, GNMSUP1_FRAMEFLAG_SERVICE, List.replicate, midFrame,
    GNMSUP1_FRAMESTOP2, received, frameBufferSize, GNMSUP1_FRAMEBUF_PAYLOADSTART,
    GNMSUP1_MAXPAYLOADBUFFER]

/-- The bytes of a frame up to the first stop byte are consumed without a return of
`_readInput`. -/
theorem quietRun_frame (s : gnMsup1) (now flag addr svc sub hi lo : Nat) (payload : List Nat)
    (hpos : s._framePosition = 0) (hn : payload.length ≤ 8) :
    s.quietRun now ([0xAA, 0x55] ++ logicalFrame flag addr payload.length svc sub payload
        ++ [hi, lo, 0xCC]) =
      some (s.midFrame now (logicalFrame flag addr payload.length svc sub payload ++
        List.replicate (13 - (logicalFrame flag addr payload.length svc sub payload).length) 0)
        ((logicalFrame flag addr payload.length svc sub payload).length + 5)
        ((hi * 256) % 65536 ||| lo)) := by
  cases hsvc : bitRead flag 6 with
  | false =>
    simp only [logicalFrame, GNMSUP1_FRAMEFLAG_SERVICE, hsvc]
    exact quietRun_short s now flag addr hi lo hpos hsvc
  | true =>
    have h1 := quietRun_header s now flag addr payload.length svc sub hpos hsvc
    have h2 := quietRun_payload s now flag addr payload.length svc sub hsvc hn payload []
      (by simp)
    simp only [List.append_nil, List.length_nil, Nat.sub_zero, Nat.add_zero,
      List.nil_append] at h2
    have h3 := quietRun_trailer (s.midFrame now ([flag, addr, payload.length, svc, sub] ++ payload
      ++ List.replicate (8 - payload.length) 0) (7 + payload.length) 0) now hi lo
      (by simpa [frameByte, midFrame] using hsvc) (by simp [frameByte, midFrame])
      (by simpa [frameByte, midFrame] using hn)
    have e : [0xAA, 0x55] ++ logicalFrame flag addr payload.length svc sub payload
        ++ [hi, lo, 0xCC] =
        [0xAA, 0x55, flag, addr, payload.length, svc, sub] ++ (payload ++ [hi, lo, 0xCC]) := by
      simp [logicalFrame, GNMSUP1_FRAMEFLAG_SERVICE, hsvc]
    rw [e, quietRun_append, h1, Option.some_bind, quietRun_append, h2, Option.some_bind, h3]
    simp [midFrame, frameByte, logicalFrame, GNMSUP1_FRAMEFLAG_SERVICE, hsvc]
    omega

/-- The last stop byte of a frame leads to the validation of the assembled frame. -/
theorem readInputByte_frame_stop2 (s : gnMsup1) (now flag addr svc sub crc : Nat)
    (payload : List Nat) (hn : payload.length ≤ 8) :
    (s.midFrame now (logicalFrame flag addr payload.length svc sub payload ++
        List.replicate (13 - (logicalFrame flag addr payload.length svc sub payload).length) 0)
        ((logicalFrame flag addr payload.length svc sub payload).length + 5)
        crc).readInputByte now 0x33 =
      finishFrame (s.received now (logicalFrame flag addr payload.length svc sub payload) crc)
        0x33 := by
  cases hsvc : bitRead flag 6 with
  | false =>
    simp only [logicalFrame, GNMSUP1_FRAMEFLAG_SERVICE, hsvc]
    exact readInputByte_short_stop2 s now flag addr _ hsvc
  | true =>
    rw [readInputByte_stop2 _ now
      (by simp [frameByte, midFrame, logicalFrame, GNMSUP1_FRAMEFLAG_SERVICE, hsvc])
      (by simp [frameByte, midFrame, logicalFrame, GNMSUP1_FRAMEFLAG_SERVICE, hsvc]; omega)
      (by simpa [frameByte, midFrame, logicalFrame, GNMSUP1_FRAMEFLAG_SERVICE, hsvc] using hn)]
    congr 1
    simp [received, midFrame, frameByte, logicalFrame, GNMSUP1_FRAMEFLAG_SERVICE, hsvc,
      frameBufferSize, GNMSUP1_FRAMEBUF_PAYLOADSTART, GNMSUP1_MAXPAYLOADBUFFER]
    omega

end gnMsup1

namespace gnMsup1

/-! ## The transmit path -/

theorem map_getD_range (payload : List Nat) :
    (List.range payload.length).map (fun i => payload.getD i 0) = payload := by
  apply List.ext_getElem
  · simp
  · intro i h1 h2
    simp [List.getD_eq_getElem?_getD, List.getElem?_eq_getElem h2]

/-- The copy loop of `_sendFrame` stores the payload behind the five header bytes. -/
theorem storePayload (payload hdr : List Nat) (hh : hdr.length = 5) (s : gnMsup1)
    (hs : s._frameBuffer = hdr ++ List.replicate 8 0) :
    ∀ k, k ≤ 8 →
      (List.range k).foldl (fun st i =>
        st.setFrameByte (GNMSUP1_FRAMEBUF_PAYLOADSTART + i) (payload.getD i 0)) s =
      { s with _frameBuffer := hdr ++ (List.range k).map (fun i => payload.getD i 0) ++
          List.replicate (8 - k) 0 } := by
  intro k
  induction k with
  | zero =>
    intro _
    cases s
    simp only at hs
    subst hs
    simp [List.replicate]
  | succ k ih =>
    intro hk
    rw [List.range_succ, List.foldl_append, ih (by omega)]
    have hrep : List.replicate (8 - k) 0 = 0 :: List.replicate (8 - (k + 1)) 0 := by
      have : 8 - k = (8 - (k + 1)) + 1 := by omega
      rw [this, List.replicate_succ]
    have hidx : GNMSUP1_FRAMEBUF_PAYLOADSTART + k < frameBufferSize := by
      simp [frameBufferSize, GNMSUP1_FRAMEBUF_PAYLOADSTART, GNMSUP1_MAXPAYLOADBUFFER]; omega
    simp only [List.foldl_cons, List.foldl_nil, setFrameByte, hidx, if_true, List.map_append,
      List.map_cons, List.map_nil]
    rw [hrep, set_after_front _ _ _ _ _ (by simp [GNMSUP1_FRAMEBUF_PAYLOADSTART, hh])]
    simp

theorem flagByte_eq (s : gnMsup1) (serviceFlag pushFlag commitReceivedFlag : Bool) :
    s.flagByte serviceFlag pushFlag commitReceivedFlag =
      (if s._ownsMasterRole then 0 else 128) + (if serviceFlag then 64 else 0) +
      (if pushFlag then 32 else 0) + (if commitReceivedFlag then 16 else 0) := by
  unfold flagByte
  cases s._ownsMasterRole <;> cases serviceFlag <;> cases pushFlag <;>
    cases commitReceivedFlag <;> decide

theorem flagByte_bits (s : gnMsup1) (serviceFlag pushFlag commitReceivedFlag : Bool) :
    bitRead (s.flagByte serviceFlag pushFlag commitReceivedFlag) 7 = !s._ownsMasterRole ∧
    bitRead (s.flagByte serviceFlag pushFlag commitReceivedFlag) 6 = serviceFlag ∧
    bitRead (s.flagByte serviceFlag pushFlag commitReceivedFlag) 5 = pushFlag ∧
    bitRead (s.flagByte serviceFlag pushFlag commitReceivedFlag) 4 = commitReceivedFlag := by
  unfold flagByte
  cases s._ownsMasterRole <;> cases serviceFlag <;> cases pushFlag <;>
    cases commitReceivedFlag <;> decide

/-- The frame that `_sendFrame` builds in the frame buffer. -/
theorem buildFrame_eq (s : gnMsup1) (address serviceNumber subserviceNumber : Nat)
    (serviceFlag pushFlag commitReceivedFlag : Bool) (payload : List Nat)
    (hn : payload.length ≤ 8) :
    s.buildFrame address serviceNumber subserviceNumber serviceFlag pushFlag commitReceivedFlag
      payload payload.length =
    ({ s with
        _frameBuffer := logicalFrame (s.flagByte serviceFlag pushFlag commitReceivedFlag) address
          payload.length serviceNumber subserviceNumber payload ++
          List.replicate (13 - (logicalFrame (s.flagByte serviceFlag pushFlag commitReceivedFlag)
            address payload.length serviceNumber subserviceNumber payload).length) 0,
        _frameChecksum := ccitt (logicalFrame (s.flagByte serviceFlag pushFlag
          commitReceivedFlag) address payload.length serviceNumber subserviceNumber payload) },
     (logicalFrame (s.flagByte serviceFlag pushFlag commitReceivedFlag) address
          payload.length serviceNumber subserviceNumber payload).length) := by
  have hbit := (flagByte_bits s serviceFlag pushFlag commitReceivedFlag).2.1
  cases serviceFlag with
  | false =>
    simp [buildFrame, logicalFrame, hbit, GNMSUP1_FRAMEFLAG_SERVICE, _resetFramebuffer,
      setFrameByte, frameBufferSize, GNMSUP1_FRAMEBUF_PAYLOADSTART, GNMSUP1_MAXPAYLOADBUFFER,
      GNMSUP1_FRAMEBUF_FLAG, GNMSUP1_FRAMEBUF_ADDRESS, List.replicate]
  | true =>
    have h5 : ((((s._resetFramebuffer.setFrameByte GNMSUP1_FRAMEBUF_FLAG
        (s.flagByte true pushFlag commitReceivedFlag)).setFrameByte
          GNMSUP1_FRAMEBUF_ADDRESS address).setFrameByte GNMSUP1_FRAMEBUF_PAYLOADSIZE
            payload.length).setFrameByte GNMSUP1_FRAMEBUF_SERVICE serviceNumber).setFrameByte
              GNMSUP1_FRAMEBUF_SUBSERVICE subserviceNumber =
        { s with _frameChecksum := 0, _frameBuffer := [s.flagByte true pushFlag
            commitReceivedFlag, address, payload.length, serviceNumber, subserviceNumber] ++
            List.replicate 8 0 } := by
      simp [_resetFramebuffer, setFrameByte, frameBufferSize, GNMSUP1_FRAMEBUF_PAYLOADSTART,
        GNMSUP1_MAXPAYLOADBUFFER, GNMSUP1_FRAMEBUF_FLAG, GNMSUP1_FRAMEBUF_ADDRESS,
        GNMSUP1_FRAMEBUF_PAYLOADSIZE, GNMSUP1_FRAMEBUF_SERVICE, GNMSUP1_FRAMEBUF_SUBSERVICE,
        List.replicate]
    have h := storePayload payload [s.flagByte true pushFlag commitReceivedFlag, address,
      payload.length, serviceNumber, subserviceNumber] rfl
      { s with _frameChecksum := 0, _frameBuffer := [s.flagByte true pushFlag
            commitReceivedFlag, address, payload.length, serviceNumber, subserviceNumber] ++
            List.replicate 8 0 } rfl payload.length hn
    rw [map_getD_range] at h
    unfold buildFrame
    simp only [if_true]
    rw [h5, h]
    have hlen : ([s.flagByte true pushFlag commitReceivedFlag, address, payload.length,
        serviceNumber, subserviceNumber] ++ payload ++
        List.replicate (8 - payload.length) 0).take (5 + payload.length) =
        [s.flagByte true pushFlag commitReceivedFlag, address, payload.length,
        serviceNumber, subserviceNumber] ++ payload := by
      rw [List.take_left' (by simp; omega)]
    simp only [hlen]
    simp [logicalFrame, hbit, GNMSUP1_FRAMEFLAG_SERVICE]
    omega

/-- One emission of `_sendFrame`: what it writes and what it leaves in the frame buffer. -/
theorem emitFrame_eq (s : gnMsup1) (now address serviceNumber subserviceNumber : Nat)
    (serviceFlag pushFlag commitReceivedFlag : Bool) (payload : List Nat)
    (hn : payload.length ≤ 8) :
    (s.emitFrame now address serviceNumber subserviceNumber serviceFlag pushFlag
      commitReceivedFlag payload payload.length).written =
      s.written ++ wireFrame (logicalFrame (s.flagByte serviceFlag pushFlag commitReceivedFlag)
        address payload.length serviceNumber subserviceNumber payload) ∧
    (s.emitFrame now address serviceNumber subserviceNumber serviceFlag pushFlag
      commitReceivedFlag payload payload.length)._frameChecksum =
      ccitt (logicalFrame (s.flagByte serviceFlag pushFlag commitReceivedFlag)
        address payload.length serviceNumber subserviceNumber payload) ∧
    (s.emitFrame now address serviceNumber subserviceNumber serviceFlag pushFlag
      commitReceivedFlag payload payload.length)._frameBuffer =
      logicalFrame (s.flagByte serviceFlag pushFlag commitReceivedFlag)
        address payload.length serviceNumber subserviceNumber payload ++
      List.replicate (13 - (logicalFrame (s.flagByte serviceFlag pushFlag commitReceivedFlag)
        address payload.length serviceNumber subserviceNumber payload).length) 0 := by
  unfold emitFrame
  rw [buildFrame_eq s address serviceNumber subserviceNumber serviceFlag pushFlag
    commitReceivedFlag payload hn]
  dsimp only
  refine ⟨?_, ?_, ?_⟩
  · split_ifs <;> simp [wireFrame, GNMSUP1_FRAMESTART1, GNMSUP1_FRAMESTART2, GNMSUP1_FRAMESTOP1,
      GNMSUP1_FRAMESTOP2]
  · split_ifs <;> rfl
  · split_ifs <;> rfl

end gnMsup1

namespace gnMsup1

/-! ## Validation -/

theorem _markActive_frame (s : gnMsup1) (address : Nat) :
    (s._markActive address)._address = s._address ∧
    (s._markActive address)._frameBuffer = s._frameBuffer ∧
    (s._markActive address)._frameChecksum = s._frameChecksum ∧
    (s._markActive address)._framePosition = s._framePosition ∧
    (s._markActive address)._frameStartTime = s._frameStartTime ∧
    (s._markActive address).written = s.written ∧
    (s._markActive address).invoked = s.invoked := by
  unfold _markActive
  split <;> simp

theorem _markIgnore_frame (s : gnMsup1) (address : Nat) :
    (s._markIgnore address)._address = s._address ∧
    (s._markIgnore address)._frameBuffer = s._frameBuffer ∧
    (s._markIgnore address)._frameChecksum = s._frameChecksum ∧
    (s._markIgnore address)._framePosition = s._framePosition ∧
    (s._markIgnore address)._frameStartTime = s._frameStartTime ∧
    (s._markIgnore address).written = s.written ∧
    (s._markIgnore address).invoked = s.invoked := by
  unfold _markIgnore
  split <;> simp

theorem _markActive_role (s : gnMsup1) (address : Nat) :
    (s._markActive address)._ownsMasterRole = s._ownsMasterRole := by
  simp [_ownsMasterRole, (_markActive_frame s address).1]

theorem _markActive_frameByte (s : gnMsup1) (address i : Nat) :
    (s._markActive address).frameByte i = s.frameByte i := by
  simp [frameByte, (_markActive_frame s address).2.1]

/-- The value and the effects of `_validateFrame`, case by case. -/
theorem _validateFrame_cases (s : gnMsup1) :
    (s._validateFrame.2 = true ↔
      (s._frameChecksum = ccitt (s._frameBuffer.take (s._framePosition - 6)) ∧
       (s._ownsMasterRole = true ∨
        (s.frameByte 1 = s._address ∧ bitRead (s.frameByte 0) 7 = false)))) ∧
    s._validateFrame.1._frameBuffer = s._frameBuffer ∧
    s._validateFrame.1._frameChecksum = s._frameChecksum ∧
    s._validateFrame.1._framePosition = s._framePosition ∧
    s._validateFrame.1._frameStartTime = s._frameStartTime ∧
    s._validateFrame.1._address = s._address ∧
    s._validateFrame.1.invoked = s.invoked ∧
    s._validateFrame.1.written = s.written ++
      (if s._validateFrame.2 = true ∧ bitRead (s.frameByte 0) 4 = true then
        [highByte s._frameChecksum, lowByte s._frameChecksum] else []) := by
  have hm := _markActive_frame s (s.frameByte GNMSUP1_FRAMEBUF_ADDRESS)
  have hr := _markActive_role s (s.frameByte GNMSUP1_FRAMEBUF_ADDRESS)
  have hb := _markActive_frameByte s (s.frameByte GNMSUP1_FRAMEBUF_ADDRESS)
  unfold _validateFrame
  generalize s._markActive (s.frameByte GNMSUP1_FRAMEBUF_ADDRESS) = s1 at *
  obtain ⟨ha, hbuf, hcs, hpos, hst, hw, hi⟩ := hm
  by_cases hcrc : s._frameChecksum = ccitt (s._frameBuffer.take (s._framePosition - 6))
  · have hflip : (s._address = s.frameByte 1) = (s.frameByte 1 = s._address) :=
      propext eq_comm
    cases hrole : s._ownsMasterRole <;>
    by_cases haddr : s.frameByte 1 = s._address <;>
    cases hdir : bitRead (s.frameByte 0) 7 <;>
    cases hcr : bitRead (s.frameByte 0) 4 <;>
    simp [← hcrc, ha, hbuf, hcs, hpos, hst, hw, hi, hr, hb, hrole, hflip, haddr, hdir, hcr,
      GNMSUP1_FRAMEBUF_ADDRESS, GNMSUP1_FRAMEBUF_FLAG, GNMSUP1_FRAMEFLAG_DIRECTION,
      GNMSUP1_FRAMEFLAG_COMMITRECEIVE]
  · simp [hcrc]

end gnMsup1

namespace gnMsup1

/-! ## Reception of a whole frame -/

theorem logicalFrame_length_le (flag addr svc sub : Nat) (payload : List Nat)
    (hn : payload.length ≤ 8) :
    2 ≤ (logicalFrame flag addr payload.length svc sub payload).length ∧
    (logicalFrame flag addr payload.length svc sub payload).length ≤ 13 := by
  unfold logicalFrame
  split
  · simp; omega
  · simp

theorem received_frame (s : gnMsup1) (now flag addr svc sub crc : Nat) (payload : List Nat) :
    (s.received now (logicalFrame flag addr payload.length svc sub payload) crc).frameByte 0
      = flag ∧
    (s.received now (logicalFrame flag addr payload.length svc sub payload) crc).frameByte 1
      = addr ∧
    (s.received now (logicalFrame flag addr payload.length svc sub payload) crc)._frameBuffer.take
      ((s.received now (logicalFrame flag addr payload.length svc sub payload)
        crc)._framePosition - 6) = logicalFrame flag addr payload.length svc sub payload := by
  refine ⟨?_, ?_, ?_⟩
  · unfold logicalFrame; split <;> simp [received, frameByte]
  · unfold logicalFrame; split <;> simp [received, frameByte]
  · simp [received]

/-- What the read loop does with the bytes of a complete frame whose checksum bytes are `hi`
and `lo`: every byte but the last is consumed without a return, the last one returns the
verdict of `_validateFrame` on the assembled frame. -/
theorem readLoop_frame (s : gnMsup1) (now flag addr svc sub hi lo : Nat) (payload : List Nat)
    (hpos : s._framePosition = 0) (hn : payload.length ≤ 8) :
    s.readLoop now ([0xAA, 0x55] ++ logicalFrame flag addr payload.length svc sub payload
        ++ [hi, lo, 0xCC, 0x33]) =
      ((finishFrame (s.received now (logicalFrame flag addr payload.length svc sub payload)
          ((hi * 256) % 65536 ||| lo)) 0x33).1, [],
       (s.received now (logicalFrame flag addr payload.length svc sub payload)
          ((hi * 256) % 65536 ||| lo))._validateFrame.2) ∧
    ∀ k, k < ([0xAA, 0x55] ++ logicalFrame flag addr payload.length svc sub payload
        ++ [hi, lo, 0xCC, 0x33]).length →
      ∃ s2, s.readLoop now (([0xAA, 0x55] ++ logicalFrame flag addr payload.length svc sub payload
        ++ [hi, lo, 0xCC, 0x33]).take k) = (s2, [], false) := by
  have e : [0xAA, 0x55] ++ logicalFrame flag addr payload.length svc sub payload
        ++ [hi, lo, 0xCC, 0x33] =
      ([0xAA, 0x55] ++ logicalFrame flag addr payload.length svc sub payload
        ++ [hi, lo, 0xCC]) ++ [0x33] := by simp
  have hq := quietRun_frame s now flag addr svc sub hi lo payload hpos hn
  have hl := readInputByte_frame_stop2 s now flag addr svc sub ((hi * 256) % 65536 ||| lo)
    payload hn
  constructor
  · rw [e, readLoop_quiet _ _ _ _ _ hq]
    simp only [readLoop, hl, finishFrame]
    rcases (s.received now (logicalFrame flag addr payload.length svc sub payload)
      ((hi * 256) % 65536 ||| lo))._validateFrame with ⟨s1, _ | _⟩ <;> rfl
  · intro k hk
    rw [e] at hk ⊢
    have hk2 : k ≤ ([0xAA, 0x55] ++ logicalFrame flag addr payload.length svc sub payload
        ++ [hi, lo, 0xCC]).length := by
      simp only [List.length_append, List.length_cons, List.length_nil] at hk ⊢; omega
    rw [List.take_append_of_le_length hk2]
    obtain ⟨s2, h2⟩ := quietRun_take _ _ now _ k hq
    exact ⟨s2, readLoop_quiet_nil _ _ _ _ h2⟩

/-- A frame with a correct checksum that passes the filters of the receiver is accepted:
`_readInput` returns `true` on the last byte and on no byte before it, and the object holds
the frame. -/
theorem readLoop_valid_frame (s : gnMsup1) (now flag addr svc sub : Nat) (payload : List Nat)
    (hpos : s._framePosition = 0) (hn : payload.length ≤ 8)
    (hacc : s._ownsMasterRole = true ∨ (addr = s._address ∧ bitRead flag 7 = false)) :
    ∃ s1, s.readLoop now (wireFrame (logicalFrame flag addr payload.length svc sub payload)) =
        (s1, [], true) ∧
      s1._frameBuffer = logicalFrame flag addr payload.length svc sub payload ++
        List.replicate (13 - (logicalFrame flag addr payload.length svc sub payload).length) 0 ∧
      s1._frameChecksum = ccitt (logicalFrame flag addr payload.length svc sub payload) ∧
      s1._framePosition = (logicalFrame flag addr payload.length svc sub payload).length + 6 ∧
      s1._frameStartTime = now ∧
      s1._address = s._address ∧ s1.invoked = s.invoked ∧
      s1.written = s.written ++ (if bitRead flag 4 = true then
        [highByte (ccitt (logicalFrame flag addr payload.length svc sub payload)),
         lowByte (ccitt (logicalFrame flag addr payload.length svc sub payload))] else []) ∧
      ∀ k, k < (wireFrame (logicalFrame flag addr payload.length svc sub payload)).length →
        ∃ s2, s.readLoop now ((wireFrame (logicalFrame flag addr payload.length svc sub
          payload)).take k) = (s2, [], false) := by
  obtain ⟨h1, h2⟩ := readLoop_frame s now flag addr svc sub
    (highByte (ccitt (logicalFrame flag addr payload.length svc sub payload)))
    (lowByte (ccitt (logicalFrame flag addr payload.length svc sub payload))) payload hpos hn
  rw [checksum_join_bytes _ (ccitt_lt _)] at h1
  obtain ⟨f0, f1, ftake⟩ := received_frame s now flag addr svc sub
    (ccitt (logicalFrame flag addr payload.length svc sub payload)) payload
  obtain ⟨hv, hbuf, hcs, hp, hst, ha, hi, hw⟩ := _validateFrame_cases
    (s.received now (logicalFrame flag addr payload.length svc sub payload)
      (ccitt (logicalFrame flag addr payload.length svc sub payload)))
  have hacc2 : (s.received now (logicalFrame flag addr payload.length svc sub payload)
      (ccitt (logicalFrame flag addr payload.length svc sub payload)))._validateFrame.2 = true := by
    rw [hv, ftake, f0, f1]
    refine ⟨rfl, ?_⟩
    rcases hacc with h | h
    · left; simpa [_ownsMasterRole, received] using h
    · right; simpa [received] using h
  have hfin : (finishFrame (s.received now (logicalFrame flag addr payload.length svc sub
      payload) (ccitt (logicalFrame flag addr payload.length svc sub payload))) 0x33).1 =
      (s.received now (logicalFrame flag addr payload.length svc sub payload)
        (ccitt (logicalFrame flag addr payload.length svc sub payload)))._validateFrame.1 := by
    unfold finishFrame
    rcases hx : (s.received now (logicalFrame flag addr payload.length svc sub payload)
      (ccitt (logicalFrame flag addr payload.length svc sub payload)))._validateFrame
      with ⟨s1, _ | _⟩
    · rw [hx] at hacc2; simp at hacc2
    · rfl
  refine ⟨(s.received now (logicalFrame flag addr payload.length svc sub payload)
    (ccitt (logicalFrame flag addr payload.length svc sub payload)))._validateFrame.1, ?_, ?_⟩
  · unfold wireFrame
    rw [h1, hacc2, hfin]
  · rw [hbuf, hcs, hp, hst, ha, hi, hw, hacc2, f0]
    refine ⟨?_, rfl, rfl, rfl, rfl, rfl, ?_, ?_⟩
    · simp [received, frameBufferSize, GNMSUP1_FRAMEBUF_PAYLOADSTART, GNMSUP1_MAXPAYLOADBUFFER]
    · simp [received]
    · unfold wireFrame; exact h2

end gnMsup1

namespace gnMsup1

/-- A call of `_sendFrame` without retry and without waiting for a push answer, to a node that
is not ignored, emits the frame once: the bytes written, the frame buffer and the checksum are
those of the one emission, whatever the commit-receive reply is. -/
theorem _sendFrame_single (s : gnMsup1) (wait : gnMsup1 → gnMsup1) (first second : Attempt)
    (address serviceNumber subserviceNumber : Nat)
    (serviceFlag pushFlag commitReceivedFlag : Bool) (payload : List Nat) (payloadSize : Nat)
    (hign : s._queryIgnore address = false) :
    (s._sendFrame wait first second address serviceNumber subserviceNumber serviceFlag pushFlag
      false commitReceivedFlag false payload payloadSize).1.written =
      (s.emitFrame first.now address serviceNumber subserviceNumber serviceFlag pushFlag
        commitReceivedFlag payload payloadSize).written ∧
    (s._sendFrame wait first second address serviceNumber subserviceNumber serviceFlag pushFlag
      false commitReceivedFlag false payload payloadSize).1._frameBuffer =
      (s.emitFrame first.now address serviceNumber subserviceNumber serviceFlag pushFlag
        commitReceivedFlag payload payloadSize)._frameBuffer ∧
    (s._sendFrame wait first second address serviceNumber subserviceNumber serviceFlag pushFlag
      false commitReceivedFlag false payload payloadSize).1._frameChecksum =
      (s.emitFrame first.now address serviceNumber subserviceNumber serviceFlag pushFlag
        commitReceivedFlag payload payloadSize)._frameChecksum := by
  generalize hE : s.emitFrame first.now address serviceNumber subserviceNumber serviceFlag
    pushFlag commitReceivedFlag payload payloadSize = e
  have hA := _markActive_frame e address
  have hI := _markIgnore_frame e address
  have hI2 := _markIgnore_frame
    { e with _lastComError := ⟨ComErrorCode.Err_CRTimeout, address⟩ } address
  unfold _sendFrame sendFrameBody
  simp only [hign, hE, Bool.false_eq_true, if_false, Bool.and_false, Bool.false_and]
  cases commitReceivedFlag with
  | false => simp
  | true =>
    simp only [if_true]
    rcases first.reply with _ | ⟨c0, _ | ⟨c1, rest⟩⟩
    · exact ⟨hI2.2.2.2.2.2.1, hI2.2.1, hI2.2.2.1⟩
    · exact ⟨hI2.2.2.2.2.2.1, hI2.2.1, hI2.2.2.1⟩
    · dsimp only
      split
      · exact ⟨hA.2.2.2.2.2.1, hA.2.1, hA.2.2.1⟩
      · simp

end gnMsup1

namespace gnMsup1

/-- C1 (round trip of framing). A master `m` sends a frame to slave address `a` with
`_sendFrame` (node not ignored, no retry, no wait for a push answer), which writes the bytes
`wire`; a slave `s` with own address `a` at frame position 0 reads them with `_readInput`.
Then `_readInput` returns `true` having consumed all bytes, it returns `false` on every
proper initial segment of the bytes, and the frame buffer and `_frameChecksum` of the slave
equal those of the master: flag, address and, for a service frame, payload size, service,
subservice and payload, and the CRC that was sent. This holds for every address, in particular
for `a ≤ 0xEF`, for service frames and for frames with flag and address only. -/
theorem C1_roundtrip_framing (m s : gnMsup1) (wait : gnMsup1 → gnMsup1)
    (first second : Attempt) (now a service subservice : Nat)
    (serviceFlag pushFlag commitReceivedFlag : Bool) (payload wire : List Nat)
    (hm : m._ownsMasterRole = true) (hign : m._queryIgnore a = false)
    (hp : payload.length ≤ GNMSUP1_MAXPAYLOADBUFFER)
    (hw : (m._sendFrame wait first second a service subservice serviceFlag pushFlag false
      commitReceivedFlag false payload payload.length).1.written = m.written ++ wire)
    (hs : s._address = a) (hpos : s._framePosition = 0) :
    (s._readInput now wire).2.2 = true ∧
    (s._readInput now wire).2.1 = [] ∧
    (∀ k, k < wire.length → (s._readInput now (wire.take k)).2.2 = false) ∧
    (s._readInput now wire).1._frameBuffer =
      (if serviceFlag then
        [(if pushFlag then 96 else 64) + (if commitReceivedFlag then 16 else 0), a,
          payload.length, service, subservice] ++ payload ++
          List.replicate (GNMSUP1_MAXPAYLOADBUFFER - payload.length) 0
       else
        [(if pushFlag then 32 else 0) + (if commitReceivedFlag then 16 else 0), a] ++
          List.replicate 11 0) ∧
    (s._readInput now wire).1._frameBuffer =
      (m._sendFrame wait first second a service subservice serviceFlag pushFlag false
        commitReceivedFlag false payload payload.length).1._frameBuffer ∧
    (s._readInput now wire).1._frameChecksum =
      (m._sendFrame wait first second a service subservice serviceFlag pushFlag false
        commitReceivedFlag false payload payload.length).1._frameChecksum ∧
    (s._readInput now wire).1._frameChecksum =
      ccitt (if serviceFlag then
        [(if pushFlag then 96 else 64) + (if commitReceivedFlag then 16 else 0), a,
          payload.length, service, subservice] ++ payload
       else [(if pushFlag then 32 else 0) + (if commitReceivedFlag then 16 else 0), a]) := by
  have hp8 : payload.length ≤ 8 := hp
  obtain ⟨hsw, hsb, hsc⟩ := _sendFrame_single m wait first second a service subservice
    serviceFlag pushFlag commitReceivedFlag payload payload.length hign
  obtain ⟨hew, hec, heb⟩ := emitFrame_eq m first.now a service subservice serviceFlag pushFlag
    commitReceivedFlag payload hp8
  have hwire : wire = wireFrame (logicalFrame (m.flagByte serviceFlag pushFlag
      commitReceivedFlag) a payload.length service subservice payload) := by
    rw [hsw, hew] at hw
    exact (List.append_cancel_left hw).symm
  obtain ⟨hb7, hb6, -, -⟩ := flagByte_bits m serviceFlag pushFlag commitReceivedFlag
  obtain ⟨s1, h1, h2, h3, -, -, -, -, -, h9⟩ := readLoop_valid_frame s now
    (m.flagByte serviceFlag pushFlag commitReceivedFlag) a service subservice payload hpos hp8
    (Or.inr ⟨hs.symm, by rw [hb7, hm]; rfl⟩)
  have hfl := flagByte_eq m serviceFlag pushFlag commitReceivedFlag
  rw [hm] at hfl
  have hL : logicalFrame (m.flagByte serviceFlag pushFlag commitReceivedFlag) a payload.length
      service subservice payload =
      (if serviceFlag then
        [(if pushFlag then 96 else 64) + (if commitReceivedFlag then 16 else 0), a,
          payload.length, service, subservice] ++ payload
       else [(if pushFlag then 32 else 0) + (if commitReceivedFlag then 16 else 0), a]) := by
    unfold logicalFrame
    rw [show GNMSUP1_FRAMEFLAG_SERVICE = 6 from rfl, hb6, hfl]
    cases serviceFlag <;> cases pushFlag <;> cases commitReceivedFlag <;> simp
  have hread : ∀ bytes, s._readInput now bytes = s.readLoop now bytes := fun bytes =>
    _readInput_eq_readLoop s now bytes (by omega)
  rw [hread, hsb, hsc, heb, hec, hwire, h1]
  refine ⟨rfl, rfl, ?_, ?_, h2, h3, ?_⟩
  · intro k hk
    obtain ⟨s2, h⟩ := h9 k hk
    rw [hread, h]
  · rw [h2, hL]
    cases serviceFlag
    · simp
    · simp [GNMSUP1_MAXPAYLOADBUFFER]
  · rw [h3, hL]

set_option maxRecDepth 100000 in
/-- Witness for C1: the master of scenario 1 sends service 0x10, subservice 0x01 with payload
`DE AD` to slave 0x05, which reads the thirteen bytes. -/
theorem C1_roundtrip_framing_witness :
    (afterBegin 0xFF)._ownsMasterRole = true ∧ (afterBegin 0xFF)._queryIgnore 0x05 = false ∧
    ((afterBegin 0xFF)._sendFrame id ⟨0, []⟩ ⟨0, []⟩ 0x05 0x10 0x01 true false false false false
      [0xDE, 0xAD] 2).1.written = (afterBegin 0xFF).written ++
      [0xAA, 0x55, 0x40, 0x05, 0x02, 0x10, 0x01, 0xDE, 0xAD, 0x55, 0x58, 0xCC, 0x33] ∧
    ((afterBegin 0x05)._readInput 7
      [0xAA, 0x55, 0x40, 0x05, 0x02, 0x10, 0x01, 0xDE, 0xAD, 0x55, 0x58, 0xCC, 0x33]).2.2 = true ∧
    ((afterBegin 0x05)._readInput 7
      [0xAA, 0x55, 0x40, 0x05, 0x02, 0x10, 0x01, 0xDE, 0xAD, 0x55, 0x58, 0xCC, 0x33]).2.1 = [] :=
  have h := C1_roundtrip_framing (afterBegin 0xFF) (afterBegin 0x05) id ⟨0, []⟩ ⟨0, []⟩ 7 0x05 0x10
    0x01 true false false [0xDE, 0xAD]
    [0xAA, 0x55, 0x40, 0x05, 0x02, 0x10, 0x01, 0xDE, 0xAD, 0x55, 0x58, 0xCC, 0x33]
    (by decide) (by decide) (by decide) (by decide) (by decide) (by decide)
  ⟨by decide, by decide, by decide, h.1, h.2.1⟩

/-- C2 (bit-exact wire format). One emission of `_sendFrame` (node not ignored, no retry, no
wait for a push answer; also the emission step `emitFrame` taken alone) appends to the
transport exactly `AA 55`, the logical bytes, `CRC_HI CRC_LO`, `CC 33`, where the logical bytes
are flag, address, payload size, service, subservice and payload when `serviceFlag` is set and
flag and address only when it is clear; the flag byte has bit 7 set for a slave, bit 6 =
`serviceFlag`, bit 5 = `pushFlag`, bit 4 = `commitReceivedFlag` and bits 0 to 3 zero; the CRC
is the CRC-16/CCITT-FALSE of the logical bytes alone, high byte first. For a master, address
0x05, service 0x10, subservice 0x01, payload `DE AD`, no flags, the bytes are
`AA 55 40 05 02 10 01 DE AD 55 58 CC 33`. -/
theorem C2_wire_format (s : gnMsup1) (wait : gnMsup1 → gnMsup1) (first second : Attempt)
    (address serviceNumber subserviceNumber : Nat)
    (serviceFlag pushFlag commitReceivedFlag : Bool) (payload : List Nat)
    (hn : payload.length ≤ GNMSUP1_MAXPAYLOADBUFFER)
    (hign : s._queryIgnore address = false) :
    (s._sendFrame wait first second address serviceNumber subserviceNumber serviceFlag pushFlag
      false commitReceivedFlag false payload payload.length).1.written =
      s.written ++ [0xAA, 0x55] ++
        (if serviceFlag then
          [s.flagByte serviceFlag pushFlag commitReceivedFlag, address, payload.length,
            serviceNumber, subserviceNumber] ++ payload
         else [s.flagByte serviceFlag pushFlag commitReceivedFlag, address]) ++
        [highByte (ccitt (if serviceFlag then
            [s.flagByte serviceFlag pushFlag commitReceivedFlag, address, payload.length,
              serviceNumber, subserviceNumber] ++ payload
           else [s.flagByte serviceFlag pushFlag commitReceivedFlag, address])),
         lowByte (ccitt (if serviceFlag then
            [s.flagByte serviceFlag pushFlag commitReceivedFlag, address, payload.length,
              serviceNumber, subserviceNumber] ++ payload
           else [s.flagByte serviceFlag pushFlag commitReceivedFlag, address])),
         0xCC, 0x33] ∧
    (s.emitFrame first.now address serviceNumber subserviceNumber serviceFlag pushFlag
      commitReceivedFlag payload payload.length).written =
      (s._sendFrame wait first second address serviceNumber subserviceNumber serviceFlag pushFlag
        false commitReceivedFlag false payload payload.length).1.written ∧
    s.flagByte serviceFlag pushFlag commitReceivedFlag =
      (if s._ownsMasterRole then 0 else 128) + (if serviceFlag then 64 else 0) +
      (if pushFlag then 32 else 0) + (if commitReceivedFlag then 16 else 0) ∧
    ((afterBegin 0xFF)._sendFrame wait first second 0x05 0x10 0x01 true false false false false
      [0xDE, 0xAD] 2).1.written =
      [0xAA, 0x55, 0x40, 0x05, 0x02, 0x10, 0x01, 0xDE, 0xAD, 0x55, 0x58, 0xCC, 0x33] ∧
    ccitt [0x40, 0x05, 0x02, 0x10, 0x01, 0xDE, 0xAD] = 0x5558 := by
  have hn8 : payload.length ≤ 8 := hn
  obtain ⟨hsw, -, -⟩ := _sendFrame_single s wait first second address serviceNumber
    subserviceNumber serviceFlag pushFlag commitReceivedFlag payload payload.length hign
  obtain ⟨hew, -, -⟩ := emitFrame_eq s first.now address serviceNumber subserviceNumber
    serviceFlag pushFlag commitReceivedFlag payload hn8
  obtain ⟨-, hb6, -, -⟩ := flagByte_bits s serviceFlag pushFlag commitReceivedFlag
  have hL : logicalFrame (s.flagByte serviceFlag pushFlag commitReceivedFlag) address
      payload.length serviceNumber subserviceNumber payload =
      (if serviceFlag then
        [s.flagByte serviceFlag pushFlag commitReceivedFlag, address, payload.length,
          serviceNumber, subserviceNumber] ++ payload
       else [s.flagByte serviceFlag pushFlag commitReceivedFlag, address]) := by
    unfold logicalFrame
    rw [show GNMSUP1_FRAMEFLAG_SERVICE = 6 from rfl, hb6]
  have hcrc : ccitt [0x40, 0x05, 0x02, 0x10, 0x01, 0xDE, 0xAD] = 0x5558 := by
    simp [ccitt, crcByte, crcShift]
  refine ⟨?_, hsw.symm, flagByte_eq s serviceFlag pushFlag commitReceivedFlag, ?_, hcrc⟩
  · rw [hsw, hew, ← hL, wireFrame]
    simp only [List.append_assoc]
  · obtain ⟨h1, -, -⟩ := _sendFrame_single (afterBegin 0xFF) wait first second 0x05 0x10 0x01
      true false false [0xDE, 0xAD] 2 (by decide)
    obtain ⟨h2, -, -⟩ := emitFrame_eq (afterBegin 0xFF) first.now 0x05 0x10 0x01 true false false
      [0xDE, 0xAD] (by decide)
    rw [h1]
    have hf : (afterBegin 0xFF).flagByte true false false = 0x40 := by decide
    have hL0 : logicalFrame 0x40 0x05 2 0x10 0x01 [0xDE, 0xAD] =
        [0x40, 0x05, 0x02, 0x10, 0x01, 0xDE, 0xAD] := by decide
    have hlen : [0xDE, 0xAD].length = 2 := rfl
    rw [hlen, hf, hL0] at h2
    rw [h2]
    simp [wireFrame, hcrc, afterBegin, highByte, lowByte]

/-- Witness for C2: a slave with address 0x05 answers with service 0x20, subservice 0x01 and
payload `01 02 03`, push flag set. -/
theorem C2_wire_format_witness :
    [1, 2, 3].length ≤ GNMSUP1_MAXPAYLOADBUFFER ∧ (afterBegin 0x05)._queryIgnore 0x05 = false ∧
    (afterBegin 0x05).flagByte true true false = 0xE0 :=
  have h := C2_wire_format (afterBegin 0x05) id ⟨0, []⟩ ⟨0, []⟩ 0x05 0x20 0x01 true true false
    [1, 2, 3] (by decide) (by decide)
  ⟨by decide, by decide, h.2.2.1.trans (by decide)⟩

end gnMsup1

namespace gnMsup1

/-! ## Filters, echo, resynchronisation -/

theorem _resetAndStartFrame_log (s : gnMsup1) (b : Nat) :
    (s._resetAndStartFrame b).written = s.written ∧
    (s._resetAndStartFrame b).invoked = s.invoked ∧
    (s._resetAndStartFrame b)._address = s._address ∧
    (s._resetAndStartFrame b)._framePosition = (if b = 0xAA then 1 else 0) := by
  unfold _resetAndStartFrame
  by_cases h : b = 0xAA <;> simp [h, GNMSUP1_FRAMESTART1, _resetFramebuffer]

/-- The outcome of the validation at the last stop byte, in terms of `_validateFrame`. -/
theorem finishFrame_cases (s : gnMsup1) (b : Nat) :
    (s.finishFrame b).2 = some s._validateFrame.2 ∧
    (s.finishFrame b).1.written = s._validateFrame.1.written ∧
    (s.finishFrame b).1.invoked = s._validateFrame.1.invoked ∧
    (s._validateFrame.2 = false →
      (s.finishFrame b).1._framePosition = (if b = 0xAA then 1 else 0)) := by
  unfold finishFrame
  rcases s._validateFrame with ⟨s1, _ | _⟩
  · have h := _resetAndStartFrame_log s1 b
    exact ⟨rfl, h.1, h.2.1, fun _ => h.2.2.2⟩
  · exact ⟨rfl, rfl, rfl, fun h => by simp at h⟩

/-- Bytes other than START1 leave a receiver at frame position 0 as it is. -/
theorem quietRun_garbage (s : gnMsup1) (now : Nat) (hpos : s._framePosition = 0) :
    ∀ g : List Nat, (∀ b ∈ g, b ≠ 0xAA) → s.quietRun now g = some s := by
  intro g
  induction g with
  | nil => intro _; rfl
  | cons b rest ih =>
    intro hg
    have hb : b ≠ 0xAA := hg b (by simp)
    have hstep : s.readInputByte now b = (s, none) := by
      have hs : ({ s with _framePosition := 0 } : gnMsup1) = s := by
        cases s; simp_all
      have e7 : ∀ x : Nat, ¬ (0 = 7 + x) := by intro x; omega
      have e8 : ∀ x : Nat, ¬ (0 = 8 + x) := by intro x; omega
      have e9 : ∀ x : Nat, ¬ (0 = 9 + x) := by intro x; omega
      have e10 : ∀ x : Nat, ¬ (0 = 10 + x) := by intro x; omega
      simp [readInputByte, hpos, hb, GNMSUP1_FRAMESTART1, _resetAndStartFrame, hs, e7, e8, e9,
        e10]
    simp only [quietRun, hstep]
    exact ih (fun b hb => hg b (by simp [hb]))

end gnMsup1

namespace gnMsup1

/-- What the read loop does with a complete frame that carries its own CRC. -/
theorem readLoop_wireFrame (s : gnMsup1) (now flag addr svc sub : Nat) (payload : List Nat)
    (hpos : s._framePosition = 0) (hn : payload.length ≤ 8) :
    s.readLoop now (wireFrame (logicalFrame flag addr payload.length svc sub payload)) =
      ((finishFrame (s.received now (logicalFrame flag addr payload.length svc sub payload)
          (ccitt (logicalFrame flag addr payload.length svc sub payload))) 0x33).1, [],
       (s.received now (logicalFrame flag addr payload.length svc sub payload)
          (ccitt (logicalFrame flag addr payload.length svc sub payload)))._validateFrame.2) ∧
    ((s.received now (logicalFrame flag addr payload.length svc sub payload)
          (ccitt (logicalFrame flag addr payload.length svc sub payload)))._validateFrame.2 = true
      ↔ (s._ownsMasterRole = true ∨ (addr = s._address ∧ bitRead flag 7 = false))) ∧
    (s.received now (logicalFrame flag addr payload.length svc sub payload)
          (ccitt (logicalFrame flag addr payload.length svc sub payload)))._validateFrame.1.written
      = s.written ++ (if (s.received now (logicalFrame flag addr payload.length svc sub payload)
          (ccitt (logicalFrame flag addr payload.length svc sub payload)))._validateFrame.2 = true
          ∧ bitRead flag 4 = true then
        [highByte (ccitt (logicalFrame flag addr payload.length svc sub payload)),
         lowByte (ccitt (logicalFrame flag addr payload.length svc sub payload))] else []) ∧
    (s.received now (logicalFrame flag addr payload.length svc sub payload)
          (ccitt (logicalFrame flag addr payload.length svc sub payload)))._validateFrame.1.invoked
      = s.invoked := by
  obtain ⟨h1, -⟩ := readLoop_frame s now flag addr svc sub
    (highByte (ccitt (logicalFrame flag addr payload.length svc sub payload)))
    (lowByte (ccitt (logicalFrame flag addr payload.length svc sub payload))) payload hpos hn
  rw [checksum_join_bytes _ (ccitt_lt _)] at h1
  obtain ⟨f0, f1, ftake⟩ := received_frame s now flag addr svc sub
    (ccitt (logicalFrame flag addr payload.length svc sub payload)) payload
  obtain ⟨hv, -, -, -, -, -, hi, hw⟩ := _validateFrame_cases
    (s.received now (logicalFrame flag addr payload.length svc sub payload)
      (ccitt (logicalFrame flag addr payload.length svc sub payload)))
  refine ⟨?_, ?_, ?_, ?_⟩
  · unfold wireFrame; exact h1
  · rw [hv, ftake, f0, f1]
    simp [received, _ownsMasterRole]
  · rw [hw, f0]; rfl
  · rw [hi]; rfl

/-- C4 (slave acceptance filter). For a slave, `_validateFrame` on a frame with a correct CRC
returns `true` if and only if the address byte of the frame equals the own address and bit 7
of the flag is 0. The same holds for a complete frame read from the wire; and when the filter
rejects it, `_readInput` returns `false`, so that `handleCommunication` does not call
`_processFrame`: no callback is invoked and no byte (no commit-receive echo either) is
written to the transport. -/
theorem C4_slave_acceptance_filter (s : gnMsup1) (a : Attempt) (flag addr svc sub : Nat)
    (payload : List Nat) (hslave : s._ownsMasterRole = false) (hpos : s._framePosition = 0)
    (hn : payload.length ≤ GNMSUP1_MAXPAYLOADBUFFER) :
    (∀ v : gnMsup1, v._ownsMasterRole = false →
      v._frameChecksum = ccitt (v._frameBuffer.take (v._framePosition - 6)) →
      ((v._validateFrame.2 = true ↔
        (v.frameByte GNMSUP1_FRAMEBUF_ADDRESS = v._address ∧
         bitRead (v.frameByte GNMSUP1_FRAMEBUF_FLAG) GNMSUP1_FRAMEFLAG_DIRECTION = false)) ∧
       (v._validateFrame.2 = false →
        v._validateFrame.1.written = v.written ∧ v._validateFrame.1.invoked = v.invoked))) ∧
    ((s._readInput a.now (wireFrame (logicalFrame flag addr payload.length svc sub payload))).2.2
        = true ↔ (addr = s._address ∧ bitRead flag GNMSUP1_FRAMEFLAG_DIRECTION = false)) ∧
    (¬ (addr = s._address ∧ bitRead flag GNMSUP1_FRAMEFLAG_DIRECTION = false) →
      (s.readAndProcess a (wireFrame (logicalFrame flag addr payload.length svc sub
        payload))).1.written = s.written ∧
      (s.readAndProcess a (wireFrame (logicalFrame flag addr payload.length svc sub
        payload))).1.invoked = s.invoked ∧
      (s.readAndProcess a (wireFrame (logicalFrame flag addr payload.length svc sub
        payload))).2 = []) := by
  have hread : ∀ bytes, s._readInput a.now bytes = s.readLoop a.now bytes := fun bytes =>
    _readInput_eq_readLoop s a.now bytes (by omega)
  obtain ⟨h1, h2, h3, h4⟩ := readLoop_wireFrame s a.now flag addr svc sub payload hpos hn
  simp only [hslave, Bool.false_eq_true, false_or] at h2
  refine ⟨?_, ?_, ?_⟩
  · intro v hv hcrc
    obtain ⟨hval, -, -, -, -, -, hi, hw⟩ := _validateFrame_cases v
    constructor
    · rw [hval]
      simp [hv, ← hcrc, GNMSUP1_FRAMEBUF_ADDRESS, GNMSUP1_FRAMEBUF_FLAG,
        GNMSUP1_FRAMEFLAG_DIRECTION]
    · intro hf
      rw [hw, hi, hf]
      simp
  · rw [hread, h1]
    exact h2
  · intro hrej
    have hf : (s.received a.now (logicalFrame flag addr payload.length svc sub payload)
        (ccitt (logicalFrame flag addr payload.length svc sub payload)))._validateFrame.2
        = false := by
      rw [← Bool.not_eq_true, h2]; exact hrej
    obtain ⟨-, fw, fi, -⟩ := finishFrame_cases
      (s.received a.now (logicalFrame flag addr payload.length svc sub payload)
        (ccitt (logicalFrame flag addr payload.length svc sub payload))) 0x33
    unfold readAndProcess
    rw [hread, h1, hf]
    dsimp only
    rw [fw, fi, h3, h4, hf]
    simp

set_option maxRecDepth 100000 in
/-- Witness for C4: slave 0x05 reads a frame addressed to slave 0x06. -/
theorem C4_slave_acceptance_filter_witness :
    (afterBegin 0x05)._ownsMasterRole = false ∧ (afterBegin 0x05)._framePosition = 0 ∧
    ((afterBegin 0x05).readAndProcess ⟨0, []⟩
      (wireFrame (logicalFrame 0x50 0x06 2 0x10 0x01 [0xDE, 0xAD]))).1.written = [] :=
  have h := C4_slave_acceptance_filter (afterBegin 0x05) ⟨0, []⟩ 0x50 0x06 0x10 0x01 [0xDE, 0xAD]
    (by decide) (by decide) (by decide)
  ⟨by decide, by decide, (h.2.2 (by decide)).1⟩

end gnMsup1

namespace gnMsup1

/-- C5 (commit-receive echo). Whenever `_validateFrame` accepts a frame, it has written to the
transport exactly the high byte and then the low byte of the received checksum, which is the
CRC of the frame, if bit 4 of the flag is set, and nothing at all if the bit is clear. The
same is stated for a complete frame read from the wire by a receiver that accepts it. -/
theorem C5_commit_receive_echo (s : gnMsup1) (now flag addr svc sub : Nat)
    (payload : List Nat) (hpos : s._framePosition = 0)
    (hn : payload.length ≤ GNMSUP1_MAXPAYLOADBUFFER)
    (hacc : s._ownsMasterRole = true ∨
      (addr = s._address ∧ bitRead flag GNMSUP1_FRAMEFLAG_DIRECTION = false)) :
    (∀ v : gnMsup1, v._validateFrame.2 = true →
      v._frameChecksum = ccitt (v._frameBuffer.take (v._framePosition - 6)) ∧
      v._validateFrame.1.written = v.written ++
        (if bitRead (v.frameByte GNMSUP1_FRAMEBUF_FLAG) GNMSUP1_FRAMEFLAG_COMMITRECEIVE then
          [highByte v._frameChecksum, lowByte v._frameChecksum] else [])) ∧
    (s._readInput now (wireFrame (logicalFrame flag addr payload.length svc sub payload))).2.2
      = true ∧
    (s._readInput now (wireFrame (logicalFrame flag addr payload.length svc sub
      payload))).1.written = s.written ++
        (if bitRead flag GNMSUP1_FRAMEFLAG_COMMITRECEIVE then
          [highByte (ccitt (logicalFrame flag addr payload.length svc sub payload)),
           lowByte (ccitt (logicalFrame flag addr payload.length svc sub payload))]
         else []) := by
  have hread : ∀ bytes, s._readInput now bytes = s.readLoop now bytes := fun bytes =>
    _readInput_eq_readLoop s now bytes (by omega)
  obtain ⟨s1, h1, -, -, -, -, -, -, h8, -⟩ := readLoop_valid_frame s now flag addr svc sub
    payload hpos hn hacc
  refine ⟨?_, ?_, ?_⟩
  · intro v hv
    obtain ⟨hval, -, -, -, -, -, -, hw⟩ := _validateFrame_cases v
    refine ⟨(hval.mp hv).1, ?_⟩
    rw [hw, hv]
    simp [GNMSUP1_FRAMEBUF_FLAG, GNMSUP1_FRAMEFLAG_COMMITRECEIVE]
  · rw [hread, h1]
  · rw [hread, h1, h8]
    simp [GNMSUP1_FRAMEFLAG_COMMITRECEIVE]

set_option maxRecDepth 100000 in
/-- Witness for C5: slave 0x05 reads the frame of scenario 2 (flag byte 0x50) and echoes the
CRC 0x6223. -/
theorem C5_commit_receive_echo_witness :
    (afterBegin 0x05)._framePosition = 0 ∧
    ((afterBegin 0x05)._readInput 0
      (wireFrame (logicalFrame 0x50 0x05 2 0x10 0x01 [0xDE, 0xAD]))).1.written = [0x62, 0x23] :=
  have h := C5_commit_receive_echo (afterBegin 0x05) 0 0x50 0x05 0x10 0x01 [0xDE, 0xAD]
    (by decide) (by decide) (Or.inr (by decide))
  ⟨by decide, h.2.2.trans (by decide)⟩

/-- C6 (resync from garbage). A receiver at frame position 0 is fed bytes `g`, none of which
is START1, followed by a valid frame that passes its filters. Then `_readInput` returns `true`
on the last byte of the frame and on no byte before it, the object holds the fields and the
CRC of that frame, and after every initial segment of `g` the receiver is in its initial
state, in particular at frame position 0. -/
theorem C6_resync_from_garbage (s : gnMsup1) (now flag addr svc sub : Nat)
    (g payload : List Nat) (hpos : s._framePosition = 0)
    (hg : ∀ b ∈ g, b ≠ GNMSUP1_FRAMESTART1)
    (hn : payload.length ≤ GNMSUP1_MAXPAYLOADBUFFER)
    (hacc : s._ownsMasterRole = true ∨
      (addr = s._address ∧ bitRead flag GNMSUP1_FRAMEFLAG_DIRECTION = false)) :
    (s._readInput now (g ++ wireFrame (logicalFrame flag addr payload.length svc sub
      payload))).2.2 = true ∧
    (s._readInput now (g ++ wireFrame (logicalFrame flag addr payload.length svc sub
      payload))).2.1 = [] ∧
    (∀ k, k < (g ++ wireFrame (logicalFrame flag addr payload.length svc sub payload)).length →
      (s._readInput now ((g ++ wireFrame (logicalFrame flag addr payload.length svc sub
        payload)).take k)).2.2 = false) ∧
    (s._readInput now (g ++ wireFrame (logicalFrame flag addr payload.length svc sub
      payload))).1._frameBuffer = logicalFrame flag addr payload.length svc sub payload ++
        List.replicate (frameBufferSize -
          (logicalFrame flag addr payload.length svc sub payload).length) 0 ∧
    (s._readInput now (g ++ wireFrame (logicalFrame flag addr payload.length svc sub
      payload))).1._frameChecksum = ccitt (logicalFrame flag addr payload.length svc sub payload) ∧
    (∀ k, (s._readInput now (g.take k)).1 = s ∧
      (s._readInput now (g.take k)).1._framePosition = 0) := by
  have hread : ∀ bytes, s._readInput now bytes = s.readLoop now bytes := fun bytes =>
    _readInput_eq_readLoop s now bytes (by omega)
  have hq := quietRun_garbage s now hpos g hg
  obtain ⟨s1, h1, h2, h3, -, -, -, -, -, h9⟩ := readLoop_valid_frame s now flag addr svc sub
    payload hpos hn hacc
  have hfull : s.readLoop now (g ++ wireFrame (logicalFrame flag addr payload.length svc sub
      payload)) = (s1, [], true) := by
    rw [readLoop_quiet s s now g _ hq, h1]
  have hgk : ∀ k, s.readLoop now (g.take k) = (s, [], false) := by
    intro k
    exact readLoop_quiet_nil s s now _
      (quietRun_garbage s now hpos (g.take k) (fun b hb => hg b (List.mem_of_mem_take hb)))
  refine ⟨?_, ?_, ?_, ?_, ?_, ?_⟩
  · rw [hread, hfull]
  · rw [hread, hfull]
  · intro k hk
    rw [hread]
    by_cases hkg : k ≤ g.length
    · rw [List.take_append_of_le_length hkg, hgk]
    · have hk2 : k - g.length < (wireFrame (logicalFrame flag addr payload.length svc sub
          payload)).length := by
        simp only [List.length_append] at hk; omega
      obtain ⟨s2, h⟩ := h9 (k - g.length) hk2
      rw [List.take_append_eq_append_take, List.take_of_length_le (by omega),
        readLoop_quiet s s now g _ hq, h]
  · rw [hread, hfull, h2]; rfl
  · rw [hread, hfull, h3]
  · intro k
    rw [hread, hgk]
    exact ⟨rfl, hpos⟩

set_option maxRecDepth 100000 in
/-- Witness for C6: slave 0x05 reads three bytes of noise and then the frame of scenario 1. -/
theorem C6_resync_from_garbage_witness :
    (afterBegin 0x05)._framePosition = 0 ∧
    ((afterBegin 0x05)._readInput 0 ([0x00, 0x55, 0xCC] ++
      wireFrame (logicalFrame 0x40 0x05 2 0x10 0x01 [0xDE, 0xAD]))).2.2 = true :=
  have h := C6_resync_from_garbage (afterBegin 0x05) 0 0x40 0x05 0x10 0x01 [0x00, 0x55, 0xCC]
    [0xDE, 0xAD] (by decide) (by decide) (by decide) (Or.inr (by decide))
  ⟨by decide, h.1⟩

end gnMsup1

namespace gnMsup1

/-- The receiver after START1, START2, a flag byte and an address byte. -/
theorem quietRun_stale_start (s : gnMsup1) (t0 flag0 addr0 : Nat) (hpos : s._framePosition = 0) :
    s.quietRun t0 [0xAA, 0x55, flag0, addr0] =
      some (s.midFrame t0 ([flag0, addr0] ++ List.replicate 11 0) 4 0) := by
  simp [quietRun, readInputByte, hpos, _resetAndStartFrame, _resetFramebuffer, nextPosition,
    setFrameByte, frameBufferSize, GNMSUP1_FRAMESTART1, GNMSUP1_FRAMESTART2,
    GNMSUP1_FRAMEBUF_FLAG, GNMSUP1_FRAMEBUF_ADDRESS, GNMSUP1_FRAMEBUF_PAYLOADSTART,
    GNMSUP1_MAXPAYLOADBUFFER, List.replicate, midFrame]

/-- C7 (interrupted frame recovery). A receiver at frame position 0 consumes START1, START2,
a flag byte and an address byte at clock value `t0` and is then at frame position 4. If the
next call of `_readInput` happens at a clock value `now` with `now - t0 > _frameTimeout`, the
call first sets the frame position to 0 (it is at 0 also when the stream is empty), and a
complete valid frame for this receiver that is then in the stream is accepted: `_readInput`
returns `true` on its last byte and on no byte before it, and the frame buffer and the
checksum are those of the new frame, whatever the stale flag and address bytes were. -/
theorem C7_interrupted_frame_recovery (s : gnMsup1)
    (t0 now flag0 addr0 flag addr svc sub : Nat) (payload : List Nat)
    (hpos : s._framePosition = 0) (hn : payload.length ≤ GNMSUP1_MAXPAYLOADBUFFER)
    (hacc : s._ownsMasterRole = true ∨
      (addr = s._address ∧ bitRead flag GNMSUP1_FRAMEFLAG_DIRECTION = false))
    (hto : sub32 now t0 > s._frameTimeout) :
    (s._readInput t0 [0xAA, 0x55, flag0, addr0]).2.2 = false ∧
    (s._readInput t0 [0xAA, 0x55, flag0, addr0]).1._framePosition = 4 ∧
    ((s._readInput t0 [0xAA, 0x55, flag0, addr0]).1._readInput now []).1._framePosition = 0 ∧
    (∀ bytes, (s._readInput t0 [0xAA, 0x55, flag0, addr0]).1._readInput now bytes =
      ((s._readInput t0 [0xAA, 0x55, flag0, addr0]).1._resetAndStartFrame
        (GNMSUP1_FRAMESTART1 + 1)).readLoop now bytes) ∧
    ((s._readInput t0 [0xAA, 0x55, flag0, addr0]).1._readInput now
      (wireFrame (logicalFrame flag addr payload.length svc sub payload))).2.2 = true ∧
    ((s._readInput t0 [0xAA, 0x55, flag0, addr0]).1._readInput now
      (wireFrame (logicalFrame flag addr payload.length svc sub payload))).2.1 = [] ∧
    (∀ k, k < (wireFrame (logicalFrame flag addr payload.length svc sub payload)).length →
      ((s._readInput t0 [0xAA, 0x55, flag0, addr0]).1._readInput now
        ((wireFrame (logicalFrame flag addr payload.length svc sub payload)).take k)).2.2
        = false) ∧
    ((s._readInput t0 [0xAA, 0x55, flag0, addr0]).1._readInput now
      (wireFrame (logicalFrame flag addr payload.length svc sub payload))).1._frameBuffer =
      logicalFrame flag addr payload.length svc sub payload ++ List.replicate
        (frameBufferSize - (logicalFrame flag addr payload.length svc sub payload).length) 0 ∧
    ((s._readInput t0 [0xAA, 0x55, flag0, addr0]).1._readInput now
      (wireFrame (logicalFrame flag addr payload.length svc sub payload))).1._frameChecksum =
      ccitt (logicalFrame flag addr payload.length svc sub payload) := by
  have h0 : s._readInput t0 [0xAA, 0x55, flag0, addr0] =
      (s.midFrame t0 ([flag0, addr0] ++ List.replicate 11 0) 4 0, [], false) := by
    rw [_readInput_eq_readLoop s t0 _ (by omega)]
    exact readLoop_quiet_nil _ _ _ _ (quietRun_stale_start s t0 flag0 addr0 hpos)
  rw [h0]
  have hreset : ∀ bytes, (s.midFrame t0 ([flag0, addr0] ++ List.replicate 11 0) 4 0)._readInput
      now bytes = (s.midFrame t0 ([flag0, addr0] ++ List.replicate 11 0) 0 0).readLoop
      now bytes := by
    intro bytes
    simp [_readInput, midFrame, hto, _resetAndStartFrame, GNMSUP1_FRAMESTART1]
  obtain ⟨s1, h1, h2, h3, -, -, -, -, -, h9⟩ := readLoop_valid_frame
    (s.midFrame t0 ([flag0, addr0] ++ List.replicate 11 0) 0 0) now flag addr svc sub
    payload rfl hn hacc
  refine ⟨rfl, rfl, ?_, ?_, ?_, ?_, ?_, ?_, ?_⟩
  · rw [hreset]; rfl
  · intro bytes
    rw [hreset]
    simp [midFrame, _resetAndStartFrame, GNMSUP1_FRAMESTART1]
  · rw [hreset, h1]
  · rw [hreset, h1]
  · intro k hk
    obtain ⟨s2, h⟩ := h9 k hk
    rw [hreset, h]
  · rw [hreset, h1, h2]; rfl
  · rw [hreset, h1, h3]

set_option maxRecDepth 100000 in
/-- Witness for C7: slave 0x05 gets the start of a frame for address 0x77 at clock value 0 and
the frame of scenario 1 at clock value 47, one millisecond after the timeout of 46 ms. -/
theorem C7_interrupted_frame_recovery_witness :
    (afterBegin 0x05)._framePosition = 0 ∧ sub32 47 0 > (afterBegin 0x05)._frameTimeout ∧
    (((afterBegin 0x05)._readInput 0 [0xAA, 0x55, 0x70, 0x77]).1._readInput 47
      (wireFrame (logicalFrame 0x40 0x05 2 0x10 0x01 [0xDE, 0xAD]))).2.2 = true :=
  have h := C7_interrupted_frame_recovery (afterBegin 0x05) 0 47 0x70 0x77 0x40 0x05 0x10 0x01
    [0xDE, 0xAD] (by decide) (by decide) (Or.inr (by decide)) (by decide)
  ⟨by decide, by decide, h.2.2.2.2.1⟩

end gnMsup1

namespace gnMsup1

/-! ## Dispatch -/

theorem setFrameByte_invoked (s : gnMsup1) (i v : Nat) :
    (s.setFrameByte i v).invoked = s.invoked := by
  unfold setFrameByte
  split <;> rfl

theorem storeLoop_invoked (payload : List Nat) (k : Nat) (s : gnMsup1) :
    ((List.range k).foldl (fun st i =>
      st.setFrameByte (GNMSUP1_FRAMEBUF_PAYLOADSTART + i) (payload.getD i 0)) s).invoked =
      s.invoked := by
  induction k with
  | zero => rfl
  | succ k ih =>
    rw [List.range_succ, List.foldl_append]
    simp only [List.foldl_cons, List.foldl_nil]
    rw [setFrameByte_invoked, ih]

theorem buildFrame_invoked (s : gnMsup1) (address serviceNumber subserviceNumber : Nat)
    (serviceFlag pushFlag commitReceivedFlag : Bool) (payload : List Nat) (payloadSize : Nat) :
    (s.buildFrame address serviceNumber subserviceNumber serviceFlag pushFlag
      commitReceivedFlag payload payloadSize).1.invoked = s.invoked := by
  unfold buildFrame
  cases serviceFlag
  · simp only [Bool.false_eq_true, if_false, setFrameByte_invoked]
    rfl
  · simp only [if_true, storeLoop_invoked, setFrameByte_invoked]
    rfl

theorem emitFrame_invoked (s : gnMsup1) (now address serviceNumber subserviceNumber : Nat)
    (serviceFlag pushFlag commitReceivedFlag : Bool) (payload : List Nat) (payloadSize : Nat) :
    (s.emitFrame now address serviceNumber subserviceNumber serviceFlag pushFlag
      commitReceivedFlag payload payloadSize).invoked = s.invoked := by
  have hB := buildFrame_invoked s address serviceNumber subserviceNumber serviceFlag pushFlag
    commitReceivedFlag payload payloadSize
  unfold emitFrame
  generalize s.buildFrame address serviceNumber subserviceNumber serviceFlag pushFlag
    commitReceivedFlag payload payloadSize = p at hB
  obtain ⟨s1, len⟩ := p
  simp only at hB ⊢
  split_ifs <;> exact hB

theorem sendFrameBody_invoked (retryCall : gnMsup1 → gnMsup1 × Bool) (wait : gnMsup1 → gnMsup1)
    (hretry : ∀ st, (retryCall st).1.invoked = st.invoked)
    (hwait : ∀ st, (wait st).invoked = st.invoked)
    (s : gnMsup1) (a : Attempt) (address serviceNumber subserviceNumber : Nat)
    (serviceFlag pushFlag waitForPushAnswer commitReceivedFlag retryOnCrFailure : Bool)
    (payload : List Nat) (payloadSize : Nat) :
    (sendFrameBody retryCall wait s a address serviceNumber subserviceNumber serviceFlag
      pushFlag waitForPushAnswer commitReceivedFlag retryOnCrFailure payload
      payloadSize).1.invoked = s.invoked := by
  have hE := emitFrame_invoked s a.now address serviceNumber subserviceNumber serviceFlag
    pushFlag commitReceivedFlag payload payloadSize
  unfold sendFrameBody
  generalize s.emitFrame a.now address serviceNumber subserviceNumber serviceFlag
    pushFlag commitReceivedFlag payload payloadSize = e at hE ⊢
  have hA := (_markActive_frame e address).2.2.2.2.2.2
  have hI2 := (_markIgnore_frame
    { e with _lastComError := ⟨ComErrorCode.Err_CRTimeout, address⟩ } address).2.2.2.2.2.2
  by_cases hq : s._queryIgnore address = true
  · simp [hq]
  · simp only [hq, if_false]
    cases commitReceivedFlag
    · simp only [Bool.false_eq_true, if_false]
      split_ifs <;> first
        | exact hE
        | simp [hwait, hE]
    · simp only [if_true]
      rcases a.reply with _ | ⟨c0, _ | ⟨c1, rest⟩⟩ <;> simp only [] <;> split_ifs <;> first
        | exact hE
        | (rw [hretry]; exact hE)
        | (rw [hI2]; exact hE)
        | (simp only [hwait]; rw [hA]; exact hE)
        | simp_all

theorem _sendFrame_invoked (s : gnMsup1) (first second : Attempt)
    (address serviceNumber subserviceNumber : Nat)
    (serviceFlag pushFlag waitForPushAnswer commitReceivedFlag retryOnCrFailure : Bool)
    (payload : List Nat) (payloadSize : Nat) :
    (s._sendFrame id first second address serviceNumber subserviceNumber serviceFlag
      pushFlag waitForPushAnswer commitReceivedFlag retryOnCrFailure payload
      payloadSize).1.invoked = s.invoked := by
  unfold _sendFrame
  apply sendFrameBody_invoked
  · intro st
    apply sendFrameBody_invoked
    · intro _; rfl
    · intro _; rfl
  · intro _; rfl

theorem _handleSystemService_invoked (s : gnMsup1) (a : Attempt) (pushFlag : Bool) :
    (s._handleSystemService a pushFlag).1.invoked = s.invoked := by
  unfold _handleSystemService
  simp only []
  split_ifs <;> first
    | rfl
    | exact _sendFrame_invoked _ _ _ _ _ _ _ _ _ _ _ _ _

theorem answerPushClearance_invoked (s : gnMsup1) (a : Attempt) :
    (s.answerPushClearance a).invoked = s.invoked := by
  unfold answerPushClearance
  simp only []
  split_ifs <;> first
    | rfl
    | exact _sendFrame_invoked _ _ _ _ _ _ _ _ _ _ _ _ _

/-- The callbacks invoked by `_processFrame` are those invoked by its dispatch part. -/
theorem _processFrame_invoked (s : gnMsup1) (a : Attempt) :
    (s._processFrame a).invoked = (s.dispatchService a).1.invoked := by
  unfold _processFrame
  rcases s.dispatchService a with ⟨s1, pushFlag⟩
  simp only []
  split_ifs <;> first
    | rfl
    | exact answerPushClearance_invoked _ _

theorem find_range_none (p : Nat → Bool) (N : Nat) (h : ∀ j, j < N → p j = false) :
    (List.range N).find? p = none := by
  rw [List.find?_eq_none]
  intro x hx
  simp [h x (List.mem_range.mp hx)]

theorem find_range_first (p : Nat → Bool) (N i : Nat) (hi : i < N) (hp : p i = true)
    (hmin : ∀ j, j < i → p j = false) : (List.range N).find? p = some i := by
  induction N with
  | zero => omega
  | succ N ih =>
    rw [List.range_succ, List.find?_append]
    by_cases h : i < N
    · rw [ih h]; rfl
    · have hiN : i = N := by omega
      subst hiN
      rw [find_range_none p i hmin]
      simp [hp]

end gnMsup1

namespace gnMsup1

theorem _markActive_stores (s : gnMsup1) (address : Nat) :
    (s._markActive address)._callbackStore = s._callbackStore ∧
    (s._markActive address)._callbackStoreNextFree = s._callbackStoreNextFree ∧
    (s._markActive address)._callbackCatchAllHandler = s._callbackCatchAllHandler ∧
    (s._markActive address)._callbackCatchAllActive = s._callbackCatchAllActive ∧
    (s._markActive address)._pushStore = s._pushStore := by
  unfold _markActive
  split <;> simp

/-- The members that `_validateFrame` does not touch. -/
theorem _validateFrame_stores (s : gnMsup1) :
    s._validateFrame.1._callbackStore = s._callbackStore ∧
    s._validateFrame.1._callbackStoreNextFree = s._callbackStoreNextFree ∧
    s._validateFrame.1._callbackCatchAllHandler = s._callbackCatchAllHandler ∧
    s._validateFrame.1._callbackCatchAllActive = s._callbackCatchAllActive ∧
    s._validateFrame.1._pushStore = s._pushStore := by
  have hm := _markActive_stores s (s.frameByte GNMSUP1_FRAMEBUF_ADDRESS)
  unfold _validateFrame
  generalize s._markActive (s.frameByte GNMSUP1_FRAMEBUF_ADDRESS) = s1 at *
  simp only []
  split_ifs <;> first
    | exact ⟨rfl, rfl, rfl, rfl, rfl⟩
    | exact hm

/-- The copy of the payload that `_processFrame` hands to a callback. -/
theorem payload_copy (flag addr svc sub : Nat) (payload zs : List Nat) :
    (List.range payload.length).map (fun k =>
      ([flag, addr, payload.length, svc, sub] ++ payload ++ zs).getD
        (GNMSUP1_FRAMEBUF_PAYLOADSTART + k) 0) = payload := by
  apply List.ext_getElem
  · simp
  · intro i h1 h2
    have h3 : i < payload.length := by simpa using h1
    simp only [List.getElem_map, List.getElem_range, GNMSUP1_FRAMEBUF_PAYLOADSTART,
      List.getD_eq_getElem?_getD]
    have : ([flag, addr, payload.length, svc, sub] ++ payload ++ zs)[5 + i]? = some payload[i] := by
      rw [List.append_assoc, List.getElem?_append_right (by simp)]
      simp only [List.length_cons, List.length_nil]
      rw [show 5 + i - (0 + 1 + 1 + 1 + 1 + 1) = i by omega,
        List.getElem?_append_left h3, List.getElem?_eq_getElem h3]
    rw [this]; rfl

end gnMsup1

namespace gnMsup1

/-- A frame without the service bit invokes no callback. -/
theorem _processFrame_no_service (s : gnMsup1) (a : Attempt)
    (h : bitRead (s.frameByte GNMSUP1_FRAMEBUF_FLAG) GNMSUP1_FRAMEFLAG_SERVICE = false) :
    (s._processFrame a).invoked = s.invoked := by
  rw [_processFrame_invoked]
  simp [dispatchService, h]

/-- A frame of the system service invokes no callback. -/
theorem _processFrame_system (s : gnMsup1) (a : Attempt)
    (h : s.frameByte GNMSUP1_FRAMEBUF_SERVICE = GNMSUP1_SYSTEMSERVICENUMBER) :
    (s._processFrame a).invoked = s.invoked := by
  rw [_processFrame_invoked]
  unfold dispatchService
  rw [h]
  simp only [beq_self_eq_true, if_true]
  split_ifs
  · exact _handleSystemService_invoked _ _ _
  · rfl

/-- A service frame whose service number is first found at index `i` of the service table
invokes the handler stored there. -/
theorem _processFrame_registered (s : gnMsup1) (a : Attempt)
    (hstore : s._callbackStoreNextFree ≤ 255)
    (hsvc : bitRead (s.frameByte GNMSUP1_FRAMEBUF_FLAG) GNMSUP1_FRAMEFLAG_SERVICE = true)
    (hne : s.frameByte GNMSUP1_FRAMEBUF_SERVICE ≠ GNMSUP1_SYSTEMSERVICENUMBER)
    (i : Nat) (hi : i < s._callbackStoreNextFree)
    (heq : (s._callbackStore.getD i ⟨0, 0⟩).serviceNumber =
      s.frameByte GNMSUP1_FRAMEBUF_SERVICE)
    (hmin : ∀ j, j < i → (s._callbackStore.getD j ⟨0, 0⟩).serviceNumber ≠
      s.frameByte GNMSUP1_FRAMEBUF_SERVICE) :
    (s._processFrame a).invoked = s.invoked ++ [Invocation.service
      (s._callbackStore.getD i ⟨0, 0⟩).serviceHandler
      (s.frameByte GNMSUP1_FRAMEBUF_SUBSERVICE)
      ((List.range (s.frameByte GNMSUP1_FRAMEBUF_PAYLOADSIZE)).map
        (fun k => s.frameByte (GNMSUP1_FRAMEBUF_PAYLOADSTART + k)))
      (s.frameByte GNMSUP1_FRAMEBUF_PAYLOADSIZE)
      (s.frameByte GNMSUP1_FRAMEBUF_ADDRESS)] := by
  rw [_processFrame_invoked]
  have hfind : s._getCallbackStoreNr (s.frameByte GNMSUP1_FRAMEBUF_SERVICE) = i := by
    unfold _getCallbackStoreNr
    rw [find_range_first _ _ i hi (by simpa using heq) (fun j hj => by simpa using hmin j hj)]
  have hi255 : i ≠ GNMSUP1_NOTINSTORE := by
    simp only [GNMSUP1_NOTINSTORE]; omega
  simp [dispatchService, hsvc, hne, hfind, hi255]

/-- A service frame whose service number is not in the service table invokes the catch-all
handler if one is attached, and nothing otherwise. -/
theorem _processFrame_unregistered (s : gnMsup1) (a : Attempt)
    (hsvc : bitRead (s.frameByte GNMSUP1_FRAMEBUF_FLAG) GNMSUP1_FRAMEFLAG_SERVICE = true)
    (hne : s.frameByte GNMSUP1_FRAMEBUF_SERVICE ≠ GNMSUP1_SYSTEMSERVICENUMBER)
    (hnone : ∀ j, j < s._callbackStoreNextFree →
      (s._callbackStore.getD j ⟨0, 0⟩).serviceNumber ≠ s.frameByte GNMSUP1_FRAMEBUF_SERVICE) :
    (s._callbackCatchAllActive = true →
      (s._processFrame a).invoked = s.invoked ++ [Invocation.catchAll
        s._callbackCatchAllHandler
        (s.frameByte GNMSUP1_FRAMEBUF_SERVICE)
        (s.frameByte GNMSUP1_FRAMEBUF_SUBSERVICE)
        ((List.range (s.frameByte GNMSUP1_FRAMEBUF_PAYLOADSIZE)).map
          (fun k => s.frameByte (GNMSUP1_FRAMEBUF_PAYLOADSTART + k)))
        (s.frameByte GNMSUP1_FRAMEBUF_PAYLOADSIZE)
        (s.frameByte GNMSUP1_FRAMEBUF_ADDRESS)]) ∧
    (s._callbackCatchAllActive = false → (s._processFrame a).invoked = s.invoked) := by
  rw [_processFrame_invoked]
  have hfind : s._getCallbackStoreNr (s.frameByte GNMSUP1_FRAMEBUF_SERVICE) =
      GNMSUP1_NOTINSTORE := by
    unfold _getCallbackStoreNr
    rw [find_range_none _ _ (fun j hj => by simpa using hnone j hj)]
  refine ⟨?_, ?_⟩
  · intro hc
    simp [dispatchService, hsvc, hne, hfind, hc]
  · intro hc
    simp [dispatchService, hsvc, hne, hfind, hc]

/-- C8 (dispatch selection). `_processFrame` on a frame with the service bit set and a service
number other than 0xFF invokes the handler of the first entry of the service table that holds
this service number, and not the catch-all; if no entry holds it, it invokes the catch-all
handler when one is attached and no handler otherwise. In each case at most one callback is
invoked. A frame with the service bit clear and a frame with service 0xFF invoke no callback.
(`_callbackStoreNextFree` is a `uint8_t`, hence at most 255.) -/
theorem C8_dispatch_selection (s : gnMsup1) (a : Attempt)
    (hstore : s._callbackStoreNextFree ≤ 255) :
    (bitRead (s.frameByte GNMSUP1_FRAMEBUF_FLAG) GNMSUP1_FRAMEFLAG_SERVICE = false →
      (s._processFrame a).invoked = s.invoked) ∧
    (s.frameByte GNMSUP1_FRAMEBUF_SERVICE = GNMSUP1_SYSTEMSERVICENUMBER →
      (s._processFrame a).invoked = s.invoked) ∧
    (bitRead (s.frameByte GNMSUP1_FRAMEBUF_FLAG) GNMSUP1_FRAMEFLAG_SERVICE = true →
     s.frameByte GNMSUP1_FRAMEBUF_SERVICE ≠ GNMSUP1_SYSTEMSERVICENUMBER →
      (∀ i, i < s._callbackStoreNextFree →
        (s._callbackStore.getD i ⟨0, 0⟩).serviceNumber = s.frameByte GNMSUP1_FRAMEBUF_SERVICE →
        (∀ j, j < i → (s._callbackStore.getD j ⟨0, 0⟩).serviceNumber ≠
          s.frameByte GNMSUP1_FRAMEBUF_SERVICE) →
        (s._processFrame a).invoked = s.invoked ++ [Invocation.service
          (s._callbackStore.getD i ⟨0, 0⟩).serviceHandler
          (s.frameByte GNMSUP1_FRAMEBUF_SUBSERVICE)
          ((List.range (s.frameByte GNMSUP1_FRAMEBUF_PAYLOADSIZE)).map
            (fun k => s.frameByte (GNMSUP1_FRAMEBUF_PAYLOADSTART + k)))
          (s.frameByte GNMSUP1_FRAMEBUF_PAYLOADSIZE)
          (s.frameByte GNMSUP1_FRAMEBUF_ADDRESS)]) ∧
      ((∀ j, j < s._callbackStoreNextFree → (s._callbackStore.getD j ⟨0, 0⟩).serviceNumber ≠
          s.frameByte GNMSUP1_FRAMEBUF_SERVICE) →
        (s._callbackCatchAllActive = true →
          (s._processFrame a).invoked = s.invoked ++ [Invocation.catchAll
            s._callbackCatchAllHandler
            (s.frameByte GNMSUP1_FRAMEBUF_SERVICE)
            (s.frameByte GNMSUP1_FRAMEBUF_SUBSERVICE)
            ((List.range (s.frameByte GNMSUP1_FRAMEBUF_PAYLOADSIZE)).map
              (fun k => s.frameByte (GNMSUP1_FRAMEBUF_PAYLOADSTART + k)))
            (s.frameByte GNMSUP1_FRAMEBUF_PAYLOADSIZE)
            (s.frameByte GNMSUP1_FRAMEBUF_ADDRESS)]) ∧
        (s._callbackCatchAllActive = false → (s._processFrame a).invoked = s.invoked))) := by
  exact ⟨_processFrame_no_service s a, _processFrame_system s a,
    fun hsvc hne => ⟨fun i hi heq hmin =>
      _processFrame_registered s a hstore hsvc hne i hi heq hmin,
      _processFrame_unregistered s a hsvc hne⟩⟩

set_option maxRecDepth 100000 in
/-- Witness for C8: slave 0x05 with a handler (number 77) attached for service 0x10 reads the
frame of scenario 1 and processes it. -/
theorem C8_dispatch_selection_witness :
    ((afterBegin 0x05).attachService 0x10 77).1._callbackStoreNextFree ≤ 255 ∧
    ((((afterBegin 0x05).attachService 0x10 77).1._readInput 0
      (wireFrame (logicalFrame 0x40 0x05 2 0x10 0x01 [0xDE, 0xAD]))).1._processFrame
        ⟨0, []⟩).invoked.length = 1 :=
  have h := C8_dispatch_selection
    (((afterBegin 0x05).attachService 0x10 77).1._readInput 0
      (wireFrame (logicalFrame 0x40 0x05 2 0x10 0x01 [0xDE, 0xAD]))).1 ⟨0, []⟩ (by decide)
  ⟨by decide, (congrArg List.length
    ((h.2.2 (by decide) (by decide)).1 0 (by decide) (by decide)
      (fun j hj => absurd hj (Nat.not_lt_zero j)))).trans (by decide)⟩

end gnMsup1

namespace gnMsup1

theorem finishFrame_accept (s : gnMsup1) (b : Nat) (h : s._validateFrame.2 = true) :
    (s.finishFrame b).1 = s._validateFrame.1 := by
  unfold finishFrame
  rcases hx : s._validateFrame with ⟨s1, _ | _⟩
  · rw [hx] at h; simp at h
  · rfl

/-- The state in which `_readInput` returns `true` for a frame that passes the filters. -/
theorem readLoop_accept (s : gnMsup1) (now flag addr svc sub : Nat) (payload : List Nat)
    (hpos : s._framePosition = 0) (hn : payload.length ≤ 8)
    (hacc : s._ownsMasterRole = true ∨ (addr = s._address ∧ bitRead flag 7 = false)) :
    s.readLoop now (wireFrame (logicalFrame flag addr payload.length svc sub payload)) =
      ((s.received now (logicalFrame flag addr payload.length svc sub payload)
          (ccitt (logicalFrame flag addr payload.length svc sub payload)))._validateFrame.1,
        [], true) := by
  obtain ⟨h1, h2, -, -⟩ := readLoop_wireFrame s now flag addr svc sub payload hpos hn
  rw [h1, h2.mpr hacc, finishFrame_accept _ _ (h2.mpr hacc)]

set_option maxRecDepth 100000 in
/-- C9 (handler arguments), as the code has it. When a slave with address A accepts a
master-to-slave service frame whose service number is first found at index `i` of the service
table, the handler stored there is invoked once, with the subservice of the frame, a copy of
its payload bytes, its payload size and, as source address, the address byte of the frame,
which is the own address A of the slave. For the frame `40 05 02 10 01 DE AD` received by
slave 0x05 with a handler for service 0x10 the handler receives subservice 0x01, payload
`DE AD`, size 2 and source address 0x05. -/
theorem C9_handler_arguments (s : gnMsup1) (a : Attempt) (flag svc sub handler i : Nat)
    (payload : List Nat)
    (hpos : s._framePosition = 0) (hstore : s._callbackStoreNextFree ≤ 255)
    (hn : payload.length ≤ GNMSUP1_MAXPAYLOADBUFFER)
    (hs : bitRead flag GNMSUP1_FRAMEFLAG_SERVICE = true)
    (hd : bitRead flag GNMSUP1_FRAMEFLAG_DIRECTION = false)
    (hne : svc ≠ GNMSUP1_SYSTEMSERVICENUMBER)
    (hi : i < s._callbackStoreNextFree)
    (hreg : s._callbackStore.getD i ⟨0, 0⟩ = ⟨svc, handler⟩)
    (hmin : ∀ j, j < i → (s._callbackStore.getD j ⟨0, 0⟩).serviceNumber ≠ svc) :
    (s.readAndProcess a (wireFrame (logicalFrame flag s._address payload.length svc sub
      payload))).1.invoked =
      s.invoked ++ [Invocation.service handler sub payload payload.length s._address] ∧
    (((afterBegin 0x05).attachService 0x10 77).1.readAndProcess ⟨0, []⟩
      [0xAA, 0x55, 0x40, 0x05, 0x02, 0x10, 0x01, 0xDE, 0xAD, 0x55, 0x58, 0xCC, 0x33]).1.invoked =
      [Invocation.service 77 0x01 [0xDE, 0xAD] 2 0x05] := by
  constructor
  · have hacc := readLoop_accept s a.now flag s._address svc sub payload hpos hn
      (Or.inr ⟨rfl, hd⟩)
    obtain ⟨-, hbuf, -, -, -, -, hinv, -⟩ := _validateFrame_cases
      (s.received a.now (logicalFrame flag s._address payload.length svc sub payload)
        (ccitt (logicalFrame flag s._address payload.length svc sub payload)))
    obtain ⟨hcs, hnf, -, -, -⟩ := _validateFrame_stores
      (s.received a.now (logicalFrame flag s._address payload.length svc sub payload)
        (ccitt (logicalFrame flag s._address payload.length svc sub payload)))
    have hL : logicalFrame flag s._address payload.length svc sub payload =
        [flag, s._address, payload.length, svc, sub] ++ payload := by
      simp [logicalFrame, hs]
    unfold readAndProcess
    rw [_readInput_eq_readLoop s a.now _ (by omega), hacc]
    simp only []
    generalize hv : (s.received a.now (logicalFrame flag s._address payload.length svc sub
      payload) (ccitt (logicalFrame flag s._address payload.length svc sub
      payload)))._validateFrame.1 = v at *
    have hvb : v._frameBuffer = [flag, s._address, payload.length, svc, sub] ++ payload ++
        List.replicate (frameBufferSize - (5 + payload.length)) 0 := by
      rw [hbuf, received, hL]; simp; omega
    have hb : ∀ k, v.frameByte k = ([flag, s._address, payload.length, svc, sub] ++ payload ++
        List.replicate (frameBufferSize - (5 + payload.length)) 0).getD k 0 := by
      intro k; rw [frameByte, hvb]
    have h0 : v.frameByte GNMSUP1_FRAMEBUF_FLAG = flag := by rw [hb]; rfl
    have h1 : v.frameByte GNMSUP1_FRAMEBUF_ADDRESS = s._address := by rw [hb]; rfl
    have h2 : v.frameByte GNMSUP1_FRAMEBUF_PAYLOADSIZE = payload.length := by rw [hb]; rfl
    have h3 : v.frameByte GNMSUP1_FRAMEBUF_SERVICE = svc := by rw [hb]; rfl
    have h4 : v.frameByte GNMSUP1_FRAMEBUF_SUBSERVICE = sub := by rw [hb]; rfl
    have hcopy : (List.range (v.frameByte GNMSUP1_FRAMEBUF_PAYLOADSIZE)).map
        (fun k => v.frameByte (GNMSUP1_FRAMEBUF_PAYLOADSTART + k)) = payload := by
      rw [h2]
      simp only [hb]
      exact payload_copy flag s._address svc sub payload _
    have hcs2 : v._callbackStore = s._callbackStore := by rw [hcs]; rfl
    have hnf2 : v._callbackStoreNextFree = s._callbackStoreNextFree := by rw [hnf]; rfl
    have hinv2 : v.invoked = s.invoked := by rw [hinv]; rfl
    have h := _processFrame_registered v a (by rw [hnf2]; exact hstore) (by rw [h0]; exact hs)
      (by rw [h3]; exact hne) i (by rw [hnf2]; exact hi) (by rw [hcs2, hreg, h3])
      (fun j hj => by rw [hcs2, h3]; exact hmin j hj)
    rw [h, hcopy, h1, h2, h4, hcs2, hreg, hinv2]
  · decide

set_option maxRecDepth 100000 in
/-- Counterexample for C9 as stated: slave 0x05 with a handler (number 77) for service 0x10
receives `40 05 02 10 01 DE AD` from the master; the handler is invoked with source address
0x05, not 0xFF. -/
theorem C9_handler_arguments_counterexample :
    (((afterBegin 0x05).attachService 0x10 77).1.readAndProcess ⟨0, []⟩
      [0xAA, 0x55, 0x40, 0x05, 0x02, 0x10, 0x01, 0xDE, 0xAD, 0x55, 0x58, 0xCC, 0x33]).1.invoked ≠
      [Invocation.service 77 0x01 [0xDE, 0xAD] 2 0xFF] := by
  decide

set_option maxRecDepth 100000 in
/-- Witness for C9: slave 0x05 with a handler (number 77) for service 0x10 and the frame of
scenario 1. -/
theorem C9_handler_arguments_witness :
    ((afterBegin 0x05).attachService 0x10 77).1._framePosition = 0 ∧
    ((afterBegin 0x05).attachService 0x10 77).1._callbackStore.getD 0 ⟨0, 0⟩ = ⟨0x10, 77⟩ ∧
    (((afterBegin 0x05).attachService 0x10 77).1.readAndProcess ⟨0, []⟩
      (wireFrame (logicalFrame 0x40 0x05 2 0x10 0x01 [0xDE, 0xAD]))).1.invoked =
      [Invocation.service 77 0x01 [0xDE, 0xAD] 2 0x05] :=
  have h := C9_handler_arguments ((afterBegin 0x05).attachService 0x10 77).1 ⟨0, []⟩ 0x40 0x10 0x01
    77 0 [0xDE, 0xAD] (by decide) (by decide) (by decide) (by decide) (by decide) (by decide)
    (by decide) (by decide) (fun j hj => absurd hj (Nat.not_lt_zero j))
  ⟨by decide, by decide, h.1⟩

end gnMsup1

namespace gnMsup1

set_option maxRecDepth 100000 in
/-- C10 (push FIFO), the code at a failing input. Slave 0x05 holds two pending, non-expired
entries: slot 0 enqueued at clock value 1 (subservice 0x00) and slot 1 enqueued at clock value
2 (subservice 0x01). At clock value 3 `_pushStoreNextToSend` returns slot 1, the entry with
the larger timestamp, and the answer to the first push clearance (`20 05`) carries subservice
0x01 with the push bit set; the entry of slot 0 is sent on the second clearance only. -/
theorem C10_push_fifo_failing_input :
    bitRead (twoPushes.pushEntry 0).flags GNMSUP1_PUSHBUFFLAG_PENDING = true ∧
    (twoPushes.pushEntry 0).timestamp = 1 ∧ (twoPushes.pushEntry 0).subserviceNumber = 0x00 ∧
    bitRead (twoPushes.pushEntry 1).flags GNMSUP1_PUSHBUFFLAG_PENDING = true ∧
    (twoPushes.pushEntry 1).timestamp = 2 ∧ (twoPushes.pushEntry 1).subserviceNumber = 0x01 ∧
    twoPushes._pushStoreNextToSend 3 = 1 ∧
    (twoPushes.readAndProcess ⟨3, []⟩ (wireFrame [0x20, 0x05])).1.written =
      wireFrame [0xE0, 0x05, 0x00, 0x20, 0x01] ∧
    ((twoPushes.readAndProcess ⟨3, []⟩ (wireFrame [0x20, 0x05])).1.readAndProcess ⟨4, []⟩
      (wireFrame [0x20, 0x05])).1.written =
      wireFrame [0xE0, 0x05, 0x00, 0x20, 0x01] ++ wireFrame [0xC0, 0x05, 0x00, 0x20, 0x00] := by
  decide

end gnMsup1

/-! ## The CRC detects every change of a single byte -/

theorem crcShift_injective (a b : Nat) (ha : a < 65536) (hb : b < 65536)
    (h : crcShift a = crcShift b) : a = b := by
  unfold crcShift at h
  rw [Nat.mod_eq_of_lt ha, Nat.mod_eq_of_lt hb] at h
  by_cases h1 : 32768 ≤ a <;> by_cases h2 : 32768 ≤ b
  · simp only [h1, h2, if_true] at h
    have := Nat.xor_left_inj.mp h
    omega
  · simp only [h1, h2, if_true, if_false] at h
    have hp := congrArg (· % 2) h
    simp only [Nat.xor_mod_two_eq] at hp
    omega
  · simp only [h1, h2, if_true, if_false] at h
    have hp := congrArg (· % 2) h
    simp only [Nat.xor_mod_two_eq] at hp
    omega
  · simp only [h1, h2, if_false] at h
    omega

theorem crcByte_start_lt (crc byte : Nat) : (crc % 65536) ^^^ ((byte % 256) * 256) < 65536 :=
  Nat.xor_lt_two_pow (n := 16) (Nat.mod_lt _ (by norm_num)) (by omega)

theorem crcShift8_injective (a b : Nat) (ha : a < 65536) (hb : b < 65536)
    (h : crcShift (crcShift (crcShift (crcShift (crcShift (crcShift (crcShift (crcShift a)))))))
      = crcShift (crcShift (crcShift (crcShift (crcShift (crcShift (crcShift (crcShift b))))))))
    : a = b := by
  have l := ccitt_step_lt
  exact crcShift_injective _ _ ha hb (crcShift_injective _ _ (l _) (l _)
    (crcShift_injective _ _ (l _) (l _) (crcShift_injective _ _ (l _) (l _)
    (crcShift_injective _ _ (l _) (l _) (crcShift_injective _ _ (l _) (l _)
    (crcShift_injective _ _ (l _) (l _) (crcShift_injective _ _ (l _) (l _) h)))))))

theorem crcByte_injective_crc (c1 c2 byte : Nat) (h1 : c1 < 65536) (h2 : c2 < 65536)
    (h : crcByte c1 byte = crcByte c2 byte) : c1 = c2 := by
  unfold crcByte at h
  have h3 := crcShift8_injective _ _ (crcByte_start_lt c1 byte) (crcByte_start_lt c2 byte) h
  have h4 := Nat.xor_left_inj.mp h3
  omega

theorem crcByte_injective_byte (crc x y : Nat) (h : crcByte crc x = crcByte crc y) :
    x % 256 = y % 256 := by
  unfold crcByte at h
  have h3 := crcShift8_injective _ _ (crcByte_start_lt crc x) (crcByte_start_lt crc y) h
  have h4 := Nat.xor_right_inj.mp h3
  omega

theorem foldl_crcByte_injective (data : List Nat) (c1 c2 : Nat) (h1 : c1 < 65536)
    (h2 : c2 < 65536) (h : c1 ≠ c2) : data.foldl crcByte c1 ≠ data.foldl crcByte c2 := by
  induction data generalizing c1 c2 with
  | nil => simpa using h
  | cons b rest ih =>
    simp only [List.foldl_cons]
    exact ih _ _ (crcByte_lt c1 b) (crcByte_lt c2 b)
      (fun e => h (crcByte_injective_crc c1 c2 b h1 h2 e))

/-- Two messages that differ in exactly one byte have different CRCs. -/
theorem ccitt_byte_change (front back : List Nat) (x y : Nat) (hxy : x % 256 ≠ y % 256) :
    ccitt (front ++ x :: back) ≠ ccitt (front ++ y :: back) := by
  unfold ccitt
  simp only [List.foldl_append, List.foldl_cons]
  exact foldl_crcByte_injective back _ _ (crcByte_lt _ x) (crcByte_lt _ y)
    (fun e => hxy (crcByte_injective_byte _ x y e))

theorem flip_lt (x j : Nat) (hx : x < 256) (hj : j < 8) : x ^^^ 2 ^ j < 256 := by
  have h2 : 2 ^ j < 2 ^ 8 := Nat.pow_lt_pow_right (by norm_num) hj
  exact Nat.xor_lt_two_pow (n := 8) hx h2

theorem flip_ne (x j : Nat) : x ^^^ 2 ^ j ≠ x := by
  intro h
  have h1 : x ^^^ 2 ^ j = x ^^^ 0 := by simpa using h
  have h2 := Nat.xor_right_inj.mp h1
  have h3 : 0 < 2 ^ j := Nat.pos_pow_of_pos j (by norm_num)
  omega

theorem flip_mod_ne (x j : Nat) (hx : x < 256) (hj : j < 8) :
    (x ^^^ 2 ^ j) % 256 ≠ x % 256 := by
  rw [Nat.mod_eq_of_lt (flip_lt x j hx hj), Nat.mod_eq_of_lt hx]
  exact flip_ne x j

theorem flip_other_bit (x j k : Nat) (hjk : j ≠ k) :
    bitRead (x ^^^ 2 ^ j) k = bitRead x k := by
  unfold bitRead
  rw [Nat.testBit_xor, Nat.testBit_two_pow]
  simp [hjk]

namespace gnMsup1

/-! ## A frame whose checksum bytes do not match is dropped -/

theorem readLoop_bad_crc (s : gnMsup1) (now flag addr svc sub hi lo : Nat) (payload : List Nat)
    (hpos : s._framePosition = 0) (hn : payload.length ≤ 8)
    (hbad : (hi * 256) % 65536 ||| lo ≠
      ccitt (logicalFrame flag addr payload.length svc sub payload)) :
    (s.readLoop now ([0xAA, 0x55] ++ logicalFrame flag addr payload.length svc sub payload
        ++ [hi, lo, 0xCC, 0x33])).2 = ([], false) ∧
    (s.readLoop now ([0xAA, 0x55] ++ logicalFrame flag addr payload.length svc sub payload
        ++ [hi, lo, 0xCC, 0x33])).1._framePosition = 0 ∧
    (s.readLoop now ([0xAA, 0x55] ++ logicalFrame flag addr payload.length svc sub payload
        ++ [hi, lo, 0xCC, 0x33])).1.written = s.written ∧
    (s.readLoop now ([0xAA, 0x55] ++ logicalFrame flag addr payload.length svc sub payload
        ++ [hi, lo, 0xCC, 0x33])).1.invoked = s.invoked ∧
    ∀ k, (s.readLoop now (([0xAA, 0x55] ++ logicalFrame flag addr payload.length svc sub payload
        ++ [hi, lo, 0xCC, 0x33]).take k)).2.2 = false := by
  obtain ⟨h1, h2⟩ := readLoop_frame s now flag addr svc sub hi lo payload hpos hn
  obtain ⟨-, -, ftake⟩ := received_frame s now flag addr svc sub
    ((hi * 256) % 65536 ||| lo) payload
  obtain ⟨hv, -, -, -, -, -, hinv, hw⟩ := _validateFrame_cases
    (s.received now (logicalFrame flag addr payload.length svc sub payload)
      ((hi * 256) % 65536 ||| lo))
  have hrej : (s.received now (logicalFrame flag addr payload.length svc sub payload)
      ((hi * 256) % 65536 ||| lo))._validateFrame.2 = false := by
    rw [← Bool.not_eq_true, hv, ftake]
    intro h
    exact hbad h.1
  obtain ⟨-, fw, fi, fp⟩ := finishFrame_cases
    (s.received now (logicalFrame flag addr payload.length svc sub payload)
      ((hi * 256) % 65536 ||| lo)) 0x33
  rw [h1, hrej]
  refine ⟨rfl, ?_, ?_, ?_, ?_⟩
  · simpa using fp hrej
  · simp only [fw, hw, hrej]
    simp [received]
  · simp only [fi, hinv]
    simp [received]
  · intro k
    by_cases hk : k < ([0xAA, 0x55] ++ logicalFrame flag addr payload.length svc sub payload
        ++ [hi, lo, 0xCC, 0x33]).length
    · obtain ⟨s2, h⟩ := h2 k hk
      rw [h]
    · rw [List.take_of_length_le (by omega), h1, hrej]

theorem split_at (l : List Nat) (k : Nat) (hk : k < l.length) :
    ∃ front x back, l = front ++ x :: back ∧ front.length = k := by
  refine ⟨l.take k, l[k], l.drop (k + 1), ?_, ?_⟩
  · rw [← List.drop_eq_getElem_cons hk, List.take_append_drop]
  · simp; omega

end gnMsup1

namespace gnMsup1

/-! ## Single-bit mutations that keep the layout of the frame -/

theorem flipBit_at (A B : List Nat) (x j k : Nat) (hk : k = A.length) :
    flipBit (A ++ x :: B) k j = A ++ (x ^^^ 2 ^ j) :: B := by
  subst hk
  have h : (A ++ x :: B)[A.length]? = some x := by
    rw [List.getElem?_append_right (Nat.le_refl _)]
    simp
  simp [flipBit, List.getD_eq_getElem?_getD, h]

theorem crc_hi_flip (c j : Nat) (hj : j < 8) :
    ((highByte c ^^^ 2 ^ j) * 256) % 65536 ||| lowByte c ≠ c := by
  rw [checksum_join _ _ (flip_lt _ j (highByte_lt c) hj) (lowByte_lt c)]
  have h1 := flip_ne (highByte c) j
  have h2 := flip_lt _ j (highByte_lt c) hj
  generalize highByte c ^^^ 2 ^ j = v at *
  unfold highByte at h1
  unfold lowByte
  omega

theorem crc_lo_flip (c j : Nat) (hj : j < 8) :
    (highByte c * 256) % 65536 ||| (lowByte c ^^^ 2 ^ j) ≠ c := by
  rw [checksum_join _ _ (highByte_lt c) (flip_lt _ j (lowByte_lt c) hj)]
  have h1 := flip_ne (lowByte c) j
  have h2 := flip_lt _ j (lowByte_lt c) hj
  generalize lowByte c ^^^ 2 ^ j = v at *
  unfold lowByte at h1
  unfold highByte
  omega

theorem crc_data_flip (front back : List Nat) (x j : Nat) (hx : x < 256) (hj : j < 8) :
    (highByte (ccitt (front ++ x :: back)) * 256) % 65536 |||
      lowByte (ccitt (front ++ x :: back)) ≠ ccitt (front ++ (x ^^^ 2 ^ j) :: back) := by
  rw [checksum_join_bytes _ (ccitt_lt _)]
  exact ccitt_byte_change front back x (x ^^^ 2 ^ j) (Ne.symm (flip_mod_ne x j hx hj))

end gnMsup1

namespace gnMsup1

theorem flip_payload_eq (f a n s u hi lo : Nat) (front back : List Nat) (x j : Nat) :
    flipBit ([0xAA, 0x55] ++ ([f, a, n, s, u] ++ (front ++ x :: back)) ++
      [hi, lo, 0xCC, 0x33]) (7 + front.length) j =
    [0xAA, 0x55] ++ ([f, a, n, s, u] ++ (front ++ (x ^^^ 2 ^ j) :: back)) ++
      [hi, lo, 0xCC, 0x33] := by
  have := flipBit_at ([0xAA, 0x55, f, a, n, s, u] ++ front) (back ++ [hi, lo, 0xCC, 0x33])
    x j (7 + front.length) (by simp; omega)
  simpa using this

/-- A flip of one bit between FLAG and CRC_LO, other than the service bit of the flag and the
bits of the payload size, yields bytes with the same layout whose checksum bytes do not match
the logical bytes. -/
theorem flipped_layout (flag addr svc sub : Nat) (payload : List Nat) (i j : Nat)
    (hF : flag < 256) (ha : addr < 256) (hsv : svc < 256) (hsu : sub < 256)
    (hpl : ∀ p ∈ payload, p < 256)
    (hi : 2 ≤ i)
    (hi2 : i < (logicalFrame flag addr payload.length svc sub payload).length + 4)
    (hj : j < 8) (h1 : ¬ (i = 2 ∧ j = 6)) (h2 : ¬ (bitRead flag 6 = true ∧ i = 4)) :
    ∃ flag1 addr1 svc1 sub1 hi1 lo1 payload1, payload1.length = payload.length ∧
      flipBit (wireFrame (logicalFrame flag addr payload.length svc sub payload)) i j =
        [0xAA, 0x55] ++ logicalFrame flag1 addr1 payload1.length svc1 sub1 payload1 ++
          [hi1, lo1, 0xCC, 0x33] ∧
      (hi1 * 256) % 65536 ||| lo1 ≠
        ccitt (logicalFrame flag1 addr1 payload1.length svc1 sub1 payload1) := by
  cases hsvc : bitRead flag 6 with
  | false =>
    have hL : logicalFrame flag addr payload.length svc sub payload = [flag, addr] := by
      simp [logicalFrame, GNMSUP1_FRAMEFLAG_SERVICE, hsvc]
    rw [hL] at hi2 ⊢
    simp only [List.length_cons, List.length_nil] at hi2
    have hcases : i = 2 ∨ i = 3 ∨ i = 4 ∨ i = 5 := by omega
    rcases hcases with rfl | rfl | rfl | rfl
    · have hj6 : j ≠ 6 := fun h => h1 ⟨rfl, h⟩
      have hb : bitRead (flag ^^^ 2 ^ j) 6 = false := by
        rw [flip_other_bit flag j 6 hj6, hsvc]
      refine ⟨flag ^^^ 2 ^ j, addr, svc, sub, highByte (ccitt [flag, addr]),
        lowByte (ccitt [flag, addr]), payload, rfl, ?_, ?_⟩
      · have := flipBit_at [0xAA, 0x55] [addr, highByte (ccitt [flag, addr]),
          lowByte (ccitt [flag, addr]), 0xCC, 0x33] flag j 2 rfl
        simpa [wireFrame, logicalFrame, GNMSUP1_FRAMEFLAG_SERVICE, hb] using this
      · simp only [logicalFrame, GNMSUP1_FRAMEFLAG_SERVICE, hb]
        exact crc_data_flip [] [addr] flag j hF hj
    · refine ⟨flag, addr ^^^ 2 ^ j, svc, sub, highByte (ccitt [flag, addr]),
        lowByte (ccitt [flag, addr]), payload, rfl, ?_, ?_⟩
      · have := flipBit_at [0xAA, 0x55, flag] [highByte (ccitt [flag, addr]),
          lowByte (ccitt [flag, addr]), 0xCC, 0x33] addr j 3 rfl
        simpa [wireFrame, logicalFrame, GNMSUP1_FRAMEFLAG_SERVICE, hsvc] using this
      · simp only [logicalFrame, GNMSUP1_FRAMEFLAG_SERVICE, hsvc]
        exact crc_data_flip [flag] [] addr j ha hj
    · refine ⟨flag, addr, svc, sub, highByte (ccitt [flag, addr]) ^^^ 2 ^ j,
        lowByte (ccitt [flag, addr]), payload, rfl, ?_, ?_⟩
      · have := flipBit_at [0xAA, 0x55, flag, addr] [lowByte (ccitt [flag, addr]), 0xCC, 0x33]
          (highByte (ccitt [flag, addr])) j 4 rfl
        simpa [wireFrame, logicalFrame, GNMSUP1_FRAMEFLAG_SERVICE, hsvc] using this
      · simp only [logicalFrame, GNMSUP1_FRAMEFLAG_SERVICE, hsvc]
        exact crc_hi_flip _ j hj
    · refine ⟨flag, addr, svc, sub, highByte (ccitt [flag, addr]),
        lowByte (ccitt [flag, addr]) ^^^ 2 ^ j, payload, rfl, ?_, ?_⟩
      · have := flipBit_at [0xAA, 0x55, flag, addr, highByte (ccitt [flag, addr])] [0xCC, 0x33]
          (lowByte (ccitt [flag, addr])) j 5 rfl
        simpa [wireFrame, logicalFrame, GNMSUP1_FRAMEFLAG_SERVICE, hsvc] using this
      · simp only [logicalFrame, GNMSUP1_FRAMEFLAG_SERVICE, hsvc]
        exact crc_lo_flip _ j hj
  | true =>
    have hL : ∀ f a s u (p : List Nat), bitRead f 6 = true →
        logicalFrame f a p.length s u p = [f, a, p.length, s, u] ++ p := by
      intro f a s u p h
      simp [logicalFrame, GNMSUP1_FRAMEFLAG_SERVICE, h]
    rw [hL flag addr svc sub payload hsvc] at hi2 ⊢
    simp only [List.length_append, List.length_cons, List.length_nil] at hi2
    have hi4 : i ≠ 4 := fun h => h2 ⟨hsvc, h⟩
    have hcases : i = 2 ∨ i = 3 ∨ i = 5 ∨ i = 6 ∨ (7 ≤ i ∧ i < 7 + payload.length) ∨
        i = 7 + payload.length ∨ i = 8 + payload.length := by omega
    rcases hcases with rfl | rfl | rfl | rfl | ⟨h7, hlt⟩ | rfl | rfl
    · have hj6 : j ≠ 6 := fun h => h1 ⟨rfl, h⟩
      have hb : bitRead (flag ^^^ 2 ^ j) 6 = true := by
        rw [flip_other_bit flag j 6 hj6, hsvc]
      refine ⟨flag ^^^ 2 ^ j, addr, svc, sub,
        highByte (ccitt ([flag, addr, payload.length, svc, sub] ++ payload)),
        lowByte (ccitt ([flag, addr, payload.length, svc, sub] ++ payload)), payload, rfl,
        ?_, ?_⟩
      · rw [hL _ addr svc sub payload hb]
        have := flipBit_at [0xAA, 0x55] ([addr, payload.length, svc, sub] ++ payload ++
          [highByte (ccitt ([flag, addr, payload.length, svc, sub] ++ payload)),
          lowByte (ccitt ([flag, addr, payload.length, svc, sub] ++ payload)), 0xCC, 0x33])
          flag j 2 rfl
        simpa [wireFrame] using this
      · rw [hL _ addr svc sub payload hb]
        exact crc_data_flip [] ([addr, payload.length, svc, sub] ++ payload) flag j hF hj
    · refine ⟨flag, addr ^^^ 2 ^ j, svc, sub,
        highByte (ccitt ([flag, addr, payload.length, svc, sub] ++ payload)),
        lowByte (ccitt ([flag, addr, payload.length, svc, sub] ++ payload)), payload, rfl,
        ?_, ?_⟩
      · rw [hL flag _ svc sub payload hsvc]
        have := flipBit_at [0xAA, 0x55, flag] ([payload.length, svc, sub] ++ payload ++
          [highByte (ccitt ([flag, addr, payload.length, svc, sub] ++ payload)),
          lowByte (ccitt ([flag, addr, payload.length, svc, sub] ++ payload)), 0xCC, 0x33])
          addr j 3 rfl
        simpa [wireFrame] using this
      · rw [hL flag _ svc sub payload hsvc]
        exact crc_data_flip [flag] ([payload.length, svc, sub] ++ payload) addr j ha hj
    · refine ⟨flag, addr, svc ^^^ 2 ^ j, sub,
        highByte (ccitt ([flag, addr, payload.length, svc, sub] ++ payload)),
        lowByte (ccitt ([flag, addr, payload.length, svc, sub] ++ payload)), payload, rfl,
        ?_, ?_⟩
      · rw [hL flag addr _ sub payload hsvc]
        have := flipBit_at [0xAA, 0x55, flag, addr, payload.length] ([sub] ++ payload ++
          [highByte (ccitt ([flag, addr, payload.length, svc, sub] ++ payload)),
          lowByte (ccitt ([flag, addr, payload.length, svc, sub] ++ payload)), 0xCC, 0x33])
          svc j 5 rfl
        simpa [wireFrame] using this
      · rw [hL flag addr _ sub payload hsvc]
        exact crc_data_flip [flag, addr, payload.length] ([sub] ++ payload) svc j hsv hj
    · refine ⟨flag, addr, svc, sub ^^^ 2 ^ j,
        highByte (ccitt ([flag, addr, payload.length, svc, sub] ++ payload)),
        lowByte (ccitt ([flag, addr, payload.length, svc, sub] ++ payload)), payload, rfl,
        ?_, ?_⟩
      · rw [hL flag addr svc _ payload hsvc]
        have := flipBit_at [0xAA, 0x55, flag, addr, payload.length, svc] (payload ++
          [highByte (ccitt ([flag, addr, payload.length, svc, sub] ++ payload)),
          lowByte (ccitt ([flag, addr, payload.length, svc, sub] ++ payload)), 0xCC, 0x33])
          sub j 6 rfl
        simpa [wireFrame] using this
      · rw [hL flag addr svc _ payload hsvc]
        exact crc_data_flip [flag, addr, payload.length, svc] payload sub j hsu hj
    · obtain ⟨front, x, back, hp, hfl⟩ := split_at payload (i - 7) (by omega)
      subst hp
      have hi7 : i = 7 + front.length := by omega
      subst hi7
      have hx : x < 256 := hpl x (by simp)
      have hlen : (front ++ (x ^^^ 2 ^ j) :: back).length = (front ++ x :: back).length := by
        simp
      refine ⟨flag, addr, svc, sub,
        highByte (ccitt ([flag, addr, (front ++ x :: back).length, svc, sub] ++
          (front ++ x :: back))),
        lowByte (ccitt ([flag, addr, (front ++ x :: back).length, svc, sub] ++
          (front ++ x :: back))),
        front ++ (x ^^^ 2 ^ j) :: back, hlen, ?_, ?_⟩
      · rw [hL flag addr svc sub _ hsvc, hlen, wireFrame]
        exact flip_payload_eq _ _ _ _ _ _ _ _ _ _ _
      · rw [hL flag addr svc sub _ hsvc, hlen]
        have := crc_data_flip ([flag, addr, (front ++ x :: back).length, svc, sub] ++ front)
          back x j hx hj
        simpa using this
    · refine ⟨flag, addr, svc, sub,
        highByte (ccitt ([flag, addr, payload.length, svc, sub] ++ payload)) ^^^ 2 ^ j,
        lowByte (ccitt ([flag, addr, payload.length, svc, sub] ++ payload)), payload, rfl,
        ?_, ?_⟩
      · rw [hL flag addr svc sub payload hsvc]
        have := flipBit_at ([0xAA, 0x55, flag, addr, payload.length, svc, sub] ++ payload)
          [lowByte (ccitt ([flag, addr, payload.length, svc, sub] ++ payload)), 0xCC, 0x33]
          (highByte (ccitt ([flag, addr, payload.length, svc, sub] ++ payload))) j
          (7 + payload.length) (by simp; omega)
        simpa [wireFrame] using this
      · rw [hL flag addr svc sub payload hsvc]
        exact crc_hi_flip _ j hj
    · refine ⟨flag, addr, svc, sub,
        highByte (ccitt ([flag, addr, payload.length, svc, sub] ++ payload)),
        lowByte (ccitt ([flag, addr, payload.length, svc, sub] ++ payload)) ^^^ 2 ^ j, payload,
        rfl, ?_, ?_⟩
      · rw [hL flag addr svc sub payload hsvc]
        have := flipBit_at ([0xAA, 0x55, flag, addr, payload.length, svc, sub] ++ payload ++
          [highByte (ccitt ([flag, addr, payload.length, svc, sub] ++ payload))]) [0xCC, 0x33]
          (lowByte (ccitt ([flag, addr, payload.length, svc, sub] ++ payload))) j
          (8 + payload.length) (by simp; omega)
        simpa [wireFrame] using this
      · rw [hL flag addr svc sub payload hsvc]
        exact crc_lo_flip _ j hj

end gnMsup1

namespace gnMsup1

/-- C3 (CRC single-bit mutation), as the code has it. A frame is emitted by `_sendFrame`
(either role, node not ignored, no retry, payload of at most 8 bytes), one bit of one byte
between FLAG and CRC_LO is flipped, and the bytes are fed to a receiver at frame position 0.
If the flipped bit is neither the service bit (bit 6) of the flag nor a bit of the payload
size, the receiver drops the frame for its CRC: `_readInput` returns `true` on no initial
segment of the bytes, it returns `false` at the last byte with the frame position back at 0,
and nothing is written to the transport and no callback is invoked. -/
theorem C3_crc_single_bit_mutation (m r : gnMsup1) (wait : gnMsup1 → gnMsup1)
    (first second : Attempt) (now a service subservice : Nat)
    (serviceFlag pushFlag commitReceivedFlag : Bool) (payload wire : List Nat) (i j : Nat)
    (hign : m._queryIgnore a = false) (hp : payload.length ≤ GNMSUP1_MAXPAYLOADBUFFER)
    (ha : a < 256) (hsv : service < 256) (hsu : subservice < 256)
    (hpl : ∀ p ∈ payload, p < 256)
    (hw : (m._sendFrame wait first second a service subservice serviceFlag pushFlag false
      commitReceivedFlag false payload payload.length).1.written = m.written ++ wire)
    (hpos : r._framePosition = 0)
    (hi : 2 ≤ i) (hi2 : i + 2 < wire.length) (hj : j < 8)
    (hflag : ¬ (i = 2 ∧ j = GNMSUP1_FRAMEFLAG_SERVICE))
    (hsize : ¬ (serviceFlag = true ∧ i = 2 + GNMSUP1_FRAMEBUF_PAYLOADSIZE)) :
    (∀ k, (r._readInput now ((flipBit wire i j).take k)).2.2 = false) ∧
    (r._readInput now (flipBit wire i j)).2 = ([], false) ∧
    (r._readInput now (flipBit wire i j)).1._framePosition = 0 ∧
    (r._readInput now (flipBit wire i j)).1.written = r.written ∧
    (r._readInput now (flipBit wire i j)).1.invoked = r.invoked := by
  have hp8 : payload.length ≤ 8 := hp
  obtain ⟨hsw, -, -⟩ := _sendFrame_single m wait first second a service subservice
    serviceFlag pushFlag commitReceivedFlag payload payload.length hign
  obtain ⟨hew, -, -⟩ := emitFrame_eq m first.now a service subservice serviceFlag pushFlag
    commitReceivedFlag payload hp8
  have hwire : wire = wireFrame (logicalFrame (m.flagByte serviceFlag pushFlag
      commitReceivedFlag) a payload.length service subservice payload) := by
    rw [hsw, hew] at hw
    exact (List.append_cancel_left hw).symm
  obtain ⟨-, hb6, -, -⟩ := flagByte_bits m serviceFlag pushFlag commitReceivedFlag
  have hF : m.flagByte serviceFlag pushFlag commitReceivedFlag < 256 := by
    rw [flagByte_eq]
    cases m._ownsMasterRole <;> cases serviceFlag <;> cases pushFlag <;>
      cases commitReceivedFlag <;> decide
  have hlen : wire.length = (logicalFrame (m.flagByte serviceFlag pushFlag
      commitReceivedFlag) a payload.length service subservice payload).length + 6 := by
    rw [hwire]; simp [wireFrame]
  obtain ⟨flag1, addr1, svc1, sub1, hi1, lo1, payload1, hl1, hflip, hbad⟩ :=
    flipped_layout (m.flagByte serviceFlag pushFlag commitReceivedFlag) a service subservice
      payload i j hF ha hsv hsu hpl hi (by omega) hj hflag
      (by rw [hb6]; simpa [GNMSUP1_FRAMEBUF_PAYLOADSIZE] using hsize)
  obtain ⟨g1, g2, g3, g4, g5⟩ := readLoop_bad_crc r now flag1 addr1 svc1 sub1 hi1 lo1 payload1
    hpos (by omega) hbad
  have hread : ∀ bytes, r._readInput now bytes = r.readLoop now bytes := fun bytes =>
    _readInput_eq_readLoop r now bytes (by omega)
  rw [hwire, hflip]
  simp only [hread]
  exact ⟨g5, g1, g2, g3, g4⟩

set_option maxRecDepth 100000 in
/-- Witness for C3: bit 0 of the first payload byte of the frame of scenario 1 is flipped. -/
theorem C3_crc_single_bit_mutation_witness :
    (afterBegin 0xFF)._queryIgnore 0x05 = false ∧ (afterBegin 0x05)._framePosition = 0 ∧
    ((afterBegin 0x05)._readInput 0 (flipBit
      [0xAA, 0x55, 0x40, 0x05, 0x02, 0x10, 0x01, 0xDE, 0xAD, 0x55, 0x58, 0xCC, 0x33] 7 0)).2
      = ([], false) :=
  have h := C3_crc_single_bit_mutation (afterBegin 0xFF) (afterBegin 0x05) id ⟨0, []⟩ ⟨0, []⟩ 0
    0x05 0x10 0x01 true false false [0xDE, 0xAD]
    [0xAA, 0x55, 0x40, 0x05, 0x02, 0x10, 0x01, 0xDE, 0xAD, 0x55, 0x58, 0xCC, 0x33] 7 0
    (by decide) (by decide) (by decide) (by decide) (by decide) (by decide) (by decide)
    (by decide) (by decide) (by decide) (by decide) (by decide) (by decide)
  ⟨by decide, by decide, h.2.1⟩

set_option maxRecDepth 100000 in
/-- Counterexample for C3 as stated. (1) The master sends service 0x10, subservice 0x01 with
the 8 payload bytes `AF 73 CC 33 00 00 00 00` to slave 0x05; with bit 3 of the payload size
flipped (8 becomes 0) slave 0x05 reads `AF 73` as the CRC of `40 05 00 10 01` and `CC 33` as
the stop bytes, and `_readInput` returns `true`. (2) The master sends service 0x6E, subservice
0xCC with the payload `33 00 00 00 00` to slave 0x45; with bit 6 of the flag flipped slave
0x45 reads `05 6E` as the CRC of `00 45`, and `_readInput` returns `true`. -/
theorem C3_crc_single_bit_mutation_counterexample :
    ((afterBegin 0x05)._readInput 0 (flipBit
      ((afterBegin 0xFF)._sendFrame id ⟨0, []⟩ ⟨0, []⟩ 0x05 0x10 0x01 true false false false false
        [0xAF, 0x73, 0xCC, 0x33, 0x00, 0x00, 0x00, 0x00] 8).1.written 4 3)).2.2 = true ∧
    ((afterBegin 0x45)._readInput 0 (flipBit
      ((afterBegin 0xFF)._sendFrame id ⟨0, []⟩ ⟨0, []⟩ 0x45 0x6E 0xCC true false false false false
        [0x33, 0x00, 0x00, 0x00, 0x00] 5).1.written 2 6)).2.2 = true := by
  decide

end gnMsup1

namespace gnMsup1

/-! ## Push store: aging -/

theorem sub32_eq_sub (now t : Nat) (hnow : now < 4294967296) (ht : t ≤ now) :
    sub32 now t = now - t := by
  unfold sub32
  omega

theorem nextToSend_cases (s : gnMsup1) (now : Nat) :
    s._pushStoreNextToSend now = GNMSUP1_PUSHSTOREEMPTY ∨
    (s._pushStoreNextToSend now < GNMSUP1_MAXPUSHQEUEENTRYS ∧
      s.slotPending (s._pushStoreNextToSend now) = true ∧
      s.slotExpired now (s._pushStoreNextToSend now) = false ∧
      (s.pushEntry (s._pushStoreNextToSend now)).timestamp < now) := by
  unfold _pushStoreNextToSend
  simp only []
  generalize GNMSUP1_MAXPUSHQEUEENTRYS = N
  induction N with
  | zero => left; rfl
  | succ N ih =>
    rw [List.range_succ, List.foldl_append]
    simp only [List.foldl_cons, List.foldl_nil]
    split
    · rename_i h
      right
      simp only [Bool.and_eq_true, decide_eq_true_eq] at h
      refine ⟨by omega, h.1.1, ?_, h.2⟩
      simp only [slotExpired, decide_eq_false_iff_not, not_lt]
      exact h.1.2
    · rcases ih with h | h
      · left; exact h
      · right; exact ⟨by omega, h.2⟩

theorem nextFree_cases (s : gnMsup1) (now : Nat) :
    (s._pushStoreNextFree now = GNMSUP1_PUSHSTOREFULL ∧
      ∀ i, i < GNMSUP1_MAXPUSHQEUEENTRYS → s.slotPending i = true ∧ s.slotExpired now i = false) ∨
    (s._pushStoreNextFree now < GNMSUP1_MAXPUSHQEUEENTRYS ∧
      (s.slotPending (s._pushStoreNextFree now) = false ∨
        s.slotExpired now (s._pushStoreNextFree now) = true) ∧
      ∀ j, j < s._pushStoreNextFree now → s.slotPending j = true ∧ s.slotExpired now j = false) := by
  by_cases h : ∃ i, i < GNMSUP1_MAXPUSHQEUEENTRYS ∧
      (s.slotPending i = false ∨ s.slotExpired now i = true)
  · right
    have hlt := (Nat.find_spec h).1
    have hfree := (Nat.find_spec h).2
    have hmin : ∀ j, j < Nat.find h → s.slotPending j = true ∧ s.slotExpired now j = false := by
      intro j hj
      have := Nat.find_min h hj
      simp only [not_and, not_or] at this
      have h2 := this (lt_trans hj hlt)
      simpa using h2
    have hfind : s._pushStoreNextFree now = Nat.find h := by
      unfold _pushStoreNextFree
      rw [find_range_first _ _ (Nat.find h) hlt]
      · rcases hfree with hf | hf
        · simp only [slotPending] at hf; simp [hf]
        · simp only [slotExpired] at hf; simp only [hf, Bool.or_true]
      · intro j hj
        have := hmin j hj
        simp only [slotPending, slotExpired] at this
        simp only [this.1, this.2, Bool.not_true, Bool.or_self]
    rw [hfind]
    exact ⟨hlt, hfree, hmin⟩
  · left
    have hall : ∀ i, i < GNMSUP1_MAXPUSHQEUEENTRYS →
        s.slotPending i = true ∧ s.slotExpired now i = false := by
      intro i hi
      by_contra hc
      apply h
      refine ⟨i, hi, ?_⟩
      cases hp : s.slotPending i <;> cases he : s.slotExpired now i <;> simp_all
    refine ⟨?_, hall⟩
    unfold _pushStoreNextFree
    rw [find_range_none]
    intro j hj
    have := hall j hj
    simp only [slotPending, slotExpired] at this
    simp only [this.1, this.2, Bool.not_true, Bool.or_self]

/-- C11 (aging). For every state of the push store and every clock value `now`:
(1) a slot whose entry is expired at `now` (the `uint32_t` age `now - timestamp` exceeds
`GNMSUP1_DEFAULTPUSHQEUETIMEOUT` = 20000) is never returned by `_pushStoreNextToSend`;
(2) an entry enqueued at clock value `t` is expired at every clock value `now` below `2^32`
with `now - t > 20000`;
(3) a slot that is non-pending or expired counts as free: `_pushStoreNextFree` returns a slot
at or below it, and that slot itself when every lower slot holds a pending, non-expired entry;
(4) the slot `_pushStoreNextFree` returns is the lowest-index slot that is non-pending or
expired;
(5) `_pushStoreNextFree` returns `GNMSUP1_PUSHSTOREFULL` if and only if every slot holds a
pending, non-expired entry. -/
theorem C11_aging (s : gnMsup1) (now : Nat) :
    (∀ i, i < GNMSUP1_MAXPUSHQEUEENTRYS → s.slotExpired now i = true →
      s._pushStoreNextToSend now ≠ i) ∧
    (∀ i t, (s.pushEntry i).timestamp = t → now < 4294967296 →
      GNMSUP1_DEFAULTPUSHQEUETIMEOUT < now - t → s.slotExpired now i = true) ∧
    (∀ i, i < GNMSUP1_MAXPUSHQEUEENTRYS →
      (s.slotPending i = false ∨ s.slotExpired now i = true) →
      s._pushStoreNextFree now ≤ i ∧
      ((∀ j, j < i → s.slotPending j = true ∧ s.slotExpired now j = false) →
        s._pushStoreNextFree now = i)) ∧
    (s._pushStoreNextFree now ≠ GNMSUP1_PUSHSTOREFULL →
      s._pushStoreNextFree now < GNMSUP1_MAXPUSHQEUEENTRYS ∧
      (s.slotPending (s._pushStoreNextFree now) = false ∨
        s.slotExpired now (s._pushStoreNextFree now) = true) ∧
      ∀ j, j < s._pushStoreNextFree now →
        s.slotPending j = true ∧ s.slotExpired now j = false) ∧
    (s._pushStoreNextFree now = GNMSUP1_PUSHSTOREFULL ↔
      ∀ i, i < GNMSUP1_MAXPUSHQEUEENTRYS →
        s.slotPending i = true ∧ s.slotExpired now i = false) := by
  have hN : GNMSUP1_MAXPUSHQEUEENTRYS < GNMSUP1_PUSHSTOREFULL := by decide
  refine ⟨?_, ?_, ?_, ?_, ?_⟩
  · intro i hi hexp heq
    rcases nextToSend_cases s now with h | h
    · rw [heq] at h
      have : GNMSUP1_PUSHSTOREEMPTY = GNMSUP1_PUSHSTOREFULL := rfl
      omega
    · rw [heq] at h
      rw [hexp] at h
      exact absurd h.2.2.1 (by simp)
  · intro i t ht hnow hlt
    have hle : t ≤ now := by omega
    simp only [slotExpired, ht, decide_eq_true_eq, sub32_eq_sub now t hnow hle]
    exact hlt
  · intro i hi hfree
    rcases nextFree_cases s now with h | h
    · have := h.2 i hi
      rcases hfree with hf | hf <;> simp_all
    · have hle : s._pushStoreNextFree now ≤ i := by
        by_contra hc
        have := h.2.2 i (by omega)
        rcases hfree with hf | hf <;> simp_all
      refine ⟨hle, ?_⟩
      intro hlow
      by_contra hne
      have := hlow _ (lt_of_le_of_ne hle hne)
      rcases h.2.1 with hf | hf <;> simp_all
  · intro hne
    rcases nextFree_cases s now with h | h
    · exact absurd h.1 hne
    · exact h
  · constructor
    · intro hfull
      rcases nextFree_cases s now with h | h
      · exact h.2
      · omega
    · intro hall
      rcases nextFree_cases s now with h | h
      · exact h.1
      · have := hall _ h.1
        rcases h.2.1 with hf | hf <;> simp_all

/-- C11 at the queue of `twoPushes` (entries enqueued at clock values 1 and 2) and clock value
20002: the entry of slot 0 is expired, is not returned by `_pushStoreNextToSend`, and its slot
is the one `_pushStoreNextFree` returns. -/
theorem C11_aging_witness :
    0 < GNMSUP1_MAXPUSHQEUEENTRYS ∧ twoPushes.slotExpired 20002 0 = true ∧
    twoPushes._pushStoreNextToSend 20002 ≠ 0 ∧ twoPushes._pushStoreNextFree 20002 ≤ 0 :=
  ⟨by decide, by decide, (C11_aging twoPushes 20002).1 0 (by decide) (by decide),
    ((C11_aging twoPushes 20002).2.2.1 0 (by decide) (Or.inr (by decide))).1⟩

end gnMsup1

/-! ## Liveness bitmaps -/

theorem bitRead_bitWrite (x k j : Nat) (v : Bool) (hk : k < 8) (hj : j < 8) :
    bitRead (bitWrite x k v) j = if j = k then v else bitRead x j := by
  unfold bitRead bitWrite
  cases v
  · simp only [Bool.false_eq_true, if_false, Nat.testBit_and, Nat.testBit_xor,
      Nat.one_shiftLeft, Nat.testBit_two_pow]
    have h255 : Nat.testBit 255 j = true := by
      interval_cases j <;> decide
    rw [h255]
    by_cases h : j = k
    · subst h; simp
    · have h2 : k ≠ j := fun e => h e.symm
      simp [h, h2]
  · simp only [if_true, Nat.one_shiftLeft]
    have : (x ||| 2 ^ k) % 256 = (x ||| 2 ^ k) % 2 ^ 8 := by norm_num
    rw [this, Nat.testBit_mod_two_pow, Nat.testBit_or, Nat.testBit_two_pow]
    by_cases h : j = k
    · subst h; simp [hj]
    · have h2 : k ≠ j := fun e => h e.symm
      simp [h, h2, hj]

namespace gnMsup1

theorem storeBit_set_same (store : List Nat) (a : Nat) (v : Bool) (h : a / 8 < store.length) :
    storeBit (setStoreBit store a v) a = v := by
  unfold storeBit setStoreBit
  rw [List.getD_eq_getElem?_getD, List.getElem?_set_self h]
  simp only [Option.getD_some]
  rw [bitRead_bitWrite _ _ _ _ (Nat.mod_lt _ (by norm_num)) (Nat.mod_lt _ (by norm_num))]
  simp

theorem storeBit_set_other (store : List Nat) (a b : Nat) (v : Bool) (h : a ≠ b) :
    storeBit (setStoreBit store a v) b = storeBit store b := by
  unfold storeBit setStoreBit
  by_cases hb : a / 8 = b / 8
  · by_cases hl : a / 8 < store.length
    · rw [List.getD_eq_getElem?_getD, ← hb, List.getElem?_set_self hl]
      simp only [Option.getD_some]
      rw [bitRead_bitWrite _ _ _ _ (Nat.mod_lt _ (by norm_num)) (Nat.mod_lt _ (by norm_num))]
      have : b % 8 ≠ a % 8 := by omega
      simp [this]
    · rw [List.set_eq_of_length_le (by omega)]
  · rw [List.getD_eq_getElem?_getD, List.getElem?_set_ne hb, ← List.getD_eq_getElem?_getD]

theorem setStoreBit_length (store : List Nat) (a : Nat) (v : Bool) :
    (setStoreBit store a v).length = store.length := by
  simp [setStoreBit]

end gnMsup1

namespace gnMsup1

/-! ## `begin` -/

theorem begin_constructed_master :
    (constructed true).begin 115200 0xFF = some (afterBegin 0xFF, true) := by decide

theorem begin_constructed_slave :
    (constructed false).begin 115200 0x05 = some (afterBegin 0x05, true) := by decide

/-- C19 (validation of `begin`). `begin(baudRate, address)` with a pair of role and address
other than (master, 0xFF) or (slave, below 0xF0) returns `false` and leaves the whole object
as it was: `_initialized`, the stored address and the role are unchanged. With such a pair
(and a baud rate other than 0, for which the division in `begin` is defined) it returns
`true`, the object is initialised, its address is `address` and its role is the one it had
since construction. -/
theorem C19_begin_validation (s : gnMsup1) (baudRate address : Nat) :
    (¬ ((s._ownsMasterRole = true ∧ address = 0xFF) ∨
        (s._ownsMasterRole = false ∧ address < 0xF0)) →
      s.begin baudRate address = some (s, false)) ∧
    (((s._ownsMasterRole = true ∧ address = 0xFF) ∨
        (s._ownsMasterRole = false ∧ address < 0xF0)) → baudRate ≠ 0 →
      ∃ s1, s.begin baudRate address = some (s1, true) ∧ s1._initialized = true ∧
        s1._address = address ∧ s1._ownsMasterRole = s._ownsMasterRole) := by
  constructor
  · intro h
    unfold begin
    rw [if_pos]
    cases hm : s._ownsMasterRole <;> simp_all [GNMSUP1_MASTERPSEUDOADDRESS]
  · intro h hb
    unfold begin
    rw [if_neg, if_neg (by simpa using hb)]
    · refine ⟨_, rfl, rfl, rfl, ?_⟩
      rcases h with ⟨hm, ha⟩ | ⟨hm, ha⟩
      · simpa [_ownsMasterRole, GNMSUP1_MASTERPSEUDOADDRESS, ha] using hm
      · simp only [_ownsMasterRole, GNMSUP1_MASTERPSEUDOADDRESS] at hm ⊢
        rw [hm]
        simp; omega
    · cases hm : s._ownsMasterRole <;> simp_all [GNMSUP1_MASTERPSEUDOADDRESS]


/-- C19 on a slave object fresh from its constructor: `begin(9600, 0x05)` succeeds. -/
theorem C19_begin_validation_witness :
    ((constructed false)._ownsMasterRole = false ∧ 0x05 < 0xF0) ∧ 9600 ≠ 0 ∧
    ∃ s1, (constructed false).begin 9600 0x05 = some (s1, true) ∧ s1._initialized = true ∧
      s1._address = 0x05 ∧ s1._ownsMasterRole = (constructed false)._ownsMasterRole :=
  ⟨⟨by decide, by decide⟩, by decide,
    (C19_begin_validation (constructed false) 9600 0x05).2 (Or.inr ⟨by decide, by decide⟩)
      (by decide)⟩

theorem frameTimeoutFor_eq (b : Nat) (hb : 83 ≤ b) :
    frameTimeoutFor b = (540 * (10000000 / b) + 501) / 1000 := by
  have hq : 10000000 / b ≤ 120481 := by
    calc 10000000 / b ≤ 10000000 / 83 := Nat.div_le_div_left hb (by norm_num)
      _ = 120481 := by norm_num
  unfold frameTimeoutFor
  simp only [GNMSUP1_MAXPAYLOADBUFFER, GNMSUP1_FRAMELENGHTTIMEOUT]
  generalize 10000000 / b = q at hq ⊢
  have h1 : (10 + 8) * 30 * q = 540 * q := by ring
  rw [h1, Nat.mod_eq_of_lt (by omega : 540 * q < 4294967296),
    Nat.mod_eq_of_lt (by omega : 540 * q + 501 < 4294967296)]
  apply Nat.mod_eq_of_lt
  omega

theorem frameTimeoutSpec_bounds (b : Nat) (hb : 0 < b) :
    (540 * (10000000 / b) + 501) / 1000 ≤ frameTimeoutSpec b ∧
    frameTimeoutSpec b ≤ (540 * (10000000 / b) + 501) / 1000 + 2 := by
  have hbq : (0 : ℚ) < (b : ℚ) := by exact_mod_cast hb
  have hq1 : ((10000000 / b : Nat) : ℚ) ≤ 10000000 / (b : ℚ) := by
    have := @Nat.cast_div_le ℚ _ 10000000 b
    simpa using this
  have hq2 : (10000000 : ℚ) / (b : ℚ) < ((10000000 / b : Nat) : ℚ) + 1 := by
    rw [div_lt_iff₀ hbq]
    have h := Nat.lt_succ_iff.mpr (le_refl (10000000 / b))
    have h2 : 10000000 < (10000000 / b + 1) * b := by
      have := Nat.div_add_mod 10000000 b
      have hm := Nat.mod_lt 10000000 hb
      nlinarith
    exact_mod_cast h2
  have hc1 : (((540 * (10000000 / b) + 501) / 1000 : Nat) : ℚ) ≤
      ((540 * (10000000 / b) + 501 : Nat) : ℚ) / 1000 := by
    have := @Nat.cast_div_le ℚ _ (540 * (10000000 / b) + 501) 1000
    simpa using this
  have hc2 : 540 * (10000000 / b) + 501 ≤ 1000 * ((540 * (10000000 / b) + 501) / 1000) + 999 := by
    omega
  have hc2q : (540 : ℚ) * ((10000000 / b : Nat) : ℚ) + 501 ≤
      1000 * (((540 * (10000000 / b) + 501) / 1000 : Nat) : ℚ) + 999 := by
    exact_mod_cast hc2
  have hspec : frameTimeoutSpec b = Nat.ceil ((5400000000 / (b : ℚ) + 501) / 1000) := by
    unfold frameTimeoutSpec
    simp only [GNMSUP1_MAXPAYLOADBUFFER, GNMSUP1_FRAMELENGHTTIMEOUT]
    norm_num
  have hX : (5400000000 : ℚ) / (b : ℚ) = 540 * (10000000 / (b : ℚ)) := by ring
  rw [hspec, hX]
  constructor
  · refine le_trans ?_ (Nat.ceil_mono (a := (((540 * (10000000 / b) + 501) / 1000 : Nat) : ℚ)) ?_)
    · simp
    · push_cast at hc1 ⊢
      linarith
  · rw [Nat.ceil_le]
    push_cast
    linarith


/-- C20 (frame timeout), as amended. For every baud rate `b ≥ 83` a successful
`begin(b, ...)` sets `_frameTimeout` to
`((10 + MAX_PAYLOAD) * FRAME_LENGTH_TIMEOUT_FACTOR * (10000000 / b) + 501) / 1000` in integer
arithmetic (both divisions round down); the value fits the 16-bit member, is at most the
value of the formula of the specification and falls short of it by at most 2. -/
theorem C20_frame_timeout (s : gnMsup1) (b address : Nat) (hb : 83 ≤ b)
    (hvalid : (s._ownsMasterRole = true ∧ address = 0xFF) ∨
      (s._ownsMasterRole = false ∧ address < 0xF0)) :
    ∃ s1, s.begin b address = some (s1, true) ∧
      s1._frameTimeout =
        ((10 + GNMSUP1_MAXPAYLOADBUFFER) * GNMSUP1_FRAMELENGHTTIMEOUT * (10000000 / b) + 501)
          / 1000 ∧
      s1._frameTimeout < 65536 ∧
      s1._frameTimeout ≤ frameTimeoutSpec b ∧ frameTimeoutSpec b ≤ s1._frameTimeout + 2 := by
  have hb0 : b ≠ 0 := by omega
  have hq : 10000000 / b ≤ 120481 := by
    calc 10000000 / b ≤ 10000000 / 83 := Nat.div_le_div_left hb (by norm_num)
      _ = 120481 := by norm_num
  have h540 : (10 + GNMSUP1_MAXPAYLOADBUFFER) * GNMSUP1_FRAMELENGHTTIMEOUT * (10000000 / b) =
      540 * (10000000 / b) := by
    simp only [GNMSUP1_MAXPAYLOADBUFFER, GNMSUP1_FRAMELENGHTTIMEOUT]
  have hbounds := frameTimeoutSpec_bounds b (by omega)
  refine ⟨{ s with _address := address, _frameTimeout := frameTimeoutFor b,
                   _ignoreStore := List.replicate (GNMSUP1_MAXSLAVEADDRESS + 1) 0,
                   _initialized := true }, ?_, ?_, ?_, ?_, ?_⟩
  · unfold begin
    rw [if_neg, if_neg (by simpa using hb0)]
    cases hm : s._ownsMasterRole <;> simp_all [GNMSUP1_MASTERPSEUDOADDRESS]
  · simp only [frameTimeoutFor_eq b hb, h540]
  · simp only [frameTimeoutFor_eq b hb]
    omega
  · simp only [frameTimeoutFor_eq b hb]
    exact hbounds.1
  · simp only [frameTimeoutFor_eq b hb]
    exact hbounds.2

/-- C20 as amended, at 115200 baud on a master object fresh from its constructor. -/
theorem C20_frame_timeout_witness :
    83 ≤ 115200 ∧
    ∃ s1, (constructed true).begin 115200 0xFF = some (s1, true) ∧
      s1._frameTimeout =
        ((10 + GNMSUP1_MAXPAYLOADBUFFER) * GNMSUP1_FRAMELENGHTTIMEOUT * (10000000 / 115200) + 501)
          / 1000 ∧
      s1._frameTimeout < 65536 ∧
      s1._frameTimeout ≤ frameTimeoutSpec 115200 ∧
      frameTimeoutSpec 115200 ≤ s1._frameTimeout + 2 :=
  ⟨by decide, C20_frame_timeout (constructed true) 115200 0xFF (by decide)
    (Or.inl ⟨by decide, by decide⟩)⟩

theorem frameTimeoutSpec_115200 : frameTimeoutSpec 115200 = 48 := by
  unfold frameTimeoutSpec
  simp only [GNMSUP1_MAXPAYLOADBUFFER, GNMSUP1_FRAMELENGHTTIMEOUT]
  rw [Nat.ceil_eq_iff (by norm_num)]
  norm_num

theorem frameTimeoutSpec_50 : frameTimeoutSpec 50 = 108001 := by
  unfold frameTimeoutSpec
  simp only [GNMSUP1_MAXPAYLOADBUFFER, GNMSUP1_FRAMELENGHTTIMEOUT]
  rw [Nat.ceil_eq_iff (by norm_num)]
  norm_num

/-- Counterexample for C20 as stated. (1) `begin(115200, 0xFF)` on a master sets
`_frameTimeout` to 46 (`10000000 / 115200 = 86`, `540 * 86 + 501 = 46941`), the formula of the
specification gives 48. (2) `begin(50, 0xFF)` sets it to 42464, the low 16 bits of 108000; the
formula gives 108001. -/
theorem C20_frame_timeout_counterexample :
    (((constructed true).begin 115200 0xFF).map (fun r => (r.1._frameTimeout, r.2))
        = some (46, true) ∧ frameTimeoutSpec 115200 = 48) ∧
    (((constructed true).begin 50 0xFF).map (fun r => (r.1._frameTimeout, r.2))
        = some (42464, true) ∧ frameTimeoutSpec 50 = 108001) :=
  ⟨⟨by decide, frameTimeoutSpec_115200⟩, ⟨by decide, frameTimeoutSpec_50⟩⟩

end gnMsup1

namespace gnMsup1

/-! ## `pollRange` -/

theorem pollRange_fully_asynchronous (s : gnMsup1) (now : Nat) (entry : List Tick)
    (world : Nat → Nat → PollCall) (beginAddress endAddress maxMessagesPerSlave : Nat)
    (commitReceivedFlag retryOnCrFailure : Bool)
    (hmode : s._blockingMode = BlockingMode.FullyAsynchronous) :
    s.pollRange now entry world beginAddress endAddress maxMessagesPerSlave commitReceivedFlag
      retryOnCrFailure = some (s, false, []) := by
  unfold pollRange
  simp only [hmode]
  split_ifs <;> simp_all

set_option maxRecDepth 100000 in
/-- C17 at its failing input. (1) On a master after `begin`, switched to fully asynchronous
mode with `blockingMode(FullyAsynchronous)`, `poll(0x05, 1)` returns `false`, makes no call of
`_sendFrame` and leaves the object as it was (nothing is written): the test
`maxMessagesPerSlave < 1 || _blockingMode == FullyAsynchronous` of `pollRange` rejects every
poll in that mode. (2) The same call in the default mode emits the push request
`AA 55 20 05 CRC CC 33` without waiting and returns `true`. -/
theorem C17_single_poll_failing_input :
    (∀ world : Nat → Nat → PollCall,
      ((afterBegin 0xFF).blockingMode BlockingMode.FullyAsynchronous).poll 0 [] world 0x05 1
        false false =
        some ((afterBegin 0xFF).blockingMode BlockingMode.FullyAsynchronous, false, [])) ∧
    (∀ world : Nat → Nat → PollCall,
      ((afterBegin 0xFF).poll 0 [] world 0x05 1 false false).map
        (fun r => (r.1.written, r.2.1, r.2.2.length)) =
        some ([0xAA, 0x55, 0x20, 0x05, highByte (ccitt [0x20, 0x05]), lowByte (ccitt [0x20, 0x05]),
          0xCC, 0x33], true, 1)) := by
  constructor
  · intro world
    exact pollRange_fully_asynchronous _ _ _ _ _ _ _ _ _ rfl
  · intro world
    rfl

end gnMsup1

namespace gnMsup1

/-! ## Members kept by an emission; commit-receive outcomes -/

theorem Kept_refl (s : gnMsup1) : Kept s s := by
  constructor <;> rfl

theorem Kept_trans {s s1 s2 : gnMsup1} (h1 : Kept s s1) (h2 : Kept s1 s2) : Kept s s2 := by
  obtain ⟨a1, a2, a3, a4, a5, a6, a7, a8, a9, a10, a11, a12, a13, a14, a15, a16, a17, a18, a19⟩ := h1
  obtain ⟨b1, b2, b3, b4, b5, b6, b7, b8, b9, b10, b11, b12, b13, b14, b15, b16, b17, b18, b19⟩ := h2
  constructor
  all_goals (first | exact Eq.trans ‹_› ‹_›)


theorem setFrameByte_kept (s : gnMsup1) (i v : Nat) :
    Kept s (s.setFrameByte i v) ∧ SameLiveness s (s.setFrameByte i v) ∧
    (s.setFrameByte i v).written = s.written ∧
    (s.setFrameByte i v)._pushBlockingTimer = s._pushBlockingTimer := by
  unfold setFrameByte
  split
  · exact ⟨by constructor <;> rfl, by constructor <;> rfl, rfl, rfl⟩
  · exact ⟨by constructor <;> rfl, by constructor <;> rfl, rfl, rfl⟩

theorem storeLoop_kept (payload : List Nat) (k : Nat) (s : gnMsup1) :
    Kept s ((List.range k).foldl (fun st i =>
      st.setFrameByte (GNMSUP1_FRAMEBUF_PAYLOADSTART + i) (payload.getD i 0)) s) ∧
    SameLiveness s ((List.range k).foldl (fun st i =>
      st.setFrameByte (GNMSUP1_FRAMEBUF_PAYLOADSTART + i) (payload.getD i 0)) s) ∧
    ((List.range k).foldl (fun st i =>
      st.setFrameByte (GNMSUP1_FRAMEBUF_PAYLOADSTART + i) (payload.getD i 0)) s).written
        = s.written ∧
    ((List.range k).foldl (fun st i =>
      st.setFrameByte (GNMSUP1_FRAMEBUF_PAYLOADSTART + i) (payload.getD i 0)) s)._pushBlockingTimer
        = s._pushBlockingTimer := by
  induction k with
  | zero => exact ⟨Kept_refl s, by constructor <;> rfl, rfl, rfl⟩
  | succ k ih =>
    rw [List.range_succ, List.foldl_append]
    simp only [List.foldl_cons, List.foldl_nil]
    generalize (List.range k).foldl (fun st i =>
      st.setFrameByte (GNMSUP1_FRAMEBUF_PAYLOADSTART + i) (payload.getD i 0)) s = m at ih ⊢
    obtain ⟨h1, h2, h3, h4⟩ := setFrameByte_kept m (GNMSUP1_FRAMEBUF_PAYLOADSTART + k)
      (payload.getD k 0)
    refine ⟨Kept_trans ih.1 h1, ?_, h3.trans ih.2.2.1, h4.trans ih.2.2.2⟩
    exact ⟨h2.lastComError.trans ih.2.1.lastComError, h2.ignoreStore.trans ih.2.1.ignoreStore,
      h2.activeStore.trans ih.2.1.activeStore⟩

theorem SameLiveness_trans {s s1 s2 : gnMsup1} (h1 : SameLiveness s s1)
    (h2 : SameLiveness s1 s2) : SameLiveness s s2 :=
  ⟨h2.lastComError.trans h1.lastComError, h2.ignoreStore.trans h1.ignoreStore,
    h2.activeStore.trans h1.activeStore⟩

theorem buildFrame_kept (s : gnMsup1) (address serviceNumber subserviceNumber : Nat)
    (serviceFlag pushFlag commitReceivedFlag : Bool) (payload : List Nat) (payloadSize : Nat) :
    Kept s (s.buildFrame address serviceNumber subserviceNumber serviceFlag pushFlag
      commitReceivedFlag payload payloadSize).1 ∧
    SameLiveness s (s.buildFrame address serviceNumber subserviceNumber serviceFlag pushFlag
      commitReceivedFlag payload payloadSize).1 ∧
    (s.buildFrame address serviceNumber subserviceNumber serviceFlag pushFlag
      commitReceivedFlag payload payloadSize).1.written = s.written ∧
    (s.buildFrame address serviceNumber subserviceNumber serviceFlag pushFlag
      commitReceivedFlag payload payloadSize).1._pushBlockingTimer = s._pushBlockingTimer := by
  have hr : Kept s s._resetFramebuffer ∧ SameLiveness s s._resetFramebuffer ∧
      s._resetFramebuffer.written = s.written ∧
      s._resetFramebuffer._pushBlockingTimer = s._pushBlockingTimer :=
    ⟨by constructor <;> rfl, by constructor <;> rfl, rfl, rfl⟩
  have step : ∀ (m : gnMsup1) (i v : Nat),
      (Kept s m ∧ SameLiveness s m ∧ m.written = s.written ∧
        m._pushBlockingTimer = s._pushBlockingTimer) →
      (Kept s (m.setFrameByte i v) ∧ SameLiveness s (m.setFrameByte i v) ∧
        (m.setFrameByte i v).written = s.written ∧
        (m.setFrameByte i v)._pushBlockingTimer = s._pushBlockingTimer) := by
    intro m i v hm
    obtain ⟨h1, h2, h3, h4⟩ := setFrameByte_kept m i v
    exact ⟨Kept_trans hm.1 h1, SameLiveness_trans hm.2.1 h2, h3.trans hm.2.2.1,
      h4.trans hm.2.2.2⟩
  have h1 := step _ GNMSUP1_FRAMEBUF_ADDRESS address
    (step _ GNMSUP1_FRAMEBUF_FLAG (s.flagByte serviceFlag pushFlag commitReceivedFlag) hr)
  unfold buildFrame
  cases serviceFlag with
  | false =>
    simp only [Bool.false_eq_true, if_false]
    generalize (s._resetFramebuffer.setFrameByte GNMSUP1_FRAMEBUF_FLAG
      (s.flagByte false pushFlag commitReceivedFlag)).setFrameByte
        GNMSUP1_FRAMEBUF_ADDRESS address = m at h1 ⊢
    obtain ⟨k, l, w, t⟩ := h1
    exact ⟨Kept_trans k (by constructor <;> rfl), SameLiveness_trans l (by constructor <;> rfl),
      w, t⟩
  | true =>
    simp only [if_true]
    have h2 := step _ GNMSUP1_FRAMEBUF_SUBSERVICE subserviceNumber
      (step _ GNMSUP1_FRAMEBUF_SERVICE serviceNumber
        (step _ GNMSUP1_FRAMEBUF_PAYLOADSIZE payloadSize h1))
    generalize ((((s._resetFramebuffer.setFrameByte GNMSUP1_FRAMEBUF_FLAG
      (s.flagByte true pushFlag commitReceivedFlag)).setFrameByte
        GNMSUP1_FRAMEBUF_ADDRESS address).setFrameByte GNMSUP1_FRAMEBUF_PAYLOADSIZE
          payloadSize).setFrameByte GNMSUP1_FRAMEBUF_SERVICE serviceNumber).setFrameByte
            GNMSUP1_FRAMEBUF_SUBSERVICE subserviceNumber = m at h2 ⊢
    obtain ⟨k0, l0, w0, t0⟩ := h2
    obtain ⟨k1, l1, w1, t1⟩ := storeLoop_kept payload payloadSize m
    have k := Kept_trans k0 k1
    have l := SameLiveness_trans l0 l1
    exact ⟨Kept_trans k (by constructor <;> rfl), SameLiveness_trans l (by constructor <;> rfl),
      w1.trans w0, t1.trans t0⟩


/-- One emission: the members it keeps, the push-blocking timer it sets on a master with
push flag, and the bytes it writes, which end with the checksum and the stop bytes. -/
theorem emitFrame_kept (s : gnMsup1) (now address serviceNumber subserviceNumber : Nat)
    (serviceFlag pushFlag commitReceivedFlag : Bool) (payload : List Nat) (payloadSize : Nat) :
    Kept s (s.emitFrame now address serviceNumber subserviceNumber serviceFlag pushFlag
      commitReceivedFlag payload payloadSize) ∧
    SameLiveness s (s.emitFrame now address serviceNumber subserviceNumber serviceFlag pushFlag
      commitReceivedFlag payload payloadSize) ∧
    (s.emitFrame now address serviceNumber subserviceNumber serviceFlag pushFlag
      commitReceivedFlag payload payloadSize)._pushBlockingTimer =
      (if s._ownsMasterRole && pushFlag then now else s._pushBlockingTimer) ∧
    ∃ body, (s.emitFrame now address serviceNumber subserviceNumber serviceFlag pushFlag
      commitReceivedFlag payload payloadSize).written =
      s.written ++ ([GNMSUP1_FRAMESTART1, GNMSUP1_FRAMESTART2] ++ body ++
        [highByte (s.emitFrame now address serviceNumber subserviceNumber serviceFlag pushFlag
          commitReceivedFlag payload payloadSize)._frameChecksum,
         lowByte (s.emitFrame now address serviceNumber subserviceNumber serviceFlag pushFlag
          commitReceivedFlag payload payloadSize)._frameChecksum,
         GNMSUP1_FRAMESTOP1, GNMSUP1_FRAMESTOP2]) := by
  obtain ⟨k, l, w, t⟩ := buildFrame_kept s address serviceNumber subserviceNumber serviceFlag
    pushFlag commitReceivedFlag payload payloadSize
  unfold emitFrame
  generalize s.buildFrame address serviceNumber subserviceNumber serviceFlag pushFlag
    commitReceivedFlag payload payloadSize = bn at k l w t ⊢
  obtain ⟨b, n⟩ := bn
  simp only [] at k l w t ⊢
  simp only [_ownsMasterRole, ← k.address]
  by_cases hc : ((b._address == GNMSUP1_MASTERPSEUDOADDRESS) && pushFlag) = true
  · simp only [hc, if_true]
    refine ⟨Kept_trans k (by constructor <;> rfl), SameLiveness_trans l (by constructor <;> rfl),
      trivial, b._frameBuffer.take n, ?_⟩
    simp [w]
  · simp only [hc, if_false]
    refine ⟨Kept_trans k (by constructor <;> rfl), SameLiveness_trans l (by constructor <;> rfl),
      t, b._frameBuffer.take n, ?_⟩
    simp [w]

theorem _queryIgnore_congr (s s1 : gnMsup1) (a : Nat) (k : Kept s s1)
    (h : s1._ignoreStore = s._ignoreStore) : s1._queryIgnore a = s._queryIgnore a := by
  simp only [_queryIgnore, _ownsMasterRole, k.address, k.ignoreInactiveNodes, h]

theorem _markActive_kept (s : gnMsup1) (a : Nat) :
    Kept s (s._markActive a) ∧ (s._markActive a)._lastComError = s._lastComError ∧
    (s._markActive a).written = s.written ∧
    (s._markActive a)._pushBlockingTimer = s._pushBlockingTimer ∧
    (s._markActive a)._frameBuffer = s._frameBuffer ∧
    (s._markActive a)._frameChecksum = s._frameChecksum := by
  unfold _markActive
  split
  · refine ⟨?_, rfl, rfl, rfl, rfl, rfl⟩
    constructor <;> first | rfl | exact setStoreBit_length _ _ _
  · exact ⟨Kept_refl s, rfl, rfl, rfl, rfl, rfl⟩

theorem _markIgnore_kept (s : gnMsup1) (a : Nat) :
    Kept s (s._markIgnore a) ∧ (s._markIgnore a)._lastComError = s._lastComError ∧
    (s._markIgnore a).written = s.written ∧
    (s._markIgnore a)._pushBlockingTimer = s._pushBlockingTimer ∧
    (s._markIgnore a)._frameBuffer = s._frameBuffer ∧
    (s._markIgnore a)._frameChecksum = s._frameChecksum := by
  unfold _markIgnore
  split
  · refine ⟨?_, rfl, rfl, rfl, rfl, rfl⟩
    constructor <;> first | rfl | exact setStoreBit_length _ _ _
  · exact ⟨Kept_refl s, rfl, rfl, rfl, rfl, rfl⟩

theorem _markActive_bits (s : gnMsup1) (a : Nat) (ha : a ≤ GNMSUP1_MAXSLAVEADDRESS)
    (hI : a / 8 < s._ignoreStore.length) (hA : a / 8 < s._activeStore.length) :
    storeBit (s._markActive a)._activeStore a = true ∧
    storeBit (s._markActive a)._ignoreStore a = false := by
  unfold _markActive
  rw [if_pos ha]
  exact ⟨storeBit_set_same _ _ _ hA, storeBit_set_same _ _ _ hI⟩

theorem _markIgnore_bits (s : gnMsup1) (a : Nat) (ha : a ≤ GNMSUP1_MAXSLAVEADDRESS)
    (hI : a / 8 < s._ignoreStore.length) (hA : a / 8 < s._activeStore.length) :
    storeBit (s._markIgnore a)._activeStore a = false ∧
    storeBit (s._markIgnore a)._ignoreStore a = true := by
  unfold _markIgnore
  rw [if_pos ha]
  exact ⟨storeBit_set_same _ _ _ hA, storeBit_set_same _ _ _ hI⟩

/-- `_sendFrame` with commit-receive whose first attempt reads the two bytes of the checksum
it sent. -/
theorem _sendFrame_confirmed (s : gnMsup1) (wait : gnMsup1 → gnMsup1) (first second : Attempt)
    (a serviceNumber subserviceNumber : Nat)
    (serviceFlag pushFlag waitForPushAnswer retryOnCrFailure : Bool) (payload : List Nat)
    (payloadSize : Nat) (rest : List Nat) (hign : s._queryIgnore a = false)
    (hreply : first.reply =
      highByte (s.emitFrame first.now a serviceNumber subserviceNumber serviceFlag pushFlag true
        payload payloadSize)._frameChecksum ::
      lowByte (s.emitFrame first.now a serviceNumber subserviceNumber serviceFlag pushFlag true
        payload payloadSize)._frameChecksum :: rest) :
    s._sendFrame wait first second a serviceNumber subserviceNumber serviceFlag pushFlag
      waitForPushAnswer true retryOnCrFailure payload payloadSize =
    (if s._ownsMasterRole && pushFlag && waitForPushAnswer then
        wait ((s.emitFrame first.now a serviceNumber subserviceNumber serviceFlag pushFlag true
          payload payloadSize)._markActive a)
      else (s.emitFrame first.now a serviceNumber subserviceNumber serviceFlag pushFlag true
          payload payloadSize)._markActive a, true) := by
  obtain ⟨k, -, -, -⟩ := emitFrame_kept s first.now a serviceNumber subserviceNumber serviceFlag
    pushFlag true payload payloadSize
  generalize hE : s.emitFrame first.now a serviceNumber subserviceNumber serviceFlag pushFlag true
    payload payloadSize = e at hreply k ⊢
  have hrole : (e._markActive a)._ownsMasterRole = s._ownsMasterRole := by
    simp only [_ownsMasterRole, (_markActive_kept e a).1.address, k.address]
  unfold _sendFrame sendFrameBody
  simp only [hign, Bool.false_eq_true, if_false, if_true, hE, hreply, beq_self_eq_true,
    Bool.and_self, hrole]
  split_ifs <;> rfl


/-- One call of the body of `_sendFrame` with commit-receive that reads fewer than two
bytes: the error is recorded, then either the retry is made or the node is marked ignored. -/
theorem sendFrameBody_timeout (retryCall : gnMsup1 → gnMsup1 × Bool) (wait : gnMsup1 → gnMsup1)
    (s : gnMsup1) (at1 : Attempt) (a serviceNumber subserviceNumber : Nat)
    (serviceFlag pushFlag waitForPushAnswer retryOnCrFailure : Bool) (payload : List Nat)
    (payloadSize : Nat) (hign : s._queryIgnore a = false) (hreply : at1.reply.length < 2) :
    sendFrameBody retryCall wait s at1 a serviceNumber subserviceNumber serviceFlag pushFlag
      waitForPushAnswer true retryOnCrFailure payload payloadSize =
    (if retryOnCrFailure && s._ownsMasterRole then
      retryCall { s.emitFrame at1.now a serviceNumber subserviceNumber serviceFlag pushFlag true
        payload payloadSize with _lastComError := ⟨ComErrorCode.Err_CRTimeout, a⟩ }
    else
      (({ s.emitFrame at1.now a serviceNumber subserviceNumber serviceFlag pushFlag true
        payload payloadSize with _lastComError := ⟨ComErrorCode.Err_CRTimeout, a⟩ } :
          gnMsup1)._markIgnore a, false)) := by
  obtain ⟨k, -, -, -⟩ := emitFrame_kept s at1.now a serviceNumber subserviceNumber serviceFlag
    pushFlag true payload payloadSize
  generalize hE : s.emitFrame at1.now a serviceNumber subserviceNumber serviceFlag pushFlag true
    payload payloadSize = e at k ⊢
  have hrole : e._address = s._address := k.address
  unfold sendFrameBody
  simp only [hign, Bool.false_eq_true, if_false, if_true, hE, _ownsMasterRole, hrole]
  rcases hr : at1.reply with _ | ⟨c0, _ | ⟨c1, rest⟩⟩
  · rfl
  · rfl
  · exfalso
    rw [hr] at hreply
    simp only [List.length_cons] at hreply
    omega

/-- `_sendFrame` of a master with commit-receive when every attempt reads fewer than two
bytes: the value is `false`, the error is `Err_CRTimeout` for the address, the node is
marked ignored; the other members are those of the last emission. -/
theorem _sendFrame_timeout (s : gnMsup1) (wait : gnMsup1 → gnMsup1) (first second : Attempt)
    (a serviceNumber subserviceNumber : Nat)
    (serviceFlag pushFlag waitForPushAnswer retryOnCrFailure : Bool) (payload : List Nat)
    (payloadSize : Nat) (hmaster : s._ownsMasterRole = true) (hign : s._queryIgnore a = false)
    (h1 : first.reply.length < 2) (h2 : retryOnCrFailure = true → second.reply.length < 2) :
    ∃ e, Kept s e ∧ e._ignoreStore = s._ignoreStore ∧ e._activeStore = s._activeStore ∧
      s._sendFrame wait first second a serviceNumber subserviceNumber serviceFlag pushFlag
        waitForPushAnswer true retryOnCrFailure payload payloadSize =
      (({ e with _lastComError := ⟨ComErrorCode.Err_CRTimeout, a⟩ } : gnMsup1)._markIgnore a,
        false) := by
  obtain ⟨k, l, -, -⟩ := emitFrame_kept s first.now a serviceNumber subserviceNumber serviceFlag
    pushFlag true payload payloadSize
  unfold _sendFrame
  rw [sendFrameBody_timeout _ _ _ _ _ _ _ _ _ _ _ _ _ hign h1]
  cases retryOnCrFailure with
  | false =>
    simp only [Bool.false_and, Bool.false_eq_true, if_false]
    exact ⟨_, k, l.ignoreStore, l.activeStore, rfl⟩
  | true =>
    simp only [hmaster, Bool.and_self, if_true]
    generalize s.emitFrame first.now a serviceNumber subserviceNumber serviceFlag pushFlag true
      payload payloadSize = e1 at k l ⊢
    have k1 : Kept s { e1 with _lastComError := ⟨ComErrorCode.Err_CRTimeout, a⟩ } :=
      Kept_trans k (by constructor <;> rfl)
    have hign1 : ({ e1 with _lastComError := ⟨ComErrorCode.Err_CRTimeout, a⟩ } :
        gnMsup1)._queryIgnore a = false := by
      rw [_queryIgnore_congr s _ a k1 l.ignoreStore]
      exact hign
    rw [sendFrameBody_timeout _ _ _ _ _ _ _ _ _ _ _ _ _ hign1 (h2 rfl)]
    simp only [Bool.false_and, Bool.false_eq_true, if_false]
    obtain ⟨k2, l2, -, -⟩ := emitFrame_kept
      ({ e1 with _lastComError := ⟨ComErrorCode.Err_CRTimeout, a⟩ } : gnMsup1) second.now a
      serviceNumber subserviceNumber serviceFlag pushFlag true payload payloadSize
    exact ⟨_, Kept_trans k1 k2, l2.ignoreStore.trans l.ignoreStore,
      l2.activeStore.trans l.activeStore, rfl⟩

/-! ## Stores within the frame buffer -/

theorem setFrameByte_overrun (s : gnMsup1) (i v : Nat) (h : i < frameBufferSize) :
    (s.setFrameByte i v).bufferOverrun = s.bufferOverrun := by
  unfold setFrameByte
  rw [if_pos h]

theorem storeLoop_overrun (payload : List Nat) :
    ∀ (k : Nat) (s : gnMsup1), k ≤ GNMSUP1_MAXPAYLOADBUFFER →
      ((List.range k).foldl (fun st i =>
        st.setFrameByte (GNMSUP1_FRAMEBUF_PAYLOADSTART + i) (payload.getD i 0)) s).bufferOverrun
        = s.bufferOverrun := by
  intro k
  induction k with
  | zero => intro s _; rfl
  | succ k ih =>
    intro s hk
    rw [List.range_succ, List.foldl_append]
    simp only [List.foldl_cons, List.foldl_nil]
    rw [setFrameByte_overrun _ _ _ (by
      simp only [frameBufferSize, GNMSUP1_FRAMEBUF_PAYLOADSTART, GNMSUP1_MAXPAYLOADBUFFER] at hk ⊢
      omega)]
    exact ih s (by omega)

/-- Building a frame with a payload of at most `GNMSUP1_MAXPAYLOADBUFFER` bytes makes no store
beyond the end of `_frameBuffer`. -/
theorem buildFrame_overrun (s : gnMsup1) (address serviceNumber subserviceNumber : Nat)
    (serviceFlag pushFlag commitReceivedFlag : Bool) (payload : List Nat) (payloadSize : Nat)
    (hsize : payloadSize ≤ GNMSUP1_MAXPAYLOADBUFFER) :
    (s.buildFrame address serviceNumber subserviceNumber serviceFlag pushFlag
      commitReceivedFlag payload payloadSize).1.bufferOverrun = s.bufferOverrun := by
  have h0 : (GNMSUP1_FRAMEBUF_FLAG < frameBufferSize) := by decide
  have h1 : (GNMSUP1_FRAMEBUF_ADDRESS < frameBufferSize) := by decide
  have h2 : (GNMSUP1_FRAMEBUF_PAYLOADSIZE < frameBufferSize) := by decide
  have h3 : (GNMSUP1_FRAMEBUF_SERVICE < frameBufferSize) := by decide
  have h4 : (GNMSUP1_FRAMEBUF_SUBSERVICE < frameBufferSize) := by decide
  unfold buildFrame
  cases serviceFlag with
  | false =>
    simp only [Bool.false_eq_true, if_false]
    rw [setFrameByte_overrun _ _ _ h1, setFrameByte_overrun _ _ _ h0]
    rfl
  | true =>
    simp only [if_true]
    rw [storeLoop_overrun payload payloadSize _ hsize, setFrameByte_overrun _ _ _ h4,
      setFrameByte_overrun _ _ _ h3, setFrameByte_overrun _ _ _ h2,
      setFrameByte_overrun _ _ _ h1, setFrameByte_overrun _ _ _ h0]
    rfl

theorem emitFrame_overrun (s : gnMsup1) (now address serviceNumber subserviceNumber : Nat)
    (serviceFlag pushFlag commitReceivedFlag : Bool) (payload : List Nat) (payloadSize : Nat)
    (hsize : payloadSize ≤ GNMSUP1_MAXPAYLOADBUFFER) :
    (s.emitFrame now address serviceNumber subserviceNumber serviceFlag pushFlag
      commitReceivedFlag payload payloadSize).bufferOverrun = s.bufferOverrun := by
  have hb := buildFrame_overrun s address serviceNumber subserviceNumber serviceFlag pushFlag
    commitReceivedFlag payload payloadSize hsize
  unfold emitFrame
  generalize s.buildFrame address serviceNumber subserviceNumber serviceFlag pushFlag
    commitReceivedFlag payload payloadSize = bn at hb ⊢
  obtain ⟨b, n⟩ := bn
  simp only [] at hb ⊢
  split_ifs <;> exact hb

theorem _markActive_overrun (s : gnMsup1) (a : Nat) :
    (s._markActive a).bufferOverrun = s.bufferOverrun := by
  unfold _markActive
  split <;> rfl

theorem _markIgnore_overrun (s : gnMsup1) (a : Nat) :
    (s._markIgnore a).bufferOverrun = s.bufferOverrun := by
  unfold _markIgnore
  split <;> rfl

theorem sendFrameBody_overrun (retryCall : gnMsup1 → gnMsup1 × Bool)
    (hretry : ∀ st, (retryCall st).1.bufferOverrun = st.bufferOverrun)
    (s : gnMsup1) (a : Attempt) (address serviceNumber subserviceNumber : Nat)
    (serviceFlag pushFlag waitForPushAnswer commitReceivedFlag retryOnCrFailure : Bool)
    (payload : List Nat) (payloadSize : Nat) (hsize : payloadSize ≤ GNMSUP1_MAXPAYLOADBUFFER) :
    (sendFrameBody retryCall id s a address serviceNumber subserviceNumber serviceFlag
      pushFlag waitForPushAnswer commitReceivedFlag retryOnCrFailure payload
      payloadSize).1.bufferOverrun = s.bufferOverrun := by
  have he := emitFrame_overrun s a.now address serviceNumber subserviceNumber serviceFlag
    pushFlag commitReceivedFlag payload payloadSize hsize
  unfold sendFrameBody
  generalize s.emitFrame a.now address serviceNumber subserviceNumber serviceFlag
    pushFlag commitReceivedFlag payload payloadSize = e at he ⊢
  have hA := (_markActive_overrun e address).trans he
  have hI := (_markIgnore_overrun
    { e with _lastComError := ⟨ComErrorCode.Err_CRTimeout, address⟩ } address).trans he
  have hRC := (hretry { e with _lastComError := ⟨ComErrorCode.Err_CRInvalid, address⟩ }).trans he
  have hRT := (hretry { e with _lastComError := ⟨ComErrorCode.Err_CRTimeout, address⟩ }).trans he
  cases hq : s._queryIgnore address
  · simp only [Bool.false_eq_true, if_false]
    cases commitReceivedFlag
    · simp only [Bool.false_eq_true, if_false, id]
      split_ifs <;> exact he
    · simp only [if_true, id]
      rcases a.reply with _ | ⟨c0, _ | ⟨c1, rest⟩⟩ <;> simp only [] <;> split_ifs <;> first
        | exact he
        | exact hA
        | exact hI
        | exact hRC
        | exact hRT
  · simp only [if_true]

/-- A call of `_sendFrame` with a payload of at most `GNMSUP1_MAXPAYLOADBUFFER` bytes makes no
store beyond the end of an array (the wait for the push answer left out). -/
theorem _sendFrame_overrun (s : gnMsup1) (first second : Attempt)
    (address serviceNumber subserviceNumber : Nat)
    (serviceFlag pushFlag waitForPushAnswer commitReceivedFlag retryOnCrFailure : Bool)
    (payload : List Nat) (payloadSize : Nat) (hsize : payloadSize ≤ GNMSUP1_MAXPAYLOADBUFFER) :
    (s._sendFrame id first second address serviceNumber subserviceNumber serviceFlag
      pushFlag waitForPushAnswer commitReceivedFlag retryOnCrFailure payload
      payloadSize).1.bufferOverrun = s.bufferOverrun := by
  unfold _sendFrame
  apply sendFrameBody_overrun _ _ _ _ _ _ _ _ _ _ _ _ _ _ hsize
  intro st
  apply sendFrameBody_overrun _ _ _ _ _ _ _ _ _ _ _ _ _ _ hsize
  intro st1
  rfl

end gnMsup1

namespace gnMsup1

/-! ## Commit-receive round trip of the master -/

theorem sendFrameThenWait_nowait (s : gnMsup1) (first second : Attempt) (ticks : List Tick)
    (address serviceNumber subserviceNumber : Nat)
    (serviceFlag pushFlag waitForPushAnswer commitReceivedFlag retryOnCrFailure : Bool)
    (payload : List Nat) (payloadSize : Nat)
    (h : pushFlag = false ∨ waitForPushAnswer = false) :
    s.sendFrameThenWait first second ticks address serviceNumber subserviceNumber serviceFlag
      pushFlag waitForPushAnswer commitReceivedFlag retryOnCrFailure payload payloadSize =
    some (s._sendFrame id first second address serviceNumber subserviceNumber serviceFlag
      pushFlag waitForPushAnswer commitReceivedFlag retryOnCrFailure payload payloadSize) := by
  unfold sendFrameThenWait
  rcases s._sendFrame id first second address serviceNumber subserviceNumber serviceFlag
      pushFlag waitForPushAnswer commitReceivedFlag retryOnCrFailure payload payloadSize
    with ⟨s1, r⟩
  cases r
  · rfl
  · rcases h with h | h <;> simp [h]

/-- `send` on an initialised master to a valid address while no push-blocking window is open:
the call of `_sendFrame`, followed by the wait for the push answer. -/
theorem send_direct (s : gnMsup1) (now : Nat) (entry : List Tick) (first second : Attempt)
    (ticks : List Tick) (a serviceNumber subserviceNumber : Nat) (payload : List Nat)
    (payloadSize : Nat) (pushFlag commitReceivedFlag retryOnCrFailure : Bool)
    (hinit : s._initialized = true) (hmaster : s._ownsMasterRole = true)
    (ha : a ≤ GNMSUP1_MAXSLAVEADDRESS) (hopen : s.pushBlockingActive now = false) :
    s.send now entry first second ticks a serviceNumber subserviceNumber payload payloadSize
      pushFlag commitReceivedFlag retryOnCrFailure =
    s.sendFrameThenWait first second ticks a serviceNumber subserviceNumber true pushFlag
      (s._blockingMode == BlockingMode.Synchronous) commitReceivedFlag retryOnCrFailure payload
      payloadSize := by
  unfold send
  have ha1 : ¬ a > GNMSUP1_MAXSLAVEADDRESS := by omega
  simp only [hinit, hmaster, hopen, ha1, Bool.not_true, Bool.or_self, Bool.false_eq_true, if_false,
    Bool.false_and]

/-- C13 (commit-receive success), as amended. A master calls `_sendFrame` with the
commit-receive flag and a payload of at most `GNMSUP1_MAXPAYLOADBUFFER` bytes for an address
`a ≤ GNMSUP1_MAXSLAVEADDRESS` that is not ignored, and `readBytes` obtains the high and the low
byte of the checksum the call has just written. Then the call marks `a` active: in the state
`s1` it has reached when the reply is handled, the active bit of `a` is set, its ignore bit is
clear, `_lastComError` is as before the call and no store went beyond the end of an array; the
bytes written are one frame, whose checksum bytes are the two bytes of the reply. The call
returns `true`, with the state `s1`, or with what the wait for the push answer makes of `s1`
when `pushFlag` and `waitForPushAnswer` are set. `send(a, ..., commitReceivedFlag = true)` on
an initialised master with no push-blocking window open that does not wait for a push answer
(push flag clear, or a mode other than synchronous) returns `true` with `a` active. -/
theorem C13_commit_receive_success (s : gnMsup1) (wait : gnMsup1 → gnMsup1)
    (first second : Attempt) (a serviceNumber subserviceNumber : Nat)
    (serviceFlag pushFlag waitForPushAnswer retryOnCrFailure : Bool) (payload : List Nat)
    (payloadSize : Nat) (rest : List Nat)
    (hmaster : s._ownsMasterRole = true) (ha : a ≤ GNMSUP1_MAXSLAVEADDRESS)
    (hI : s._ignoreStore.length = GNMSUP1_MAXSLAVEADDRESS + 1)
    (hA : s._activeStore.length = GNMSUP1_MAXSLAVEADDRESS + 1)
    (hign : s._queryIgnore a = false)
    (hsize : payloadSize ≤ GNMSUP1_MAXPAYLOADBUFFER)
    (hreply : first.reply =
      highByte (s.emitFrame first.now a serviceNumber subserviceNumber serviceFlag pushFlag true
        payload payloadSize)._frameChecksum ::
      lowByte (s.emitFrame first.now a serviceNumber subserviceNumber serviceFlag pushFlag true
        payload payloadSize)._frameChecksum :: rest) :
    ∃ s1 body,
      s1.written = s.written ++ ([GNMSUP1_FRAMESTART1, GNMSUP1_FRAMESTART2] ++ body ++
        first.reply.take 2 ++ [GNMSUP1_FRAMESTOP1, GNMSUP1_FRAMESTOP2]) ∧
      storeBit s1._activeStore a = true ∧ storeBit s1._ignoreStore a = false ∧
      s1._lastComError = s._lastComError ∧
      s1.bufferOverrun = s.bufferOverrun ∧
      s._sendFrame wait first second a serviceNumber subserviceNumber serviceFlag pushFlag
        waitForPushAnswer true retryOnCrFailure payload payloadSize =
        (if pushFlag && waitForPushAnswer then wait s1 else s1, true) ∧
      (serviceFlag = true → s._initialized = true →
        (pushFlag = false ∨ s._blockingMode ≠ BlockingMode.Synchronous) →
        ∀ (now : Nat) (entry ticks : List Tick), s.pushBlockingActive now = false →
          s.send now entry first second ticks a serviceNumber subserviceNumber payload
            payloadSize pushFlag true retryOnCrFailure = some (s1, true)) := by
  obtain ⟨k, l, -, body, hw⟩ := emitFrame_kept s first.now a serviceNumber subserviceNumber
    serviceFlag pushFlag true payload payloadSize
  have hsend := _sendFrame_confirmed s wait first second a serviceNumber subserviceNumber
    serviceFlag pushFlag waitForPushAnswer retryOnCrFailure payload payloadSize rest hign hreply
  have hsendid := _sendFrame_confirmed s id first second a serviceNumber subserviceNumber
    serviceFlag pushFlag (s._blockingMode == BlockingMode.Synchronous) retryOnCrFailure payload
    payloadSize rest hign hreply
  have ho := emitFrame_overrun s first.now a serviceNumber subserviceNumber serviceFlag pushFlag
    true payload payloadSize hsize
  generalize s.emitFrame first.now a serviceNumber subserviceNumber serviceFlag pushFlag true
    payload payloadSize = e at hreply k l hw hsend hsendid ho
  obtain ⟨km, hme, hmw, -, -, -⟩ := _markActive_kept e a
  have hbits := _markActive_bits e a ha
    (by rw [l.ignoreStore, hI]; simp only [GNMSUP1_MAXSLAVEADDRESS] at ha ⊢; omega)
    (by rw [l.activeStore, hA]; simp only [GNMSUP1_MAXSLAVEADDRESS] at ha ⊢; omega)
  refine ⟨e._markActive a, body, ?_, hbits.1, hbits.2, hme.trans l.lastComError,
    (_markActive_overrun e a).trans ho, ?_, ?_⟩
  · rw [hmw, hw, hreply]
    simp
  · rw [hsend, hmaster]
    simp
  · intro hsf hinit hnw now entry ticks hopen
    subst hsf
    rw [send_direct s now entry first second ticks a serviceNumber subserviceNumber payload
      payloadSize pushFlag true retryOnCrFailure hinit hmaster ha hopen]
    rw [sendFrameThenWait_nowait]
    · rw [hsendid]
      rcases hnw with h | h
      · simp [h]
      · have h2 : (s._blockingMode == BlockingMode.Synchronous) = false := by simpa using h
        simp [h2]
    · rcases hnw with h | h
      · left; exact h
      · right; simpa using h


set_option maxRecDepth 100000 in
/-- C13 on scenario 2 of the specification: the master sends service 0x10, subservice 0x01,
payload `DE AD` to 0x05 with commit-receive and reads `62 23`, the checksum of
`50 05 02 10 01 DE AD`. -/
theorem C13_commit_receive_success_witness :
    ((afterBegin 0xFF)._ownsMasterRole = true ∧ 0x05 ≤ GNMSUP1_MAXSLAVEADDRESS ∧
      (afterBegin 0xFF)._queryIgnore 0x05 = false ∧ 2 ≤ GNMSUP1_MAXPAYLOADBUFFER ∧
      (⟨0, [0x62, 0x23]⟩ : Attempt).reply =
        highByte ((afterBegin 0xFF).emitFrame 0 0x05 0x10 0x01 true false true [0xDE, 0xAD]
          2)._frameChecksum ::
        lowByte ((afterBegin 0xFF).emitFrame 0 0x05 0x10 0x01 true false true [0xDE, 0xAD]
          2)._frameChecksum :: []) ∧
    ∃ s1 body,
      s1.written = (afterBegin 0xFF).written ++ ([GNMSUP1_FRAMESTART1, GNMSUP1_FRAMESTART2] ++
        body ++ (⟨0, [0x62, 0x23]⟩ : Attempt).reply.take 2 ++
        [GNMSUP1_FRAMESTOP1, GNMSUP1_FRAMESTOP2]) ∧
      storeBit s1._activeStore 0x05 = true ∧ storeBit s1._ignoreStore 0x05 = false ∧
      s1._lastComError = (afterBegin 0xFF)._lastComError ∧
      s1.bufferOverrun = (afterBegin 0xFF).bufferOverrun ∧
      (afterBegin 0xFF)._sendFrame id ⟨0, [0x62, 0x23]⟩ ⟨0, []⟩ 0x05 0x10 0x01 true false
        false true false [0xDE, 0xAD] 2 = (if false && false then id s1 else s1, true) ∧
      (true = true → (afterBegin 0xFF)._initialized = true →
        (false = false ∨ (afterBegin 0xFF)._blockingMode ≠ BlockingMode.Synchronous) →
        ∀ (now : Nat) (entry ticks : List Tick), (afterBegin 0xFF).pushBlockingActive now = false →
          (afterBegin 0xFF).send now entry ⟨0, [0x62, 0x23]⟩ ⟨0, []⟩ ticks 0x05 0x10 0x01
            [0xDE, 0xAD] 2 false true false = some (s1, true)) :=
  ⟨⟨by decide, by decide, by decide, by decide, by decide⟩,
    C13_commit_receive_success (afterBegin 0xFF) id ⟨0, [0x62, 0x23]⟩ ⟨0, []⟩ 0x05 0x10 0x01
      true false false false [0xDE, 0xAD] 2 [] (by decide) (by decide) (by decide) (by decide)
      (by decide) (by decide) (by decide)⟩

set_option maxRecDepth 100000 in
/-- Counterexample for C13 as stated. A master in synchronous mode with ignoring of inactive
nodes enabled calls `send` to 0x05 with push flag and commit-receive at clock value 10001 and
reads the two bytes of the checksum of the frame `70 05 00 10 01` it sent: `_sendFrame` marks
0x05 active and then waits for the push answer. The wait calls `handleCommunication` at clock
value 10002, nothing is received, and the scavenger, whose interval has elapsed, resets the
active address 0x05. At clock value 10060 the push-blocking window is over and `send` returns
`true`, having written the one frame: 0x05 is neither active nor ignored. -/
theorem C13_commit_receive_success_counterexample :
    (((afterBegin 0xFF).setIgnoreInactiveNodes true).blockingMode
      BlockingMode.Synchronous)._ownsMasterRole = true ∧
    storeBit ((((afterBegin 0xFF).setIgnoreInactiveNodes true).blockingMode
      BlockingMode.Synchronous)._sendFrame id
        ⟨10001, [highByte (ccitt [0x70, 0x05, 0x00, 0x10, 0x01]),
          lowByte (ccitt [0x70, 0x05, 0x00, 0x10, 0x01])]⟩ ⟨10001, []⟩
        0x05 0x10 0x01 true true true true false [] 0).1._activeStore 0x05 = true ∧
    ((((afterBegin 0xFF).setIgnoreInactiveNodes true).blockingMode
      BlockingMode.Synchronous).send 10001 []
        ⟨10001, [highByte (ccitt [0x70, 0x05, 0x00, 0x10, 0x01]),
          lowByte (ccitt [0x70, 0x05, 0x00, 0x10, 0x01])]⟩ ⟨10001, []⟩
        [⟨10002, [], [], []⟩, ⟨10060, [], [], []⟩] 0x05 0x10 0x01 [] 0 true true false).map
      (fun r => (r.2, storeBit r.1._activeStore 0x05, storeBit r.1._ignoreStore 0x05,
        r.1.written)) =
      some (true, false, false, wireFrame [0x70, 0x05, 0x00, 0x10, 0x01]) := by
  decide

theorem sendFrameThenWait_failed (s s1 : gnMsup1) (first second : Attempt) (ticks : List Tick)
    (address serviceNumber subserviceNumber : Nat)
    (serviceFlag pushFlag waitForPushAnswer commitReceivedFlag retryOnCrFailure : Bool)
    (payload : List Nat) (payloadSize : Nat)
    (h : s._sendFrame id first second address serviceNumber subserviceNumber serviceFlag
      pushFlag waitForPushAnswer commitReceivedFlag retryOnCrFailure payload payloadSize
      = (s1, false)) :
    s.sendFrameThenWait first second ticks address serviceNumber subserviceNumber serviceFlag
      pushFlag waitForPushAnswer commitReceivedFlag retryOnCrFailure payload payloadSize =
    some (s1, false) := by
  unfold sendFrameThenWait
  rw [h]

theorem _sendFrame_ignored (s : gnMsup1) (wait : gnMsup1 → gnMsup1) (first second : Attempt)
    (address serviceNumber subserviceNumber : Nat)
    (serviceFlag pushFlag waitForPushAnswer commitReceivedFlag retryOnCrFailure : Bool)
    (payload : List Nat) (payloadSize : Nat) (h : s._queryIgnore address = true) :
    s._sendFrame wait first second address serviceNumber subserviceNumber serviceFlag
      pushFlag waitForPushAnswer commitReceivedFlag retryOnCrFailure payload payloadSize
      = (s, false) := by
  unfold _sendFrame sendFrameBody
  simp only [h, if_true]

/-- C15 (dead-node suppression), as amended. An initialised master with ignoring of inactive
nodes enabled (`setIgnoreInactiveNodes(true)`) calls `send` with commit-receive, without
retry and with a payload of at most `GNMSUP1_MAXPAYLOADBUFFER` bytes for an address
`a ≤ GNMSUP1_MAXSLAVEADDRESS`, while no push-blocking window is open and `a` is not ignored,
and the commit-receive wait obtains fewer than two bytes. The call returns `false`, records
`{Err_CRTimeout, a}` and sets the ignore bit of `a`, without a store beyond the end of an
array. Every
subsequent `send` to `a` that does not have to wait for an open push-blocking window (none is
open, or the mode is fully asynchronous) returns `false` and leaves the object as it is:
nothing is written, whatever the transport and the clock do. -/
theorem C15_dead_node_suppression (s : gnMsup1) (now : Nat) (entry : List Tick)
    (first second : Attempt) (ticks : List Tick) (a serviceNumber subserviceNumber : Nat)
    (payload : List Nat) (payloadSize : Nat) (pushFlag : Bool)
    (hinit : s._initialized = true) (hmaster : s._ownsMasterRole = true)
    (henabled : s._ignoreInactiveNodes = true) (ha : a ≤ GNMSUP1_MAXSLAVEADDRESS)
    (hI : s._ignoreStore.length = GNMSUP1_MAXSLAVEADDRESS + 1)
    (hA : s._activeStore.length = GNMSUP1_MAXSLAVEADDRESS + 1)
    (hopen : s.pushBlockingActive now = false) (hign : s._queryIgnore a = false)
    (hsize : payloadSize ≤ GNMSUP1_MAXPAYLOADBUFFER)
    (htimeout : first.reply.length < 2) :
    ∃ s1, s.send now entry first second ticks a serviceNumber subserviceNumber payload
        payloadSize pushFlag true false = some (s1, false) ∧
      s1._lastComError = ⟨ComErrorCode.Err_CRTimeout, a⟩ ∧ storeBit s1._ignoreStore a = true ∧
      s1.bufferOverrun = s.bufferOverrun ∧
      ∀ (now2 : Nat) (entry2 : List Tick) (first2 second2 : Attempt) (ticks2 : List Tick)
        (serviceNumber2 subserviceNumber2 : Nat) (payload2 : List Nat) (payloadSize2 : Nat)
        (pushFlag2 commitReceivedFlag2 retryOnCrFailure2 : Bool),
        (s1.pushBlockingActive now2 = false ∨
          s1._blockingMode = BlockingMode.FullyAsynchronous) →
        s1.send now2 entry2 first2 second2 ticks2 a serviceNumber2 subserviceNumber2 payload2
          payloadSize2 pushFlag2 commitReceivedFlag2 retryOnCrFailure2 = some (s1, false) := by
  obtain ⟨e, k, hi, hac, hsend⟩ := _sendFrame_timeout s id first second a serviceNumber
    subserviceNumber true pushFlag (s._blockingMode == BlockingMode.Synchronous) false payload
    payloadSize hmaster hign htimeout (fun h => by simp at h)
  obtain ⟨km, hle, -, -, -, -⟩ := _markIgnore_kept
    ({ e with _lastComError := ⟨ComErrorCode.Err_CRTimeout, a⟩ } : gnMsup1) a
  have hbits := _markIgnore_bits
    ({ e with _lastComError := ⟨ComErrorCode.Err_CRTimeout, a⟩ } : gnMsup1) a ha
    (by show a / 8 < e._ignoreStore.length
        rw [hi, hI]; simp only [GNMSUP1_MAXSLAVEADDRESS] at ha ⊢; omega)
    (by show a / 8 < e._activeStore.length
        rw [hac, hA]; simp only [GNMSUP1_MAXSLAVEADDRESS] at ha ⊢; omega)
  have k1 : Kept s (({ e with _lastComError := ⟨ComErrorCode.Err_CRTimeout, a⟩ } :
      gnMsup1)._markIgnore a) := Kept_trans (Kept_trans k (by constructor <;> rfl)) km
  have ho : (({ e with _lastComError := ⟨ComErrorCode.Err_CRTimeout, a⟩ } :
      gnMsup1)._markIgnore a).bufferOverrun = s.bufferOverrun := by
    have h := _sendFrame_overrun s first second a serviceNumber subserviceNumber true pushFlag
      (s._blockingMode == BlockingMode.Synchronous) true false payload payloadSize hsize
    rw [hsend] at h
    exact h
  generalize (({ e with _lastComError := ⟨ComErrorCode.Err_CRTimeout, a⟩ } :
      gnMsup1)._markIgnore a) = s1 at hsend hle hbits k1 ho
  refine ⟨s1, ?_, hle, hbits.2, ho, ?_⟩
  · rw [send_direct s now entry first second ticks a serviceNumber subserviceNumber payload
      payloadSize pushFlag true false hinit hmaster ha hopen]
    exact sendFrameThenWait_failed _ _ _ _ _ _ _ _ _ _ _ _ _ _ _ hsend
  · intro now2 entry2 first2 second2 ticks2 serviceNumber2 subserviceNumber2 payload2
      payloadSize2 pushFlag2 commitReceivedFlag2 retryOnCrFailure2 hno
    have hinit1 : s1._initialized = true := k1.initialized.trans hinit
    have hmaster1 : s1._ownsMasterRole = true := by
      simp only [_ownsMasterRole, k1.address]
      exact hmaster
    have hign1 : s1._queryIgnore a = true := by
      have ha1 : ¬ a > GNMSUP1_MAXSLAVEADDRESS := by omega
      simp only [_queryIgnore, hmaster1, k1.ignoreInactiveNodes, henabled, ha1, hbits.2,
        Bool.not_true, Bool.or_self, Bool.false_eq_true, if_false]
    rcases hno with hno | hno
    · rw [send_direct s1 now2 entry2 first2 second2 ticks2 a serviceNumber2 subserviceNumber2
        payload2 payloadSize2 pushFlag2 commitReceivedFlag2 retryOnCrFailure2 hinit1 hmaster1 ha
        hno]
      exact sendFrameThenWait_failed _ _ _ _ _ _ _ _ _ _ _ _ _ _ _
        (_sendFrame_ignored _ _ _ _ _ _ _ _ _ _ _ _ _ _ hign1)
    · cases hb : s1.pushBlockingActive now2
      · rw [send_direct s1 now2 entry2 first2 second2 ticks2 a serviceNumber2 subserviceNumber2
          payload2 payloadSize2 pushFlag2 commitReceivedFlag2 retryOnCrFailure2 hinit1 hmaster1
          ha hb]
        exact sendFrameThenWait_failed _ _ _ _ _ _ _ _ _ _ _ _ _ _ _
          (_sendFrame_ignored _ _ _ _ _ _ _ _ _ _ _ _ _ _ hign1)
      · unfold send
        have ha1 : ¬ a > GNMSUP1_MAXSLAVEADDRESS := by omega
        simp [hinit1, hmaster1, ha1, hb, hno]

/-- C15 on scenario 5 of the specification, with ignoring of inactive nodes enabled. -/
theorem C15_dead_node_suppression_witness :
    (((afterBegin 0xFF).setIgnoreInactiveNodes true)._initialized = true ∧
      ((afterBegin 0xFF).setIgnoreInactiveNodes true)._ownsMasterRole = true ∧
      ((afterBegin 0xFF).setIgnoreInactiveNodes true)._ignoreInactiveNodes = true ∧
      0x09 ≤ GNMSUP1_MAXSLAVEADDRESS ∧
      ((afterBegin 0xFF).setIgnoreInactiveNodes true).pushBlockingActive 0 = false ∧
      ((afterBegin 0xFF).setIgnoreInactiveNodes true)._queryIgnore 0x09 = false ∧
      0 ≤ GNMSUP1_MAXPAYLOADBUFFER ∧
      (⟨0, []⟩ : Attempt).reply.length < 2) ∧
    ∃ s1, ((afterBegin 0xFF).setIgnoreInactiveNodes true).send 0 [] ⟨0, []⟩ ⟨0, []⟩ [] 0x09
        0x10 0x01 [] 0 false true false = some (s1, false) ∧
      s1._lastComError = ⟨ComErrorCode.Err_CRTimeout, 0x09⟩ ∧
      storeBit s1._ignoreStore 0x09 = true ∧
      s1.bufferOverrun = ((afterBegin 0xFF).setIgnoreInactiveNodes true).bufferOverrun ∧
      ∀ (now2 : Nat) (entry2 : List Tick) (first2 second2 : Attempt) (ticks2 : List Tick)
        (serviceNumber2 subserviceNumber2 : Nat) (payload2 : List Nat) (payloadSize2 : Nat)
        (pushFlag2 commitReceivedFlag2 retryOnCrFailure2 : Bool),
        (s1.pushBlockingActive now2 = false ∨
          s1._blockingMode = BlockingMode.FullyAsynchronous) →
        s1.send now2 entry2 first2 second2 ticks2 0x09 serviceNumber2 subserviceNumber2 payload2
          payloadSize2 pushFlag2 commitReceivedFlag2 retryOnCrFailure2 = some (s1, false) :=
  ⟨⟨by decide, by decide, by decide, by decide, by decide, by decide, by decide, by decide⟩,
    C15_dead_node_suppression ((afterBegin 0xFF).setIgnoreInactiveNodes true) 0 [] ⟨0, []⟩
      ⟨0, []⟩ [] 0x09 0x10 0x01 [] 0 false (by decide) (by decide) (by decide) (by decide)
      (by decide) (by decide) (by decide) (by decide) (by decide) (by decide)⟩

set_option maxRecDepth 100000 in
/-- Counterexample for C15 as stated. (1) Scenario 5 on a master after `begin`, where ignoring
of inactive nodes is off (the initial value of `_ignoreInactiveNodes`): `send` to 0x09 with
commit-receive times out, returns `false` and sets the ignore bit of 0x09; the next `send` to
0x09 writes the frame `AA 55 40 09 00 10 01 E0 41 CC 33` and returns `true`. (2) With
ignoring enabled, the first `send` has the push flag set and opens a push-blocking window;
the next `send`, 10 ms later in the default mode, waits for the window, a frame `80 09` of
slave 0x09 arrives during the wait and marks 0x09 active, and the `send` writes its frame and
returns `true`. -/
theorem C15_dead_node_suppression_counterexample :
    ((afterBegin 0xFF).send 0 [] ⟨0, []⟩ ⟨0, []⟩ [] 0x09 0x10 0x01 [] 0 false true false).bind
      (fun r1 => (r1.1.send 100 [] ⟨100, []⟩ ⟨100, []⟩ [] 0x09 0x10 0x01 [] 0 false false
        false).map (fun r2 => (r1.2, storeBit r1.1._ignoreStore 0x09, r2.2,
          r2.1.written.drop r1.1.written.length))) =
      some (false, true, true,
        [0xAA, 0x55, 0x40, 0x09, 0x00, 0x10, 0x01, 0xE0, 0x41, 0xCC, 0x33]) ∧
    (((afterBegin 0xFF).setIgnoreInactiveNodes true).send 0 [] ⟨0, []⟩ ⟨0, []⟩ [] 0x09 0x10 0x01
      [] 0 true true false).bind
      (fun r1 => (r1.1.send 10
        [⟨10, wireFrame [0x80, 0x09], [], []⟩, ⟨11, [], [], []⟩] ⟨12, []⟩ ⟨12, []⟩ [] 0x09 0x10
        0x01 [] 0 false false false).map (fun r2 => (r1.2, r1.1._queryIgnore 0x09, r2.2,
          r2.1.written.drop r1.1.written.length))) =
      some (false, true, true,
        [0xAA, 0x55, 0x40, 0x09, 0x00, 0x10, 0x01, 0xE0, 0x41, 0xCC, 0x33]) := by
  constructor <;> rfl

end gnMsup1

namespace gnMsup1

/-! ## `push` in fully asynchronous mode -/

theorem pushAll_cons (c : PushCall) (calls : List PushCall) (s : gnMsup1) :
    pushAll s (c :: calls) =
      (s.push c.now c.ticks c.serviceNumber c.subserviceNumber c.payload c.payloadSize
        c.commitReceivedFlag).bind
        (fun r => (pushAll r.1 calls).map (fun x => (x.1, r.2 :: x.2))) := by
  rcases h : s.push c.now c.ticks c.serviceNumber c.subserviceNumber c.payload c.payloadSize
    c.commitReceivedFlag with _ | ⟨s1, r⟩ <;> simp [pushAll, h]

theorem pushAll_append (xs ys : List PushCall) (s : gnMsup1) :
    pushAll s (xs ++ ys) =
      (pushAll s xs).bind (fun r => (pushAll r.1 ys).map (fun x => (x.1, r.2 ++ x.2))) := by
  induction xs generalizing s with
  | nil =>
    simp only [List.nil_append, pushAll, Option.some_bind, List.nil_append]
    cases pushAll s ys <;> rfl
  | cons c xs ih =>
    rw [List.cons_append, pushAll_cons, pushAll_cons]
    cases s.push c.now c.ticks c.serviceNumber c.subserviceNumber c.payload c.payloadSize
        c.commitReceivedFlag with
    | none => rfl
    | some r =>
      simp only [Option.some_bind, ih]
      cases pushAll r.1 xs with
      | none => rfl
      | some r1 =>
        simp only [Option.map_some', Option.some_bind]
        cases pushAll r1.1 ys <;> simp

/-- What `storePushEntry` leaves in the push store. -/
theorem storePushEntry_store (s : gnMsup1) (now k serviceNumber subserviceNumber : Nat)
    (payload : List Nat) (payloadSize : Nat) (commitReceivedFlag : Bool)
    (hk : k < s._pushStore.length) :
    (s.storePushEntry now k serviceNumber subserviceNumber payload payloadSize
      commitReceivedFlag)._initialized = s._initialized ∧
    (s.storePushEntry now k serviceNumber subserviceNumber payload payloadSize
      commitReceivedFlag)._address = s._address ∧
    (s.storePushEntry now k serviceNumber subserviceNumber payload payloadSize
      commitReceivedFlag)._blockingMode = s._blockingMode ∧
    (s.storePushEntry now k serviceNumber subserviceNumber payload payloadSize
      commitReceivedFlag)._pushStore.length = s._pushStore.length ∧
    (s.storePushEntry now k serviceNumber subserviceNumber payload payloadSize
      commitReceivedFlag).slotPending k = true ∧
    ((s.storePushEntry now k serviceNumber subserviceNumber payload payloadSize
      commitReceivedFlag).pushEntry k).timestamp = now ∧
    (∀ i, i ≠ k → (s.storePushEntry now k serviceNumber subserviceNumber payload payloadSize
      commitReceivedFlag).pushEntry i = s.pushEntry i) := by
  refine ⟨rfl, rfl, rfl, ?_, ?_, ?_, ?_⟩
  · simp [storePushEntry]
  · simp only [slotPending, storePushEntry, pushEntry, List.getD_eq_getElem?_getD,
      List.getElem?_set_self hk, Option.getD_some]
    cases commitReceivedFlag <;> decide
  · simp only [storePushEntry, pushEntry, List.getD_eq_getElem?_getD,
      List.getElem?_set_self hk, Option.getD_some]
  · intro i hi
    simp only [storePushEntry, pushEntry, List.getD_eq_getElem?_getD]
    rw [List.getElem?_set_ne (fun h => hi h.symm)]

/-- `push` on an initialised slave in a mode other than synchronous, when slot `k` is the
first free one: the entry is stored in slot `k` and the value is `true`. -/
theorem push_stores (s : gnMsup1) (now : Nat) (ticks : List Tick)
    (serviceNumber subserviceNumber : Nat) (payload : List Nat) (payloadSize : Nat)
    (commitReceivedFlag : Bool) (k : Nat)
    (hinit : s._initialized = true) (hslave : s._ownsMasterRole = false)
    (hmode : s._blockingMode ≠ BlockingMode.Synchronous)
    (hk : k < GNMSUP1_MAXPUSHQEUEENTRYS) (hfree : s._pushStoreNextFree now = k) :
    s.push now ticks serviceNumber subserviceNumber payload payloadSize commitReceivedFlag =
      some (s.storePushEntry now k serviceNumber subserviceNumber payload payloadSize
        commitReceivedFlag, true) := by
  have hne : (k == GNMSUP1_PUSHSTOREFULL) = false := by
    have : GNMSUP1_MAXPUSHQEUEENTRYS < GNMSUP1_PUSHSTOREFULL := by decide
    simp only [beq_eq_false_iff_ne]
    omega
  have hm : ((s.storePushEntry now k serviceNumber subserviceNumber payload payloadSize
      commitReceivedFlag)._blockingMode == BlockingMode.Synchronous) = false := by
    show (s._blockingMode == BlockingMode.Synchronous) = false
    simpa using hmode
  unfold push
  simp only [hinit, hslave, hfree, hne, Bool.not_true, Bool.or_self, Bool.false_eq_true, if_false,
    Bool.false_and, hm]

/-- `push` on an initialised slave in fully asynchronous mode with a full store: the value is
`false` and the object is left as it was. -/
theorem push_full (s : gnMsup1) (now : Nat) (ticks : List Tick)
    (serviceNumber subserviceNumber : Nat) (payload : List Nat) (payloadSize : Nat)
    (commitReceivedFlag : Bool)
    (hinit : s._initialized = true) (hslave : s._ownsMasterRole = false)
    (hmode : s._blockingMode = BlockingMode.FullyAsynchronous)
    (hfull : s._pushStoreNextFree now = GNMSUP1_PUSHSTOREFULL) :
    s.push now ticks serviceNumber subserviceNumber payload payloadSize commitReceivedFlag =
      some (s, false) := by
  unfold push
  simp only [hinit, hslave, hfull, hmode, Bool.not_true, Bool.or_self, Bool.false_eq_true,
    if_false, beq_self_eq_true, Bool.and_self, if_true]

theorem nextFree_first (s : gnMsup1) (now k : Nat) (hk : k < GNMSUP1_MAXPUSHQEUEENTRYS)
    (hfree : s.slotPending k = false ∨ s.slotExpired now k = true)
    (hlow : ∀ j, j < k → s.slotPending j = true ∧ s.slotExpired now j = false) :
    s._pushStoreNextFree now = k := by
  rcases nextFree_cases s now with h | h
  · have := h.2 k hk
    rcases hfree with hf | hf <;> simp_all
  · by_contra hne
    rcases Nat.lt_or_gt_of_ne hne with hlt | hgt
    · have := hlow _ hlt
      rcases h.2.1 with hf | hf <;> simp_all
    · have := h.2.2 k hgt
      rcases hfree with hf | hf <;> simp_all

theorem nextFree_full (s : gnMsup1) (now : Nat)
    (hall : ∀ i, i < GNMSUP1_MAXPUSHQEUEENTRYS →
      s.slotPending i = true ∧ s.slotExpired now i = false) :
    s._pushStoreNextFree now = GNMSUP1_PUSHSTOREFULL := by
  rcases nextFree_cases s now with h | h
  · exact h.1
  · have := hall _ h.1
    rcases h.2.1 with hf | hf <;> simp_all

theorem pushAll_fill (calls : List PushCall) :
    ∀ (k : Nat) (s : gnMsup1) (later : List Nat),
      k + calls.length ≤ GNMSUP1_MAXPUSHQEUEENTRYS →
      Filled s k (calls.map (fun c => c.now) ++ later) →
      (calls.map (fun c => c.now) ++ later).Pairwise
        (fun t1 t2 => sub32 t2 t1 ≤ GNMSUP1_DEFAULTPUSHQEUETIMEOUT) →
      ∃ s1, pushAll s calls = some (s1, List.replicate calls.length true) ∧
        Filled s1 (k + calls.length) later := by
  induction calls with
  | nil =>
    intro k s later _ hf _
    exact ⟨s, rfl, by simpa using hf⟩
  | cons c calls ih =>
    intro k s later hk hf hp
    simp only [List.map_cons, List.cons_append, List.length_cons] at hk hf hp
    rw [List.pairwise_cons] at hp
    have hklt : k < GNMSUP1_MAXPUSHQEUEENTRYS := by omega
    have hfree : s._pushStoreNextFree c.now = k := by
      apply nextFree_first s c.now k hklt (Or.inl (hf.free k (le_refl k) hklt))
      intro j hj
      refine ⟨(hf.pending j hj).1, ?_⟩
      have := (hf.pending j hj).2 c.now (List.mem_cons_self _ _)
      simp only [slotExpired, decide_eq_false_iff_not, not_lt]
      exact this
    have hpush := push_stores s c.now c.ticks c.serviceNumber c.subserviceNumber c.payload
      c.payloadSize c.commitReceivedFlag k hf.initialized hf.slave
      (by rw [hf.mode]; decide) hklt hfree
    obtain ⟨h1, h2, h3, h4, h5, h6, h7⟩ := storePushEntry_store s c.now k c.serviceNumber
      c.subserviceNumber c.payload c.payloadSize c.commitReceivedFlag (by rw [hf.size]; exact hklt)
    generalize s.storePushEntry c.now k c.serviceNumber c.subserviceNumber c.payload
      c.payloadSize c.commitReceivedFlag = s1 at hpush h1 h2 h3 h4 h5 h6 h7
    have hf1 : Filled s1 (k + 1) (calls.map (fun c => c.now) ++ later) := by
      refine ⟨h1.trans hf.initialized, ?_, h3.trans hf.mode, h4.trans hf.size, ?_, ?_⟩
      · simp only [_ownsMasterRole, h2]
        exact hf.slave
      · intro i hi
        by_cases hik : i = k
        · subst hik
          refine ⟨h5, ?_⟩
          intro t ht
          rw [h6]
          exact hp.1 t ht
        · have hlt : i < k := by omega
          simp only [slotPending, h7 i hik]
          refine ⟨(hf.pending i hlt).1, ?_⟩
          intro t ht
          exact (hf.pending i hlt).2 t (List.mem_cons_of_mem _ ht)
      · intro i hki hi
        have hik : i ≠ k := by omega
        simp only [slotPending, h7 i hik]
        exact hf.free i (by omega) hi
    obtain ⟨s2, hall, hf2⟩ := ih (k + 1) s1 later (by omega) hf1 hp.2
    refine ⟨s2, ?_, ?_⟩
    · rw [pushAll_cons, hpush]
      simp only [Option.some_bind, hall, Option.map_some', List.length_cons,
        List.replicate_succ]
    · have : k + (c :: calls).length = k + 1 + calls.length := by
        simp only [List.length_cons]; omega
      rw [this]
      exact hf2

theorem storePushEntry_overrun (s : gnMsup1) (now storePosition serviceNumber
    subserviceNumber : Nat) (payload : List Nat) (payloadSize : Nat)
    (commitReceivedFlag : Bool) (hsize : payloadSize ≤ GNMSUP1_MAXPAYLOADBUFFER) :
    (s.storePushEntry now storePosition serviceNumber subserviceNumber payload payloadSize
      commitReceivedFlag).bufferOverrun = s.bufferOverrun := by
  have key : ∀ (k : Nat) (acc : List Nat × Bool), k ≤ GNMSUP1_MAXPAYLOADBUFFER →
      ((List.range k).foldl (fun (acc : List Nat × Bool) i =>
        if i < GNMSUP1_MAXPAYLOADBUFFER then (acc.1.set i (payload.getD i 0), acc.2)
        else (acc.1, true)) acc).2 = acc.2 := by
    intro k
    induction k with
    | zero => intro acc _; rfl
    | succ k ih =>
      intro acc hk
      rw [List.range_succ, List.foldl_append]
      simp only [List.foldl_cons, List.foldl_nil]
      rw [if_pos (by omega)]
      exact ih acc (by omega)
  unfold storePushEntry
  exact key payloadSize _ hsize

/-- Consecutive calls of `push` in fully asynchronous mode with payloads of at most
`GNMSUP1_MAXPAYLOADBUFFER` bytes make no store beyond the end of an array. -/
theorem pushAll_overrun : ∀ (calls : List PushCall) (s : gnMsup1)
    (r : gnMsup1 × List Bool), s._blockingMode = BlockingMode.FullyAsynchronous →
    (∀ c, c ∈ calls → c.payloadSize ≤ GNMSUP1_MAXPAYLOADBUFFER) →
    pushAll s calls = some r → r.1.bufferOverrun = s.bufferOverrun := by
  intro calls
  induction calls with
  | nil =>
    intro s r _ _ h
    simp only [pushAll, Option.some.injEq] at h
    rw [← h]
  | cons c calls ih =>
    intro s r hmode hsize h
    rw [pushAll_cons] at h
    have hc := hsize c (List.mem_cons_self _ _)
    have hpush : ∀ p, s.push c.now c.ticks c.serviceNumber c.subserviceNumber c.payload
        c.payloadSize c.commitReceivedFlag = some p →
        p.1.bufferOverrun = s.bufferOverrun ∧
        p.1._blockingMode = BlockingMode.FullyAsynchronous := by
      intro p hp
      unfold push at hp
      by_cases c1 : (s._ownsMasterRole || !s._initialized) = true
      · rw [if_pos c1] at hp
        simp only [Option.some.injEq] at hp; rw [← hp]; exact ⟨rfl, hmode⟩
      rw [if_neg c1] at hp
      simp only [] at hp
      by_cases c2 : (s._pushStoreNextFree c.now == GNMSUP1_PUSHSTOREFULL) = true
      · rw [if_pos (by rw [c2, hmode]; rfl)] at hp
        simp only [Option.some.injEq] at hp; rw [← hp]; exact ⟨rfl, hmode⟩
      · rw [if_neg (by simp only [Bool.and_eq_true, not_and]; intro h1; exact absurd h1 c2),
          if_neg c2] at hp
        simp only [] at hp
        have hm : ((s.storePushEntry c.now (s._pushStoreNextFree c.now) c.serviceNumber
            c.subserviceNumber c.payload c.payloadSize c.commitReceivedFlag)._blockingMode
            == BlockingMode.Synchronous) = false := by
          show (s._blockingMode == BlockingMode.Synchronous) = false
          rw [hmode]; rfl
        rw [if_neg (by rw [hm]; simp)] at hp
        simp only [Option.some.injEq] at hp
        rw [← hp]
        exact ⟨storePushEntry_overrun s c.now _ c.serviceNumber c.subserviceNumber c.payload
          c.payloadSize c.commitReceivedFlag hc, hmode⟩
    rcases hp : s.push c.now c.ticks c.serviceNumber c.subserviceNumber c.payload
      c.payloadSize c.commitReceivedFlag with _ | p
    · rw [hp] at h; simp at h
    · rw [hp] at h
      simp only [Option.some_bind, Option.map_eq_some'] at h
      obtain ⟨x, hx, rfl⟩ := h
      obtain ⟨ho, hm⟩ := hpush p hp
      exact (ih p.1 x hm (fun c1 hc1 => hsize c1 (List.mem_cons_of_mem _ hc1)) hx).trans ho

/-- C12 (push-queue overflow). On an initialised slave in fully asynchronous mode whose push
store holds no pending entry, `GNMSUP1_MAXPUSHQEUEENTRYS + 1` consecutive calls of `push`
(any service, subservice and commit-receive flag, payloads of at most
`GNMSUP1_MAXPAYLOADBUFFER` bytes), each made within `GNMSUP1_DEFAULTPUSHQEUETIMEOUT` of every
earlier one, return `true` for the first `GNMSUP1_MAXPUSHQEUEENTRYS` calls and `false` for the
last one, and the state after the last call is the state after the call before it: the failed
call changes no slot of the push store (nor anything else). None of the calls stores beyond
the end of an array. `config.h` sets `GNMSUP1_MAXPUSHQEUEENTRYS` to 10. -/
theorem C12_push_queue_overflow (s : gnMsup1) (calls : List PushCall)
    (hinit : s._initialized = true) (hslave : s._ownsMasterRole = false)
    (hmode : s._blockingMode = BlockingMode.FullyAsynchronous)
    (hsize : s._pushStore.length = GNMSUP1_MAXPUSHQEUEENTRYS)
    (hempty : ∀ i, i < GNMSUP1_MAXPUSHQEUEENTRYS → s.slotPending i = false)
    (hlen : calls.length = GNMSUP1_MAXPUSHQEUEENTRYS + 1)
    (hclock : (calls.map (fun c => c.now)).Pairwise
      (fun t1 t2 => sub32 t2 t1 ≤ GNMSUP1_DEFAULTPUSHQEUETIMEOUT))
    (hpayload : ∀ c, c ∈ calls → c.payloadSize ≤ GNMSUP1_MAXPAYLOADBUFFER) :
    ∃ s1, pushAll s (calls.take GNMSUP1_MAXPUSHQEUEENTRYS) =
        some (s1, List.replicate GNMSUP1_MAXPUSHQEUEENTRYS true) ∧
      pushAll s calls = some (s1, List.replicate GNMSUP1_MAXPUSHQEUEENTRYS true ++ [false]) ∧
      s1.bufferOverrun = s.bufferOverrun := by
  have hsplit : calls = calls.take GNMSUP1_MAXPUSHQEUEENTRYS ++
      calls.drop GNMSUP1_MAXPUSHQEUEENTRYS := (List.take_append_drop _ _).symm
  have hdrop : (calls.drop GNMSUP1_MAXPUSHQEUEENTRYS).length = 1 := by
    rw [List.length_drop, hlen]; omega
  obtain ⟨c, hc⟩ := List.length_eq_one.mp hdrop
  have htake : (calls.take GNMSUP1_MAXPUSHQEUEENTRYS).length = GNMSUP1_MAXPUSHQEUEENTRYS := by
    rw [List.length_take, hlen]; omega
  rw [hc] at hsplit
  have hclock1 : ((calls.take GNMSUP1_MAXPUSHQEUEENTRYS).map (fun c => c.now) ++ [c.now]).Pairwise
      (fun t1 t2 => sub32 t2 t1 ≤ GNMSUP1_DEFAULTPUSHQEUETIMEOUT) := by
    have : (calls.take GNMSUP1_MAXPUSHQEUEENTRYS).map (fun c => c.now) ++ [c.now] =
        calls.map (fun c => c.now) := by
      conv_rhs => rw [hsplit]
      simp
    rw [this]
    exact hclock
  obtain ⟨s1, hall, hf⟩ := pushAll_fill (calls.take GNMSUP1_MAXPUSHQEUEENTRYS) 0 s [c.now]
    (by rw [htake]; omega)
    ⟨hinit, hslave, hmode, hsize, fun i hi => absurd hi (Nat.not_lt_zero i),
      fun i _ hi => hempty i hi⟩ hclock1
  rw [htake] at hall hf
  simp only [Nat.zero_add] at hf
  refine ⟨s1, hall, ?_, pushAll_overrun _ s _ hmode
    (fun c hc => hpayload c (List.mem_of_mem_take hc)) hall⟩
  have hfull : s1._pushStoreNextFree c.now = GNMSUP1_PUSHSTOREFULL := by
    apply nextFree_full
    intro i hi
    refine ⟨(hf.pending i hi).1, ?_⟩
    have := (hf.pending i hi).2 c.now (List.mem_singleton_self _)
    simp only [slotExpired, decide_eq_false_iff_not, not_lt]
    exact this
  conv_lhs => rw [hsplit]
  rw [pushAll_append, hall]
  simp only [Option.some_bind, pushAll_cons, pushAll,
    push_full s1 c.now c.ticks c.serviceNumber c.subserviceNumber c.payload c.payloadSize
      c.commitReceivedFlag hf.initialized hf.slave hf.mode hfull, Option.map_some']

set_option maxRecDepth 100000 in
/-- C12 on slave 0x05 after `begin`, switched to fully asynchronous mode: eleven calls
`push(0x20, i)` without payload at the clock values 1 to 11. -/
theorem C12_push_queue_overflow_witness :
    (((afterBegin 0x05).blockingMode BlockingMode.FullyAsynchronous)._initialized = true ∧
      ((afterBegin 0x05).blockingMode BlockingMode.FullyAsynchronous)._ownsMasterRole = false ∧
      ((List.range 11).map (fun i => (⟨i + 1, [], 0x20, i, [], 0, false⟩ : PushCall))).length =
        GNMSUP1_MAXPUSHQEUEENTRYS + 1 ∧
      ∀ c, c ∈ (List.range 11).map (fun i => (⟨i + 1, [], 0x20, i, [], 0, false⟩ : PushCall)) →
        c.payloadSize ≤ GNMSUP1_MAXPAYLOADBUFFER) ∧
    ∃ s1, pushAll ((afterBegin 0x05).blockingMode BlockingMode.FullyAsynchronous)
        (((List.range 11).map (fun i => (⟨i + 1, [], 0x20, i, [], 0, false⟩ : PushCall))).take
          GNMSUP1_MAXPUSHQEUEENTRYS) =
        some (s1, List.replicate GNMSUP1_MAXPUSHQEUEENTRYS true) ∧
      pushAll ((afterBegin 0x05).blockingMode BlockingMode.FullyAsynchronous)
        ((List.range 11).map (fun i => (⟨i + 1, [], 0x20, i, [], 0, false⟩ : PushCall))) =
        some (s1, List.replicate GNMSUP1_MAXPUSHQEUEENTRYS true ++ [false]) ∧
      s1.bufferOverrun =
        ((afterBegin 0x05).blockingMode BlockingMode.FullyAsynchronous).bufferOverrun :=
  ⟨⟨by decide, by decide, by decide, by decide⟩,
    C12_push_queue_overflow ((afterBegin 0x05).blockingMode BlockingMode.FullyAsynchronous)
      ((List.range 11).map (fun i => (⟨i + 1, [], 0x20, i, [], 0, false⟩ : PushCall)))
      (by decide) (by decide) (by decide) (by decide) (by decide) (by decide) (by decide)
      (by decide)⟩

end gnMsup1

namespace gnMsup1

/-! ## The scavenger -/

theorem SameOthers_refl (a : Nat) (s : gnMsup1) : SameOthers a s s :=
  fun _ _ => ⟨rfl, rfl⟩

theorem SameOthers_trans {a : Nat} {s s1 s2 : gnMsup1} (h1 : SameOthers a s s1)
    (h2 : SameOthers a s1 s2) : SameOthers a s s2 :=
  fun b hb => ⟨(h2 b hb).1.trans (h1 b hb).1, (h2 b hb).2.trans (h1 b hb).2⟩

theorem SameOthers_of_stores (a : Nat) (s s1 : gnMsup1) (hA : s1._activeStore = s._activeStore)
    (hI : s1._ignoreStore = s._ignoreStore) : SameOthers a s s1 :=
  fun _ _ => ⟨by rw [hA], by rw [hI]⟩

theorem _markActive_others (s : gnMsup1) (a : Nat) : SameOthers a s (s._markActive a) := by
  intro b hb
  unfold _markActive
  split
  · exact ⟨storeBit_set_other _ _ _ _ (fun h => hb h.symm),
      storeBit_set_other _ _ _ _ (fun h => hb h.symm)⟩
  · exact ⟨rfl, rfl⟩

theorem _markIgnore_others (s : gnMsup1) (a : Nat) : SameOthers a s (s._markIgnore a) := by
  intro b hb
  unfold _markIgnore
  split
  · exact ⟨storeBit_set_other _ _ _ _ (fun h => hb h.symm),
      storeBit_set_other _ _ _ _ (fun h => hb h.symm)⟩
  · exact ⟨rfl, rfl⟩

theorem _resetActiveIgnore_others (s : gnMsup1) (a : Nat) :
    SameOthers a s (s._resetActiveIgnore a) := by
  intro b hb
  unfold _resetActiveIgnore
  split
  · exact ⟨storeBit_set_other _ _ _ _ (fun h => hb h.symm),
      storeBit_set_other _ _ _ _ (fun h => hb h.symm)⟩
  · exact ⟨rfl, rfl⟩

theorem _resetActiveIgnore_kept (s : gnMsup1) (a : Nat) :
    Kept s (s._resetActiveIgnore a) ∧ (s._resetActiveIgnore a)._lastComError = s._lastComError ∧
    (s._resetActiveIgnore a).written = s.written := by
  unfold _resetActiveIgnore
  split
  · refine ⟨?_, rfl, rfl⟩
    constructor <;> first | rfl | exact setStoreBit_length _ _ _
  · exact ⟨Kept_refl s, rfl, rfl⟩

theorem _resetActiveIgnore_bits (s : gnMsup1) (a : Nat) (ha : a ≤ GNMSUP1_MAXSLAVEADDRESS)
    (hI : a / 8 < s._ignoreStore.length) (hA : a / 8 < s._activeStore.length) :
    storeBit (s._resetActiveIgnore a)._activeStore a = false ∧
    storeBit (s._resetActiveIgnore a)._ignoreStore a = false := by
  unfold _resetActiveIgnore
  rw [if_pos ha]
  exact ⟨storeBit_set_same _ _ _ hA, storeBit_set_same _ _ _ hI⟩

/-- The body of `_sendFrame` keeps the members of `Kept` and the liveness bits of every
address but the target, when the retry does. -/
theorem sendFrameBody_others (retryCall : gnMsup1 → gnMsup1 × Bool)
    (s : gnMsup1) (at1 : Attempt) (a serviceNumber subserviceNumber : Nat)
    (serviceFlag pushFlag waitForPushAnswer commitReceivedFlag retryOnCrFailure : Bool)
    (payload : List Nat) (payloadSize : Nat)
    (hretry : ∀ st, Kept st (retryCall st).1 ∧ SameOthers a st (retryCall st).1) :
    Kept s (sendFrameBody retryCall id s at1 a serviceNumber subserviceNumber serviceFlag
      pushFlag waitForPushAnswer commitReceivedFlag retryOnCrFailure payload payloadSize).1 ∧
    SameOthers a s (sendFrameBody retryCall id s at1 a serviceNumber subserviceNumber
      serviceFlag pushFlag waitForPushAnswer commitReceivedFlag retryOnCrFailure payload
      payloadSize).1 := by
  obtain ⟨k, l, -, -⟩ := emitFrame_kept s at1.now a serviceNumber subserviceNumber serviceFlag
    pushFlag commitReceivedFlag payload payloadSize
  have ho : SameOthers a s (s.emitFrame at1.now a serviceNumber subserviceNumber serviceFlag
      pushFlag commitReceivedFlag payload payloadSize) :=
    SameOthers_of_stores a _ _ l.activeStore l.ignoreStore
  unfold sendFrameBody
  generalize s.emitFrame at1.now a serviceNumber subserviceNumber serviceFlag
    pushFlag commitReceivedFlag payload payloadSize = e at k l ho
  have kA := Kept_trans k (_markActive_kept e a).1
  have oA := SameOthers_trans ho (_markActive_others e a)
  have kE1 : Kept s { e with _lastComError := ⟨ComErrorCode.Err_CRInvalid, a⟩ } :=
    Kept_trans k (by constructor <;> rfl)
  have oE1 : SameOthers a s { e with _lastComError := ⟨ComErrorCode.Err_CRInvalid, a⟩ } :=
    SameOthers_trans ho (SameOthers_of_stores a _ _ rfl rfl)
  have kE2 : Kept s { e with _lastComError := ⟨ComErrorCode.Err_CRTimeout, a⟩ } :=
    Kept_trans k (by constructor <;> rfl)
  have oE2 : SameOthers a s { e with _lastComError := ⟨ComErrorCode.Err_CRTimeout, a⟩ } :=
    SameOthers_trans ho (SameOthers_of_stores a _ _ rfl rfl)
  have kR1 := Kept_trans kE1 (hretry { e with _lastComError := ⟨ComErrorCode.Err_CRInvalid, a⟩ }).1
  have oR1 := SameOthers_trans oE1
    (hretry { e with _lastComError := ⟨ComErrorCode.Err_CRInvalid, a⟩ }).2
  have kR2 := Kept_trans kE2 (hretry { e with _lastComError := ⟨ComErrorCode.Err_CRTimeout, a⟩ }).1
  have oR2 := SameOthers_trans oE2
    (hretry { e with _lastComError := ⟨ComErrorCode.Err_CRTimeout, a⟩ }).2
  have kI := Kept_trans kE2 (_markIgnore_kept
    ({ e with _lastComError := ⟨ComErrorCode.Err_CRTimeout, a⟩ } : gnMsup1) a).1
  have oI := SameOthers_trans oE2 (_markIgnore_others
    ({ e with _lastComError := ⟨ComErrorCode.Err_CRTimeout, a⟩ } : gnMsup1) a)
  simp only [id]
  split
  · exact ⟨Kept_refl s, SameOthers_refl a s⟩
  · split
    · split
      · split_ifs <;> first
          | exact ⟨kA, oA⟩
          | exact ⟨kE1, oE1⟩
          | exact ⟨kR1, oR1⟩
      · split_ifs <;> first
          | exact ⟨kR2, oR2⟩
          | exact ⟨kI, oI⟩
    · split_ifs <;> exact ⟨k, ho⟩

theorem _sendFrame_others (s : gnMsup1) (first second : Attempt)
    (a serviceNumber subserviceNumber : Nat)
    (serviceFlag pushFlag waitForPushAnswer commitReceivedFlag retryOnCrFailure : Bool)
    (payload : List Nat) (payloadSize : Nat) :
    Kept s (s._sendFrame id first second a serviceNumber subserviceNumber serviceFlag
      pushFlag waitForPushAnswer commitReceivedFlag retryOnCrFailure payload payloadSize).1 ∧
    SameOthers a s (s._sendFrame id first second a serviceNumber subserviceNumber
      serviceFlag pushFlag waitForPushAnswer commitReceivedFlag retryOnCrFailure payload
      payloadSize).1 := by
  unfold _sendFrame
  apply sendFrameBody_others
  intro st
  apply sendFrameBody_others
  intro st2
  exact ⟨Kept_refl st2, SameOthers_refl a st2⟩


/-- The value of `address` after `address++` and the wrap to 0 behind
`GNMSUP1_MAXSLAVEADDRESS`. -/
theorem scavenging_next (a : Nat) (ha : a ≤ 31) :
    (if (a + 1) % 256 > GNMSUP1_MAXSLAVEADDRESS then 0 else (a + 1) % 256) = (a + 1) % 32 := by
  simp only [GNMSUP1_MAXSLAVEADDRESS]
  split <;> omega

theorem queries_congr (s s1 : gnMsup1) (a b : Nat) (k : Kept s s1) (o : SameOthers a s s1)
    (hb : b ≠ a) :
    s1._queryActive b = s._queryActive b ∧ s1._queryIgnore b = s._queryIgnore b := by
  simp only [_queryActive, _queryIgnore, _ownsMasterRole, k.address, k.ignoreInactiveNodes,
    (o b hb).1, (o b hb).2, and_self]

/-- One pass of the scavenger at an address that triggers no probe: the address is reset when
it is known as active, nothing else changes. -/
theorem scavengingPass_quiet (s : gnMsup1) (probe : Attempt) (a : Nat)
    (hdue : s.probeDue a = false) :
    (s.scavengingPass probe a).1 =
      (if s._queryActive a then s._resetActiveIgnore a else s) ∧
    (s.scavengingPass probe a).2.1 =
      (if (a + 1) % 256 > GNMSUP1_MAXSLAVEADDRESS then 0 else (a + 1) % 256) ∧
    (s.scavengingPass probe a).2.2 =
      ((if (a + 1) % 256 > GNMSUP1_MAXSLAVEADDRESS then 0 else (a + 1) % 256) ==
        s._scavengingInactiveNextAddress) := by
  unfold scavengingPass
  cases hq : s._queryActive a
  · have hi : s._queryIgnore a = false := by
      simpa [probeDue, hq] using hdue
    simp [hi]
  · simp [(_resetActiveIgnore_kept s a).1.nextAddress]

/-- One pass of the scavenger at an address that triggers a probe: the walk stops, and only
the liveness of that address may change. -/
theorem scavengingPass_probe (s : gnMsup1) (probe : Attempt) (a : Nat)
    (hdue : s.probeDue a = true) :
    (s.scavengingPass probe a).2.2 = true ∧
    Kept s (s.scavengingPass probe a).1 ∧ SameOthers a s (s.scavengingPass probe a).1 := by
  have hq : s._queryActive a = false := by
    cases h : s._queryActive a
    · rfl
    · simp [probeDue, h] at hdue
  have hi : s._queryIgnore a = true := by
    simpa [probeDue, hq] using hdue
  obtain ⟨kr, -, -⟩ := _resetActiveIgnore_kept s a
  have hor := _resetActiveIgnore_others s a
  obtain ⟨ks, hos⟩ := _sendFrame_others (s._resetActiveIgnore a) probe probe a
    GNMSUP1_SYSTEMSERVICENUMBER GNMSUP1_SYSTEMSERVICE_IGNORE true false false true false [] 0
  unfold scavengingPass
  simp only [hq, hi, Bool.false_eq_true, if_false, if_true, Bool.true_or]
  generalize (s._resetActiveIgnore a)._sendFrame id probe probe a GNMSUP1_SYSTEMSERVICENUMBER
    GNMSUP1_SYSTEMSERVICE_IGNORE true false false true false [] 0 = r at ks hos
  obtain ⟨s3, sent⟩ := r
  simp only [] at ks hos ⊢
  refine ⟨trivial, ?_, ?_⟩
  · cases sent
    · exact Kept_trans (Kept_trans (Kept_trans kr ks) (_markIgnore_kept s3 a).1)
        (by constructor <;> rfl)
    · exact Kept_trans (Kept_trans (Kept_trans kr ks) (_markActive_kept s3 a).1)
        (by constructor <;> rfl)
  · cases sent
    · exact SameOthers_trans (SameOthers_trans (SameOthers_trans hor hos)
        (_markIgnore_others s3 a)) (SameOthers_of_stores a _ _ rfl rfl)
    · exact SameOthers_trans (SameOthers_trans (SameOthers_trans hor hos)
        (_markActive_others s3 a)) (SameOthers_of_stores a _ _ rfl rfl)


theorem unknown_others (a b : Nat) (s s1 : gnMsup1) (o : SameOthers a s s1) (hb : b ≠ a)
    (h : s.unknown b) : s1.unknown b :=
  ⟨(o b hb).1.trans h.1, (o b hb).2.trans h.2⟩

/-- The walk of the scavenger from offset `j` behind the cursor, with `n = 32 - j` addresses
left: it ends; every address from offset `j` on that is active and lies before the first
address that triggers a probe is unknown afterwards; the addresses before offset `j` that are
unknown stay so. -/
theorem scavengingWalk_reach (probe : Attempt) :
    ∀ (n : Nat) (st : gnMsup1) (j fuel : Nat), j + n = 32 → 1 ≤ n → n ≤ fuel →
      st._ignoreInactiveNodes = true → st._scavengingInactiveNextAddress ≤ 31 →
      4 ≤ st._ignoreStore.length → 4 ≤ st._activeStore.length →
      ∃ s1, scavengingWalk fuel st probe ((st._scavengingInactiveNextAddress + j) % 32)
          = some s1 ∧
        (∀ k, j ≤ k → k < 32 →
          (∀ i, j ≤ i → i < k →
            st.probeDue ((st._scavengingInactiveNextAddress + i) % 32) = false) →
          storeBit st._activeStore ((st._scavengingInactiveNextAddress + k) % 32) = true →
          s1.unknown ((st._scavengingInactiveNextAddress + k) % 32)) ∧
        (∀ k, k < j → st.unknown ((st._scavengingInactiveNextAddress + k) % 32) →
          s1.unknown ((st._scavengingInactiveNextAddress + k) % 32)) := by
  intro n
  induction n with
  | zero => intro st j fuel _ h; omega
  | succ n ih =>
    intro st j fuel hjn _ hfuel hen hc hI hA
    obtain ⟨fuel1, rfl⟩ : ∃ f, fuel = f + 1 := ⟨fuel - 1, by omega⟩
    generalize hcur : st._scavengingInactiveNextAddress = c at hc ⊢
    have ha : (c + j) % 32 ≤ 31 := by omega
    have hnext := scavenging_next ((c + j) % 32) ha
    have hnext2 : ((c + j) % 32 + 1) % 32 = (c + (j + 1)) % 32 := by omega
    have hactive : ∀ b, b ≤ 31 → st._queryActive b = storeBit st._activeStore b := by
      intro b hb
      have hb1 : ¬ b > GNMSUP1_MAXSLAVEADDRESS := by
        simp only [GNMSUP1_MAXSLAVEADDRESS]; omega
      simp only [_queryActive, hen, hb1, Bool.not_true, Bool.false_eq_true, if_false]
    simp only [scavengingWalk]
    cases hdue : st.probeDue ((c + j) % 32)
    · -- no probe at this address
      obtain ⟨h1, h2, h3⟩ := scavengingPass_quiet st probe ((c + j) % 32) hdue
      rw [hnext, hnext2] at h2 h3
      rw [hcur] at h3
      generalize hst1 : (if st._queryActive ((c + j) % 32) = true
        then st._resetActiveIgnore ((c + j) % 32) else st) = st1 at h1
      have k1 : Kept st st1 := by
        rw [← hst1]; split
        · exact (_resetActiveIgnore_kept st _).1
        · exact Kept_refl st
      have o1 : SameOthers ((c + j) % 32) st st1 := by
        rw [← hst1]; split
        · exact _resetActiveIgnore_others st _
        · exact SameOthers_refl _ st
      have hreset : storeBit st._activeStore ((c + j) % 32) = true →
          st1.unknown ((c + j) % 32) := by
        intro hact
        rw [← hst1, hactive _ ha, hact, if_pos rfl]
        have := _resetActiveIgnore_bits st ((c + j) % 32)
          (by simp only [GNMSUP1_MAXSLAVEADDRESS]; omega) (by omega) (by omega)
        exact this
      rcases hp : st.scavengingPass probe ((c + j) % 32) with ⟨p1, p2, p3⟩
      rw [hp] at h1 h2 h3
      simp only [] at h1 h2 h3
      subst h1 h2
      by_cases hj : j = 31
      · -- the walk is back at the cursor
        subst hj
        have hp3 : p3 = true := by
          rw [h3]
          have : (c + (31 + 1)) % 32 = c := by omega
          simp [this]
        subst hp3
        refine ⟨_, rfl, ?_, ?_⟩
        · intro k hk1 hk2 _ hact
          have hk : k = 31 := by omega
          subst hk
          exact hreset hact
        · intro k hk hu
          exact unknown_others _ _ st p1 o1 (by omega) hu
      · have hp3 : p3 = false := by
          rw [h3]
          have : (c + (j + 1)) % 32 ≠ c := by omega
          simp [this]
        subst hp3
        simp only []
        have hcur1 : p1._scavengingInactiveNextAddress = c := k1.nextAddress.trans hcur
        obtain ⟨s1, hw, hr1, hr2⟩ := ih p1 (j + 1) fuel1 (by omega) (by omega) (by omega)
          (k1.ignoreInactiveNodes.trans hen) (by rw [hcur1]; exact hc)
          (by rw [k1.ignoreLength]; exact hI) (by rw [k1.activeLength]; exact hA)
        rw [hcur1] at hw hr1 hr2
        refine ⟨s1, hw, ?_, ?_⟩
        · intro k hk1 hk2 hquiet hact
          by_cases hkj : k = j
          · subst hkj
            exact hr2 k (by omega) (hreset hact)
          · apply hr1 k (by omega) hk2
            · intro i hi1 hi2
              have hne : (c + i) % 32 ≠ (c + j) % 32 := by omega
              have := queries_congr st p1 _ _ k1 o1 hne
              simp only [probeDue, this.1, this.2]
              exact hquiet i (by omega) hi2
            · have hne : (c + k) % 32 ≠ (c + j) % 32 := by omega
              rw [(o1 _ hne).1]
              exact hact
        · intro k hk hu
          exact hr2 k (by omega) (unknown_others _ _ st p1 o1 (by omega) hu)
    · -- a probe is sent: the walk stops here
      obtain ⟨h1, k1, o1⟩ := scavengingPass_probe st probe ((c + j) % 32) hdue
      rcases hp : st.scavengingPass probe ((c + j) % 32) with ⟨p1, p2, p3⟩
      rw [hp] at h1 k1 o1
      simp only [] at h1 k1 o1
      subst h1
      refine ⟨_, rfl, ?_, ?_⟩
      · intro k hk1 hk2 hquiet hact
        exfalso
        by_cases hkj : k = j
        · subst hkj
          rw [← hactive _ ha] at hact
          simp [probeDue, hact] at hdue
        · have := hquiet j (le_refl j) (by omega)
          rw [hdue] at this
          exact absurd this (by simp)
      · intro k hk hu
        exact unknown_others _ _ st p1 o1 (by omega) hu

/-- C18 (scavenger reclassification), as amended. A scavenger run (ignoring of inactive nodes
enabled, interval elapsed, cursor within `0..GNMSUP1_MAXSLAVEADDRESS`) ends, and every address
that was active before the run and that the walk reaches is unknown after it: neither its
active bit nor its ignore bit is set. The walk starts at the cursor, goes up through the
addresses, wrapping behind `GNMSUP1_MAXSLAVEADDRESS`, and stops behind the first address that
is ignored and not active, which it probes; without such an address it reaches all
addresses. -/
theorem C18_scavenger_reclassification (s : gnMsup1) (now : Nat) (probe : Attempt)
    (henabled : s._ignoreInactiveNodes = true)
    (hinterval : sub32 now s._scavengingInactiveLastTimestamp >
      GNMSUP1_SCAVENGINGINACTIVEINTERVAL)
    (hcursor : s._scavengingInactiveNextAddress ≤ GNMSUP1_MAXSLAVEADDRESS)
    (hI : s._ignoreStore.length = GNMSUP1_MAXSLAVEADDRESS + 1)
    (hA : s._activeStore.length = GNMSUP1_MAXSLAVEADDRESS + 1) :
    ∃ s1, s._scavengingInactive now probe = some s1 ∧
      ∀ k, k ≤ GNMSUP1_MAXSLAVEADDRESS →
        (∀ i, i < k → s.probeDue ((s._scavengingInactiveNextAddress + i) %
          (GNMSUP1_MAXSLAVEADDRESS + 1)) = false) →
        storeBit s._activeStore ((s._scavengingInactiveNextAddress + k) %
          (GNMSUP1_MAXSLAVEADDRESS + 1)) = true →
        s1.unknown ((s._scavengingInactiveNextAddress + k) % (GNMSUP1_MAXSLAVEADDRESS + 1)) := by
  simp only [GNMSUP1_MAXSLAVEADDRESS] at hcursor hI hA ⊢
  obtain ⟨s1, hw, hr, -⟩ := scavengingWalk_reach probe 32
    { s with _scavengingInactiveLastTimestamp := now } 0 256 (by omega) (by omega) (by omega)
    henabled hcursor (by show 4 ≤ s._ignoreStore.length; omega)
    (by show 4 ≤ s._activeStore.length; omega)
  refine ⟨s1, ?_, ?_⟩
  · unfold _scavengingInactive
    rw [if_pos henabled, if_pos (by simpa [GNMSUP1_SCAVENGINGINACTIVEINTERVAL] using hinterval)]
    have hc0 : (s._scavengingInactiveNextAddress + 0) % 32 = s._scavengingInactiveNextAddress := by
      omega
    simp only [hc0] at hw
    exact hw
  · intro k hk hquiet hact
    exact hr k (Nat.zero_le k) (by omega) (fun i _ hi => hquiet i hi) hact

/-- C18 as amended, on a master with ignoring enabled, cursor 0, address 0x01 active and no
address ignored, at clock value 10001. -/
theorem C18_scavenger_reclassification_witness :
    ((((afterBegin 0xFF).setIgnoreInactiveNodes true)._markActive 0x01)._ignoreInactiveNodes
        = true ∧
      sub32 10001 (((afterBegin 0xFF).setIgnoreInactiveNodes true)._markActive
        0x01)._scavengingInactiveLastTimestamp > GNMSUP1_SCAVENGINGINACTIVEINTERVAL ∧
      1 ≤ GNMSUP1_MAXSLAVEADDRESS ∧
      storeBit (((afterBegin 0xFF).setIgnoreInactiveNodes true)._markActive
        0x01)._activeStore ((0 + 1) % (GNMSUP1_MAXSLAVEADDRESS + 1)) = true) ∧
    ∃ s1, (((afterBegin 0xFF).setIgnoreInactiveNodes true)._markActive 0x01)._scavengingInactive
        10001 ⟨10001, []⟩ = some s1 ∧
      s1.unknown ((0 + 1) % (GNMSUP1_MAXSLAVEADDRESS + 1)) := by
  obtain ⟨s1, h1, h2⟩ := C18_scavenger_reclassification
    (((afterBegin 0xFF).setIgnoreInactiveNodes true)._markActive 0x01) 10001 ⟨10001, []⟩
    (by decide) (by decide) (by decide) (by decide) (by decide)
  exact ⟨⟨by decide, by decide, by decide, by decide⟩, s1, h1,
    h2 1 (by decide) (by decide) (by decide)⟩

set_option maxRecDepth 100000 in
/-- Counterexample for C18 as stated. A master with ignoring enabled sends to 0x00 with
commit-receive and gets no reply (0x00 is marked ignored), then receives the frame `80 01`
of slave 0x01 (0x01 is marked active). The scavenger run at clock value 10002 starts at
address 0x00, probes it with `AA 55 50 00 00 FF 01 17 E0 CC 33` and stops: 0x01 is still
active after the run. -/
theorem C18_scavenger_reclassification_counterexample :
    (((afterBegin 0xFF).setIgnoreInactiveNodes true).send 0 [] ⟨0, []⟩ ⟨0, []⟩ [] 0x00 0x10 0x01
      [] 0 false true false).bind (fun r1 =>
      (r1.1.handleCommunication ⟨1, wireFrame [0x80, 0x01], [], []⟩).bind (fun m2 =>
        (m2._scavengingInactive 10002 ⟨10002, []⟩).map (fun m3 =>
          (storeBit m2._activeStore 0x01, m2._queryIgnore 0x00, storeBit m3._activeStore 0x01,
            m3.written.drop m2.written.length)))) =
      some (true, true, true,
        [0xAA, 0x55, 0x50, 0x00, 0x00, 0xFF, 0x01, 0x17, 0xE0, 0xCC, 0x33]) := by
  rfl

end gnMsup1

namespace gnMsup1

/-! ## The poll loop -/

theorem sendFrameThenWait_flag (s s2 : gnMsup1) (first second : Attempt) (ticks : List Tick)
    (address serviceNumber subserviceNumber : Nat)
    (serviceFlag pushFlag waitForPushAnswer commitReceivedFlag retryOnCrFailure : Bool)
    (payload : List Nat) (payloadSize : Nat) (sent : Bool)
    (h : s.sendFrameThenWait first second ticks address serviceNumber subserviceNumber serviceFlag
      pushFlag waitForPushAnswer commitReceivedFlag retryOnCrFailure payload payloadSize =
      some (s2, sent))
    (hno : sent = false ∨ waitForPushAnswer = false) :
    s2._additionalPushMsgAvailable = s._additionalPushMsgAvailable := by
  have k := (_sendFrame_others s first second address serviceNumber subserviceNumber serviceFlag
    pushFlag waitForPushAnswer commitReceivedFlag retryOnCrFailure payload payloadSize).1
  unfold sendFrameThenWait at h
  rcases hr : s._sendFrame id first second address serviceNumber subserviceNumber serviceFlag
    pushFlag waitForPushAnswer commitReceivedFlag retryOnCrFailure payload payloadSize
    with ⟨s1, r⟩
  rw [hr] at h k
  simp only [] at k
  cases r
  · simp only [Option.some.injEq, Prod.mk.injEq] at h
    rw [← h.1]
    exact k.additionalPush
  · rcases hno with hno | hno
    · simp only [] at h
      split at h
      · cases hw : s1._pushBlockingWaitForRelease ticks <;> rw [hw] at h <;> simp at h
        rw [hno] at h
        exact absurd h.2 (by simp)
      · simp only [Option.some.injEq, Prod.mk.injEq] at h
        rw [hno] at h
        exact absurd h.2 (by simp)
    · subst hno
      simp only [Bool.and_false, Bool.false_eq_true, if_false, Option.some.injEq,
        Prod.mk.injEq] at h
      rw [← h.1]
      exact k.additionalPush

/-- What the inner loop of `pollRange` does when it returns. -/
theorem pollMessages_some (world : Nat → Nat → PollCall) (a e : Nat) (cr retry : Bool) :
    ∀ (rem : Nat) (s : gnMsup1) (rv : Bool) (s1 : gnMsup1) (r : Bool)
      (calls : List PollRequest),
      pollMessages world a e cr retry rem s rv = some (s1, r, calls) →
      calls.length ≤ rem ∧ (1 ≤ rem → 1 ≤ calls.length) ∧
      (∀ c, c ∈ calls → c.isPushRequest a) ∧
      (∀ i c, i + 1 < calls.length → calls[i]? = some c → c.additionalPush = true) ∧
      (calls.length < rem → ∀ c, calls.getLast? = some c → c.additionalPush = false) ∧
      (r = true ↔ (rv = true ∧ ∀ c, c ∈ calls → c.result = true)) ∧
      (∀ c, c ∈ calls → (c.result = false ∨ c.waitForPushAnswer = false) →
        c.additionalPush = false) := by
  intro rem
  induction rem with
  | zero =>
    intro s rv s1 r calls h
    simp only [pollMessages, Option.some.injEq, Prod.mk.injEq] at h
    obtain ⟨-, rfl, rfl⟩ := h
    simp
  | succ rem ih =>
    intro s rv s1 r calls h
    simp only [pollMessages] at h
    generalize pollWaitForPushAnswer s._blockingMode a e (rem + 1) = w at h
    rcases hs : ({ s with _additionalPushMsgAvailable := false } : gnMsup1).sendFrameThenWait
      (world a (rem + 1)).first (world a (rem + 1)).second (world a (rem + 1)).ticks a 0 0
      false true w cr retry [] 0 with _ | ⟨s2, sent⟩
    · rw [hs] at h
      simp at h
    · rw [hs] at h
      simp only [] at h
      have hflag := sendFrameThenWait_flag _ _ _ _ _ _ _ _ _ _ _ _ _ _ _ _ hs
      simp only [] at hflag
      cases hadd : s2._additionalPushMsgAvailable
      · -- the request was the last one for this address
        simp only [hadd, Bool.not_false, if_true, Option.some.injEq, Prod.mk.injEq] at h
        obtain ⟨-, rfl, rfl⟩ := h
        refine ⟨by simp, by simp, ?_, ?_, ?_, ?_, ?_⟩
        · intro c hc
          simp only [List.mem_singleton] at hc
          subst hc
          exact ⟨rfl, rfl, rfl, rfl, rfl, rfl⟩
        · intro i c hi
          simp at hi
        · intro _ c hc
          simp only [List.getLast?_singleton, Option.some.injEq] at hc
          subst hc
          rfl
        · cases sent <;> simp
        · intro c hc _
          simp only [List.mem_singleton] at hc
          subst hc
          rfl
      · simp only [hadd, Bool.not_true, Bool.false_eq_true, if_false] at h
        rcases hrec : pollMessages world a e cr retry rem s2 (if !sent then false else rv)
          with _ | ⟨s3, r3, calls3⟩
        · rw [hrec] at h
          simp at h
        · rw [hrec] at h
          simp only [Option.map_some', Option.some.injEq, Prod.mk.injEq] at h
          obtain ⟨-, rfl, rfl⟩ := h
          obtain ⟨h1, h2, h3, h4, h5, h6, h7⟩ := ih s2 _ s3 r3 calls3 hrec
          refine ⟨by simp; omega, by simp, ?_, ?_, ?_, ?_, ?_⟩
          · intro c hc
            rcases List.mem_cons.mp hc with hc | hc
            · subst hc
              exact ⟨rfl, rfl, rfl, rfl, rfl, rfl⟩
            · exact h3 c hc
          · intro i c hi hc
            cases i with
            | zero =>
              simp only [List.getElem?_cons_zero, Option.some.injEq] at hc
              subst hc
              rfl
            | succ i =>
              simp only [List.getElem?_cons_succ] at hc
              simp only [List.length_cons] at hi
              exact h4 i c (by omega) hc
          · intro hlen c hc
            simp only [List.length_cons] at hlen
            cases calls3 with
            | nil =>
              exfalso
              have := h2 (by simp only [List.length_nil] at hlen; omega)
              simp at this
            | cons c3 rest =>
              rw [List.getLast?_cons_cons] at hc
              exact h5 (by omega) c hc
          · rw [h6]
            cases sent <;> simp
          · intro c hc hno
            rcases List.mem_cons.mp hc with hc | hc
            · subst hc
              simp only [] at hno ⊢
              rw [hflag hno] at hadd
              exact absurd hadd (by simp)
            · exact h7 c hc hno


theorem sendFrameThenWait_none (s : gnMsup1) (first second : Attempt) (ticks : List Tick)
    (address serviceNumber subserviceNumber : Nat)
    (serviceFlag pushFlag waitForPushAnswer commitReceivedFlag retryOnCrFailure : Bool)
    (payload : List Nat) (payloadSize : Nat)
    (h : s.sendFrameThenWait first second ticks address serviceNumber subserviceNumber serviceFlag
      pushFlag waitForPushAnswer commitReceivedFlag retryOnCrFailure payload payloadSize = none) :
    ∃ st : gnMsup1, st._pushBlockingWaitForRelease ticks = none := by
  unfold sendFrameThenWait at h
  rcases hr : s._sendFrame id first second address serviceNumber subserviceNumber serviceFlag
    pushFlag waitForPushAnswer commitReceivedFlag retryOnCrFailure payload payloadSize
    with ⟨s1, r⟩
  rw [hr] at h
  cases r
  · simp at h
  · simp only [] at h
    split at h
    · refine ⟨s1, ?_⟩
      cases hw : s1._pushBlockingWaitForRelease ticks
      · rfl
      · rw [hw] at h; simp at h
    · simp at h

/-- The inner loop of `pollRange` returns unless a wait for a push answer does not end. -/
theorem pollMessages_none (world : Nat → Nat → PollCall) (a e : Nat) (cr retry : Bool) :
    ∀ (rem : Nat) (s : gnMsup1) (rv : Bool),
      pollMessages world a e cr retry rem s rv = none →
      ∃ (n : Nat) (st : gnMsup1), 1 ≤ n ∧ n ≤ rem ∧
        st._pushBlockingWaitForRelease (world a n).ticks = none := by
  intro rem
  induction rem with
  | zero =>
    intro s rv h
    simp [pollMessages] at h
  | succ rem ih =>
    intro s rv h
    simp only [pollMessages] at h
    generalize pollWaitForPushAnswer s._blockingMode a e (rem + 1) = w at h
    rcases hs : ({ s with _additionalPushMsgAvailable := false } : gnMsup1).sendFrameThenWait
      (world a (rem + 1)).first (world a (rem + 1)).second (world a (rem + 1)).ticks a 0 0
      false true w cr retry [] 0 with _ | ⟨s2, sent⟩
    · obtain ⟨st, hst⟩ := sendFrameThenWait_none _ _ _ _ _ _ _ _ _ _ _ _ _ _ hs
      exact ⟨rem + 1, st, by omega, le_refl _, hst⟩
    · rw [hs] at h
      simp only [] at h
      split at h
      · simp at h
      · rcases hrec : pollMessages world a e cr retry rem s2 (if !sent then false else rv)
          with _ | r3
        · obtain ⟨n, st, h1, h2, h3⟩ := ih s2 _ hrec
          exact ⟨n, st, h1, by omega, h3⟩
        · rw [hrec] at h
          simp at h

/-- What the outer loop of `pollRange` does when it returns. -/
theorem pollAddresses_some (world : Nat → Nat → PollCall) (e m : Nat) (cr retry : Bool)
    (he : e ≤ 31) (hm : 1 ≤ m) :
    ∀ (passes : Nat) (s : gnMsup1) (address : Nat) (rv : Bool) (s1 : gnMsup1) (r : Bool)
      (calls : List PollRequest),
      pollAddresses world e m cr retry passes s address rv = some (s1, r, calls) →
      ∃ groups : List (List PollRequest), calls = groups.flatten ∧
        groups.length = e + 1 - address ∧
        (∀ i g, groups[i]? = some g → PollGroup (address + i) m g) ∧
        (r = true ↔ (rv = true ∧ ∀ c, c ∈ calls → c.result = true)) ∧
        (∀ c, c ∈ calls → (c.result = false ∨ c.waitForPushAnswer = false) →
          c.additionalPush = false) := by
  intro passes
  induction passes with
  | zero =>
    intro s address rv s1 r calls h
    unfold pollAddresses at h
    split at h
    · simp at h
    · simp only [Option.some.injEq, Prod.mk.injEq] at h
      obtain ⟨-, rfl, rfl⟩ := h
      refine ⟨[], rfl, by simp; omega, by simp, by simp, by simp⟩
  | succ passes ih =>
    intro s address rv s1 r calls h
    unfold pollAddresses at h
    split at h
    · rename_i hle
      simp only [] at h
      rcases hin : pollMessages world address e cr retry m s rv with _ | ⟨s2, rv2, calls2⟩
      · rw [hin] at h; simp at h
      · rw [hin] at h
        simp only [] at h
        rcases hrec : pollAddresses world e m cr retry passes s2 ((address + 1) % 256) rv2
          with _ | ⟨s3, r3, calls3⟩
        · rw [hrec] at h; simp at h
        · rw [hrec] at h
          simp only [Option.map_some', Option.some.injEq, Prod.mk.injEq] at h
          obtain ⟨-, rfl, rfl⟩ := h
          have hnext : (address + 1) % 256 = address + 1 := by omega
          rw [hnext] at hrec
          obtain ⟨groups, hj, hl, hg, hr, hx⟩ := ih s2 (address + 1) rv2 s3 r3 calls3 hrec
          obtain ⟨h1, h2, h3, h4, h5, h6, h7⟩ := pollMessages_some world address e cr retry m s rv
            s2 rv2 calls2 hin
          refine ⟨calls2 :: groups, by simp [hj], by simp [hl]; omega, ?_, ?_, ?_⟩
          · intro i g hi
            cases i with
            | zero =>
              simp only [List.getElem?_cons_zero, Option.some.injEq] at hi
              subst hi
              exact ⟨h2 hm, h1, h3, h4, h5⟩
            | succ i =>
              simp only [List.getElem?_cons_succ] at hi
              have := hg i g hi
              have he2 : address + (i + 1) = address + 1 + i := by omega
              rw [he2]
              exact this
          · rw [hr, h6]
            constructor
            · rintro ⟨⟨ha, hb⟩, hc⟩
              refine ⟨ha, ?_⟩
              intro c hcm
              rcases List.mem_append.mp hcm with hcm | hcm
              · exact hb c hcm
              · exact hc c hcm
            · rintro ⟨ha, hb⟩
              exact ⟨⟨ha, fun c hc => hb c (List.mem_append_left _ hc)⟩,
                fun c hc => hb c (List.mem_append_right _ hc)⟩
          · intro c hcm hno
            rcases List.mem_append.mp hcm with hcm | hcm
            · exact h7 c hcm hno
            · exact hx c hcm hno
    · simp only [Option.some.injEq, Prod.mk.injEq] at h
      obtain ⟨-, rfl, rfl⟩ := h
      refine ⟨[], rfl, by simp; omega, by simp, by simp, by simp⟩

/-- The outer loop of `pollRange` returns unless a wait for a push answer does not end. -/
theorem pollAddresses_none (world : Nat → Nat → PollCall) (e m : Nat) (cr retry : Bool)
    (he : e ≤ 31) :
    ∀ (passes : Nat) (s : gnMsup1) (address : Nat) (rv : Bool),
      e + 1 - address ≤ passes →
      pollAddresses world e m cr retry passes s address rv = none →
      ∃ (a n : Nat) (st : gnMsup1), address ≤ a ∧ a ≤ e ∧ 1 ≤ n ∧ n ≤ m ∧
        st._pushBlockingWaitForRelease (world a n).ticks = none := by
  intro passes
  induction passes with
  | zero =>
    intro s address rv hp h
    unfold pollAddresses at h
    split at h
    · omega
    · simp at h
  | succ passes ih =>
    intro s address rv hp h
    unfold pollAddresses at h
    split at h
    · rename_i hle
      simp only [] at h
      rcases hin : pollMessages world address e cr retry m s rv with _ | ⟨s2, rv2, calls2⟩
      · obtain ⟨n, st, h1, h2, h3⟩ := pollMessages_none world address e cr retry m s rv hin
        exact ⟨address, n, st, le_refl _, hle, h1, h2, h3⟩
      · rw [hin] at h
        simp only [] at h
        rcases hrec : pollAddresses world e m cr retry passes s2 ((address + 1) % 256) rv2
          with _ | r3
        · have hnext : (address + 1) % 256 = address + 1 := by omega
          rw [hnext] at hrec
          obtain ⟨a, n, st, h1, h2, h3, h4, h5⟩ := ih s2 (address + 1) rv2 (by omega) hrec
          exact ⟨a, n, st, by omega, h2, h3, h4, h5⟩
        · rw [hrec] at h; simp at h
    · simp at h

/-- C16 (poll loop). On an initialised master in synchronous or nearly asynchronous mode with
no push-blocking window open, `pollRange(b, e, m, ...)` with `e ≤ GNMSUP1_MAXSLAVEADDRESS` and
`m ≥ 1`:
(1) when it returns, its calls of `_sendFrame` are, address by address from `b` up to `e`, one
group per address (none when `b > e`); the group of an address consists of at least 1 and at
most `m` push requests to it (service flag clear, push flag set, no payload); every request of
a group but the last left the member `_additionalPushMsgAvailable` set, and the last one left
it clear unless it was the `m`-th: polling of an address stops with the first request after
which the member is clear. `pollRange` clears that member before each request and
`_processFrame` sets it to the push flag of a frame it dispatches; a request that fails or
does not wait for the push answer leaves it clear. The value returned is `true` if and only
if every one of the calls returned `true`;
(2) it returns, unless one of the waits for a push answer inside a request does not end. -/
theorem C16_poll_loop (s : gnMsup1) (now : Nat) (entry : List Tick)
    (world : Nat → Nat → PollCall) (b e m : Nat) (cr retry : Bool)
    (hinit : s._initialized = true) (hmaster : s._ownsMasterRole = true)
    (hmode : s._blockingMode = BlockingMode.Synchronous ∨
      s._blockingMode = BlockingMode.NearlyAsynchronous)
    (hopen : s.pushBlockingActive now = false)
    (he : e ≤ GNMSUP1_MAXSLAVEADDRESS) (hm : 1 ≤ m) :
    (∀ (s1 : gnMsup1) (r : Bool) (calls : List PollRequest),
      s.pollRange now entry world b e m cr retry = some (s1, r, calls) →
      ∃ groups : List (List PollRequest), calls = groups.flatten ∧
        groups.length = e + 1 - b ∧
        (∀ i g, groups[i]? = some g → PollGroup (b + i) m g) ∧
        (r = true ↔ ∀ c, c ∈ calls → c.result = true) ∧
        (∀ c, c ∈ calls → (c.result = false ∨ c.waitForPushAnswer = false) →
          c.additionalPush = false)) ∧
    (s.pollRange now entry world b e m cr retry = none →
      ∃ (a n : Nat) (st : gnMsup1), b ≤ a ∧ a ≤ e ∧ 1 ≤ n ∧ n ≤ m ∧
        st._pushBlockingWaitForRelease (world a n).ticks = none) := by
  have he1 : e ≤ 31 := he
  have hpoll : s.pollRange now entry world b e m cr retry =
      pollAddresses world e m cr retry 256 s b true := by
    unfold pollRange
    have h1 : ¬ e > GNMSUP1_MAXSLAVEADDRESS := by omega
    have h2 : ¬ m < 1 := by omega
    have h3 : (s._blockingMode == BlockingMode.FullyAsynchronous) = false := by
      rcases hmode with h | h <;> rw [h] <;> rfl
    simp only [hinit, hmaster, h1, h2, h3, hopen, Bool.not_true, Bool.or_self,
      Bool.false_eq_true, if_false, decide_False, Bool.false_and]
  rw [hpoll]
  constructor
  · intro s1 r calls h
    obtain ⟨groups, hj, hl, hg, hr, hx⟩ := pollAddresses_some world e m cr retry he1 hm 256 s b
      true s1 r calls h
    exact ⟨groups, hj, hl, hg, by simpa using hr, hx⟩
  · intro h
    exact pollAddresses_none world e m cr retry he1 256 s b true (by omega) h


set_option maxRecDepth 100000 in
/-- C16 on a master after `begin`: `pollRange(3, 4, 2)`. Slave 3 answers the first request with
a frame whose push flag is set (`E0 03 00 20 00`), so a second request to 3 follows; nothing
answers the other requests. The calls go to 3, 3 and 4. -/
theorem C16_poll_loop_witness :
    ((afterBegin 0xFF)._initialized = true ∧ (afterBegin 0xFF)._ownsMasterRole = true ∧
      (afterBegin 0xFF)._blockingMode = BlockingMode.NearlyAsynchronous ∧
      (afterBegin 0xFF).pushBlockingActive 0 = false ∧ 4 ≤ GNMSUP1_MAXSLAVEADDRESS ∧ 1 ≤ 2) ∧
    ∃ (s1 : gnMsup1) (r : Bool) (calls : List PollRequest) (groups : List (List PollRequest)),
      (afterBegin 0xFF).pollRange 0 []
        (fun a n => if a == 3 && n == 2 then
          ⟨⟨0, []⟩, ⟨0, []⟩,
            [⟨10, wireFrame [0xE0, 0x03, 0x00, 0x20, 0x00], [], []⟩, ⟨11, [], [], []⟩]⟩
          else ⟨⟨20, []⟩, ⟨20, []⟩, [⟨100, [], [], []⟩]⟩)
        3 4 2 false false = some (s1, r, calls) ∧
      calls.map (fun c => c.address) = [3, 3, 4] ∧
      calls = groups.flatten ∧ groups.length = 4 + 1 - 3 ∧
      (∀ i g, groups[i]? = some g → PollGroup (3 + i) 2 g) ∧
      (r = true ↔ ∀ c, c ∈ calls → c.result = true) := by
  rcases hp : (afterBegin 0xFF).pollRange 0 []
        (fun a n => if a == 3 && n == 2 then
          ⟨⟨0, []⟩, ⟨0, []⟩,
            [⟨10, wireFrame [0xE0, 0x03, 0x00, 0x20, 0x00], [], []⟩, ⟨11, [], [], []⟩]⟩
          else ⟨⟨20, []⟩, ⟨20, []⟩, [⟨100, [], [], []⟩]⟩)
        3 4 2 false false with _ | ⟨s1, r, calls⟩
  · exact absurd hp (by decide)
  · obtain ⟨groups, h1, h2, h3, h4, -⟩ := (C16_poll_loop (afterBegin 0xFF) 0 []
        (fun a n => if a == 3 && n == 2 then
          ⟨⟨0, []⟩, ⟨0, []⟩,
            [⟨10, wireFrame [0xE0, 0x03, 0x00, 0x20, 0x00], [], []⟩, ⟨11, [], [], []⟩]⟩
          else ⟨⟨20, []⟩, ⟨20, []⟩, [⟨100, [], [], []⟩]⟩)
        3 4 2 false false (by decide) (by decide) (Or.inr (by decide)) (by decide) (by decide)
        (by decide)).1 s1 r calls hp
    have hc : (some (s1, r, calls) : Option (gnMsup1 × Bool × List PollRequest)).map
        (fun x => x.2.2.map (fun c => c.address)) = some [3, 3, 4] := by
      rw [← hp]
      decide
    exact ⟨⟨by decide, by decide, by decide, by decide, by decide, by decide⟩,
      s1, r, calls, groups, rfl, by simpa using hc, h1, h2, h3, h4⟩

end gnMsup1

namespace gnMsup1

/-! ## Dispatch on the master -/

/-- On a master the dispatch of a frame changes nothing but the record of the callbacks, and
its push flag is the push bit of the frame. -/
theorem dispatchService_master (s : gnMsup1) (a : Attempt) (hmaster : s._ownsMasterRole = true) :
    (s.dispatchService a).2 =
      bitRead (s.frameByte GNMSUP1_FRAMEBUF_FLAG) GNMSUP1_FRAMEFLAG_PUSH ∧
    ∃ log, (s.dispatchService a).1 = { s with invoked := log } := by
  unfold dispatchService _handleSystemService
  simp only [hmaster, if_true]
  split_ifs <;> first
    | exact ⟨rfl, s.invoked, rfl⟩
    | exact ⟨rfl, _, rfl⟩

/-- After `_processFrame` has dispatched a frame on the master, no push-blocking window is
open and `_additionalPushMsgAvailable` is the push bit of the frame. -/
theorem _processFrame_master (s : gnMsup1) (a : Attempt) (hmaster : s._ownsMasterRole = true) :
    (s._processFrame a)._additionalPushMsgAvailable =
      bitRead (s.frameByte GNMSUP1_FRAMEBUF_FLAG) GNMSUP1_FRAMEFLAG_PUSH ∧
    (s._processFrame a).pushBlockingActive a.now = false := by
  obtain ⟨h1, log, h2⟩ := dispatchService_master s a hmaster
  unfold _processFrame
  rcases hd : s.dispatchService a with ⟨s1, pushFlag⟩
  rw [hd] at h1 h2
  simp only [] at h1 h2 ⊢
  subst h2
  have hrole : ({ s with invoked := log, _framePosition := 0 } : gnMsup1)._ownsMasterRole
      = true := hmaster
  simp only [hrole, if_true]
  refine ⟨h1, ?_⟩
  simp only [pushBlockingActive, sub32, GNMSUP1_PUSHTIMEOUT, decide_eq_false_iff_not, not_lt]
  omega

end gnMsup1

namespace gnMsup1

/-! ## Service table, last error, rejected calls -/

set_option maxRecDepth 100000 in
/-- C21 (duplicate service registration), evaluation of the code on the failing input. On
slave 0x05 after `begin` (frame buffer all zero) `attachService(0x10, 1)` returns `true`, and
the repeated call `attachService(0x10, 2)` returns `true` again and appends a second entry for
service 0x10. With the same table and the byte 0x10 in `_frameBuffer[GNMSUP1_FRAMEBUF_SERVICE]`
the call `attachService(0x10, 2)` returns `false`, and so does `attachService(0x20, 2)` although
0x20 is not in the table: the result follows the frame buffer, not the argument. -/
theorem C21_duplicate_registration_failing_input :
    ((afterBegin 0x05).attachService 0x10 1).2 = true ∧
    (((afterBegin 0x05).attachService 0x10 1).1.attachService 0x10 2).2 = true ∧
    (((afterBegin 0x05).attachService 0x10 1).1.attachService 0x10 2).1._callbackStoreNextFree
      = 2 ∧
    (((afterBegin 0x05).attachService 0x10 1).1.attachService 0x10 2).1._callbackStore.take 2
      = [⟨0x10, 1⟩, ⟨0x10, 2⟩] ∧
    ((((afterBegin 0x05).attachService 0x10 1).1.setFrameByte GNMSUP1_FRAMEBUF_SERVICE
      0x10).attachService 0x10 2).2 = false ∧
    ((((afterBegin 0x05).attachService 0x10 1).1.setFrameByte GNMSUP1_FRAMEBUF_SERVICE
      0x10).attachService 0x20 2).2 = false := by
  decide

set_option maxRecDepth 100000 in
/-- C22 (service table capacity), evaluation of the code on the failing input. After ten
successful registrations of the services 1 to 10 the table is full
(`_callbackStoreNextFree = GNMSUP1_MAXSERVICECOUNT`, no store beyond the array so far); the
call `attachService(11, 11)` returns `true`, counts an eleventh service and stores beyond the
end of `_callbackStore` (`bufferOverrun`). -/
theorem C22_service_table_capacity_failing_input :
    tenServices._callbackStoreNextFree = GNMSUP1_MAXSERVICECOUNT ∧
    tenServices._callbackStore.map (fun e => e.serviceNumber) = [1, 2, 3, 4, 5, 6, 7, 8, 9, 10] ∧
    tenServices.bufferOverrun = false ∧
    (tenServices.attachService 11 11).2 = true ∧
    (tenServices.attachService 11 11).1._callbackStoreNextFree = 11 ∧
    (tenServices.attachService 11 11).1.bufferOverrun = true := by
  decide

/-- C23 (last-error read-and-clear). `getLastComError` returns the stored pair, leaves the
store at `(None, 0xFF)`, an immediately repeated call returns kind `None`, and putting the old
pair back into the object after the call gives the object before the call: no other member
is changed. -/
theorem C23_last_error_read_and_clear (s : gnMsup1) :
    s.getLastComError.2 = s._lastComError ∧
    s.getLastComError.1._lastComError = ⟨ComErrorCode.None, 0xFF⟩ ∧
    s.getLastComError.1.getLastComError.2.comErrorCode = ComErrorCode.None ∧
    { s.getLastComError.1 with _lastComError := s._lastComError } = s :=
  ⟨rfl, rfl, rfl, rfl⟩

/-- C24 (rejected calls are atomic). `send` returns `false` with the object unchanged when the
object is not initialized, the role is slave, `address > GNMSUP1_MAXSLAVEADDRESS`, or a
push-blocking window is active in `FullyAsynchronous` mode; `pollRange` returns `false` with
the object unchanged and without a call of `_sendFrame` when the object is not initialized,
the role is slave, `endAddress > GNMSUP1_MAXSLAVEADDRESS` or `maxMessagesPerSlave = 0`; `push`
returns `false` with the object unchanged when the object is not initialized or the role is
master. The object unchanged means: no byte written, every slot of the push store, the two
liveness bitmaps and `_lastComError` as before. Each call returns without a pass of a waiting
loop. -/
theorem C24_rejected_calls_atomic (s : gnMsup1) (now : Nat) (entry ticks : List Tick)
    (first second : Attempt) (world : Nat → Nat → PollCall)
    (address beginAddress endAddress maxMessagesPerSlave serviceNumber subserviceNumber : Nat)
    (payload : List Nat) (payloadSize : Nat) (pushFlag commitReceivedFlag retryOnCrFailure : Bool) :
    ((s._initialized = false ∨ s._ownsMasterRole = false ∨ address > GNMSUP1_MAXSLAVEADDRESS ∨
        (s.pushBlockingActive now = true ∧ s._blockingMode = BlockingMode.FullyAsynchronous)) →
      s.send now entry first second ticks address serviceNumber subserviceNumber payload
        payloadSize pushFlag commitReceivedFlag retryOnCrFailure = some (s, false)) ∧
    ((s._initialized = false ∨ s._ownsMasterRole = false ∨
        endAddress > GNMSUP1_MAXSLAVEADDRESS ∨ maxMessagesPerSlave = 0) →
      s.pollRange now entry world beginAddress endAddress maxMessagesPerSlave commitReceivedFlag
        retryOnCrFailure = some (s, false, [])) ∧
    ((s._initialized = false ∨ s._ownsMasterRole = true) →
      s.push now ticks serviceNumber subserviceNumber payload payloadSize commitReceivedFlag
        = some (s, false)) := by
  refine ⟨?_, ?_, ?_⟩
  · intro h
    unfold send
    by_cases h1 : (!s._ownsMasterRole || !s._initialized) = true
    · rw [if_pos h1]
    · rw [if_neg h1]
      by_cases h2 : address > GNMSUP1_MAXSLAVEADDRESS
      · rw [if_pos h2]
      · rw [if_neg h2]
        rcases h with h | h | h | ⟨h, h3⟩
        · simp [h] at h1
        · simp [h] at h1
        · exact absurd h h2
        · rw [if_pos (by simp [h, h3])]
  · intro h
    unfold pollRange
    by_cases h1 : (!s._ownsMasterRole || !s._initialized) = true
    · rw [if_pos h1]
    · rw [if_neg h1]
      by_cases h2 : endAddress > GNMSUP1_MAXSLAVEADDRESS
      · rw [if_pos h2]
      · rw [if_neg h2]
        rcases h with h | h | h | h
        · simp [h] at h1
        · simp [h] at h1
        · exact absurd h h2
        · rw [if_pos (by simp [h])]
  · intro h
    unfold push
    rw [if_pos (by rcases h with h | h <;> simp [h])]

set_option maxRecDepth 100000 in
theorem C24_rejected_calls_atomic_witness :
    (constructed true).send 0 [] ⟨0, []⟩ ⟨0, []⟩ [] 0x05 0x10 0x01 [] 0 false false false
      = some (constructed true, false) ∧
    (afterBegin 0xFF).pollRange 0 [] (fun _ _ => ⟨⟨0, []⟩, ⟨0, []⟩, []⟩) 0 0x20 1 false false
      = some (afterBegin 0xFF, false, []) ∧
    (afterBegin 0xFF).push 0 [] 0x10 0x01 [] 0 false = some (afterBegin 0xFF, false) :=
  ⟨(C24_rejected_calls_atomic (constructed true) 0 [] [] ⟨0, []⟩ ⟨0, []⟩
      (fun _ _ => ⟨⟨0, []⟩, ⟨0, []⟩, []⟩) 0x05 0 0 1 0x10 0x01 [] 0 false false false).1
      (Or.inl rfl),
   (C24_rejected_calls_atomic (afterBegin 0xFF) 0 [] [] ⟨0, []⟩ ⟨0, []⟩
      (fun _ _ => ⟨⟨0, []⟩, ⟨0, []⟩, []⟩) 0x05 0 0x20 1 0x10 0x01 [] 0 false false false).2.1
      (Or.inr (Or.inr (Or.inl (by decide)))),
   (C24_rejected_calls_atomic (afterBegin 0xFF) 0 [] [] ⟨0, []⟩ ⟨0, []⟩
      (fun _ _ => ⟨⟨0, []⟩, ⟨0, []⟩, []⟩) 0x05 0 0 1 0x10 0x01 [] 0 false false false).2.2
      (Or.inr rfl)⟩

end gnMsup1

namespace gnMsup1

/-! ## Push clearance and commit-receive failures -/

set_option maxRecDepth 100000 in
/-- C26 (sendable entries are found), evaluation of the code on the failing input. Slave 0x05
stores one entry with `push` at clock value 7; at clock value 7 slot 0 is pending with age 0,
and `_pushStoreNextToSend` returns `GNMSUP1_PUSHSTOREEMPTY`; at clock value 8 it returns
slot 0. Likewise an entry stored at clock value `2^32 - 1` is pending with age 6 at clock value
5, after the wrap of `millis()`, and is not found. -/
theorem C26_sendable_entries_failing_input :
    (afterBegin 0x05).push 7 [] 0x20 0x00 [] 0 false = some (onePush 7 false, true) ∧
    (onePush 7 false).slotPending 0 = true ∧
    sub32 7 ((onePush 7 false).pushEntry 0).timestamp = 0 ∧
    (onePush 7 false)._pushStoreNextToSend 7 = GNMSUP1_PUSHSTOREEMPTY ∧
    (onePush 7 false)._pushStoreNextToSend 8 = 0 ∧
    (onePush 4294967295 false).slotPending 0 = true ∧
    sub32 5 ((onePush 4294967295 false).pushEntry 0).timestamp = 6 ∧
    (onePush 4294967295 false)._pushStoreNextToSend 5 = GNMSUP1_PUSHSTOREEMPTY := by
  decide

set_option maxRecDepth 100000 in
/-- C28 (re-queue on failed delivery), evaluation of the code on the failing input. Slave 0x05
without debug stream holds one pending entry pushed with commit-receive at clock value 1. A
call of `handleCommunication` at clock value 3 reads the push clearance `20 05`, answers with
the entry (flag 0xD0) and gets no commit-receive reply: afterwards the pending bit of slot 0
is clear and `_pushStoreNextToSend` finds nothing. The same call on the same object with a
debug stream attached leaves the pending bit set and the entry is found again. -/
theorem C28_requeue_failing_input :
    (afterBegin 0x05).push 1 [] 0x20 0x00 [] 0 true = some (onePush 1 true, true) ∧
    (onePush 1 true).slotPending 0 = true ∧
    ((onePush 1 true).handleCommunication ⟨3, wireFrame [0x20, 0x05], [], []⟩).map
      (fun r => (r.written, r.slotPending 0, r._pushStoreNextToSend 4)) =
      some (wireFrame [0xD0, 0x05, 0x00, 0x20, 0x00], false, GNMSUP1_PUSHSTOREEMPTY) ∧
    (({ onePush 1 true with _debugAttached := true } : gnMsup1).handleCommunication
      ⟨3, wireFrame [0x20, 0x05], [], []⟩).map
      (fun r => (r.written, r.slotPending 0, r._pushStoreNextToSend 4)) =
      some (wireFrame [0xD0, 0x05, 0x00, 0x20, 0x00], true, 0) := by
  decide

/-- One call of the body of `_sendFrame` with commit-receive that reads two bytes which are
not the checksum it sent: the error is recorded, then either the retry is made or the call
returns `false`; the node is not marked. -/
theorem sendFrameBody_invalid (retryCall : gnMsup1 → gnMsup1 × Bool) (wait : gnMsup1 → gnMsup1)
    (s : gnMsup1) (at1 : Attempt) (a serviceNumber subserviceNumber : Nat)
    (serviceFlag pushFlag waitForPushAnswer retryOnCrFailure : Bool) (payload : List Nat)
    (payloadSize : Nat) (c0 c1 : Nat) (rest : List Nat) (hign : s._queryIgnore a = false)
    (hreply : at1.reply = c0 :: c1 :: rest)
    (hbad : ¬ (c0 = highByte (s.emitFrame at1.now a serviceNumber subserviceNumber serviceFlag
        pushFlag true payload payloadSize)._frameChecksum ∧
      c1 = lowByte (s.emitFrame at1.now a serviceNumber subserviceNumber serviceFlag
        pushFlag true payload payloadSize)._frameChecksum)) :
    sendFrameBody retryCall wait s at1 a serviceNumber subserviceNumber serviceFlag pushFlag
      waitForPushAnswer true retryOnCrFailure payload payloadSize =
    (if retryOnCrFailure && s._ownsMasterRole then
      retryCall { s.emitFrame at1.now a serviceNumber subserviceNumber serviceFlag pushFlag true
        payload payloadSize with _lastComError := ⟨ComErrorCode.Err_CRInvalid, a⟩ }
    else
      ({ s.emitFrame at1.now a serviceNumber subserviceNumber serviceFlag pushFlag true
        payload payloadSize with _lastComError := ⟨ComErrorCode.Err_CRInvalid, a⟩ }, false)) := by
  obtain ⟨k, -, -, -⟩ := emitFrame_kept s at1.now a serviceNumber subserviceNumber serviceFlag
    pushFlag true payload payloadSize
  generalize hE : s.emitFrame at1.now a serviceNumber subserviceNumber serviceFlag pushFlag true
    payload payloadSize = e at k hbad ⊢
  have hrole : e._address = s._address := k.address
  have hcond : (c0 == highByte e._frameChecksum && c1 == lowByte e._frameChecksum) = false := by
    rw [Bool.eq_false_iff]
    intro h
    simp only [Bool.and_eq_true, beq_iff_eq] at h
    exact hbad h
  unfold sendFrameBody
  simp only [hign, Bool.false_eq_true, if_false, if_true, hE, _ownsMasterRole, hrole, hreply,
    hcond]

theorem sendFrameBody_kept (retryCall : gnMsup1 → gnMsup1 × Bool) (wait : gnMsup1 → gnMsup1)
    (hretry : ∀ st, Kept st (retryCall st).1)
    (hwait : ∀ st, Kept st (wait st))
    (s : gnMsup1) (a : Attempt) (address serviceNumber subserviceNumber : Nat)
    (serviceFlag pushFlag waitForPushAnswer commitReceivedFlag retryOnCrFailure : Bool)
    (payload : List Nat) (payloadSize : Nat) :
    Kept s (sendFrameBody retryCall wait s a address serviceNumber subserviceNumber serviceFlag
      pushFlag waitForPushAnswer commitReceivedFlag retryOnCrFailure payload payloadSize).1 := by
  obtain ⟨k, -, -, -⟩ := emitFrame_kept s a.now address serviceNumber subserviceNumber
    serviceFlag pushFlag commitReceivedFlag payload payloadSize
  unfold sendFrameBody
  generalize s.emitFrame a.now address serviceNumber subserviceNumber serviceFlag
    pushFlag commitReceivedFlag payload payloadSize = e at k ⊢
  have hA := (_markActive_kept e address).1
  have hC : Kept e { e with _lastComError := ⟨ComErrorCode.Err_CRInvalid, address⟩ } := by
    constructor <;> rfl
  have hT : Kept e { e with _lastComError := ⟨ComErrorCode.Err_CRTimeout, address⟩ } := by
    constructor <;> rfl
  have hI := (_markIgnore_kept
    { e with _lastComError := ⟨ComErrorCode.Err_CRTimeout, address⟩ } address).1
  by_cases hq : s._queryIgnore address = true
  · simp only [hq, if_true]
    exact Kept_refl s
  · simp only [hq, if_false]
    cases commitReceivedFlag
    · simp only [Bool.false_eq_true, if_false]
      split_ifs
      · exact Kept_trans k (hwait _)
      · exact k
    · simp only [if_true]
      rcases a.reply with _ | ⟨c0, _ | ⟨c1, rest⟩⟩ <;> simp only [] <;> split_ifs <;> first
        | exact Kept_refl s
        | exact Kept_trans k (Kept_trans hT (hretry _))
        | exact Kept_trans k (Kept_trans hT hI)
        | exact Kept_trans k (Kept_trans hA (hwait _))
        | exact Kept_trans k hA
        | exact Kept_trans k (Kept_trans hC (hretry _))
        | exact Kept_trans k hC

/-- A call of `_sendFrame` keeps the members listed in `Kept`, whatever its outcome. -/
theorem _sendFrame_kept (s : gnMsup1) (first second : Attempt)
    (address serviceNumber subserviceNumber : Nat)
    (serviceFlag pushFlag waitForPushAnswer commitReceivedFlag retryOnCrFailure : Bool)
    (payload : List Nat) (payloadSize : Nat) :
    Kept s (s._sendFrame id first second address serviceNumber subserviceNumber serviceFlag
      pushFlag waitForPushAnswer commitReceivedFlag retryOnCrFailure payload payloadSize).1 := by
  unfold _sendFrame
  apply sendFrameBody_kept
  · intro st
    apply sendFrameBody_kept
    · intro st1; exact Kept_refl st1
    · intro st1; exact Kept_refl st1
  · intro st1; exact Kept_refl st1

/-- On a slave no node is ignored. -/
theorem _queryIgnore_slave (s : gnMsup1) (hslave : s._ownsMasterRole = false) (a : Nat) :
    s._queryIgnore a = false := by
  simp [_queryIgnore, hslave]

/-- The QueryAlive answer of a slave: `_processFrame` on a system-service frame with
subservice 0x00 writes one frame and leaves the push store as it was. -/
theorem _processFrame_queryAlive (s : gnMsup1) (a : Attempt)
    (hslave : s._ownsMasterRole = false)
    (hsvc : bitRead (s.frameByte GNMSUP1_FRAMEBUF_FLAG) GNMSUP1_FRAMEFLAG_SERVICE = true)
    (hsys : s.frameByte GNMSUP1_FRAMEBUF_SERVICE = GNMSUP1_SYSTEMSERVICENUMBER)
    (hsub : s.frameByte GNMSUP1_FRAMEBUF_SUBSERVICE = GNMSUP1_SYSTEMSERVICE_QUERYALIVE) :
    (s._processFrame a).written = s.written ++ wireFrame (logicalFrame
      (s.flagByte true (s._pushStoreNextToSend a.now != GNMSUP1_PUSHSTOREEMPTY)
        (bitRead (s.frameByte GNMSUP1_FRAMEBUF_FLAG) GNMSUP1_FRAMEFLAG_COMMITRECEIVE))
      s._address 0 GNMSUP1_SYSTEMSERVICENUMBER GNMSUP1_SYSTEMSERVICE_QUERYALIVE []) ∧
    (s._processFrame a)._pushStore = s._pushStore := by
  have hign := _queryIgnore_slave s hslave s._address
  have hk := _sendFrame_kept s a a s._address GNMSUP1_SYSTEMSERVICENUMBER
    GNMSUP1_SYSTEMSERVICE_QUERYALIVE true
    (s._pushStoreNextToSend a.now != GNMSUP1_PUSHSTOREEMPTY) false
    (bitRead (s.frameByte GNMSUP1_FRAMEBUF_FLAG) GNMSUP1_FRAMEFLAG_COMMITRECEIVE) false [] 0
  have hw := (_sendFrame_single s id a a s._address GNMSUP1_SYSTEMSERVICENUMBER
    GNMSUP1_SYSTEMSERVICE_QUERYALIVE true
    (s._pushStoreNextToSend a.now != GNMSUP1_PUSHSTOREEMPTY)
    (bitRead (s.frameByte GNMSUP1_FRAMEBUF_FLAG) GNMSUP1_FRAMEFLAG_COMMITRECEIVE) [] 0 hign).1
  have he := (emitFrame_eq s a.now s._address GNMSUP1_SYSTEMSERVICENUMBER
    GNMSUP1_SYSTEMSERVICE_QUERYALIVE true
    (s._pushStoreNextToSend a.now != GNMSUP1_PUSHSTOREEMPTY)
    (bitRead (s.frameByte GNMSUP1_FRAMEBUF_FLAG) GNMSUP1_FRAMEFLAG_COMMITRECEIVE) []
    (by simp)).1
  simp only [List.length_nil] at he
  rw [he] at hw
  generalize hS : s._sendFrame id a a s._address GNMSUP1_SYSTEMSERVICENUMBER
    GNMSUP1_SYSTEMSERVICE_QUERYALIVE true
    (s._pushStoreNextToSend a.now != GNMSUP1_PUSHSTOREEMPTY) false
    (bitRead (s.frameByte GNMSUP1_FRAMEBUF_FLAG) GNMSUP1_FRAMEFLAG_COMMITRECEIVE) false [] 0
    = r at hk hw
  have hrole : r.1._ownsMasterRole = false := by
    simp only [_ownsMasterRole, hk.address]
    exact hslave
  unfold _processFrame dispatchService _handleSystemService
  simp only [hsvc, hsys, hsub, hslave, beq_self_eq_true, if_true, Bool.false_eq_true, if_false,
    hS]
  have hrole2 : ({ r.1 with _framePosition := 0 } : gnMsup1)._ownsMasterRole = false := hrole
  simp only [hrole2, Bool.false_eq_true, if_false]
  exact ⟨hw, hk.pushStore⟩

end gnMsup1

namespace gnMsup1

/-! ## The answers of a slave -/

/-- The copy loop of `_sendFrame` reads the bytes `payload[0]`, ..., `payload[payloadSize - 1]`
only. -/
theorem emitFrame_payload_congr (s : gnMsup1) (now address serviceNumber subserviceNumber : Nat)
    (serviceFlag pushFlag commitReceivedFlag : Bool) (p q : List Nat) (payloadSize : Nat)
    (h : ∀ i, i < payloadSize → p.getD i 0 = q.getD i 0) :
    s.emitFrame now address serviceNumber subserviceNumber serviceFlag pushFlag
      commitReceivedFlag p payloadSize =
    s.emitFrame now address serviceNumber subserviceNumber serviceFlag pushFlag
      commitReceivedFlag q payloadSize := by
  have hloop : ∀ k, k ≤ payloadSize → ∀ st : gnMsup1,
      (List.range k).foldl (fun st i =>
        st.setFrameByte (GNMSUP1_FRAMEBUF_PAYLOADSTART + i) (p.getD i 0)) st =
      (List.range k).foldl (fun st i =>
        st.setFrameByte (GNMSUP1_FRAMEBUF_PAYLOADSTART + i) (q.getD i 0)) st := by
    intro k
    induction k with
    | zero => intro _ _; rfl
    | succ k ih =>
      intro hk st
      rw [List.range_succ, List.foldl_append, List.foldl_append, ih (by omega) st]
      simp only [List.foldl_cons, List.foldl_nil]
      rw [h k (by omega)]
  unfold emitFrame buildFrame
  simp only [hloop payloadSize (le_refl _)]

/-- A call of `_sendFrame` without commit-receive to a node that is not ignored returns
`true`. -/
theorem _sendFrame_nocommit (s : gnMsup1) (first second : Attempt)
    (address serviceNumber subserviceNumber : Nat)
    (serviceFlag pushFlag waitForPushAnswer retryOnCrFailure : Bool)
    (payload : List Nat) (payloadSize : Nat) (hign : s._queryIgnore address = false) :
    (s._sendFrame id first second address serviceNumber subserviceNumber serviceFlag pushFlag
      waitForPushAnswer false retryOnCrFailure payload payloadSize).2 = true := by
  unfold _sendFrame sendFrameBody
  simp only [hign, Bool.false_eq_true, if_false]
  split_ifs <;> rfl

/-- On a slave, the dispatch of a frame that is not a QueryAlive request changes nothing but
the record of the callbacks and hands on the push bit of the frame. -/
theorem dispatchService_slave (s : gnMsup1) (a : Attempt)
    (hslave : s._ownsMasterRole = false)
    (hnq : ¬ (bitRead (s.frameByte GNMSUP1_FRAMEBUF_FLAG) GNMSUP1_FRAMEFLAG_SERVICE = true ∧
      s.frameByte GNMSUP1_FRAMEBUF_SERVICE = GNMSUP1_SYSTEMSERVICENUMBER ∧
      s.frameByte GNMSUP1_FRAMEBUF_SUBSERVICE = GNMSUP1_SYSTEMSERVICE_QUERYALIVE)) :
    ∃ inv, s.dispatchService a = ({ s with invoked := inv },
      bitRead (s.frameByte GNMSUP1_FRAMEBUF_FLAG) GNMSUP1_FRAMEFLAG_PUSH) := by
  unfold dispatchService _handleSystemService
  simp only [hslave, Bool.false_eq_true, if_false]
  by_cases hsvc : bitRead (s.frameByte GNMSUP1_FRAMEBUF_FLAG) GNMSUP1_FRAMEFLAG_SERVICE = true
  · simp only [hsvc, if_true]
    by_cases hsys : s.frameByte GNMSUP1_FRAMEBUF_SERVICE = GNMSUP1_SYSTEMSERVICENUMBER
    · have hsub : ¬ s.frameByte GNMSUP1_FRAMEBUF_SUBSERVICE = GNMSUP1_SYSTEMSERVICE_QUERYALIVE :=
        fun h => hnq ⟨hsvc, hsys, h⟩
      simp only [hsys, beq_self_eq_true, if_true, beq_iff_eq, hsub, if_false]
      exact ⟨s.invoked, rfl⟩
    · simp only [beq_iff_eq, hsys, if_false]
      split_ifs
      · exact ⟨s.invoked, rfl⟩
      · exact ⟨_, rfl⟩
      · exact ⟨_, rfl⟩
  · simp only [hsvc, Bool.false_eq_true, if_false]
    exact ⟨s.invoked, rfl⟩

theorem pending_in_store (s : gnMsup1) (e : Nat) (h : s.slotPending e = true) :
    e < s._pushStore.length := by
  by_contra hlt
  have : s.pushEntry e = ⟨0, 0, 0, 0, 0, List.replicate GNMSUP1_MAXPAYLOADBUFFER 0⟩ := by
    unfold pushEntry
    rw [List.getD_eq_getElem?_getD, List.getElem?_eq_none (by omega)]
    rfl
  unfold slotPending at h
  rw [this] at h
  exact absurd h (by decide)

theorem setPending_entry (s : gnMsup1) (e : Nat) (v : Bool) (h : e < s._pushStore.length) :
    (s.setPending e v).pushEntry e =
      { s.pushEntry e with flags := bitWrite (s.pushEntry e).flags GNMSUP1_PUSHBUFFLAG_PENDING v } := by
  unfold setPending pushEntry
  simp only []
  rw [List.getD_eq_getElem?_getD, List.getElem?_set_self h]
  rfl

theorem setPending_kept (s : gnMsup1) (e : Nat) (v : Bool) :
    (s.setPending e v).written = s.written ∧ (s.setPending e v)._address = s._address ∧
    (s.setPending e v)._frameStartTime = s._frameStartTime ∧
    (s.setPending e v).invoked = s.invoked ∧
    (s.setPending e v)._pushStore.length = s._pushStore.length := by
  unfold setPending
  simp


/-- The answer of a slave to a push clearance when an entry is found: the bytes written, and
the pending bit of the entry when the delivery does not fail. -/
theorem answerPushClearance_entry (s : gnMsup1) (a : Attempt)
    (hslave : s._ownsMasterRole = false)
    (htime : sub32 a.now s._frameStartTime ≤ GNMSUP1_PUSHTIMEOUT)
    (he : s._pushStoreNextToSend a.now ≠ GNMSUP1_PUSHSTOREEMPTY)
    (hsize : (s.pushEntry (s._pushStoreNextToSend a.now)).payloadSize ≤ 8) :
    (s.answerPushClearance a).written = s.written ++ wireFrame (logicalFrame
      (s.flagByte true
        ((s.setPending (s._pushStoreNextToSend a.now) false)._pushStoreNextToSend a.now
          != GNMSUP1_PUSHSTOREEMPTY)
        (bitRead (s.pushEntry (s._pushStoreNextToSend a.now)).flags
          GNMSUP1_PUSHBUFFLAG_COMMITRECEIVE))
      s._address (s.pushEntry (s._pushStoreNextToSend a.now)).payloadSize
      (s.pushEntry (s._pushStoreNextToSend a.now)).serviceNumber
      (s.pushEntry (s._pushStoreNextToSend a.now)).subserviceNumber
      ((List.range (s.pushEntry (s._pushStoreNextToSend a.now)).payloadSize).map
        (fun i => (s.pushEntry (s._pushStoreNextToSend a.now)).payload.getD i 0))) ∧
    ((bitRead (s.pushEntry (s._pushStoreNextToSend a.now)).flags
        GNMSUP1_PUSHBUFFLAG_COMMITRECEIVE = false ∨
      ∃ rest, a.reply =
        highByte (ccitt (logicalFrame
          (s.flagByte true
            ((s.setPending (s._pushStoreNextToSend a.now) false)._pushStoreNextToSend a.now
              != GNMSUP1_PUSHSTOREEMPTY)
            (bitRead (s.pushEntry (s._pushStoreNextToSend a.now)).flags
              GNMSUP1_PUSHBUFFLAG_COMMITRECEIVE))
          s._address (s.pushEntry (s._pushStoreNextToSend a.now)).payloadSize
          (s.pushEntry (s._pushStoreNextToSend a.now)).serviceNumber
          (s.pushEntry (s._pushStoreNextToSend a.now)).subserviceNumber
          ((List.range (s.pushEntry (s._pushStoreNextToSend a.now)).payloadSize).map
            (fun i => (s.pushEntry (s._pushStoreNextToSend a.now)).payload.getD i 0)))) ::
        lowByte (ccitt (logicalFrame
          (s.flagByte true
            ((s.setPending (s._pushStoreNextToSend a.now) false)._pushStoreNextToSend a.now
              != GNMSUP1_PUSHSTOREEMPTY)
            (bitRead (s.pushEntry (s._pushStoreNextToSend a.now)).flags
              GNMSUP1_PUSHBUFFLAG_COMMITRECEIVE))
          s._address (s.pushEntry (s._pushStoreNextToSend a.now)).payloadSize
          (s.pushEntry (s._pushStoreNextToSend a.now)).serviceNumber
          (s.pushEntry (s._pushStoreNextToSend a.now)).subserviceNumber
          ((List.range (s.pushEntry (s._pushStoreNextToSend a.now)).payloadSize).map
            (fun i => (s.pushEntry (s._pushStoreNextToSend a.now)).payload.getD i 0)))) ::
        rest) →
      (s.answerPushClearance a).slotPending (s._pushStoreNextToSend a.now) = false) := by
  have hcases := nextToSend_cases s a.now
  generalize hE : s._pushStoreNextToSend a.now = e at he hsize hcases ⊢
  rcases hcases with h | ⟨-, hpend, -, -⟩
  · exact absurd h he
  have hlen := pending_in_store s e hpend
  have hent := setPending_entry s e false hlen
  obtain ⟨hw1, ha1, -, -, -⟩ := setPending_kept s e false
  generalize hS1 : s.setPending e false = s1 at hent hw1 ha1 ⊢
  have hslave1 : s1._ownsMasterRole = false := by
    simp only [_ownsMasterRole, ha1]; exact hslave
  have hflag : ∀ p c, s1.flagByte true p c = s.flagByte true p c := by
    intro p c
    simp only [flagByte, _ownsMasterRole, ha1]
  have hcommit : bitRead (s1.pushEntry e).flags GNMSUP1_PUSHBUFFLAG_COMMITRECEIVE =
      bitRead (s.pushEntry e).flags GNMSUP1_PUSHBUFFLAG_COMMITRECEIVE := by
    rw [hent]
    simp only []
    rw [bitRead_bitWrite _ _ _ _ (by decide) (by decide)]
    simp [GNMSUP1_PUSHBUFFLAG_COMMITRECEIVE, GNMSUP1_PUSHBUFFLAG_PENDING]
  have hpend1 : bitRead (s1.pushEntry e).flags GNMSUP1_PUSHBUFFLAG_PENDING = false := by
    rw [hent]
    simp only []
    rw [bitRead_bitWrite _ _ _ _ (by decide) (by decide)]
    simp
  have hsvc : (s1.pushEntry e).serviceNumber = (s.pushEntry e).serviceNumber := by rw [hent]
  have hsub : (s1.pushEntry e).subserviceNumber = (s.pushEntry e).subserviceNumber := by
    rw [hent]
  have hpay : (s1.pushEntry e).payload = (s.pushEntry e).payload := by rw [hent]
  have hps : (s1.pushEntry e).payloadSize = (s.pushEntry e).payloadSize := by rw [hent]
  have hign := _queryIgnore_slave s1 hslave1 s._address
  generalize hP : (s1._pushStoreNextToSend a.now != GNMSUP1_PUSHSTOREEMPTY) = more
  generalize hC : bitRead (s.pushEntry e).flags GNMSUP1_PUSHBUFFLAG_COMMITRECEIVE = commit
    at hcommit ⊢
  generalize hN : (s.pushEntry e).payloadSize = size at hsize hps ⊢
  generalize hQ : (List.range size).map (fun i => (s.pushEntry e).payload.getD i 0) = q
  have hqlen : q.length = size := by rw [← hQ]; simp
  have hcongr := emitFrame_payload_congr s1 a.now s._address (s.pushEntry e).serviceNumber
    (s.pushEntry e).subserviceNumber true more commit (s.pushEntry e).payload q size (by
      intro i hi
      rw [← hQ, List.getD_eq_getElem?_getD, List.getD_eq_getElem?_getD,
        List.getElem?_map, List.getElem?_range hi]
      simp [List.getD_eq_getElem?_getD])
  obtain ⟨hew, hec, -⟩ := emitFrame_eq s1 a.now s._address (s.pushEntry e).serviceNumber
    (s.pushEntry e).subserviceNumber true more commit q (by omega)
  rw [hqlen, ← hcongr, hflag, hw1] at hew
  rw [hqlen, ← hcongr, hflag] at hec
  have hk := _sendFrame_kept s1 a a s._address (s.pushEntry e).serviceNumber
    (s.pushEntry e).subserviceNumber true more false commit false (s.pushEntry e).payload size
  have hw := (_sendFrame_single s1 id a a s._address (s.pushEntry e).serviceNumber
    (s.pushEntry e).subserviceNumber true more commit (s.pushEntry e).payload size hign).1
  rw [hew] at hw
  have hsent : (commit = false ∨ ∃ rest, a.reply =
      highByte (s1.emitFrame a.now s._address (s.pushEntry e).serviceNumber
        (s.pushEntry e).subserviceNumber true more commit (s.pushEntry e).payload
        size)._frameChecksum ::
      lowByte (s1.emitFrame a.now s._address (s.pushEntry e).serviceNumber
        (s.pushEntry e).subserviceNumber true more commit (s.pushEntry e).payload
        size)._frameChecksum :: rest) →
      (s1._sendFrame id a a s._address (s.pushEntry e).serviceNumber
        (s.pushEntry e).subserviceNumber true more false commit false (s.pushEntry e).payload
        size).2 = true := by
    intro h
    cases commit with
    | false => exact _sendFrame_nocommit s1 a a _ _ _ _ _ _ _ _ _ hign
    | true =>
      rcases h with h | ⟨rest, h⟩
      · exact absurd h (by decide)
      · rw [_sendFrame_confirmed s1 id a a _ _ _ _ _ _ _ _ _ rest hign h]
  rw [hec] at hsent
  have hres : s.answerPushClearance a =
      (if (!(s1._sendFrame id a a s._address (s.pushEntry e).serviceNumber
          (s.pushEntry e).subserviceNumber true more false commit false (s.pushEntry e).payload
          size).2 &&
        bitRead ((s1._sendFrame id a a s._address (s.pushEntry e).serviceNumber
          (s.pushEntry e).subserviceNumber true more false commit false (s.pushEntry e).payload
          size).1.pushEntry e).flags GNMSUP1_PUSHBUFFLAG_COMMITRECEIVE &&
        (s1._sendFrame id a a s._address (s.pushEntry e).serviceNumber
          (s.pushEntry e).subserviceNumber true more false commit false (s.pushEntry e).payload
          size).1._debugAttached) = true then
        (s1._sendFrame id a a s._address (s.pushEntry e).serviceNumber
          (s.pushEntry e).subserviceNumber true more false commit false (s.pushEntry e).payload
          size).1.setPending e true
      else (s1._sendFrame id a a s._address (s.pushEntry e).serviceNumber
          (s.pushEntry e).subserviceNumber true more false commit false (s.pushEntry e).payload
          size).1) := by
    unfold answerPushClearance
    simp only [htime, if_true, hE, bne_iff_ne, ne_eq, he, not_false_eq_true, hS1, hsvc, hsub,
      hpay, hps, hcommit, ha1]
    rw [hP]
  rw [hres]
  generalize s1._sendFrame id a a s._address (s.pushEntry e).serviceNumber
    (s.pushEntry e).subserviceNumber true more false commit false (s.pushEntry e).payload size
    = r at hk hw hsent
  refine ⟨?_, ?_⟩
  · split_ifs
    · rw [(setPending_kept r.1 e true).1]; exact hw
    · exact hw
  · intro h
    rw [hsent h]
    simp only [Bool.not_true, Bool.false_and, Bool.false_eq_true, if_false]
    unfold slotPending pushEntry
    rw [hk.pushStore]
    exact hpend1


/-- The answer of a slave to a push clearance when no entry is found: one frame without
service and without push bit. -/
theorem answerPushClearance_empty (s : gnMsup1) (a : Attempt)
    (hslave : s._ownsMasterRole = false)
    (htime : sub32 a.now s._frameStartTime ≤ GNMSUP1_PUSHTIMEOUT)
    (he : s._pushStoreNextToSend a.now = GNMSUP1_PUSHSTOREEMPTY) :
    (s.answerPushClearance a).written = s.written ++ wireFrame [0x80, s._address] ∧
    (s.answerPushClearance a)._pushStore = s._pushStore := by
  have hign := _queryIgnore_slave s hslave s._address
  have hk := _sendFrame_kept s a a s._address 0 0 false false false false false [] 0
  have hw := (_sendFrame_single s id a a s._address 0 0 false false false [] 0 hign).1
  have he2 := (emitFrame_eq s a.now s._address 0 0 false false false [] (by simp)).1
  simp only [List.length_nil] at he2
  rw [he2] at hw
  have hflag : s.flagByte false false false = 0x80 := by
    rw [flagByte_eq, hslave]; rfl
  rw [hflag] at hw
  unfold answerPushClearance
  simp only [htime, if_true, he, bne_self_eq_false, Bool.false_eq_true, if_false]
  exact ⟨hw, hk.pushStore⟩

/-- The answer of `_processFrame` on a slave to a push clearance that is not a QueryAlive
request, in terms of the result of `_pushStoreNextToSend`: the one frame written when an entry
is found, and the frame `[0x80, A]` when none is found. -/
theorem _processFrame_pushClearance (s : gnMsup1) (a : Attempt)
    (hslave : s._ownsMasterRole = false)
    (hpush : bitRead (s.frameByte GNMSUP1_FRAMEBUF_FLAG) GNMSUP1_FRAMEFLAG_PUSH = true)
    (hnq : ¬ (bitRead (s.frameByte GNMSUP1_FRAMEBUF_FLAG) GNMSUP1_FRAMEFLAG_SERVICE = true ∧
      s.frameByte GNMSUP1_FRAMEBUF_SERVICE = GNMSUP1_SYSTEMSERVICENUMBER ∧
      s.frameByte GNMSUP1_FRAMEBUF_SUBSERVICE = GNMSUP1_SYSTEMSERVICE_QUERYALIVE))
    (htime : sub32 a.now s._frameStartTime ≤ GNMSUP1_PUSHTIMEOUT) :
    (s._pushStoreNextToSend a.now ≠ GNMSUP1_PUSHSTOREEMPTY →
      (s.pushEntry (s._pushStoreNextToSend a.now)).payloadSize ≤ GNMSUP1_MAXPAYLOADBUFFER →
      ∃ flag,
        (s._processFrame a).written = s.written ++ wireFrame
          ([flag, s._address, (s.pushEntry (s._pushStoreNextToSend a.now)).payloadSize,
            (s.pushEntry (s._pushStoreNextToSend a.now)).serviceNumber,
            (s.pushEntry (s._pushStoreNextToSend a.now)).subserviceNumber] ++
            (List.range (s.pushEntry (s._pushStoreNextToSend a.now)).payloadSize).map
              (fun i => (s.pushEntry (s._pushStoreNextToSend a.now)).payload.getD i 0)) ∧
        bitRead flag GNMSUP1_FRAMEFLAG_DIRECTION = true ∧
        bitRead flag GNMSUP1_FRAMEFLAG_SERVICE = true ∧
        bitRead flag GNMSUP1_FRAMEFLAG_COMMITRECEIVE =
          bitRead (s.pushEntry (s._pushStoreNextToSend a.now)).flags
            GNMSUP1_PUSHBUFFLAG_COMMITRECEIVE ∧
        (bitRead flag GNMSUP1_FRAMEFLAG_PUSH = true ↔
          (s.setPending (s._pushStoreNextToSend a.now) false)._pushStoreNextToSend a.now ≠
            GNMSUP1_PUSHSTOREEMPTY) ∧
        flag % 16 = 0 ∧
        ((bitRead (s.pushEntry (s._pushStoreNextToSend a.now)).flags
            GNMSUP1_PUSHBUFFLAG_COMMITRECEIVE = false ∨
          ∃ rest, a.reply =
            highByte (ccitt ([flag, s._address,
              (s.pushEntry (s._pushStoreNextToSend a.now)).payloadSize,
              (s.pushEntry (s._pushStoreNextToSend a.now)).serviceNumber,
              (s.pushEntry (s._pushStoreNextToSend a.now)).subserviceNumber] ++
              (List.range (s.pushEntry (s._pushStoreNextToSend a.now)).payloadSize).map
                (fun i => (s.pushEntry (s._pushStoreNextToSend a.now)).payload.getD i 0))) ::
            lowByte (ccitt ([flag, s._address,
              (s.pushEntry (s._pushStoreNextToSend a.now)).payloadSize,
              (s.pushEntry (s._pushStoreNextToSend a.now)).serviceNumber,
              (s.pushEntry (s._pushStoreNextToSend a.now)).subserviceNumber] ++
              (List.range (s.pushEntry (s._pushStoreNextToSend a.now)).payloadSize).map
                (fun i => (s.pushEntry (s._pushStoreNextToSend a.now)).payload.getD i 0))) ::
            rest) →
          (s._processFrame a).slotPending (s._pushStoreNextToSend a.now) = false)) ∧
    (s._pushStoreNextToSend a.now = GNMSUP1_PUSHSTOREEMPTY →
      (s._processFrame a).written = s.written ++ wireFrame [0x80, s._address] ∧
      (s._processFrame a)._pushStore = s._pushStore) := by
  obtain ⟨inv, hd⟩ := dispatchService_slave s a hslave hnq
  have hproc : s._processFrame a =
      ({ s with invoked := inv, _framePosition := 0 } : gnMsup1).answerPushClearance a := by
    unfold _processFrame
    rw [hd]
    have hrole : ({ s with invoked := inv, _framePosition := 0 } : gnMsup1)._ownsMasterRole
        = false := hslave
    simp only [hpush, if_true]
    rw [if_neg (by rw [hrole]; decide)]
  rw [hproc]
  refine ⟨?_, ?_⟩
  · intro he hsize
    obtain ⟨hw, hp⟩ := answerPushClearance_entry
      ({ s with invoked := inv, _framePosition := 0 } : gnMsup1) a hslave htime he hsize
    obtain ⟨b7, b6, b5, b4⟩ := flagByte_bits s true
      ((s.setPending (s._pushStoreNextToSend a.now) false)._pushStoreNextToSend a.now
        != GNMSUP1_PUSHSTOREEMPTY)
      (bitRead (s.pushEntry (s._pushStoreNextToSend a.now)).flags
        GNMSUP1_PUSHBUFFLAG_COMMITRECEIVE)
    have hnum := flagByte_eq s true
      ((s.setPending (s._pushStoreNextToSend a.now) false)._pushStoreNextToSend a.now
        != GNMSUP1_PUSHSTOREEMPTY)
      (bitRead (s.pushEntry (s._pushStoreNextToSend a.now)).flags
        GNMSUP1_PUSHBUFFLAG_COMMITRECEIVE)
    have hL : ∀ (x y z w : Nat) (p : List Nat), logicalFrame (s.flagByte true
        ((s.setPending (s._pushStoreNextToSend a.now) false)._pushStoreNextToSend a.now
          != GNMSUP1_PUSHSTOREEMPTY)
        (bitRead (s.pushEntry (s._pushStoreNextToSend a.now)).flags
          GNMSUP1_PUSHBUFFLAG_COMMITRECEIVE)) x y z w p =
        [s.flagByte true
        ((s.setPending (s._pushStoreNextToSend a.now) false)._pushStoreNextToSend a.now
          != GNMSUP1_PUSHSTOREEMPTY)
        (bitRead (s.pushEntry (s._pushStoreNextToSend a.now)).flags
          GNMSUP1_PUSHBUFFLAG_COMMITRECEIVE), x, y, z, w] ++ p := by
      intro x y z w p
      simp only [logicalFrame, GNMSUP1_FRAMEFLAG_SERVICE, b6, if_true]
    refine ⟨s.flagByte true
      ((s.setPending (s._pushStoreNextToSend a.now) false)._pushStoreNextToSend a.now
        != GNMSUP1_PUSHSTOREEMPTY)
      (bitRead (s.pushEntry (s._pushStoreNextToSend a.now)).flags
        GNMSUP1_PUSHBUFFLAG_COMMITRECEIVE), ?_, ?_, b6, b4, ?_, ?_, ?_⟩
    · rw [← hL]; exact hw
    · rw [show GNMSUP1_FRAMEFLAG_DIRECTION = 7 from rfl, b7, hslave]; rfl
    · rw [show GNMSUP1_FRAMEFLAG_PUSH = 5 from rfl, b5]
      simp
    · rw [hnum]
      split_ifs <;> simp [hslave] at *
    · rw [← hL]; exact hp
  · intro he
    exact answerPushClearance_empty
      ({ s with invoked := inv, _framePosition := 0 } : gnMsup1) a hslave htime he

theorem nextToSend_found (s : gnMsup1) (now i : Nat) (hi : i < GNMSUP1_MAXPUSHQEUEENTRYS)
    (hp : s.slotPending i = true) (he : s.slotExpired now i = false)
    (ht : (s.pushEntry i).timestamp < now) :
    s._pushStoreNextToSend now ≠ GNMSUP1_PUSHSTOREEMPTY := by
  have key : ∀ N, i < N →
      (List.range N).foldl (fun storeEntry j =>
        if bitRead (s.pushEntry j).flags GNMSUP1_PUSHBUFFLAG_PENDING &&
            decide (sub32 now (s.pushEntry j).timestamp ≤ GNMSUP1_DEFAULTPUSHQEUETIMEOUT) &&
            decide ((s.pushEntry j).timestamp < now) then j
        else storeEntry) GNMSUP1_PUSHSTOREEMPTY < N := by
    intro N
    induction N with
    | zero => intro h; omega
    | succ N ih =>
      intro hN
      rw [List.range_succ, List.foldl_append]
      simp only [List.foldl_cons, List.foldl_nil]
      split
      · omega
      · rename_i hc
        by_cases hiN : i = N
        · exfalso
          apply hc
          subst hiN
          simp only [slotPending] at hp
          simp only [slotExpired, decide_eq_false_iff_not, not_lt] at he
          simp only [hp, Bool.true_and, Bool.and_eq_true, decide_eq_true_eq]
          exact ⟨he, ht⟩
        · have := ih (by omega)
          omega
  have h := key GNMSUP1_MAXPUSHQEUEENTRYS hi
  unfold _pushStoreNextToSend
  simp only []
  intro heq
  rw [heq] at h
  exact absurd h (by decide)

/-- When every sendable entry was stored at an earlier clock value than `now`,
`_pushStoreNextToSend` returns `GNMSUP1_PUSHSTOREEMPTY` exactly when no slot holds a sendable
entry. -/
theorem nextToSend_empty_iff (s : gnMsup1) (now : Nat)
    (hstamp : ∀ i, i < GNMSUP1_MAXPUSHQEUEENTRYS → s.sendable now i = true →
      (s.pushEntry i).timestamp < now) :
    s._pushStoreNextToSend now = GNMSUP1_PUSHSTOREEMPTY ↔
      ∀ i, i < GNMSUP1_MAXPUSHQEUEENTRYS → s.sendable now i = false := by
  constructor
  · intro h i hi
    cases hs : s.sendable now i
    · rfl
    · exfalso
      have hs2 := hs
      simp only [sendable, Bool.and_eq_true, Bool.not_eq_true'] at hs2
      exact nextToSend_found s now i hi hs2.1 hs2.2 (hstamp i hi hs) h
  · intro h
    rcases nextToSend_cases s now with h1 | ⟨h1, h2, h3, -⟩
    · exact h1
    · exfalso
      have := h _ h1
      simp only [sendable, h2, h3, Bool.not_false, Bool.and_self] at this
      exact absurd this (by decide)

theorem setPending_other (s : gnMsup1) (e j : Nat) (v : Bool) (h : j ≠ e) :
    (s.setPending e v).pushEntry j = s.pushEntry j := by
  unfold setPending pushEntry
  simp only []
  simp only [List.getD_eq_getElem?_getD]
  rw [List.getElem?_set_ne (fun h1 => h h1.symm)]

theorem sendable_setPending (s : gnMsup1) (now e j : Nat) (he : e < s._pushStore.length) :
    (s.setPending e false).sendable now j = (if j = e then false else s.sendable now j) := by
  by_cases h : j = e
  · subst h
    rw [if_pos rfl]
    simp only [sendable, slotPending, setPending_entry s j false he]
    rw [bitRead_bitWrite _ _ _ _ (by decide) (by decide)]
    simp
  · rw [if_neg h]
    simp only [sendable, slotPending, slotExpired, setPending_other s e j false h]

/-- C27 (answer to a push clearance), as amended. A slave with address A processes an accepted
frame with the push bit set that is not a QueryAlive request (service bit set, service 0xFF,
subservice 0x00), the dispatch ends within `GNMSUP1_PUSHTIMEOUT` of the frame start, and every
sendable entry of the queue (`sendable`: pending and not expired) was stored at an earlier
clock value than the current one. If the queue has a sendable entry, the slot `e` that
`_pushStoreNextToSend` returns holds a sendable entry, and (its payload size being at most
`GNMSUP1_MAXPAYLOADBUFFER`) `_processFrame` writes exactly one frame: flag with direction
bit 1, service bit 1, commit-receive bit equal to the one of `e`, push bit set exactly when a
slot other than `e` holds a sendable entry, low four bits 0; then address A, payload size,
service and subservice of `e` and the first payload-size bytes of its payload; and the pending
bit of `e` is clear afterwards when the delivery does not fail (no commit-receive asked, or
the CRC of the frame read back). If the queue has no sendable entry, it writes exactly the
frame with logical bytes `[0x80, A]` and leaves the push store as it was. -/
theorem C27_push_clearance_answer (s : gnMsup1) (a : Attempt)
    (hslave : s._ownsMasterRole = false)
    (hpush : bitRead (s.frameByte GNMSUP1_FRAMEBUF_FLAG) GNMSUP1_FRAMEFLAG_PUSH = true)
    (hnq : ¬ (bitRead (s.frameByte GNMSUP1_FRAMEBUF_FLAG) GNMSUP1_FRAMEFLAG_SERVICE = true ∧
      s.frameByte GNMSUP1_FRAMEBUF_SERVICE = GNMSUP1_SYSTEMSERVICENUMBER ∧
      s.frameByte GNMSUP1_FRAMEBUF_SUBSERVICE = GNMSUP1_SYSTEMSERVICE_QUERYALIVE))
    (htime : sub32 a.now s._frameStartTime ≤ GNMSUP1_PUSHTIMEOUT)
    (hstamp : ∀ i, i < GNMSUP1_MAXPUSHQEUEENTRYS → s.sendable a.now i = true →
      (s.pushEntry i).timestamp < a.now) :
    ((∃ i, i < GNMSUP1_MAXPUSHQEUEENTRYS ∧ s.sendable a.now i = true) →
      s._pushStoreNextToSend a.now < GNMSUP1_MAXPUSHQEUEENTRYS ∧
      s.sendable a.now (s._pushStoreNextToSend a.now) = true ∧
      ((s.pushEntry (s._pushStoreNextToSend a.now)).payloadSize ≤ GNMSUP1_MAXPAYLOADBUFFER →
      ∃ flag,
        (s._processFrame a).written = s.written ++ wireFrame
          ([flag, s._address, (s.pushEntry (s._pushStoreNextToSend a.now)).payloadSize,
            (s.pushEntry (s._pushStoreNextToSend a.now)).serviceNumber,
            (s.pushEntry (s._pushStoreNextToSend a.now)).subserviceNumber] ++
            (List.range (s.pushEntry (s._pushStoreNextToSend a.now)).payloadSize).map
              (fun i => (s.pushEntry (s._pushStoreNextToSend a.now)).payload.getD i 0)) ∧
        bitRead flag GNMSUP1_FRAMEFLAG_DIRECTION = true ∧
        bitRead flag GNMSUP1_FRAMEFLAG_SERVICE = true ∧
        bitRead flag GNMSUP1_FRAMEFLAG_COMMITRECEIVE =
          bitRead (s.pushEntry (s._pushStoreNextToSend a.now)).flags
            GNMSUP1_PUSHBUFFLAG_COMMITRECEIVE ∧
        (bitRead flag GNMSUP1_FRAMEFLAG_PUSH = true ↔
          ∃ j, j < GNMSUP1_MAXPUSHQEUEENTRYS ∧ j ≠ s._pushStoreNextToSend a.now ∧
            s.sendable a.now j = true) ∧
        flag % 16 = 0 ∧
        ((bitRead (s.pushEntry (s._pushStoreNextToSend a.now)).flags
            GNMSUP1_PUSHBUFFLAG_COMMITRECEIVE = false ∨
          ∃ rest, a.reply =
            highByte (ccitt ([flag, s._address,
              (s.pushEntry (s._pushStoreNextToSend a.now)).payloadSize,
              (s.pushEntry (s._pushStoreNextToSend a.now)).serviceNumber,
              (s.pushEntry (s._pushStoreNextToSend a.now)).subserviceNumber] ++
              (List.range (s.pushEntry (s._pushStoreNextToSend a.now)).payloadSize).map
                (fun i => (s.pushEntry (s._pushStoreNextToSend a.now)).payload.getD i 0))) ::
            lowByte (ccitt ([flag, s._address,
              (s.pushEntry (s._pushStoreNextToSend a.now)).payloadSize,
              (s.pushEntry (s._pushStoreNextToSend a.now)).serviceNumber,
              (s.pushEntry (s._pushStoreNextToSend a.now)).subserviceNumber] ++
              (List.range (s.pushEntry (s._pushStoreNextToSend a.now)).payloadSize).map
                (fun i => (s.pushEntry (s._pushStoreNextToSend a.now)).payload.getD i 0))) ::
            rest) →
          (s._processFrame a).slotPending (s._pushStoreNextToSend a.now) = false))) ∧
    ((∀ i, i < GNMSUP1_MAXPUSHQEUEENTRYS → s.sendable a.now i = false) →
      (s._processFrame a).written = s.written ++ wireFrame [0x80, s._address] ∧
      (s._processFrame a)._pushStore = s._pushStore) := by
  obtain ⟨hfound, hnone⟩ := _processFrame_pushClearance s a hslave hpush hnq htime
  have hiff := nextToSend_empty_iff s a.now hstamp
  refine ⟨?_, fun h => hnone (hiff.mpr h)⟩
  rintro ⟨i, hi, hs⟩
  have hne : s._pushStoreNextToSend a.now ≠ GNMSUP1_PUSHSTOREEMPTY := by
    intro h
    have := hiff.mp h i hi
    rw [hs] at this
    exact absurd this (by decide)
  obtain ⟨he1, he2, he3, -⟩ : s._pushStoreNextToSend a.now < GNMSUP1_MAXPUSHQEUEENTRYS ∧
      s.slotPending (s._pushStoreNextToSend a.now) = true ∧
      s.slotExpired a.now (s._pushStoreNextToSend a.now) = false ∧
      (s.pushEntry (s._pushStoreNextToSend a.now)).timestamp < a.now := by
    rcases nextToSend_cases s a.now with h | h
    · exact absurd h hne
    · exact h
  have hlen := pending_in_store s _ he2
  refine ⟨he1, by simp only [sendable, he2, he3, Bool.not_false, Bool.and_self], ?_⟩
  intro hsize
  obtain ⟨flag, f1, f2, f3, f4, f5, f6, f7⟩ := hfound hne hsize
  refine ⟨flag, f1, f2, f3, f4, ?_, f6, f7⟩
  rw [f5]
  have hstamp1 : ∀ j, j < GNMSUP1_MAXPUSHQEUEENTRYS →
      (s.setPending (s._pushStoreNextToSend a.now) false).sendable a.now j = true →
      ((s.setPending (s._pushStoreNextToSend a.now) false).pushEntry j).timestamp < a.now := by
    intro j hj hsj
    rw [sendable_setPending s a.now _ j hlen] at hsj
    by_cases hje : j = s._pushStoreNextToSend a.now
    · rw [if_pos hje] at hsj
      exact absurd hsj (by decide)
    · rw [if_neg hje] at hsj
      rw [setPending_other s _ j false hje]
      exact hstamp j hj hsj
  have hiff1 := nextToSend_empty_iff (s.setPending (s._pushStoreNextToSend a.now) false) a.now
    hstamp1
  constructor
  · intro hne1
    by_contra hno
    apply hne1
    rw [hiff1]
    intro j hj
    rw [sendable_setPending s a.now _ j hlen]
    by_cases hje : j = s._pushStoreNextToSend a.now
    · rw [if_pos hje]
    · rw [if_neg hje]
      cases hsj : s.sendable a.now j
      · rfl
      · exact absurd ⟨j, hj, hje, hsj⟩ hno
  · rintro ⟨j, hj, hje, hsj⟩ hemp
    have := hiff1.mp hemp j hj
    rw [sendable_setPending s a.now _ j hlen, if_neg hje, hsj] at this
    exact absurd this (by decide)

set_option maxRecDepth 100000 in
/-- C27 as amended, on slave 0x05 with two entries stored at the clock values 1 and 2 that
accepts the push clearance `20 05` at clock value 3: one frame with the fields of the entry in
slot 1 is written, its push bit is set because slot 0 holds another sendable entry, and the
pending bit of slot 1 is clear afterwards. On slave 0x05 with an empty queue the frame
`80 05` is written. -/
theorem C27_push_clearance_answer_witness :
    (∃ flag,
      ((received twoPushes 2 [0x20, 0x05] 0)._processFrame ⟨3, []⟩).written =
        wireFrame [flag, 0x05, 0x00, 0x20, 0x01] ∧
      bitRead flag GNMSUP1_FRAMEFLAG_PUSH = true ∧
      ((received twoPushes 2 [0x20, 0x05] 0)._processFrame ⟨3, []⟩).slotPending 1 = false) ∧
    ((received (afterBegin 0x05) 2 [0x20, 0x05] 0)._processFrame ⟨3, []⟩).written =
      wireFrame [0x80, 0x05] :=
  ⟨(((C27_push_clearance_answer (received twoPushes 2 [0x20, 0x05] 0) ⟨3, []⟩ (by decide)
      (by decide) (by decide) (by decide) (by decide)).1 ⟨0, by decide, by decide⟩).2.2
      (by decide)).elim
      (fun flag hf => ⟨flag, hf.1, hf.2.2.2.2.1.mpr ⟨0, by decide, by decide, by decide⟩,
        hf.2.2.2.2.2.2 (Or.inl (by decide))⟩),
   ((C27_push_clearance_answer (received (afterBegin 0x05) 2 [0x20, 0x05] 0) ⟨3, []⟩ (by decide)
      (by decide) (by decide) (by decide) (by decide)).2 (by decide)).1⟩

set_option maxRecDepth 100000 in
/-- Counterexample for C27 as stated. Slave 0x05 holds one pending entry (service
0x20, found by `_pushStoreNextToSend` at clock value 3) and accepts the QueryAlive request
`60 05 00 FF 00`, whose push bit is set, one millisecond after the frame start. It writes the
QueryAlive answer `E0 05 00 FF 00` and nothing else; the entry is not sent and its pending bit
stays set. -/
theorem C27_push_clearance_answer_counterexample :
    (received (onePush 1 false) 2 [0x60, 0x05, 0x00, 0xFF, 0x00] 0)._ownsMasterRole = false ∧
    bitRead ((received (onePush 1 false) 2 [0x60, 0x05, 0x00, 0xFF, 0x00] 0).frameByte
      GNMSUP1_FRAMEBUF_FLAG) GNMSUP1_FRAMEFLAG_PUSH = true ∧
    sub32 3 (received (onePush 1 false) 2 [0x60, 0x05, 0x00, 0xFF, 0x00] 0)._frameStartTime
      ≤ GNMSUP1_PUSHTIMEOUT ∧
    (received (onePush 1 false) 2 [0x60, 0x05, 0x00, 0xFF, 0x00] 0)._pushStoreNextToSend 3 = 0 ∧
    ((received (onePush 1 false) 2 [0x60, 0x05, 0x00, 0xFF, 0x00] 0).pushEntry 0).serviceNumber
      = 0x20 ∧
    ((received (onePush 1 false) 2 [0x60, 0x05, 0x00, 0xFF, 0x00] 0)._processFrame
      ⟨3, []⟩).written = wireFrame [0xE0, 0x05, 0x00, 0xFF, 0x00] ∧
    ((received (onePush 1 false) 2 [0x60, 0x05, 0x00, 0xFF, 0x00] 0)._processFrame
      ⟨3, []⟩).slotPending 0 = true := by
  decide

/-- The answer to a QueryAlive request. A slave with address A processes an accepted frame
with the service bit set, service 0xFF and subservice 0x00. Then `_processFrame` writes exactly
one frame, with logical bytes `[flag, A, 0x00, 0xFF, 0x00]`: direction bit 1, service bit 1,
commit-receive bit equal to the one of the request, push bit set exactly when
`_pushStoreNextToSend` finds an entry, low four bits 0. The push store is as before (no entry
sent or cleared) and no callback is invoked. -/
theorem queryAlive_answer (s : gnMsup1) (a : Attempt)
    (hslave : s._ownsMasterRole = false)
    (hsvc : bitRead (s.frameByte GNMSUP1_FRAMEBUF_FLAG) GNMSUP1_FRAMEFLAG_SERVICE = true)
    (hsys : s.frameByte GNMSUP1_FRAMEBUF_SERVICE = GNMSUP1_SYSTEMSERVICENUMBER)
    (hsub : s.frameByte GNMSUP1_FRAMEBUF_SUBSERVICE = GNMSUP1_SYSTEMSERVICE_QUERYALIVE) :
    ∃ flag,
      (s._processFrame a).written = s.written ++ wireFrame [flag, s._address, 0, 0xFF, 0x00] ∧
      bitRead flag GNMSUP1_FRAMEFLAG_DIRECTION = true ∧
      bitRead flag GNMSUP1_FRAMEFLAG_SERVICE = true ∧
      bitRead flag GNMSUP1_FRAMEFLAG_COMMITRECEIVE =
        bitRead (s.frameByte GNMSUP1_FRAMEBUF_FLAG) GNMSUP1_FRAMEFLAG_COMMITRECEIVE ∧
      (bitRead flag GNMSUP1_FRAMEFLAG_PUSH = true ↔
        s._pushStoreNextToSend a.now ≠ GNMSUP1_PUSHSTOREEMPTY) ∧
      flag % 16 = 0 ∧
      (s._processFrame a)._pushStore = s._pushStore ∧
      (s._processFrame a).invoked = s.invoked := by
  obtain ⟨hw, hp⟩ := _processFrame_queryAlive s a hslave hsvc hsys hsub
  obtain ⟨b7, b6, b5, b4⟩ := flagByte_bits s true
    (s._pushStoreNextToSend a.now != GNMSUP1_PUSHSTOREEMPTY)
    (bitRead (s.frameByte GNMSUP1_FRAMEBUF_FLAG) GNMSUP1_FRAMEFLAG_COMMITRECEIVE)
  have hnum := flagByte_eq s true (s._pushStoreNextToSend a.now != GNMSUP1_PUSHSTOREEMPTY)
    (bitRead (s.frameByte GNMSUP1_FRAMEBUF_FLAG) GNMSUP1_FRAMEFLAG_COMMITRECEIVE)
  refine ⟨s.flagByte true (s._pushStoreNextToSend a.now != GNMSUP1_PUSHSTOREEMPTY)
    (bitRead (s.frameByte GNMSUP1_FRAMEBUF_FLAG) GNMSUP1_FRAMEFLAG_COMMITRECEIVE),
    ?_, ?_, b6, b4, ?_, ?_, hp, _processFrame_system s a hsys⟩
  · rw [hw]
    simp only [logicalFrame, b6, GNMSUP1_FRAMEFLAG_SERVICE, if_true, GNMSUP1_SYSTEMSERVICENUMBER,
      GNMSUP1_SYSTEMSERVICE_QUERYALIVE, List.append_nil]
  · rw [show GNMSUP1_FRAMEFLAG_DIRECTION = 7 from rfl, b7, hslave]; rfl
  · rw [show GNMSUP1_FRAMEFLAG_PUSH = 5 from rfl, b5]
    simp
  · rw [hnum]
    split_ifs <;> simp [hslave] at *

set_option maxRecDepth 100000 in
/-- C29 (QueryAlive), evaluation of the code on the failing input. Slave 0x05 holds one entry
stored by `push` at clock value 3: at clock value 3 the entry is pending and not expired
(sendable). A call of `handleCommunication` at clock value 3 reads the QueryAlive request
`40 05 00 FF 00` and answers `C0 05 00 FF 00`, push bit clear. The same call at clock value 4
answers `E0 05 00 FF 00`, push bit set. -/
theorem C29_query_alive_failing_input :
    (onePush 3 false).sendable 3 0 = true ∧
    (onePush 3 false)._pushStoreNextToSend 3 = GNMSUP1_PUSHSTOREEMPTY ∧
    ((onePush 3 false).handleCommunication
      ⟨3, wireFrame [0x40, 0x05, 0x00, 0xFF, 0x00], [], []⟩).map (fun r => r.written) =
      some (wireFrame [0xC0, 0x05, 0x00, 0xFF, 0x00]) ∧
    bitRead 0xC0 GNMSUP1_FRAMEFLAG_PUSH = false ∧
    ((onePush 3 false).handleCommunication
      ⟨4, wireFrame [0x40, 0x05, 0x00, 0xFF, 0x00], [], []⟩).map (fun r => r.written) =
      some (wireFrame [0xE0, 0x05, 0x00, 0xFF, 0x00]) := by
  decide

end gnMsup1

namespace gnMsup1

/-! ## Commit-receive with a wrong CRC -/

theorem setFrameByte_buffer_congr (x y : gnMsup1) (i v : Nat)
    (h : x._frameBuffer = y._frameBuffer) :
    (x.setFrameByte i v)._frameBuffer = (y.setFrameByte i v)._frameBuffer := by
  unfold setFrameByte
  split
  · simp only [h]
  · exact h

theorem storeLoop_buffer_congr (payload : List Nat) (k : Nat) (x y : gnMsup1)
    (h : x._frameBuffer = y._frameBuffer) :
    ((List.range k).foldl (fun st i =>
      st.setFrameByte (GNMSUP1_FRAMEBUF_PAYLOADSTART + i) (payload.getD i 0)) x)._frameBuffer =
    ((List.range k).foldl (fun st i =>
      st.setFrameByte (GNMSUP1_FRAMEBUF_PAYLOADSTART + i) (payload.getD i 0)) y)._frameBuffer := by
  induction k with
  | zero => exact h
  | succ k ih =>
    rw [List.range_succ, List.foldl_append, List.foldl_append]
    simp only [List.foldl_cons, List.foldl_nil]
    exact setFrameByte_buffer_congr _ _ _ _ ih

/-- The checksum of the frame that `_sendFrame` builds depends on the role of the object and
on the arguments only: the frame buffer is reset before the frame is built. -/
theorem emitFrame_checksum_congr (x y : gnMsup1) (now1 now2 : Nat)
    (address serviceNumber subserviceNumber : Nat)
    (serviceFlag pushFlag commitReceivedFlag : Bool) (payload : List Nat) (payloadSize : Nat)
    (h : x._address = y._address) :
    (x.emitFrame now1 address serviceNumber subserviceNumber serviceFlag pushFlag
      commitReceivedFlag payload payloadSize)._frameChecksum =
    (y.emitFrame now2 address serviceNumber subserviceNumber serviceFlag pushFlag
      commitReceivedFlag payload payloadSize)._frameChecksum := by
  have hflag : x.flagByte serviceFlag pushFlag commitReceivedFlag =
      y.flagByte serviceFlag pushFlag commitReceivedFlag := by
    simp only [flagByte, _ownsMasterRole, h]
  have h0 : x._resetFramebuffer._frameBuffer = y._resetFramebuffer._frameBuffer := rfl
  have h2 := setFrameByte_buffer_congr _ _ GNMSUP1_FRAMEBUF_ADDRESS address
    (setFrameByte_buffer_congr _ _ GNMSUP1_FRAMEBUF_FLAG
      (x.flagByte serviceFlag pushFlag commitReceivedFlag) h0)
  have hb : (x.buildFrame address serviceNumber subserviceNumber serviceFlag pushFlag
      commitReceivedFlag payload payloadSize).1._frameChecksum =
      (y.buildFrame address serviceNumber subserviceNumber serviceFlag pushFlag
      commitReceivedFlag payload payloadSize).1._frameChecksum := by
    unfold buildFrame
    rw [← hflag]
    cases serviceFlag with
    | false =>
      simp only [Bool.false_eq_true, if_false]
      rw [h2]
    | true =>
      simp only [if_true]
      rw [storeLoop_buffer_congr payload payloadSize _ _
        (setFrameByte_buffer_congr _ _ GNMSUP1_FRAMEBUF_SUBSERVICE subserviceNumber
          (setFrameByte_buffer_congr _ _ GNMSUP1_FRAMEBUF_SERVICE serviceNumber
            (setFrameByte_buffer_congr _ _ GNMSUP1_FRAMEBUF_PAYLOADSIZE payloadSize h2)))]
  unfold emitFrame
  generalize x.buildFrame address serviceNumber subserviceNumber serviceFlag pushFlag
      commitReceivedFlag payload payloadSize = bx at hb
  generalize y.buildFrame address serviceNumber subserviceNumber serviceFlag pushFlag
      commitReceivedFlag payload payloadSize = by1 at hb
  obtain ⟨bx1, bx2⟩ := bx
  obtain ⟨by2, by3⟩ := by1
  simp only [] at hb ⊢
  split_ifs <;> exact hb

/-- C30 (an invalid commit-receive does not mark the node ignored), as amended. A master calls
`_sendFrame` with `commitReceivedFlag` and `retryOnCrFailure` set and a payload of at most
`GNMSUP1_MAXPAYLOADBUFFER` bytes for a node that is not ignored; the first attempt reads two
bytes that are not the CRC of the frame sent, and the retry again reads two bytes that are not
that CRC. Then the call returns `false`, the ignore bit and the active bit of the target (and
both bitmaps as a whole) are as before the call, `_lastComError` is `(Err_CRInvalid, a)`, and
no store went beyond the end of an array. -/
theorem C30_invalid_commit_receive (s : gnMsup1) (first second : Attempt)
    (a serviceNumber subserviceNumber : Nat) (serviceFlag pushFlag waitForPushAnswer : Bool)
    (payload : List Nat) (payloadSize c0 c1 d0 d1 : Nat) (rest1 rest2 : List Nat)
    (hmaster : s._ownsMasterRole = true) (hign : s._queryIgnore a = false)
    (hsize : payloadSize ≤ GNMSUP1_MAXPAYLOADBUFFER)
    (h1 : first.reply = c0 :: c1 :: rest1)
    (hbad1 : ¬ (c0 = highByte (s.emitFrame first.now a serviceNumber subserviceNumber
        serviceFlag pushFlag true payload payloadSize)._frameChecksum ∧
      c1 = lowByte (s.emitFrame first.now a serviceNumber subserviceNumber
        serviceFlag pushFlag true payload payloadSize)._frameChecksum))
    (h2 : second.reply = d0 :: d1 :: rest2)
    (hbad2 : ¬ (d0 = highByte (s.emitFrame first.now a serviceNumber subserviceNumber
        serviceFlag pushFlag true payload payloadSize)._frameChecksum ∧
      d1 = lowByte (s.emitFrame first.now a serviceNumber subserviceNumber
        serviceFlag pushFlag true payload payloadSize)._frameChecksum)) :
    (s._sendFrame id first second a serviceNumber subserviceNumber serviceFlag pushFlag
      waitForPushAnswer true true payload payloadSize).2 = false ∧
    storeBit (s._sendFrame id first second a serviceNumber subserviceNumber serviceFlag pushFlag
      waitForPushAnswer true true payload payloadSize).1._ignoreStore a =
      storeBit s._ignoreStore a ∧
    storeBit (s._sendFrame id first second a serviceNumber subserviceNumber serviceFlag pushFlag
      waitForPushAnswer true true payload payloadSize).1._activeStore a =
      storeBit s._activeStore a ∧
    (s._sendFrame id first second a serviceNumber subserviceNumber serviceFlag pushFlag
      waitForPushAnswer true true payload payloadSize).1._ignoreStore = s._ignoreStore ∧
    (s._sendFrame id first second a serviceNumber subserviceNumber serviceFlag pushFlag
      waitForPushAnswer true true payload payloadSize).1._activeStore = s._activeStore ∧
    (s._sendFrame id first second a serviceNumber subserviceNumber serviceFlag pushFlag
      waitForPushAnswer true true payload payloadSize).1._lastComError =
      ⟨ComErrorCode.Err_CRInvalid, a⟩ ∧
    (s._sendFrame id first second a serviceNumber subserviceNumber serviceFlag pushFlag
      waitForPushAnswer true true payload payloadSize).1.bufferOverrun = s.bufferOverrun := by
  have hover := _sendFrame_overrun s first second a serviceNumber subserviceNumber serviceFlag
    pushFlag waitForPushAnswer true true payload payloadSize hsize
  have last : ∀ {A B C D E F G : Prop}, G → (A ∧ B ∧ C ∧ D ∧ E ∧ F) →
      A ∧ B ∧ C ∧ D ∧ E ∧ F ∧ G :=
    fun g h => ⟨h.1, h.2.1, h.2.2.1, h.2.2.2.1, h.2.2.2.2.1, h.2.2.2.2.2, g⟩
  apply last hover
  obtain ⟨k, l, -, -⟩ := emitFrame_kept s first.now a serviceNumber subserviceNumber serviceFlag
    pushFlag true payload payloadSize
  have hcs : ∀ x : gnMsup1, x._address = s._address →
      (x.emitFrame second.now a serviceNumber subserviceNumber serviceFlag pushFlag true payload
        payloadSize)._frameChecksum =
      (s.emitFrame first.now a serviceNumber subserviceNumber serviceFlag pushFlag true payload
        payloadSize)._frameChecksum :=
    fun x hx => emitFrame_checksum_congr x s second.now first.now a serviceNumber
      subserviceNumber serviceFlag pushFlag true payload payloadSize hx
  unfold _sendFrame
  rw [sendFrameBody_invalid _ _ _ _ _ _ _ _ _ _ _ _ _ c0 c1 rest1 hign h1 hbad1]
  simp only [hmaster, Bool.and_self, if_true]
  generalize hE : s.emitFrame first.now a serviceNumber subserviceNumber serviceFlag pushFlag true
    payload payloadSize = e1 at k l hcs hbad2 ⊢
  have k1 : Kept s { e1 with _lastComError := ⟨ComErrorCode.Err_CRInvalid, a⟩ } :=
    Kept_trans k (by constructor <;> rfl)
  have hign1 : ({ e1 with _lastComError := ⟨ComErrorCode.Err_CRInvalid, a⟩ } :
      gnMsup1)._queryIgnore a = false := by
    rw [_queryIgnore_congr s _ a k1 l.ignoreStore]
    exact hign
  obtain ⟨k2, l2, -, -⟩ := emitFrame_kept
    ({ e1 with _lastComError := ⟨ComErrorCode.Err_CRInvalid, a⟩ } : gnMsup1) second.now a
    serviceNumber subserviceNumber serviceFlag pushFlag true payload payloadSize
  rw [sendFrameBody_invalid _ _ _ _ _ _ _ _ _ _ _ _ _ d0 d1 rest2 hign1 h2
    (by rw [hcs _ k1.address]; exact hbad2)]
  simp only [Bool.false_and, Bool.false_eq_true, if_false]
  have hI := l2.ignoreStore.trans l.ignoreStore
  have hA := l2.activeStore.trans l.activeStore
  refine ⟨trivial, ?_, ?_, hI, hA, trivial⟩
  · exact congrArg (fun st => storeBit st a) hI
  · exact congrArg (fun st => storeBit st a) hA

set_option maxRecDepth 100000 in
theorem C30_invalid_commit_receive_witness :
    ((afterBegin 0xFF)._sendFrame id ⟨0, [0, 0]⟩ ⟨0, [0, 0]⟩ 0x05 0x10 0x01 true false false
      true true [] 0).2 = false ∧
    storeBit ((afterBegin 0xFF)._sendFrame id ⟨0, [0, 0]⟩ ⟨0, [0, 0]⟩ 0x05 0x10 0x01 true false
      false true true [] 0).1._ignoreStore 0x05 = storeBit (afterBegin 0xFF)._ignoreStore 0x05 ∧
    storeBit ((afterBegin 0xFF)._sendFrame id ⟨0, [0, 0]⟩ ⟨0, [0, 0]⟩ 0x05 0x10 0x01 true false
      false true true [] 0).1._activeStore 0x05 = storeBit (afterBegin 0xFF)._activeStore 0x05 :=
  have h := C30_invalid_commit_receive (afterBegin 0xFF) ⟨0, [0, 0]⟩ ⟨0, [0, 0]⟩ 0x05 0x10 0x01
    true false false [] 0 0 0 0 0 [] [] (by decide) (by decide) (by decide) rfl (by decide) rfl
    (by decide)
  ⟨h.1, h.2.1, h.2.2.1⟩

set_option maxRecDepth 100000 in
/-- Counterexample for C30 as stated. On the master after `begin` a call of
`_sendFrame` to node 0x05 with `commitReceivedFlag` and `retryOnCrFailure` reads `00 00` (not
the CRC sent) on the first attempt and nothing on the retry; the call returns `false` and the
ignore bit of node 0x05, clear before the call, is set. -/
theorem C30_invalid_commit_receive_counterexample :
    (afterBegin 0xFF)._ownsMasterRole = true ∧
    ¬ (0 = highByte ((afterBegin 0xFF).emitFrame 0 0x05 0x10 0x01 true false true []
        0)._frameChecksum ∧
      0 = lowByte ((afterBegin 0xFF).emitFrame 0 0x05 0x10 0x01 true false true []
        0)._frameChecksum) ∧
    ((afterBegin 0xFF)._sendFrame id ⟨0, [0, 0]⟩ ⟨0, []⟩ 0x05 0x10 0x01 true false false
      true true [] 0).2 = false ∧
    storeBit (afterBegin 0xFF)._ignoreStore 0x05 = false ∧
    storeBit ((afterBegin 0xFF)._sendFrame id ⟨0, [0, 0]⟩ ⟨0, []⟩ 0x05 0x10 0x01 true false
      false true true [] 0).1._ignoreStore 0x05 = true := by
  decide

end gnMsup1

namespace gnMsup1

/-! ## What a slave writes -/

theorem Heard_refl (s : gnMsup1) : Heard s s := by
  constructor <;> rfl

theorem Heard_trans {s s1 s2 : gnMsup1} (h1 : Heard s s1) (h2 : Heard s1 s2) : Heard s s2 := by
  obtain ⟨a1, a2, a3, a4, a5, a6, a7, a8, a9, a10, a11, a12, a13, a14, a15, a16, a17, a18, a19⟩ := h1
  obtain ⟨b1, b2, b3, b4, b5, b6, b7, b8, b9, b10, b11, b12, b13, b14, b15, b16, b17, b18, b19⟩ := h2
  constructor
  all_goals (first | exact Eq.trans ‹_› ‹_›)

theorem setFrameByte_heard (s : gnMsup1) (i v : Nat) :
    Heard s (s.setFrameByte i v) ∧ (s.setFrameByte i v).written = s.written := by
  unfold setFrameByte
  split
  · exact ⟨by constructor <;> rfl, rfl⟩
  · exact ⟨by constructor <;> rfl, rfl⟩

theorem _resetAndStartFrame_heard (s : gnMsup1) (b : Nat) :
    Heard s (s._resetAndStartFrame b) ∧ (s._resetAndStartFrame b).written = s.written := by
  unfold _resetAndStartFrame _resetFramebuffer
  split
  · exact ⟨by constructor <;> rfl, rfl⟩
  · exact ⟨by constructor <;> rfl, rfl⟩

theorem _markActive_heard (s : gnMsup1) (a : Nat) : Heard s (s._markActive a) := by
  unfold _markActive
  split
  · constructor <;> first | rfl | exact setStoreBit_length _ _ _
  · exact Heard_refl s

theorem _validateFrame_heard (s : gnMsup1) : Heard s s._validateFrame.1 := by
  have hm := _markActive_heard s (s.frameByte GNMSUP1_FRAMEBUF_ADDRESS)
  unfold _validateFrame
  generalize s._markActive (s.frameByte GNMSUP1_FRAMEBUF_ADDRESS) = s1 at hm ⊢
  simp only []
  split_ifs <;> first
    | exact Heard_refl s
    | exact hm
    | exact Heard_trans hm (by constructor <;> rfl)

/-- The validation at the last stop byte on a slave: it writes only when it accepts, and it
accepts only a frame with a valid CRC, the own address and the direction bit clear. -/
theorem finishFrame_slave (v : gnMsup1) (b : Nat) (hslave : v._ownsMasterRole = false) :
    Heard v (v.finishFrame b).1 ∧
    ((v.finishFrame b).2 ≠ some true → (v.finishFrame b).1.written = v.written) ∧
    ((v.finishFrame b).2 = some true →
      (v.finishFrame b).1._frameChecksum =
        ccitt ((v.finishFrame b).1._frameBuffer.take ((v.finishFrame b).1._framePosition - 6)) ∧
      (v.finishFrame b).1.frameByte GNMSUP1_FRAMEBUF_ADDRESS = v._address ∧
      bitRead ((v.finishFrame b).1.frameByte GNMSUP1_FRAMEBUF_FLAG) GNMSUP1_FRAMEFLAG_DIRECTION
        = false) := by
  obtain ⟨hval, hbuf, hcs, hpos, -, -, -, hw⟩ := _validateFrame_cases v
  have hh := _validateFrame_heard v
  unfold finishFrame
  rcases hv : v._validateFrame with ⟨s1, _ | _⟩
  · rw [hv] at hw hh
    simp only [Bool.false_eq_true, false_and, if_false, List.append_nil] at hw
    obtain ⟨h1, h2⟩ := _resetAndStartFrame_heard s1 b
    refine ⟨Heard_trans hh h1, fun _ => h2.trans hw, fun h => ?_⟩
    simp at h
  · rw [hv] at hval hbuf hcs hpos hh
    simp only [true_iff, hslave, Bool.false_eq_true, false_or] at hval
    refine ⟨hh, fun h => absurd rfl h, fun _ => ?_⟩
    simp only [] at hbuf hcs hpos ⊢
    refine ⟨?_, ?_, ?_⟩
    · rw [hcs, hbuf, hpos]; exact hval.1
    · simp only [frameByte, hbuf, GNMSUP1_FRAMEBUF_ADDRESS]
      exact hval.2.1
    · simp only [frameByte, hbuf, GNMSUP1_FRAMEBUF_FLAG, GNMSUP1_FRAMEFLAG_DIRECTION]
      exact hval.2.2

/-- Case analysis of the loop body of `_readInput`: one byte of input either leaves
`_readInput` in its loop, having written nothing, or is the last stop byte, at which the frame
is validated. -/
theorem readInputByte_ind (s : gnMsup1) (now b : Nat) (P : gnMsup1 × Option Bool → Prop)
    (h1 : ∀ x, Heard s x → x.written = s.written → P (x, none))
    (h2 : P (finishFrame (nextPosition s) b)) : P (s.readInputByte now b) := by
  have hn : ∀ x : gnMsup1, Heard x (nextPosition x) := fun x => by constructor <;> rfl
  unfold readInputByte
  dsimp only
  simp only [apply_ite P]
  have step : ∀ (c : Prop) [Decidable c] (A B : Prop), (c → A) → (¬ c → B) →
      (if c then A else B) := by
    intro c _ A B hA hB
    by_cases hc : c
    · rw [if_pos hc]; exact hA hc
    · rw [if_neg hc]; exact hB hc
  repeat' (apply step <;> intro _)
  all_goals first
    | exact h2
    | exact h1 _ (_resetAndStartFrame_heard s b).1 (_resetAndStartFrame_heard s b).2
    | exact h1 _ (by constructor <;> rfl) rfl
    | exact h1 _ (Heard_trans (setFrameByte_heard s _ b).1 (hn _)) (setFrameByte_heard s _ b).2

theorem readInputByte_shape (s : gnMsup1) (now b : Nat) :
    ((s.readInputByte now b).2 = none ∧ Heard s (s.readInputByte now b).1 ∧
      (s.readInputByte now b).1.written = s.written) ∨
    s.readInputByte now b = finishFrame (nextPosition s) b := by
  by_cases hfin : s.readInputByte now b = finishFrame (nextPosition s) b
  · exact Or.inr hfin
  · left
    revert hfin
    apply readInputByte_ind s now b (fun r => ¬ r = finishFrame (nextPosition s) b →
      r.2 = none ∧ Heard s r.1 ∧ r.1.written = s.written)
    · intro x hx hw _
      exact ⟨rfl, hx, hw⟩
    · intro h
      exact absurd rfl h

/-- The read loop of a slave: it writes only when it returns `true`, and it returns `true`
only with a frame in the buffer that has a valid CRC, the own address and the direction bit
clear. -/
theorem readLoop_slave (now : Nat) : ∀ (bytes : List Nat) (s : gnMsup1),
    s._ownsMasterRole = false →
    Heard s (s.readLoop now bytes).1 ∧
    ((s.readLoop now bytes).2.2 = false → (s.readLoop now bytes).1.written = s.written) ∧
    ((s.readLoop now bytes).2.2 = true →
      (s.readLoop now bytes).1._frameChecksum =
        ccitt ((s.readLoop now bytes).1._frameBuffer.take
          ((s.readLoop now bytes).1._framePosition - 6)) ∧
      (s.readLoop now bytes).1.frameByte GNMSUP1_FRAMEBUF_ADDRESS = s._address ∧
      bitRead ((s.readLoop now bytes).1.frameByte GNMSUP1_FRAMEBUF_FLAG)
        GNMSUP1_FRAMEFLAG_DIRECTION = false) := by
  intro bytes
  induction bytes with
  | nil =>
    intro s _
    exact ⟨Heard_refl s, fun _ => rfl, fun h => by simp [readLoop] at h⟩
  | cons b rest ih =>
    intro s hslave
    rcases readInputByte_shape s now b with ⟨hnone, hh, hw⟩ | hfin
    · have hstep : s.readLoop now (b :: rest) = (s.readInputByte now b).1.readLoop now rest := by
        rw [readLoop]
        generalize s.readInputByte now b = p at hnone
        obtain ⟨p1, p2⟩ := p
        simp only at hnone
        subst hnone
        rfl
      have hslave1 : (s.readInputByte now b).1._ownsMasterRole = false := by
        simp only [_ownsMasterRole, hh.address]; exact hslave
      obtain ⟨i1, i2, i3⟩ := ih _ hslave1
      rw [hstep]
      refine ⟨Heard_trans hh i1, fun h => (i2 h).trans hw, fun h => ?_⟩
      obtain ⟨j1, j2, j3⟩ := i3 h
      exact ⟨j1, j2.trans hh.address, j3⟩
    · have hslaven : (nextPosition s)._ownsMasterRole = false := hslave
      obtain ⟨f1, f2, f3⟩ := finishFrame_slave (nextPosition s) b hslaven
      have hstep : s.readLoop now (b :: rest) =
          ((finishFrame (nextPosition s) b).1, rest,
            (finishFrame (nextPosition s) b).2 == some true) := by
        rw [readLoop, hfin]
        have h2 := (finishFrame_cases (nextPosition s) b).1
        generalize (nextPosition s).finishFrame b = p at h2
        obtain ⟨p1, p2⟩ := p
        simp only at h2
        subst h2
        cases (nextPosition s)._validateFrame.2 <;> rfl
      rw [hstep]
      have hn : Heard s (nextPosition s) := by constructor <;> rfl
      refine ⟨Heard_trans hn f1, fun h => ?_, fun h => ?_⟩
      · simp only [beq_eq_false_iff_ne, ne_eq] at h
        exact f2 h
      · simp only [beq_iff_eq] at h
        exact f3 h

/-- The member function `_readInput` on a slave, as `readLoop_slave`. -/
theorem _readInput_slave (s : gnMsup1) (now : Nat) (bytes : List Nat)
    (hslave : s._ownsMasterRole = false) :
    Heard s (s._readInput now bytes).1 ∧
    ((s._readInput now bytes).2.2 = false → (s._readInput now bytes).1.written = s.written) ∧
    ((s._readInput now bytes).2.2 = true →
      (s._readInput now bytes).1._frameChecksum =
        ccitt ((s._readInput now bytes).1._frameBuffer.take
          ((s._readInput now bytes).1._framePosition - 6)) ∧
      (s._readInput now bytes).1.frameByte GNMSUP1_FRAMEBUF_ADDRESS = s._address ∧
      bitRead ((s._readInput now bytes).1.frameByte GNMSUP1_FRAMEBUF_FLAG)
        GNMSUP1_FRAMEFLAG_DIRECTION = false) := by
  unfold _readInput
  simp only []
  split_ifs
  · obtain ⟨h1, h2⟩ := _resetAndStartFrame_heard s (GNMSUP1_FRAMESTART1 + 1)
    have hslave1 : (s._resetAndStartFrame (GNMSUP1_FRAMESTART1 + 1))._ownsMasterRole = false := by
      simp only [_ownsMasterRole, h1.address]; exact hslave
    obtain ⟨i1, i2, i3⟩ := readLoop_slave now bytes _ hslave1
    refine ⟨Heard_trans h1 i1, fun h => (i2 h).trans h2, fun h => ?_⟩
    obtain ⟨j1, j2, j3⟩ := i3 h
    exact ⟨j1, j2.trans h1.address, j3⟩
  · exact readLoop_slave now bytes s hslave


/-- The walk of the scavenger on a slave, from offset `j` behind the cursor with `n = 32 - j`
addresses left: no node is ignored on a slave, so no probe is sent; the walk ends after the
last address and has written nothing. -/
theorem scavengingWalk_slave (probe : Attempt) :
    ∀ (n : Nat) (st : gnMsup1) (j fuel : Nat), j + n = 32 → 1 ≤ n → n ≤ fuel →
      st._ownsMasterRole = false → st._scavengingInactiveNextAddress ≤ 31 →
      ∃ s1, scavengingWalk fuel st probe ((st._scavengingInactiveNextAddress + j) % 32)
          = some s1 ∧ s1.written = st.written := by
  intro n
  induction n with
  | zero => intro st j fuel _ h; omega
  | succ n ih =>
    intro st j fuel hjn _ hfuel hslave hc
    obtain ⟨fuel1, rfl⟩ : ∃ f, fuel = f + 1 := ⟨fuel - 1, by omega⟩
    have ha : (st._scavengingInactiveNextAddress + j) % 32 ≤ 31 := by omega
    have hnext := scavenging_next ((st._scavengingInactiveNextAddress + j) % 32) ha
    have hnext2 : ((st._scavengingInactiveNextAddress + j) % 32 + 1) % 32 =
        (st._scavengingInactiveNextAddress + (j + 1)) % 32 := by omega
    have hdue : st.probeDue ((st._scavengingInactiveNextAddress + j) % 32) = false := by
      simp [probeDue, _queryIgnore_slave st hslave]
    obtain ⟨q1, q2, q3⟩ := scavengingPass_quiet st probe
      ((st._scavengingInactiveNextAddress + j) % 32) hdue
    rw [hnext, hnext2] at q2 q3
    obtain ⟨kr, -, wr⟩ := _resetActiveIgnore_kept st
      ((st._scavengingInactiveNextAddress + j) % 32)
    have hk : Kept st (st.scavengingPass probe
        ((st._scavengingInactiveNextAddress + j) % 32)).1 := by
      rw [q1]; split_ifs
      · exact kr
      · exact Kept_refl st
    have hw : (st.scavengingPass probe
        ((st._scavengingInactiveNextAddress + j) % 32)).1.written = st.written := by
      rw [q1]; split_ifs
      · exact wr
      · rfl
    rw [scavengingWalk]
    generalize st.scavengingPass probe ((st._scavengingInactiveNextAddress + j) % 32) = r
      at q2 q3 hk hw
    obtain ⟨r1, r2, r3⟩ := r
    simp only at q2 q3 hk hw
    subst q2
    cases r3 with
    | true => exact ⟨_, rfl, hw⟩
    | false =>
      simp only []
      have hn1 : 1 ≤ n := by
        by_contra hlt
        have hj : j = 31 := by omega
        subst hj
        have : (st._scavengingInactiveNextAddress + (31 + 1)) % 32 =
            st._scavengingInactiveNextAddress := by omega
        rw [this] at q3
        simp at q3
      have hslave1 : r1._ownsMasterRole = false := by
        simp only [_ownsMasterRole, hk.address]; exact hslave
      obtain ⟨s1, h1, h2⟩ := ih r1 (j + 1) fuel1 (by omega) hn1 (by omega) hslave1
        (by rw [hk.nextAddress]; exact hc)
      rw [hk.nextAddress] at h1
      exact ⟨s1, h1, h2.trans hw⟩

/-- The member function `_scavengingInactive` on a slave whose cursor is a slave address: it
returns and has written nothing. -/
theorem _scavengingInactive_slave (s : gnMsup1) (now : Nat) (probe : Attempt)
    (hslave : s._ownsMasterRole = false)
    (hc : s._scavengingInactiveNextAddress ≤ GNMSUP1_MAXSLAVEADDRESS) :
    ∃ s1, s._scavengingInactive now probe = some s1 ∧ s1.written = s.written := by
  unfold _scavengingInactive
  split_ifs
  · obtain ⟨s1, h1, h2⟩ := scavengingWalk_slave probe 32
      { s with _scavengingInactiveLastTimestamp := now } 0 256 rfl (by omega) (by omega) hslave hc
    have hmod : (s._scavengingInactiveNextAddress + 0) % 32 = s._scavengingInactiveNextAddress := by
      have : s._scavengingInactiveNextAddress ≤ 31 := hc
      omega
    simp only [] at h1
    rw [hmod] at h1
    exact ⟨s1, h1, h2⟩
  · exact ⟨s, rfl, rfl⟩
  · exact ⟨s, rfl, rfl⟩

theorem storePushEntry_written (s : gnMsup1) (now storePosition serviceNumber
    subserviceNumber : Nat) (payload : List Nat) (payloadSize : Nat)
    (commitReceivedFlag : Bool) :
    (s.storePushEntry now storePosition serviceNumber subserviceNumber payload payloadSize
      commitReceivedFlag).written = s.written := rfl

/-- The members `_address` and `_scavengingInactiveNextAddress` are not changed by
`_processFrame`. -/
theorem _processFrame_role (s : gnMsup1) (a : Attempt) :
    (s._processFrame a)._address = s._address ∧
    (s._processFrame a)._scavengingInactiveNextAddress = s._scavengingInactiveNextAddress := by
  have hd : (s.dispatchService a).1._address = s._address ∧
      (s.dispatchService a).1._scavengingInactiveNextAddress =
        s._scavengingInactiveNextAddress := by
    unfold dispatchService _handleSystemService
    dsimp only
    split_ifs <;> first
      | exact ⟨rfl, rfl⟩
      | exact ⟨(_sendFrame_kept _ _ _ _ _ _ _ _ _ _ _ _ _).address,
          (_sendFrame_kept _ _ _ _ _ _ _ _ _ _ _ _ _).nextAddress⟩
  have hp : ∀ x : gnMsup1, (x.answerPushClearance a)._address = x._address ∧
      (x.answerPushClearance a)._scavengingInactiveNextAddress =
        x._scavengingInactiveNextAddress := by
    intro x
    unfold answerPushClearance
    dsimp only
    split_ifs <;> first
      | exact ⟨rfl, rfl⟩
      | exact ⟨(_sendFrame_kept _ _ _ _ _ _ _ _ _ _ _ _ _).address,
          (_sendFrame_kept _ _ _ _ _ _ _ _ _ _ _ _ _).nextAddress⟩
  unfold _processFrame
  generalize s.dispatchService a = d at hd
  obtain ⟨d1, d2⟩ := d
  simp only [] at hd ⊢
  split_ifs
  · exact hd
  · obtain ⟨h1, h2⟩ := hp { d1 with _framePosition := 0 }
    exact ⟨h1.trans hd.1, h2.trans hd.2⟩
  · exact hd

/-- C25 (slaves speak only when addressed). On an initialized slave whose scavenger cursor is
a slave address (as it is after `begin` and after every run of the scavenger), every call of
`handleCommunication` returns; when its `_readInput` returns `false` (no frame accepted), no
byte is written; and `_readInput` returns `true` only with a frame in the buffer whose CRC is
valid, whose address byte is the own address and whose direction bit is 0. A call of `push`
that returns without a pass of a waiting loop writes no byte. -/
theorem C25_slaves_speak_when_addressed (s : gnMsup1) (t : Tick) (now : Nat)
    (serviceNumber subserviceNumber : Nat) (payload : List Nat) (payloadSize : Nat)
    (commitReceivedFlag : Bool)
    (hinit : s._initialized = true) (hslave : s._ownsMasterRole = false)
    (hcursor : s._scavengingInactiveNextAddress ≤ GNMSUP1_MAXSLAVEADDRESS) :
    (∃ s1, s.handleCommunication t = some s1 ∧
      ((s._readInput t.now t.available).2.2 = false → s1.written = s.written) ∧
      ((s._readInput t.now t.available).2.2 = true →
        (s._readInput t.now t.available).1._frameChecksum =
          ccitt ((s._readInput t.now t.available).1._frameBuffer.take
            ((s._readInput t.now t.available).1._framePosition - 6)) ∧
        (s._readInput t.now t.available).1.frameByte GNMSUP1_FRAMEBUF_ADDRESS = s._address ∧
        bitRead ((s._readInput t.now t.available).1.frameByte GNMSUP1_FRAMEBUF_FLAG)
          GNMSUP1_FRAMEFLAG_DIRECTION = false)) ∧
    (∀ s2 r, s.push now [] serviceNumber subserviceNumber payload payloadSize commitReceivedFlag
      = some (s2, r) → s2.written = s.written) := by
  refine ⟨?_, ?_⟩
  · obtain ⟨hh, hfalse, htrue⟩ := _readInput_slave s t.now t.available hslave
    unfold handleCommunication readAndProcess
    simp only [hinit, Bool.not_true, Bool.false_eq_true, if_false]
    rcases hr : s._readInput t.now t.available with ⟨f, rest, _ | _⟩
    · rw [hr] at hfalse hh
      simp only [] at hfalse hh ⊢
      obtain ⟨s1, h1, h2⟩ := _scavengingInactive_slave f t.now ⟨t.now, t.probeReply⟩
        (by simp only [_ownsMasterRole, hh.address]; exact hslave)
        (by rw [hh.nextAddress]; exact hcursor)
      exact ⟨s1, h1, fun _ => h2.trans (hfalse trivial), fun h => by simp at h⟩
    · rw [hr] at htrue hh
      simp only [] at htrue hh ⊢
      obtain ⟨p1, p2⟩ := _processFrame_role f ⟨t.now, t.reply⟩
      obtain ⟨s1, h1, -⟩ := _scavengingInactive_slave (f._processFrame ⟨t.now, t.reply⟩) t.now
        ⟨t.now, t.probeReply⟩
        (by simp only [_ownsMasterRole, p1, hh.address]; exact hslave)
        (by rw [p2, hh.nextAddress]; exact hcursor)
      exact ⟨s1, h1, fun h => by simp at h, fun _ => htrue trivial⟩
  · intro s2 r h
    unfold push at h
    simp only [hslave, hinit, Bool.not_true, Bool.or_self, Bool.false_eq_true, if_false] at h
    by_cases h1 : (s._pushStoreNextFree now == GNMSUP1_PUSHSTOREFULL &&
        s._blockingMode == BlockingMode.FullyAsynchronous) = true
    · rw [if_pos h1] at h
      simp only [Option.some.injEq, Prod.mk.injEq] at h
      rw [← h.1]
    · rw [if_neg h1] at h
      by_cases h2 : (s._pushStoreNextFree now == GNMSUP1_PUSHSTOREFULL) = true
      · rw [if_pos h2] at h
        simp [waitForFreeSlot] at h
      · rw [if_neg h2] at h
        simp only [] at h
        by_cases h3 : ((s.storePushEntry now (s._pushStoreNextFree now) serviceNumber
            subserviceNumber payload payloadSize commitReceivedFlag)._blockingMode
            == BlockingMode.Synchronous) = true
        · rw [if_pos h3] at h
          simp only [waitForDelivery] at h
          split_ifs at h
          · simp at h
          · simp only [Option.map_some', Option.some.injEq, Prod.mk.injEq] at h
            rw [← h.1]
            rfl
        · rw [if_neg h3] at h
          simp only [Option.some.injEq, Prod.mk.injEq] at h
          rw [← h.1]
          rfl

set_option maxRecDepth 100000 in
theorem C25_slaves_speak_when_addressed_witness :
    (∃ s1, (onePush 1 false).handleCommunication ⟨3, wireFrame [0x20, 0x06], [], []⟩ = some s1 ∧
      s1.written = []) ∧
    (onePush 1 false).written = (afterBegin 0x05).written :=
  have h := C25_slaves_speak_when_addressed (onePush 1 false)
    ⟨3, wireFrame [0x20, 0x06], [], []⟩ 1 0x20 0x00 [] 0 false (by decide) (by decide)
    (by decide)
  have g := C25_slaves_speak_when_addressed (afterBegin 0x05)
    ⟨3, wireFrame [0x20, 0x06], [], []⟩ 1 0x20 0x00 [] 0 false (by decide) (by decide)
    (by decide)
  ⟨h.1.elim (fun s1 hs => ⟨s1, hs.1, hs.2.1 (by decide)⟩),
    g.2 (onePush 1 false) true (by decide)⟩

end gnMsup1

namespace gnMsup1

/-! ## Bounded retry -/

end gnMsup1

namespace gnMsup1

/-! ## Liveness operations and payload sizes -/

/-- C33 (liveness operations). With both bitmaps of their declared size: for
`a <= GNMSUP1_MAXSLAVEADDRESS`, `_markActive(a)` sets the active bit of `a` and clears its
ignore bit, `_markIgnore(a)` sets the ignore bit and clears the active bit,
`_resetActiveIgnore(a)` clears both; the bits of every other address are unchanged by each of
the three; for `a > GNMSUP1_MAXSLAVEADDRESS` the three operations change nothing at all. -/
theorem C33_liveness_operations (s : gnMsup1) (a : Nat)
    (hI : s._ignoreStore.length = GNMSUP1_MAXSLAVEADDRESS + 1)
    (hA : s._activeStore.length = GNMSUP1_MAXSLAVEADDRESS + 1) :
    (a ≤ GNMSUP1_MAXSLAVEADDRESS →
      (storeBit (s._markActive a)._activeStore a = true ∧
        storeBit (s._markActive a)._ignoreStore a = false) ∧
      (storeBit (s._markIgnore a)._ignoreStore a = true ∧
        storeBit (s._markIgnore a)._activeStore a = false) ∧
      (storeBit (s._resetActiveIgnore a)._activeStore a = false ∧
        storeBit (s._resetActiveIgnore a)._ignoreStore a = false)) ∧
    (∀ b, b ≠ a →
      (storeBit (s._markActive a)._activeStore b = storeBit s._activeStore b ∧
        storeBit (s._markActive a)._ignoreStore b = storeBit s._ignoreStore b) ∧
      (storeBit (s._markIgnore a)._activeStore b = storeBit s._activeStore b ∧
        storeBit (s._markIgnore a)._ignoreStore b = storeBit s._ignoreStore b) ∧
      (storeBit (s._resetActiveIgnore a)._activeStore b = storeBit s._activeStore b ∧
        storeBit (s._resetActiveIgnore a)._ignoreStore b = storeBit s._ignoreStore b)) ∧
    (a > GNMSUP1_MAXSLAVEADDRESS →
      s._markActive a = s ∧ s._markIgnore a = s ∧ s._resetActiveIgnore a = s) := by
  refine ⟨?_, ?_, ?_⟩
  · intro ha
    have h31 : a ≤ 31 := ha
    have h1 : a / 8 < s._ignoreStore.length := by
      rw [hI]; simp only [GNMSUP1_MAXSLAVEADDRESS]; omega
    have h2 : a / 8 < s._activeStore.length := by
      rw [hA]; simp only [GNMSUP1_MAXSLAVEADDRESS]; omega
    obtain ⟨m1, m2⟩ := _markActive_bits s a ha h1 h2
    obtain ⟨i1, i2⟩ := _markIgnore_bits s a ha h1 h2
    exact ⟨⟨m1, m2⟩, ⟨i2, i1⟩, _resetActiveIgnore_bits s a ha h1 h2⟩
  · intro b hb
    exact ⟨_markActive_others s a b hb, _markIgnore_others s a b hb,
      _resetActiveIgnore_others s a b hb⟩
  · intro ha
    have hn : ¬ a ≤ GNMSUP1_MAXSLAVEADDRESS := by omega
    simp only [_markActive, _markIgnore, _resetActiveIgnore, hn, if_false, and_self]

/-- C33 on a master after `begin`: `_markActive(0x05)` sets the active bit of 0x05 and leaves
its ignore bit clear, and `_markIgnore(0x20)` changes nothing. -/
theorem C33_liveness_operations_witness :
    (storeBit ((afterBegin 0xFF)._markActive 0x05)._activeStore 0x05 = true ∧
      storeBit ((afterBegin 0xFF)._markActive 0x05)._ignoreStore 0x05 = false) ∧
    (afterBegin 0xFF)._markIgnore 0x20 = afterBegin 0xFF :=
  have h := C33_liveness_operations (afterBegin 0xFF) 0x05 (by decide) (by decide)
  have g := C33_liveness_operations (afterBegin 0xFF) 0x20 (by decide) (by decide)
  ⟨(h.1 (by decide)).1, (g.2.2 (by decide)).2.1⟩

set_option maxRecDepth 100000 in
/-- C35 (`begin` resets liveness), evaluation of the code on the failing input. A master
after `begin` reads the frame `80 09` of slave 0x09, which sets the active bit of 0x09; a second
`begin(115200, 0xFF)` returns `true`, and the active bit of 0x09 is still set after it (the
ignore bit is clear): `begin` zeroes `_ignoreStore` only. -/
theorem C35_begin_resets_liveness_failing_input :
    ((afterBegin 0xFF).handleCommunication ⟨1, wireFrame [0x80, 0x09], [], []⟩).bind (fun m1 =>
      (m1.begin 115200 0xFF).map (fun r =>
        (storeBit m1._activeStore 0x09, r.2, storeBit r.1._activeStore 0x09,
          storeBit r.1._ignoreStore 0x09))) = some (true, true, true, false) := by
  decide

set_option maxRecDepth 100000 in
/-- C39 (received payload size is bounded), evaluation of the code on the failing input.
Slave 0x05 reads the header `AA 55 40 05 14 10 01` of a frame with payload size 0x14 = 20.
After 8 payload bytes the frame position is 15 and no store went beyond the frame buffer; the
9th payload byte is stored at frame-buffer index `GNMSUP1_FRAMEBUF_PAYLOADSTART +
GNMSUP1_MAXPAYLOADBUFFER = 13`, behind the end of `_frameBuffer` (`bufferOverrun`), and after
13 payload bytes the frame position is 20, above `11 + GNMSUP1_MAXPAYLOADBUFFER = 19`. -/
theorem C39_received_payload_bound_failing_input :
    (longFrame 8)._framePosition = 15 ∧ (longFrame 8).bufferOverrun = false ∧
    (longFrame 8).readInputByte 1 0x99 =
      (nextPosition ((longFrame 8).setFrameByte (GNMSUP1_FRAMEBUF_PAYLOADSTART +
        GNMSUP1_MAXPAYLOADBUFFER) 0x99), none) ∧
    (longFrame 9).bufferOverrun = true ∧
    (longFrame 13)._framePosition = 20 ∧
    (longFrame 13)._framePosition > 11 + GNMSUP1_MAXPAYLOADBUFFER := by
  decide

set_option maxRecDepth 100000 in
/-- C40 (outgoing payload size is bounded), evaluation of the code on the failing input. On
slave 0x05 after `begin`, `push(0x20, 0x00, payload, 9)` returns `true`, stores 9 as
`payloadSize` of the queue entry and writes its 9th byte behind the end of the `payload` array
of the entry (`bufferOverrun`). On a master after `begin`, `send(0x05, 0x10, 0x01, payload, 9)`
returns `true`, puts the payload size 9 on the wire and writes the 9th payload byte behind the
end of `_frameBuffer` (`bufferOverrun`). -/
theorem C40_outgoing_payload_bound_failing_input :
    (afterBegin 0x05).bufferOverrun = false ∧
    ((afterBegin 0x05).push 1 [] 0x20 0x00 [1, 2, 3, 4, 5, 6, 7, 8, 9] 9 false).map
      (fun r => (r.2, (r.1.pushEntry 0).payloadSize, r.1.bufferOverrun)) =
      some (true, 9, true) ∧
    ((afterBegin 0xFF).send 0 [] ⟨0, []⟩ ⟨0, []⟩ [] 0x05 0x10 0x01
      [1, 2, 3, 4, 5, 6, 7, 8, 9] 9 false false false).map
      (fun r => (r.2, r.1.written.take 5, r.1.bufferOverrun)) =
      some (true, [0xAA, 0x55, 0x40, 0x05, 0x09], true) := by
  decide

end gnMsup1

namespace gnMsup1

/-! ## The scavenger walk -/

/-- The body of `_sendFrame` without push flag leaves the push-blocking timer as it is. -/
theorem sendFrameBody_timer (retryCall : gnMsup1 → gnMsup1 × Bool)
    (hretry : ∀ st, (retryCall st).1._pushBlockingTimer = st._pushBlockingTimer)
    (s : gnMsup1) (a : Attempt) (address serviceNumber subserviceNumber : Nat)
    (serviceFlag waitForPushAnswer commitReceivedFlag retryOnCrFailure : Bool)
    (payload : List Nat) (payloadSize : Nat) :
    (sendFrameBody retryCall id s a address serviceNumber subserviceNumber serviceFlag
      false waitForPushAnswer commitReceivedFlag retryOnCrFailure payload
      payloadSize).1._pushBlockingTimer = s._pushBlockingTimer := by
  obtain ⟨-, -, ht, -⟩ := emitFrame_kept s a.now address serviceNumber subserviceNumber
    serviceFlag false commitReceivedFlag payload payloadSize
  simp only [Bool.and_false, Bool.false_eq_true, if_false] at ht
  unfold sendFrameBody
  generalize s.emitFrame a.now address serviceNumber subserviceNumber serviceFlag
    false commitReceivedFlag payload payloadSize = e at ht ⊢
  have hA := (_markActive_kept e address).2.2.2.1
  have hI := (_markIgnore_kept
    { e with _lastComError := ⟨ComErrorCode.Err_CRTimeout, address⟩ } address).2.2.2.1
  by_cases hq : s._queryIgnore address = true
  · simp [hq]
  · simp only [hq, if_false]
    cases commitReceivedFlag
    · simp only [Bool.false_eq_true, if_false]
      split_ifs <;> exact ht
    · simp only [if_true]
      rcases a.reply with _ | ⟨c0, _ | ⟨c1, rest⟩⟩ <;> simp only [] <;> split_ifs <;> first
        | exact ht
        | (rw [hretry]; exact ht)
        | (rw [hI]; exact ht)
        | (simp only [id]; rw [hA]; exact ht)
        | simp_all

theorem _sendFrame_timer (s : gnMsup1) (first second : Attempt)
    (address serviceNumber subserviceNumber : Nat)
    (serviceFlag waitForPushAnswer commitReceivedFlag retryOnCrFailure : Bool)
    (payload : List Nat) (payloadSize : Nat) :
    (s._sendFrame id first second address serviceNumber subserviceNumber serviceFlag
      false waitForPushAnswer commitReceivedFlag retryOnCrFailure payload
      payloadSize).1._pushBlockingTimer = s._pushBlockingTimer := by
  unfold _sendFrame
  apply sendFrameBody_timer
  intro st
  apply sendFrameBody_timer
  intro _; rfl

theorem _resetActiveIgnore_timer (s : gnMsup1) (a : Nat) :
    (s._resetActiveIgnore a)._pushBlockingTimer = s._pushBlockingTimer := by
  unfold _resetActiveIgnore
  split <;> rfl

/-- One pass of the scavenger: the members it keeps, the range of the next address, and the
value of `scavengingOk`. -/
theorem scavengingPass_kept (s : gnMsup1) (probe : Attempt) (a : Nat) :
    Kept s (s.scavengingPass probe a).1 ∧
    (s.scavengingPass probe a).1._lastComError = s._lastComError ∧
    (s.scavengingPass probe a).1._pushBlockingTimer = s._pushBlockingTimer ∧
    (s.scavengingPass probe a).2.1 ≤ GNMSUP1_MAXSLAVEADDRESS ∧
    (s.scavengingPass probe a).2.1 =
      (if (a + 1) % 256 > GNMSUP1_MAXSLAVEADDRESS then 0 else (a + 1) % 256) ∧
    ((s.scavengingPass probe a).2.1 = s._scavengingInactiveNextAddress →
      (s.scavengingPass probe a).2.2 = true) := by
  obtain ⟨kr, er, -⟩ := _resetActiveIgnore_kept s a
  have tr := _resetActiveIgnore_timer s a
  have ks := _sendFrame_kept (s._resetActiveIgnore a) probe probe a
    GNMSUP1_SYSTEMSERVICENUMBER GNMSUP1_SYSTEMSERVICE_IGNORE true false false true false [] 0
  have ts := _sendFrame_timer (s._resetActiveIgnore a) probe probe a
    GNMSUP1_SYSTEMSERVICENUMBER GNMSUP1_SYSTEMSERVICE_IGNORE true false true false [] 0
  have hle : (if (a + 1) % 256 > GNMSUP1_MAXSLAVEADDRESS then 0 else (a + 1) % 256) ≤
      GNMSUP1_MAXSLAVEADDRESS := by
    split_ifs with h
    · exact Nat.zero_le _
    · omega
  have hX : Kept s (if s._queryActive a then (s._resetActiveIgnore a, false)
      else if s._queryIgnore a then
        let s2 := s._resetActiveIgnore a
        let lastComError := s2._lastComError
        let (s3, sent) := s2._sendFrame id probe probe a GNMSUP1_SYSTEMSERVICENUMBER
          GNMSUP1_SYSTEMSERVICE_IGNORE true false false true false [] 0
        let s4 := if sent then s3._markActive a else s3._markIgnore a
        ({ s4 with _lastComError := lastComError }, true)
      else (s, false)).1 ∧
      (if s._queryActive a then (s._resetActiveIgnore a, false)
      else if s._queryIgnore a then
        let s2 := s._resetActiveIgnore a
        let lastComError := s2._lastComError
        let (s3, sent) := s2._sendFrame id probe probe a GNMSUP1_SYSTEMSERVICENUMBER
          GNMSUP1_SYSTEMSERVICE_IGNORE true false false true false [] 0
        let s4 := if sent then s3._markActive a else s3._markIgnore a
        ({ s4 with _lastComError := lastComError }, true)
      else (s, false)).1._lastComError = s._lastComError ∧
      (if s._queryActive a then (s._resetActiveIgnore a, false)
      else if s._queryIgnore a then
        let s2 := s._resetActiveIgnore a
        let lastComError := s2._lastComError
        let (s3, sent) := s2._sendFrame id probe probe a GNMSUP1_SYSTEMSERVICENUMBER
          GNMSUP1_SYSTEMSERVICE_IGNORE true false false true false [] 0
        let s4 := if sent then s3._markActive a else s3._markIgnore a
        ({ s4 with _lastComError := lastComError }, true)
      else (s, false)).1._pushBlockingTimer = s._pushBlockingTimer := by
    by_cases hq : s._queryActive a = true
    · rw [if_pos hq]
      exact ⟨kr, er, tr⟩
    · rw [if_neg hq]
      by_cases hi : s._queryIgnore a = true
      · rw [if_pos hi]
        dsimp only
        generalize (s._resetActiveIgnore a)._sendFrame id probe probe a
          GNMSUP1_SYSTEMSERVICENUMBER GNMSUP1_SYSTEMSERVICE_IGNORE true false false true false
          [] 0 = r at ks ts
        obtain ⟨s3, sent⟩ := r
        simp only [] at ks ts ⊢
        cases sent
        · exact ⟨Kept_trans (Kept_trans (Kept_trans kr ks) (_markIgnore_kept s3 a).1)
            (by constructor <;> rfl), er,
            ((_markIgnore_kept s3 a).2.2.2.1.trans ts).trans tr⟩
        · exact ⟨Kept_trans (Kept_trans (Kept_trans kr ks) (_markActive_kept s3 a).1)
            (by constructor <;> rfl), er,
            ((_markActive_kept s3 a).2.2.2.1.trans ts).trans tr⟩
      · rw [if_neg hi]
        exact ⟨Kept_refl s, rfl, rfl⟩
  unfold scavengingPass
  generalize (if s._queryActive a then (s._resetActiveIgnore a, false)
      else if s._queryIgnore a then
        let s2 := s._resetActiveIgnore a
        let lastComError := s2._lastComError
        let (s3, sent) := s2._sendFrame id probe probe a GNMSUP1_SYSTEMSERVICENUMBER
          GNMSUP1_SYSTEMSERVICE_IGNORE true false false true false [] 0
        let s4 := if sent then s3._markActive a else s3._markIgnore a
        ({ s4 with _lastComError := lastComError }, true)
      else (s, false)) = x at hX
  obtain ⟨x1, x2⟩ := x
  obtain ⟨hk, he, ht⟩ := hX
  simp only [] at hk he ht ⊢
  refine ⟨hk, he, ht, hle, trivial, ?_⟩
  intro h
  rw [hk.nextAddress, h]
  simp

/-- What every pass of the scavenger and the store of the cursor preserve, the walk
preserves. -/
theorem scavengingWalk_ind (probe : Attempt) (P : gnMsup1 → Prop)
    (hpass : ∀ st a, P st → P (st.scavengingPass probe a).1)
    (hcur : ∀ st c, c ≤ GNMSUP1_MAXSLAVEADDRESS → P st →
      P { st with _scavengingInactiveNextAddress := c }) :
    ∀ (fuel : Nat) (st : gnMsup1) (a : Nat) (s1 : gnMsup1), P st →
      scavengingWalk fuel st probe a = some s1 → P s1 := by
  intro fuel
  induction fuel with
  | zero => intro st a s1 _ h; simp [scavengingWalk] at h
  | succ fuel ih =>
    intro st a s1 hP h
    have hp := hpass st a hP
    have hle := (scavengingPass_kept st probe a).2.2.2.1
    rw [scavengingWalk] at h
    generalize st.scavengingPass probe a = r at hp hle h
    obtain ⟨r1, r2, r3⟩ := r
    cases r3 with
    | true =>
      simp only [Option.some.injEq] at h
      rw [← h]
      exact hcur r1 r2 hle hp
    | false => exact ih r1 r2 s1 hp h

/-- The walk of the scavenger ends: from offset `j` behind a cursor that is a slave address,
at most `32 - j` passes are made, and the cursor stored is a slave address. -/
theorem scavengingWalk_total (probe : Attempt) :
    ∀ (n : Nat) (st : gnMsup1) (j fuel : Nat), j + n = 32 → 1 ≤ n → n ≤ fuel →
      st._scavengingInactiveNextAddress ≤ 31 →
      ∃ s1, scavengingWalk fuel st probe ((st._scavengingInactiveNextAddress + j) % 32)
          = some s1 ∧
        scavengingWalk n st probe ((st._scavengingInactiveNextAddress + j) % 32) = some s1 ∧
        s1._scavengingInactiveNextAddress ≤ 31 := by
  intro n
  induction n with
  | zero => intro st j fuel _ h; omega
  | succ n ih =>
    intro st j fuel hjn _ hfuel hc
    obtain ⟨fuel1, rfl⟩ : ∃ f, fuel = f + 1 := ⟨fuel - 1, by omega⟩
    have ha : (st._scavengingInactiveNextAddress + j) % 32 ≤ 31 := by omega
    have hnext := scavenging_next ((st._scavengingInactiveNextAddress + j) % 32) ha
    have hnext2 : ((st._scavengingInactiveNextAddress + j) % 32 + 1) % 32 =
        (st._scavengingInactiveNextAddress + (j + 1)) % 32 := by omega
    obtain ⟨hk, -, -, hle, h2, h3⟩ := scavengingPass_kept st probe
      ((st._scavengingInactiveNextAddress + j) % 32)
    rw [hnext, hnext2] at h2
    rw [scavengingWalk, scavengingWalk]
    generalize st.scavengingPass probe ((st._scavengingInactiveNextAddress + j) % 32) = r
      at hk hle h2 h3
    obtain ⟨r1, r2, r3⟩ := r
    simp only at hk hle h2 h3
    cases r3 with
    | true => exact ⟨_, rfl, rfl, hle⟩
    | false =>
      simp only []
      have hn1 : 1 ≤ n := by
        by_contra hlt
        have hj : j = 31 := by omega
        subst hj
        have : (st._scavengingInactiveNextAddress + (31 + 1)) % 32 =
            st._scavengingInactiveNextAddress := by omega
        rw [this] at h2
        exact absurd (h3 h2) (by decide)
      obtain ⟨s1, g1, g2, g3⟩ := ih r1 (j + 1) fuel1 (by omega) hn1 (by omega)
        (by rw [hk.nextAddress]; exact hc)
      rw [hk.nextAddress] at g1 g2
      rw [h2]
      exact ⟨s1, g1, g2, g3⟩

/-- The member function `_scavengingInactive` returns when the cursor is a slave address, and
the cursor stays one. -/
theorem _scavengingInactive_total (s : gnMsup1) (now : Nat) (probe : Attempt)
    (hc : s._scavengingInactiveNextAddress ≤ GNMSUP1_MAXSLAVEADDRESS) :
    ∃ s1, s._scavengingInactive now probe = some s1 ∧
      s1._scavengingInactiveNextAddress ≤ GNMSUP1_MAXSLAVEADDRESS := by
  unfold _scavengingInactive
  split_ifs
  · obtain ⟨s1, h1, -, h3⟩ := scavengingWalk_total probe 32
      { s with _scavengingInactiveLastTimestamp := now } 0 256 rfl (by omega) (by omega) hc
    have hmod : (s._scavengingInactiveNextAddress + 0) % 32 = s._scavengingInactiveNextAddress := by
      have : s._scavengingInactiveNextAddress ≤ 31 := hc
      omega
    simp only [] at h1
    rw [hmod] at h1
    exact ⟨s1, h1, h3⟩
  · exact ⟨s, rfl, hc⟩
  · exact ⟨s, rfl, hc⟩

/-- What every pass of the scavenger, the store of the cursor and the store of the time
stamp preserve, `_scavengingInactive` preserves. -/
theorem _scavengingInactive_ind (probe : Attempt) (P : gnMsup1 → Prop)
    (hpass : ∀ st a, P st → P (st.scavengingPass probe a).1)
    (hcur : ∀ st c, c ≤ GNMSUP1_MAXSLAVEADDRESS → P st →
      P { st with _scavengingInactiveNextAddress := c })
    (hts : ∀ st t, P st → P { st with _scavengingInactiveLastTimestamp := t })
    (s : gnMsup1) (now : Nat) (s1 : gnMsup1) (hP : P s)
    (h : s._scavengingInactive now probe = some s1) : P s1 := by
  unfold _scavengingInactive at h
  split_ifs at h
  · exact scavengingWalk_ind probe P hpass hcur _ _ _ _ (hts s now hP) h
  · simp only [Option.some.injEq] at h; rw [← h]; exact hP
  · simp only [Option.some.injEq] at h; rw [← h]; exact hP

/-- C37 (the scavenger does not clobber the user-visible error). For every object, every
clock value and every behaviour of the transport during the probe (`probe.reply` empty, the
checksum, or anything else), `_lastComError` after `_scavengingInactive` is `_lastComError`
before it; and with the cursor within `0..GNMSUP1_MAXSLAVEADDRESS` the call returns. -/
theorem C37_scavenger_keeps_last_error (s : gnMsup1) (now : Nat) (probe : Attempt) :
    (∀ s1, s._scavengingInactive now probe = some s1 → s1._lastComError = s._lastComError) ∧
    (s._scavengingInactiveNextAddress ≤ GNMSUP1_MAXSLAVEADDRESS →
      ∃ s1, s._scavengingInactive now probe = some s1) := by
  refine ⟨?_, ?_⟩
  · intro s1 h
    exact _scavengingInactive_ind probe (fun x => x._lastComError = s._lastComError)
      (fun st a hst => (scavengingPass_kept st probe a).2.1.trans hst)
      (fun st c _ hst => hst) (fun st t hst => hst) s now s1 rfl h
  · intro hc
    obtain ⟨s1, h, -⟩ := _scavengingInactive_total s now probe hc
    exact ⟨s1, h⟩

/-- C37 on a master with ignoring enabled, node 0x03 ignored and no error stored: the run at
clock value 10001 probes 0x03, gets no reply, and the stored error is still `None`. -/
theorem C37_scavenger_keeps_last_error_witness :
    (((afterBegin 0xFF).setIgnoreInactiveNodes true)._markIgnore
      0x03)._scavengingInactiveNextAddress ≤ GNMSUP1_MAXSLAVEADDRESS ∧
    ∃ s1, (((afterBegin 0xFF).setIgnoreInactiveNodes true)._markIgnore 0x03)._scavengingInactive
        10001 ⟨10001, []⟩ = some s1 ∧
      s1._lastComError = ⟨ComErrorCode.None, GNMSUP1_MASTERPSEUDOADDRESS⟩ :=
  have h := C37_scavenger_keeps_last_error
    (((afterBegin 0xFF).setIgnoreInactiveNodes true)._markIgnore 0x03) 10001 ⟨10001, []⟩
  ⟨by decide, (h.2 (by decide)).elim (fun s1 hs => ⟨s1, hs, (h.1 s1 hs).trans (by decide)⟩)⟩

end gnMsup1

namespace gnMsup1

/-! ## The push-blocking window -/

theorem finishFrame_heard (v : gnMsup1) (b : Nat) : Heard v (v.finishFrame b).1 := by
  have hh := _validateFrame_heard v
  unfold finishFrame
  rcases hv : v._validateFrame with ⟨s1, _ | _⟩
  · rw [hv] at hh
    exact Heard_trans hh (_resetAndStartFrame_heard s1 b).1
  · rw [hv] at hh
    exact hh

theorem readInputByte_heard (s : gnMsup1) (now b : Nat) : Heard s (s.readInputByte now b).1 := by
  rcases readInputByte_shape s now b with ⟨-, h, -⟩ | h
  · exact h
  · rw [h]
    exact Heard_trans (by constructor <;> rfl) (finishFrame_heard (nextPosition s) b)

theorem readLoop_heard (now : Nat) : ∀ (bytes : List Nat) (s : gnMsup1),
    Heard s (s.readLoop now bytes).1 := by
  intro bytes
  induction bytes with
  | nil => intro s; exact Heard_refl s
  | cons b rest ih =>
    intro s
    have h := readInputByte_heard s now b
    rw [readLoop]
    generalize s.readInputByte now b = p at h
    obtain ⟨p1, _ | r⟩ := p
    · exact Heard_trans h (ih p1)
    · exact h

/-- The member function `_readInput` keeps the members listed in `Heard`, on either role. -/
theorem _readInput_heard (s : gnMsup1) (now : Nat) (bytes : List Nat) :
    Heard s (s._readInput now bytes).1 := by
  unfold _readInput
  simp only []
  split_ifs
  · exact Heard_trans (_resetAndStartFrame_heard s _).1 (readLoop_heard now bytes _)
  · exact readLoop_heard now bytes s

/-- A call of `handleCommunication` in which `_readInput` returns `false` keeps
`_pushBlockingTimer`, also when the scavenger sends its probe. -/
theorem handleCommunication_quiet_timer (m m1 : gnMsup1) (t : Tick)
    (hread : (m._readInput t.now t.available).2.2 = false)
    (h : m.handleCommunication t = some m1) :
    m1._pushBlockingTimer = m._pushBlockingTimer := by
  have hh := _readInput_heard m t.now t.available
  unfold handleCommunication readAndProcess at h
  split_ifs at h
  · simp only [Option.some.injEq] at h; rw [← h]
  · rcases hr : m._readInput t.now t.available with ⟨f, rest, r⟩
    rw [hr] at hread hh h
    simp only [] at hread hh h
    subst hread
    simp only [] at h
    have := _scavengingInactive_ind ⟨t.now, t.probeReply⟩
      (fun x => x._pushBlockingTimer = f._pushBlockingTimer)
      (fun st a hst => (scavengingPass_kept st _ a).2.2.1.trans hst)
      (fun st c _ hst => hst) (fun st _ hst => hst) f t.now m1 rfl h
    exact this.trans hh.pushBlockingTimer

theorem quietTicks_timer : ∀ (ticks : List Tick) (s s1 : gnMsup1),
    s.quietTicks ticks = some s1 → s1._pushBlockingTimer = s._pushBlockingTimer := by
  intro ticks
  induction ticks with
  | nil =>
    intro s s1 h
    simp only [quietTicks, Option.some.injEq] at h
    rw [← h]
  | cons t ticks ih =>
    intro s s1 h
    rw [quietTicks] at h
    by_cases hr : (s._readInput t.now t.available).2.2 = true
    · rw [if_pos hr] at h; simp at h
    · rw [if_neg hr] at h
      rcases hc : s.handleCommunication t with _ | s2
      · rw [hc] at h; simp at h
      · rw [hc] at h
        exact (ih s2 s1 h).trans
          (handleCommunication_quiet_timer s s2 t (by simpa using hr) hc)

/-- C32 (push-blocking window). On a master, `_sendFrame` with the push flag set to a node
that is not ignored leaves in `_pushBlockingTimer` the clock value `t0` of its last emission
(the first one, or that of the retry), and for every clock value `now` with `t0 <= now`
(`millis()` not wrapped since) `pushBlockingActive()` is true if and only if
`now < t0 + GNMSUP1_PUSHTIMEOUT`, after any number of calls of `handleCommunication` (none
included) in none of which a frame is dispatched (`quietTicks`), when up to then no store went
beyond the end of an array of the object (`bufferOverrun` is false; no call resets it). After
`_processFrame` has dispatched a frame on the master, `_additionalPushMsgAvailable` is the push
bit of the frame and `pushBlockingActive()` is false, at the clock value of the dispatch and
later (up to the wrap of the 32-bit difference). -/
theorem C32_push_blocking_window (s m : gnMsup1) (first second dispatch : Attempt)
    (a serviceNumber subserviceNumber : Nat)
    (serviceFlag waitForPushAnswer commitReceivedFlag retryOnCrFailure : Bool)
    (payload : List Nat) (payloadSize : Nat)
    (hmaster : s._ownsMasterRole = true) (hign : s._queryIgnore a = false)
    (hm : m._ownsMasterRole = true) :
    (∃ t0, (t0 = first.now ∨ (retryOnCrFailure = true ∧ t0 = second.now)) ∧
      (s._sendFrame id first second a serviceNumber subserviceNumber serviceFlag true
        waitForPushAnswer commitReceivedFlag retryOnCrFailure payload
        payloadSize).1._pushBlockingTimer = t0 ∧
      ∀ (ticks : List Tick) (s1 : gnMsup1),
        (s._sendFrame id first second a serviceNumber subserviceNumber serviceFlag true
          waitForPushAnswer commitReceivedFlag retryOnCrFailure payload
          payloadSize).1.quietTicks ticks = some s1 →
        s1.bufferOverrun = false →
        ∀ now, t0 ≤ now → now < 4294967296 →
          (s1.pushBlockingActive now = true ↔ now < t0 + GNMSUP1_PUSHTIMEOUT)) ∧
    ((m._processFrame dispatch)._additionalPushMsgAvailable =
        bitRead (m.frameByte GNMSUP1_FRAMEBUF_FLAG) GNMSUP1_FRAMEFLAG_PUSH ∧
      ∀ now, dispatch.now ≤ now → now < 4294967296 →
        now - dispatch.now < 4294967296 - GNMSUP1_PUSHTIMEOUT - 1 →
        (m._processFrame dispatch).pushBlockingActive now = false) := by
  refine ⟨?_, ?_⟩
  · have hwin : ∀ (x : gnMsup1) (t0 : Nat), x._pushBlockingTimer = t0 →
        ∀ now, t0 ≤ now → now < 4294967296 →
          (x.pushBlockingActive now = true ↔ now < t0 + GNMSUP1_PUSHTIMEOUT) := by
      intro x t0 hx now h1 h2
      simp only [pushBlockingActive, hx, sub32, GNMSUP1_PUSHTIMEOUT, decide_eq_true_eq]
      omega
    have hstep : ∀ (retryCall : gnMsup1 → gnMsup1 × Bool) (x : gnMsup1) (at1 : Attempt)
        (retry : Bool), x._ownsMasterRole = true → x._queryIgnore a = false →
        (sendFrameBody retryCall id x at1 a serviceNumber subserviceNumber serviceFlag true
          waitForPushAnswer commitReceivedFlag retry payload payloadSize).1._pushBlockingTimer
          = at1.now ∨
        (retry = true ∧ ∃ e, Kept x e ∧ e._ignoreStore = x._ignoreStore ∧
          sendFrameBody retryCall id x at1 a serviceNumber subserviceNumber serviceFlag true
            waitForPushAnswer commitReceivedFlag retry payload payloadSize = retryCall e) := by
      intro retryCall x at1 retry hx hq
      obtain ⟨k, l, ht, -⟩ := emitFrame_kept x at1.now a serviceNumber subserviceNumber
        serviceFlag true commitReceivedFlag payload payloadSize
      simp only [hx, Bool.and_self, if_true] at ht
      unfold sendFrameBody
      generalize x.emitFrame at1.now a serviceNumber subserviceNumber serviceFlag
        true commitReceivedFlag payload payloadSize = e at k l ht ⊢
      have hA := (_markActive_kept e a).2.2.2.1
      have hI := (_markIgnore_kept
        { e with _lastComError := ⟨ComErrorCode.Err_CRTimeout, a⟩ } a).2.2.2.1
      have kT : Kept x { e with _lastComError := ⟨ComErrorCode.Err_CRTimeout, a⟩ } :=
        Kept_trans k (by constructor <;> rfl)
      have kC : Kept x { e with _lastComError := ⟨ComErrorCode.Err_CRInvalid, a⟩ } :=
        Kept_trans k (by constructor <;> rfl)
      simp only [hq, Bool.false_eq_true, if_false, id]
      cases commitReceivedFlag
      · left
        simp only [Bool.false_eq_true, if_false]
        split_ifs <;> exact ht
      · simp only [if_true]
        rcases at1.reply with _ | ⟨c0, _ | ⟨c1, rest⟩⟩ <;> simp only [] <;> split_ifs <;> first
          | (left; exact ht)
          | (left; exact hA.trans ht)
          | (left; exact hI.trans ht)
          | (right; exact ⟨by simp_all, _, kT, l.ignoreStore, rfl⟩)
          | (right; exact ⟨by simp_all, _, kC, l.ignoreStore, rfl⟩)
    unfold _sendFrame
    rcases hstep (fun s1 => sendFrameBody (fun s2 => (s2, false)) id s1 second a serviceNumber
      subserviceNumber serviceFlag true waitForPushAnswer commitReceivedFlag false payload
      payloadSize) s first retryOnCrFailure hmaster hign with h | ⟨hr, e, k, hi, h⟩
    · exact ⟨first.now, Or.inl rfl, h, fun ticks s1 hq _ =>
        hwin s1 _ ((quietTicks_timer ticks _ s1 hq).trans h)⟩
    · rw [h]
      have hxe : e._ownsMasterRole = true := by
        simp only [_ownsMasterRole, k.address]; exact hmaster
      have hqe : e._queryIgnore a = false := by
        rw [_queryIgnore_congr s e a k hi]; exact hign
      rcases hstep (fun s2 => (s2, false)) e second false hxe hqe with h2 | ⟨h2, -⟩
      · exact ⟨second.now, Or.inr ⟨hr, rfl⟩, h2, fun ticks s1 hq _ =>
          hwin s1 _ ((quietTicks_timer ticks _ s1 hq).trans h2)⟩
      · exact absurd h2 (by decide)
  · obtain ⟨h1, -⟩ := _processFrame_master m dispatch hm
    refine ⟨h1, ?_⟩
    intro now hn1 hn2 hn3
    obtain ⟨-, log, h2⟩ := dispatchService_master m dispatch hm
    unfold _processFrame
    rcases hd : m.dispatchService dispatch with ⟨s1, pushFlag⟩
    rw [hd] at h2
    simp only [] at h2 ⊢
    subst h2
    have hrole : ({ m with invoked := log, _framePosition := 0 } : gnMsup1)._ownsMasterRole
        = true := hm
    simp only [hrole, if_true]
    simp only [pushBlockingActive, sub32, GNMSUP1_PUSHTIMEOUT, decide_eq_false_iff_not, not_lt]
      at hn3 ⊢
    omega

set_option maxRecDepth 100000 in
/-- C32 on a master after `begin`: a frame with push flag is sent to node 0x05 at clock value
100; after a call of `handleCommunication` at clock value 110 that reads the byte `00`, no
store went beyond an array and push blocking at clock value 120 is active exactly when
`120 < 100 + GNMSUP1_PUSHTIMEOUT`; after a dispatch at clock value 200 nothing blocks. -/
theorem C32_push_blocking_window_witness :
    (∃ s1, ((afterBegin 0xFF)._sendFrame id ⟨100, []⟩ ⟨100, []⟩ 0x05 0x10 0x01 true true false
        false false [] 0).1.quietTicks [⟨110, [0x00], [], []⟩] = some s1 ∧
      s1.bufferOverrun = false ∧
      (s1.pushBlockingActive 120 = true ↔ 120 < 100 + GNMSUP1_PUSHTIMEOUT)) ∧
    ((afterBegin 0xFF)._processFrame ⟨200, []⟩).pushBlockingActive 200 = false := by
  obtain ⟨⟨t0, h0, -, h2⟩, -, h4⟩ := C32_push_blocking_window (afterBegin 0xFF)
    (afterBegin 0xFF) ⟨100, []⟩ ⟨100, []⟩ ⟨200, []⟩ 0x05 0x10 0x01 true false
    false false [] 0 (by decide) (by decide) (by decide)
  have ht : t0 = 100 := by
    rcases h0 with h | ⟨-, h⟩
    · exact h
    · exact h
  subst ht
  refine ⟨?_, h4 200 (by decide) (by decide) (by decide)⟩
  rcases hq : ((afterBegin 0xFF)._sendFrame id ⟨100, []⟩ ⟨100, []⟩ 0x05 0x10 0x01 true true
    false false false [] 0).1.quietTicks [⟨110, [0x00], [], []⟩] with _ | s1
  · exact absurd hq (by decide)
  · have hflag : (((afterBegin 0xFF)._sendFrame id ⟨100, []⟩ ⟨100, []⟩ 0x05 0x10 0x01 true true
        false false false [] 0).1.quietTicks [⟨110, [0x00], [], []⟩]).map
        (fun x => x.bufferOverrun) = some false := by decide
    rw [hq] at hflag
    have hflag1 : s1.bufferOverrun = false := by simpa using hflag
    exact ⟨s1, rfl, hflag1, h2 _ s1 hq hflag1 120 (by decide) (by decide)⟩

end gnMsup1

namespace gnMsup1

/-! ## Properties kept by every public call -/

theorem steady_kept {P : gnMsup1 → Prop} (hP : Steady P) (s s1 : gnMsup1) (k : Kept s s1)
    (l : SameLiveness s s1) (h : P s) : P s1 :=
  hP.same s s1 l.ignoreStore l.activeStore k.nextAddress h

theorem steady_emitFrame {P : gnMsup1 → Prop} (hP : Steady P) (s : gnMsup1)
    (now address serviceNumber subserviceNumber : Nat)
    (serviceFlag pushFlag commitReceivedFlag : Bool) (payload : List Nat) (payloadSize : Nat)
    (h : P s) :
    P (s.emitFrame now address serviceNumber subserviceNumber serviceFlag pushFlag
      commitReceivedFlag payload payloadSize) := by
  obtain ⟨k, l, -, -⟩ := emitFrame_kept s now address serviceNumber subserviceNumber
    serviceFlag pushFlag commitReceivedFlag payload payloadSize
  exact steady_kept hP _ _ k l h

theorem steady_sendFrameBody {P : gnMsup1 → Prop} (hP : Steady P)
    (retryCall : gnMsup1 → gnMsup1 × Bool)
    (hretry : ∀ st, P st → P (retryCall st).1)
    (s : gnMsup1) (a : Attempt) (address serviceNumber subserviceNumber : Nat)
    (serviceFlag pushFlag waitForPushAnswer commitReceivedFlag retryOnCrFailure : Bool)
    (payload : List Nat) (payloadSize : Nat) (h : P s) :
    P (sendFrameBody retryCall id s a address serviceNumber subserviceNumber serviceFlag
      pushFlag waitForPushAnswer commitReceivedFlag retryOnCrFailure payload payloadSize).1 := by
  have he := steady_emitFrame hP s a.now address serviceNumber subserviceNumber serviceFlag
    pushFlag commitReceivedFlag payload payloadSize h
  unfold sendFrameBody
  generalize s.emitFrame a.now address serviceNumber subserviceNumber serviceFlag
    pushFlag commitReceivedFlag payload payloadSize = e at he ⊢
  have hA := hP.markActive e address he
  have hC : P { e with _lastComError := ⟨ComErrorCode.Err_CRInvalid, address⟩ } :=
    hP.same e _ rfl rfl rfl he
  have hT : P { e with _lastComError := ⟨ComErrorCode.Err_CRTimeout, address⟩ } :=
    hP.same e _ rfl rfl rfl he
  have hI := hP.markIgnore _ address hT
  have hRC := hretry _ hC
  have hRT := hretry _ hT
  cases hq : s._queryIgnore address
  · simp only [Bool.false_eq_true, if_false]
    cases commitReceivedFlag
    · simp only [Bool.false_eq_true, if_false, id]
      split_ifs <;> exact he
    · simp only [if_true, id]
      rcases a.reply with _ | ⟨c0, _ | ⟨c1, rest⟩⟩ <;> simp only [] <;> split_ifs <;> first
        | exact he
        | exact hA
        | exact hI
        | exact hC
        | exact hT
        | exact hRC
        | exact hRT
  · simp only [if_true]; exact h

theorem steady_sendFrame {P : gnMsup1 → Prop} (hP : Steady P) (s : gnMsup1)
    (first second : Attempt) (address serviceNumber subserviceNumber : Nat)
    (serviceFlag pushFlag waitForPushAnswer commitReceivedFlag retryOnCrFailure : Bool)
    (payload : List Nat) (payloadSize : Nat) (h : P s) :
    P (s._sendFrame id first second address serviceNumber subserviceNumber serviceFlag
      pushFlag waitForPushAnswer commitReceivedFlag retryOnCrFailure payload payloadSize).1 := by
  unfold _sendFrame
  apply steady_sendFrameBody hP _ _ _ _ _ _ _ _ _ _ _ _ _ _ h
  intro st hst
  apply steady_sendFrameBody hP _ _ _ _ _ _ _ _ _ _ _ _ _ _ hst
  intro st1 hst1
  exact hst1

theorem steady_resetAndStartFrame {P : gnMsup1 → Prop} (hP : Steady P) (s : gnMsup1) (b : Nat)
    (h : P s) : P (s._resetAndStartFrame b) := by
  unfold _resetAndStartFrame _resetFramebuffer
  split <;> exact hP.same s _ rfl rfl rfl h

theorem steady_setFrameByte {P : gnMsup1 → Prop} (hP : Steady P) (s : gnMsup1) (i v : Nat)
    (h : P s) : P (s.setFrameByte i v) := by
  unfold setFrameByte
  split <;> exact hP.same s _ rfl rfl rfl h

theorem steady_validateFrame {P : gnMsup1 → Prop} (hP : Steady P) (s : gnMsup1) (h : P s) :
    P s._validateFrame.1 := by
  have hm := hP.markActive s (s.frameByte GNMSUP1_FRAMEBUF_ADDRESS) h
  unfold _validateFrame
  generalize s._markActive (s.frameByte GNMSUP1_FRAMEBUF_ADDRESS) = s1 at hm ⊢
  simp only []
  split_ifs <;> first
    | exact h
    | exact hm
    | exact hP.same s1 _ rfl rfl rfl hm

theorem steady_finishFrame {P : gnMsup1 → Prop} (hP : Steady P) (s : gnMsup1) (b : Nat)
    (h : P s) : P (s.finishFrame b).1 := by
  have hv := steady_validateFrame hP s h
  unfold finishFrame
  generalize s._validateFrame = r at hv ⊢
  obtain ⟨s1, _ | _⟩ := r
  · exact steady_resetAndStartFrame hP s1 b hv
  · exact hv

theorem steady_readInputByte {P : gnMsup1 → Prop} (hP : Steady P) (s : gnMsup1) (now b : Nat)
    (h : P s) : P (s.readInputByte now b).1 := by
  have hn : ∀ x : gnMsup1, P x → P (nextPosition x) := fun x hx => hP.same x _ rfl rfl rfl hx
  have hfin := steady_finishFrame hP (nextPosition s) b (hn s h)
  have hres := steady_resetAndStartFrame hP s b h
  have hres2 := steady_resetAndStartFrame hP (nextPosition s) b (hn s h)
  have hset : ∀ i, P (nextPosition (s.setFrameByte i b)) :=
    fun i => hn _ (steady_setFrameByte hP s i b h)
  have key : (fun r : gnMsup1 × Option Bool => P r.1) (s.readInputByte now b) := by
    unfold readInputByte
    dsimp only
    simp only [apply_ite (fun r : gnMsup1 × Option Bool => P r.1)]
    have step : ∀ (c : Prop) [Decidable c] (A B : Prop), (c → A) → (¬ c → B) →
        (if c then A else B) := by
      intro c _ A B hA hB
      by_cases hc : c
      · rw [if_pos hc]; exact hA hc
      · rw [if_neg hc]; exact hB hc
    repeat' (apply step <;> intro _)
    all_goals first
      | exact hfin
      | exact hres
      | exact hres2
      | exact hset _
      | exact hn _ h
      | exact hn _ (hP.same s _ rfl rfl rfl h)
  exact key

theorem steady_readLoop {P : gnMsup1 → Prop} (hP : Steady P) (now : Nat) :
    ∀ (bytes : List Nat) (s : gnMsup1), P s → P (s.readLoop now bytes).1 := by
  intro bytes
  induction bytes with
  | nil => intro s h; exact h
  | cons b rest ih =>
    intro s h
    have hb := steady_readInputByte hP s now b h
    rw [readLoop]
    generalize s.readInputByte now b = p at hb
    obtain ⟨p1, _ | r⟩ := p
    · exact ih p1 hb
    · exact hb

theorem steady_readInput {P : gnMsup1 → Prop} (hP : Steady P) (s : gnMsup1) (now : Nat)
    (bytes : List Nat) (h : P s) : P (s._readInput now bytes).1 := by
  unfold _readInput
  simp only []
  split_ifs
  · exact steady_readLoop hP now bytes _ (steady_resetAndStartFrame hP s _ h)
  · exact steady_readLoop hP now bytes s h

theorem steady_dispatchService {P : gnMsup1 → Prop} (hP : Steady P) (s : gnMsup1) (a : Attempt)
    (h : P s) : P (s.dispatchService a).1 := by
  have hs := fun push add commit => steady_sendFrame hP s a a s._address
    GNMSUP1_SYSTEMSERVICENUMBER GNMSUP1_SYSTEMSERVICE_QUERYALIVE true push add commit false [] 0 h
  unfold dispatchService _handleSystemService
  simp only []
  split_ifs <;> first
    | exact h
    | exact hs _ _ _
    | exact hP.same s _ rfl rfl rfl h

theorem steady_setPending {P : gnMsup1 → Prop} (hP : Steady P) (s : gnMsup1) (i : Nat)
    (v : Bool) (h : P s) : P (s.setPending i v) := by
  unfold setPending
  exact hP.same s _ rfl rfl rfl h

theorem steady_answerPushClearance {P : gnMsup1 → Prop} (hP : Steady P) (s : gnMsup1)
    (a : Attempt) (h : P s) : P (s.answerPushClearance a) := by
  unfold answerPushClearance
  by_cases h1 : sub32 a.now s._frameStartTime ≤ GNMSUP1_PUSHTIMEOUT
  swap
  · rw [if_neg h1]; exact h
  rw [if_pos h1]
  simp only []
  by_cases h2 : (s._pushStoreNextToSend a.now != GNMSUP1_PUSHSTOREEMPTY) = true
  swap
  · rw [if_neg h2]
    exact steady_sendFrame hP s a a s._address 0 0 false false false false false [] 0 h
  · rw [if_pos h2]
    have h3 := steady_setPending hP s (s._pushStoreNextToSend a.now) false h
    generalize s.setPending (s._pushStoreNextToSend a.now) false = s1 at h3 ⊢
    have h4 := steady_sendFrame hP s1 a a s1._address
      (s1.pushEntry (s._pushStoreNextToSend a.now)).serviceNumber
      (s1.pushEntry (s._pushStoreNextToSend a.now)).subserviceNumber true
      (s1._pushStoreNextToSend a.now != GNMSUP1_PUSHSTOREEMPTY) false
      (bitRead (s1.pushEntry (s._pushStoreNextToSend a.now)).flags
        GNMSUP1_PUSHBUFFLAG_COMMITRECEIVE) false
      (s1.pushEntry (s._pushStoreNextToSend a.now)).payload
      (s1.pushEntry (s._pushStoreNextToSend a.now)).payloadSize h3
    generalize s1._sendFrame id a a s1._address
      (s1.pushEntry (s._pushStoreNextToSend a.now)).serviceNumber
      (s1.pushEntry (s._pushStoreNextToSend a.now)).subserviceNumber true
      (s1._pushStoreNextToSend a.now != GNMSUP1_PUSHSTOREEMPTY) false
      (bitRead (s1.pushEntry (s._pushStoreNextToSend a.now)).flags
        GNMSUP1_PUSHBUFFLAG_COMMITRECEIVE) false
      (s1.pushEntry (s._pushStoreNextToSend a.now)).payload
      (s1.pushEntry (s._pushStoreNextToSend a.now)).payloadSize = r at h4 ⊢
    obtain ⟨s2, sent⟩ := r
    simp only [] at h4 ⊢
    split_ifs
    · exact steady_setPending hP s2 _ true h4
    · exact h4

theorem steady_processFrame {P : gnMsup1 → Prop} (hP : Steady P) (s : gnMsup1) (a : Attempt)
    (h : P s) : P (s._processFrame a) := by
  have hd := steady_dispatchService hP s a h
  unfold _processFrame
  generalize s.dispatchService a = r at hd ⊢
  obtain ⟨s1, pushFlag⟩ := r
  simp only [] at hd ⊢
  have h2 : P { s1 with _framePosition := 0 } := hP.same s1 _ rfl rfl rfl hd
  split_ifs
  · exact hP.same { s1 with _framePosition := 0 } _ rfl rfl rfl h2
  · exact steady_answerPushClearance hP _ a h2
  · exact h2

theorem steady_readAndProcess {P : gnMsup1 → Prop} (hP : Steady P) (s : gnMsup1) (a : Attempt)
    (available : List Nat) (h : P s) : P (s.readAndProcess a available).1 := by
  have hr := steady_readInput hP s a.now available h
  unfold readAndProcess
  generalize s._readInput a.now available = r at hr ⊢
  obtain ⟨s1, rest, _ | _⟩ := r
  · exact hr
  · exact steady_processFrame hP s1 a hr

theorem steady_scavengingPass {P : gnMsup1 → Prop} (hP : Steady P) (s : gnMsup1)
    (probe : Attempt) (a : Nat) (h : P s) : P (s.scavengingPass probe a).1 := by
  have hr := hP.resetActiveIgnore s a h
  have hX : P (if s._queryActive a then (s._resetActiveIgnore a, false)
      else if s._queryIgnore a then
        (let s2 := s._resetActiveIgnore a
         let lastComError := s2._lastComError
         let (s3, sent) := s2._sendFrame id probe probe a GNMSUP1_SYSTEMSERVICENUMBER
           GNMSUP1_SYSTEMSERVICE_IGNORE true false false true false [] 0
         let s4 := if sent then s3._markActive a else s3._markIgnore a
         ({ s4 with _lastComError := lastComError }, true))
      else (s, false)).1 := by
    by_cases hq : s._queryActive a = true
    · rw [if_pos hq]; exact hr
    · rw [if_neg hq]
      by_cases hi : s._queryIgnore a = true
      · rw [if_pos hi]
        dsimp only
        have hs := steady_sendFrame hP (s._resetActiveIgnore a) probe probe a
          GNMSUP1_SYSTEMSERVICENUMBER GNMSUP1_SYSTEMSERVICE_IGNORE true false false true false
          [] 0 hr
        generalize (s._resetActiveIgnore a)._sendFrame id probe probe a
          GNMSUP1_SYSTEMSERVICENUMBER GNMSUP1_SYSTEMSERVICE_IGNORE true false false true false
          [] 0 = r at hs ⊢
        obtain ⟨s3, sent⟩ := r
        simp only [] at hs ⊢
        cases sent
        · exact hP.same (s3._markIgnore a) _ rfl rfl rfl (hP.markIgnore s3 a hs)
        · exact hP.same (s3._markActive a) _ rfl rfl rfl (hP.markActive s3 a hs)
      · rw [if_neg hi]; exact h
  unfold scavengingPass
  generalize (if s._queryActive a then (s._resetActiveIgnore a, false)
      else if s._queryIgnore a then
        (let s2 := s._resetActiveIgnore a
         let lastComError := s2._lastComError
         let (s3, sent) := s2._sendFrame id probe probe a GNMSUP1_SYSTEMSERVICENUMBER
           GNMSUP1_SYSTEMSERVICE_IGNORE true false false true false [] 0
         let s4 := if sent then s3._markActive a else s3._markIgnore a
         ({ s4 with _lastComError := lastComError }, true))
      else (s, false)) = x at hX
  obtain ⟨x1, x2⟩ := x
  exact hX

theorem steady_scavengingInactive {P : gnMsup1 → Prop} (hP : Steady P) (s : gnMsup1)
    (now : Nat) (probe : Attempt) (s1 : gnMsup1) (h : P s)
    (hr : s._scavengingInactive now probe = some s1) : P s1 :=
  _scavengingInactive_ind probe P (fun st a hst => steady_scavengingPass hP st probe a hst)
    hP.cursor (fun st _ hst => hP.same st _ rfl rfl rfl hst) s now s1 h hr

theorem steady_handleCommunication {P : gnMsup1 → Prop} (hP : Steady P) (s : gnMsup1)
    (t : Tick) (s1 : gnMsup1) (h : P s) (hr : s.handleCommunication t = some s1) : P s1 := by
  unfold handleCommunication at hr
  split_ifs at hr
  · simp only [Option.some.injEq] at hr; rw [← hr]; exact h
  · exact steady_scavengingInactive hP _ _ _ _
      (steady_readAndProcess hP s ⟨t.now, t.reply⟩ t.available h) hr

theorem steady_wait {P : gnMsup1 → Prop} (hP : Steady P) :
    ∀ (ticks : List Tick) (s s1 : gnMsup1), P s →
      s._pushBlockingWaitForRelease ticks = some s1 → P s1 := by
  intro ticks
  induction ticks with
  | nil => intro s s1 _ hr; simp [_pushBlockingWaitForRelease] at hr
  | cons t ticks ih =>
    intro s s1 h hr
    rw [_pushBlockingWaitForRelease] at hr
    split_ifs at hr
    · rcases hc : s.handleCommunication t with _ | s2
      · rw [hc] at hr; simp at hr
      · rw [hc] at hr
        exact ih s2 s1 (steady_handleCommunication hP s t s2 h hc) hr
    · simp only [Option.some.injEq] at hr; rw [← hr]; exact h

theorem steady_sendFrameThenWait {P : gnMsup1 → Prop} (hP : Steady P) (s : gnMsup1)
    (first second : Attempt) (ticks : List Tick)
    (address serviceNumber subserviceNumber : Nat)
    (serviceFlag pushFlag waitForPushAnswer commitReceivedFlag retryOnCrFailure : Bool)
    (payload : List Nat) (payloadSize : Nat) (r : gnMsup1 × Bool) (h : P s)
    (hr : s.sendFrameThenWait first second ticks address serviceNumber subserviceNumber
      serviceFlag pushFlag waitForPushAnswer commitReceivedFlag retryOnCrFailure payload
      payloadSize = some r) : P r.1 := by
  have hs := steady_sendFrame hP s first second address serviceNumber subserviceNumber
    serviceFlag pushFlag waitForPushAnswer commitReceivedFlag retryOnCrFailure payload
    payloadSize h
  unfold sendFrameThenWait at hr
  generalize s._sendFrame id first second address serviceNumber subserviceNumber
    serviceFlag pushFlag waitForPushAnswer commitReceivedFlag retryOnCrFailure payload
    payloadSize = x at hs hr
  obtain ⟨s1, _ | _⟩ := x
  · simp only [Option.some.injEq] at hr; rw [← hr]; exact hs
  · simp only [] at hr
    split_ifs at hr
    · rcases hw : s1._pushBlockingWaitForRelease ticks with _ | s2
      · rw [hw] at hr; simp at hr
      · rw [hw] at hr
        simp only [Option.map_some', Option.some.injEq] at hr
        rw [← hr]
        exact steady_wait hP ticks s1 s2 hs hw
    · simp only [Option.some.injEq] at hr; rw [← hr]; exact hs

theorem steady_entry {P : gnMsup1 → Prop} (hP : Steady P) (s s1 : gnMsup1) (now : Nat)
    (entry : List Tick) (h : P s)
    (hr : (if s.pushBlockingActive now then s._pushBlockingWaitForRelease entry else some s)
      = some s1) : P s1 := by
  split_ifs at hr
  · exact steady_wait hP entry s s1 h hr
  · simp only [Option.some.injEq] at hr; rw [← hr]; exact h

theorem steady_send {P : gnMsup1 → Prop} (hP : Steady P) (s : gnMsup1) (now : Nat)
    (entry : List Tick) (first second : Attempt) (ticks : List Tick)
    (address serviceNumber subserviceNumber : Nat) (payload : List Nat) (payloadSize : Nat)
    (pushFlag commitReceivedFlag retryOnCrFailure : Bool) (r : gnMsup1 × Bool) (h : P s)
    (hr : s.send now entry first second ticks address serviceNumber subserviceNumber payload
      payloadSize pushFlag commitReceivedFlag retryOnCrFailure = some r) : P r.1 := by
  have he := fun s1 => steady_entry hP s s1 now entry h
  unfold send at hr
  by_cases c1 : (!s._ownsMasterRole || !s._initialized) = true
  · rw [if_pos c1] at hr
    simp only [Option.some.injEq] at hr; rw [← hr]; exact h
  rw [if_neg c1] at hr
  by_cases c2 : address > GNMSUP1_MAXSLAVEADDRESS
  · rw [if_pos c2] at hr
    simp only [Option.some.injEq] at hr; rw [← hr]; exact h
  rw [if_neg c2] at hr
  by_cases c3 : (s.pushBlockingActive now &&
      s._blockingMode == BlockingMode.FullyAsynchronous) = true
  · rw [if_pos c3] at hr
    simp only [Option.some.injEq] at hr; rw [← hr]; exact h
  rw [if_neg c3] at hr
  generalize (if s.pushBlockingActive now then s._pushBlockingWaitForRelease entry
    else some s) = x at he hr
  rcases x with _ | s1
  · simp at hr
  · simp only [] at hr
    exact steady_sendFrameThenWait hP s1 _ _ _ _ _ _ _ _ _ _ _ _ _ r (he s1 rfl) hr

theorem steady_waitForFreeSlot {P : gnMsup1 → Prop} (hP : Steady P) :
    ∀ (ticks : List Tick) (s : gnMsup1) (r : gnMsup1 × Nat × Nat × List Tick), P s →
      s.waitForFreeSlot ticks = some r → P r.1 := by
  intro ticks
  induction ticks with
  | nil => intro s r _ hr; simp [waitForFreeSlot] at hr
  | cons t ticks ih =>
    intro s r h hr
    rw [waitForFreeSlot] at hr
    rcases hc : s.handleCommunication t with _ | s1
    · rw [hc] at hr; simp at hr
    · rw [hc] at hr
      have h1 := steady_handleCommunication hP s t s1 h hc
      simp only [] at hr
      split_ifs at hr
      · exact ih s1 r h1 hr
      · simp only [Option.some.injEq] at hr; rw [← hr]; exact h1

theorem steady_waitForDelivery {P : gnMsup1 → Prop} (hP : Steady P) (storePosition : Nat) :
    ∀ (ticks : List Tick) (s : gnMsup1) (now : Nat) (s1 : gnMsup1), P s →
      waitForDelivery storePosition ticks s now = some s1 → P s1 := by
  intro ticks
  induction ticks with
  | nil =>
    intro s now s1 h hr
    rw [waitForDelivery] at hr
    split_ifs at hr
    simp only [Option.some.injEq] at hr; rw [← hr]; exact h
  | cons t ticks ih =>
    intro s now s1 h hr
    rw [waitForDelivery] at hr
    split_ifs at hr
    · rcases hc : s.handleCommunication t with _ | s2
      · rw [hc] at hr; simp at hr
      · rw [hc] at hr
        exact ih s2 t.now s1 (steady_handleCommunication hP s t s2 h hc) hr
    · simp only [Option.some.injEq] at hr; rw [← hr]; exact h

theorem steady_storePushEntry {P : gnMsup1 → Prop} (hP : Steady P) (s : gnMsup1)
    (now storePosition serviceNumber subserviceNumber : Nat) (payload : List Nat)
    (payloadSize : Nat) (commitReceivedFlag : Bool) (h : P s) :
    P (s.storePushEntry now storePosition serviceNumber subserviceNumber payload payloadSize
      commitReceivedFlag) :=
  hP.same s _ rfl rfl rfl h

theorem steady_push {P : gnMsup1 → Prop} (hP : Steady P) (s : gnMsup1) (now : Nat)
    (ticks : List Tick) (serviceNumber subserviceNumber : Nat) (payload : List Nat)
    (payloadSize : Nat) (commitReceivedFlag : Bool) (r : gnMsup1 × Bool) (h : P s)
    (hr : s.push now ticks serviceNumber subserviceNumber payload payloadSize
      commitReceivedFlag = some r) : P r.1 := by
  have hf : ∀ x, (if (s._pushStoreNextFree now == GNMSUP1_PUSHSTOREFULL) = true
      then s.waitForFreeSlot ticks else some (s, s._pushStoreNextFree now, now, ticks))
      = some x → P x.1 := by
    intro x hx
    split_ifs at hx
    · exact steady_waitForFreeSlot hP ticks s x h hx
    · simp only [Option.some.injEq] at hx; rw [← hx]; exact h
  unfold push at hr
  by_cases c1 : (s._ownsMasterRole || !s._initialized) = true
  · rw [if_pos c1] at hr
    simp only [Option.some.injEq] at hr; rw [← hr]; exact h
  rw [if_neg c1] at hr
  simp only [] at hr
  by_cases c2 : (s._pushStoreNextFree now == GNMSUP1_PUSHSTOREFULL &&
      s._blockingMode == BlockingMode.FullyAsynchronous) = true
  · rw [if_pos c2] at hr
    simp only [Option.some.injEq] at hr; rw [← hr]; exact h
  rw [if_neg c2] at hr
  generalize (if (s._pushStoreNextFree now == GNMSUP1_PUSHSTOREFULL) = true
      then s.waitForFreeSlot ticks else some (s, s._pushStoreNextFree now, now, ticks))
      = x at hf hr
  rcases x with _ | ⟨s1, p1, n1, t1⟩
  · simp at hr
  · simp only [] at hr
    have h1 : P s1 := hf _ rfl
    have h2 := steady_storePushEntry hP s1 n1 p1 serviceNumber subserviceNumber payload
      payloadSize commitReceivedFlag h1
    split_ifs at hr
    · rcases hw : waitForDelivery p1 t1 (s1.storePushEntry n1 p1 serviceNumber
          subserviceNumber payload payloadSize commitReceivedFlag) n1 with _ | s3
      · rw [hw] at hr; simp at hr
      · rw [hw] at hr
        simp only [Option.map_some', Option.some.injEq] at hr
        rw [← hr]
        exact steady_waitForDelivery hP p1 t1 _ n1 s3 h2 hw
    · simp only [Option.some.injEq] at hr; rw [← hr]; exact h2

theorem steady_pollMessages {P : gnMsup1 → Prop} (hP : Steady P)
    (world : Nat → Nat → PollCall) (address endAddress : Nat)
    (commitReceivedFlag retryOnCrFailure : Bool) :
    ∀ (n : Nat) (s : gnMsup1) (returnValue : Bool) (r : gnMsup1 × Bool × List PollRequest),
      P s → pollMessages world address endAddress commitReceivedFlag retryOnCrFailure n s
        returnValue = some r → P r.1 := by
  intro n
  induction n with
  | zero =>
    intro s returnValue r h hr
    simp only [pollMessages, Option.some.injEq] at hr
    rw [← hr]; exact h
  | succ n ih =>
    intro s returnValue r h hr
    rw [pollMessages] at hr
    simp only [] at hr
    have h0 : P { s with _additionalPushMsgAvailable := false } := hP.same s _ rfl rfl rfl h
    have hs := fun x => steady_sendFrameThenWait hP
      { s with _additionalPushMsgAvailable := false } (world address (n + 1)).first
      (world address (n + 1)).second (world address (n + 1)).ticks address 0 0 false true
      (pollWaitForPushAnswer s._blockingMode address endAddress (n + 1)) commitReceivedFlag
      retryOnCrFailure [] 0 x h0
    generalize ({ s with _additionalPushMsgAvailable := false } : gnMsup1).sendFrameThenWait
      (world address (n + 1)).first
      (world address (n + 1)).second (world address (n + 1)).ticks address 0 0 false true
      (pollWaitForPushAnswer s._blockingMode address endAddress (n + 1)) commitReceivedFlag
      retryOnCrFailure [] 0 = x at hs hr
    rcases x with _ | ⟨s2, sent⟩
    · simp at hr
    · simp only [] at hr
      have h2 : P s2 := hs _ rfl
      by_cases c : (!s2._additionalPushMsgAvailable) = true
      · rw [if_pos c] at hr
        simp only [Option.some.injEq] at hr; rw [← hr]; exact h2
      · rw [if_neg c] at hr
        simp only [Option.map_eq_some'] at hr
        obtain ⟨r2, hm, rfl⟩ := hr
        exact ih s2 _ r2 h2 hm

theorem steady_pollAddresses {P : gnMsup1 → Prop} (hP : Steady P)
    (world : Nat → Nat → PollCall) (endAddress maxMessagesPerSlave : Nat)
    (commitReceivedFlag retryOnCrFailure : Bool) :
    ∀ (passes : Nat) (s : gnMsup1) (address : Nat) (returnValue : Bool)
      (r : gnMsup1 × Bool × List PollRequest), P s →
      pollAddresses world endAddress maxMessagesPerSlave commitReceivedFlag retryOnCrFailure
        passes s address returnValue = some r → P r.1 := by
  intro passes
  induction passes with
  | zero =>
    intro s address returnValue r h hr
    rw [pollAddresses] at hr
    by_cases c : address ≤ endAddress
    · rw [if_pos c] at hr; simp at hr
    · rw [if_neg c] at hr
      simp only [Option.some.injEq] at hr; rw [← hr]; exact h
  | succ n ih =>
    intro s address returnValue r h hr
    rw [pollAddresses] at hr
    by_cases c : address ≤ endAddress
    swap
    · rw [if_neg c] at hr
      simp only [Option.some.injEq] at hr; rw [← hr]; exact h
    · rw [if_pos c] at hr
      rcases hm : pollMessages world address endAddress commitReceivedFlag retryOnCrFailure
        maxMessagesPerSlave s returnValue with _ | ⟨s1, rv1, calls⟩
      · rw [hm] at hr; simp at hr
      · rw [hm] at hr
        simp only [] at hr
        have h1 : P s1 := steady_pollMessages hP world address endAddress commitReceivedFlag
          retryOnCrFailure maxMessagesPerSlave s returnValue _ h hm
        rcases ha : pollAddresses world endAddress maxMessagesPerSlave commitReceivedFlag
          retryOnCrFailure n s1 ((address + 1) % 256) rv1 with _ | r2
        · rw [ha] at hr; simp at hr
        · rw [ha] at hr
          simp only [Option.map_some', Option.some.injEq] at hr
          rw [← hr]
          exact ih s1 _ rv1 r2 h1 ha

theorem steady_pollRange {P : gnMsup1 → Prop} (hP : Steady P) (s : gnMsup1) (now : Nat)
    (entry : List Tick) (world : Nat → Nat → PollCall)
    (beginAddress endAddress maxMessagesPerSlave : Nat)
    (commitReceivedFlag retryOnCrFailure : Bool) (r : gnMsup1 × Bool × List PollRequest)
    (h : P s)
    (hr : s.pollRange now entry world beginAddress endAddress maxMessagesPerSlave
      commitReceivedFlag retryOnCrFailure = some r) : P r.1 := by
  have he := fun s1 => steady_entry hP s s1 now entry h
  unfold pollRange at hr
  by_cases c1 : (!s._ownsMasterRole || !s._initialized) = true
  · rw [if_pos c1] at hr
    simp only [Option.some.injEq] at hr; rw [← hr]; exact h
  rw [if_neg c1] at hr
  by_cases c2 : endAddress > GNMSUP1_MAXSLAVEADDRESS
  · rw [if_pos c2] at hr
    simp only [Option.some.injEq] at hr; rw [← hr]; exact h
  rw [if_neg c2] at hr
  by_cases c3 : (decide (maxMessagesPerSlave < 1) ||
      s._blockingMode == BlockingMode.FullyAsynchronous) = true
  · rw [if_pos c3] at hr
    simp only [Option.some.injEq] at hr; rw [← hr]; exact h
  rw [if_neg c3] at hr
  by_cases c4 : (s._blockingMode == BlockingMode.FullyAsynchronous &&
      beginAddress != endAddress) = true
  · rw [if_pos c4] at hr
    simp only [Option.some.injEq] at hr; rw [← hr]; exact h
  rw [if_neg c4] at hr
  by_cases c5 : (s.pushBlockingActive now &&
      s._blockingMode == BlockingMode.FullyAsynchronous) = true
  · rw [if_pos c5] at hr
    simp only [Option.some.injEq] at hr; rw [← hr]; exact h
  rw [if_neg c5] at hr
  generalize (if s.pushBlockingActive now then s._pushBlockingWaitForRelease entry
    else some s) = x at he hr
  rcases x with _ | s1
  · simp at hr
  · simp only [] at hr
    exact steady_pollAddresses hP world endAddress maxMessagesPerSlave commitReceivedFlag
      retryOnCrFailure 256 s1 beginAddress true r (he s1 rfl) hr

theorem steady_call {P : gnMsup1 → Prop} (hP : Steady P) (s s1 : gnMsup1) (c : Call)
    (h : P s) (hr : s.call c = some s1) : P s1 := by
  cases c with
  | begin baudRate address =>
    simp only [call, Option.map_eq_some'] at hr
    obtain ⟨r, hb, rfl⟩ := hr
    unfold gnMsup1.begin at hb
    split_ifs at hb
    · simp only [Option.some.injEq] at hb; rw [← hb]; exact h
    · simp only [Option.some.injEq] at hb; rw [← hb]
      exact hP.same { s with _ignoreStore := List.replicate (GNMSUP1_MAXSLAVEADDRESS + 1) 0 }
        _ rfl rfl rfl (hP.cleared s h)
  | handleCommunication t => exact steady_handleCommunication hP s t s1 h hr
  | attachService serviceNumber serviceHandler =>
    simp only [call, Option.some.injEq] at hr
    rw [← hr]
    unfold gnMsup1.attachService
    split_ifs <;> first
      | exact h
      | exact hP.same s _ rfl rfl rfl h
  | attachCatchAllService serviceHandler =>
    simp only [call, Option.some.injEq] at hr
    rw [← hr]
    exact hP.same s _ rfl rfl rfl h
  | push now ticks serviceNumber subserviceNumber payload payloadSize commitReceivedFlag =>
    simp only [call, Option.map_eq_some'] at hr
    obtain ⟨r, hb, rfl⟩ := hr
    exact steady_push hP s now ticks serviceNumber subserviceNumber payload payloadSize
      commitReceivedFlag r h hb
  | send now entry first second ticks address serviceNumber subserviceNumber payload
      payloadSize pushFlag commitReceivedFlag retryOnCrFailure =>
    simp only [call, Option.map_eq_some'] at hr
    obtain ⟨r, hb, rfl⟩ := hr
    exact steady_send hP s now entry first second ticks address serviceNumber
      subserviceNumber payload payloadSize pushFlag commitReceivedFlag retryOnCrFailure r h hb
  | pollRange now entry world beginAddress endAddress maxMessagesPerSlave commitReceivedFlag
      retryOnCrFailure =>
    simp only [call, Option.map_eq_some'] at hr
    obtain ⟨r, hb, rfl⟩ := hr
    exact steady_pollRange hP s now entry world beginAddress endAddress maxMessagesPerSlave
      commitReceivedFlag retryOnCrFailure r h hb
  | poll now entry world address maxMessagesPerSlave commitReceivedFlag retryOnCrFailure =>
    simp only [call, Option.map_eq_some'] at hr
    obtain ⟨r, hb, rfl⟩ := hr
    exact steady_pollRange hP s now entry world address address maxMessagesPerSlave
      commitReceivedFlag retryOnCrFailure r h hb
  | blockingMode mode =>
    simp only [call, Option.some.injEq] at hr
    rw [← hr]
    exact hP.same s _ rfl rfl rfl h
  | setIgnoreInactiveNodes value =>
    simp only [call, Option.some.injEq] at hr
    rw [← hr]
    exact hP.same s _ rfl rfl rfl h
  | getLastComError =>
    simp only [call, Option.some.injEq] at hr
    rw [← hr]
    exact hP.same s _ rfl rfl rfl h
  | attachSerialDebug =>
    simp only [call, Option.some.injEq] at hr
    rw [← hr]
    exact hP.same s _ rfl rfl rfl h

/-- A steady property that holds before a sequence of public calls holds after it. -/
theorem steady_run {P : gnMsup1 → Prop} (hP : Steady P) :
    ∀ (calls : List Call) (s s1 : gnMsup1), P s → s.run calls = some s1 → P s1 := by
  intro calls
  induction calls with
  | nil =>
    intro s s1 h hr
    simp only [run, Option.some.injEq] at hr
    rw [← hr]; exact h
  | cons c calls ih =>
    intro s s1 h hr
    rw [run] at hr
    rcases hc : s.call c with _ | s2
    · rw [hc] at hr; simp at hr
    · rw [hc] at hr
      exact ih s2 s1 (steady_call hP s s2 c h hc) hr

theorem storeBit_cleared (store : List Nat) (a : Nat) :
    storeBit (setStoreBit store a false) a = false := by
  by_cases h : a / 8 < store.length
  · exact storeBit_set_same store a false h
  · unfold storeBit setStoreBit
    rw [List.getD_eq_getElem?_getD, List.getElem?_eq_none (by simpa using h)]
    simp [bitRead]

theorem storeBit_zero (n a : Nat) : storeBit (List.replicate n 0) a = false := by
  unfold storeBit
  rw [List.getD_eq_getElem?_getD]
  by_cases h : a / 8 < n
  · rw [List.getElem?_replicate_of_lt h]
    simp [bitRead]
  · rw [List.getElem?_eq_none (by simpa using h)]
    simp [bitRead]

theorem Exclusive_steady : Steady Exclusive := by
  have hmark : ∀ (s : gnMsup1) (a : Nat) (x : gnMsup1), Exclusive s → SameOthers a s x →
      (storeBit x._activeStore a = false ∨ storeBit x._ignoreStore a = false) →
      Exclusive x := by
    intro s a x hs ho hx b hb
    by_cases hba : b = a
    · subst hba
      rcases hx with hx | hx
      · rw [hx]; simp
      · rw [hx]; simp
    · rw [(ho b hba).1, (ho b hba).2]
      exact hs b hb
  constructor
  · intro s s1 h1 h2 _ hs b hb
    rw [h1, h2]
    exact hs b hb
  · intro s a hs
    by_cases ha : a ≤ GNMSUP1_MAXSLAVEADDRESS
    · refine hmark s a _ hs (_markActive_others s a) (Or.inr ?_)
      unfold _markActive
      rw [if_pos ha]
      exact storeBit_cleared _ _
    · unfold _markActive
      rw [if_neg ha]; exact hs
  · intro s a hs
    by_cases ha : a ≤ GNMSUP1_MAXSLAVEADDRESS
    · refine hmark s a _ hs (_markIgnore_others s a) (Or.inl ?_)
      unfold _markIgnore
      rw [if_pos ha]
      exact storeBit_cleared _ _
    · unfold _markIgnore
      rw [if_neg ha]; exact hs
  · intro s a hs
    by_cases ha : a ≤ GNMSUP1_MAXSLAVEADDRESS
    · refine hmark s a _ hs (_resetActiveIgnore_others s a) (Or.inl ?_)
      unfold _resetActiveIgnore
      rw [if_pos ha]
      exact storeBit_cleared _ _
    · unfold _resetActiveIgnore
      rw [if_neg ha]; exact hs
  · intro s c _ hs
    exact hs
  · intro s _ b _ hb
    have := storeBit_zero (GNMSUP1_MAXSLAVEADDRESS + 1) b
    simp only [this] at hb
    exact absurd hb.2 (by simp)

theorem cursor_steady :
    Steady (fun s => s._scavengingInactiveNextAddress ≤ GNMSUP1_MAXSLAVEADDRESS) := by
  constructor
  · intro s s1 _ _ h3 hs
    rw [h3]; exact hs
  · intro s a hs
    rw [(_markActive_kept s a).1.nextAddress]; exact hs
  · intro s a hs
    rw [(_markIgnore_kept s a).1.nextAddress]; exact hs
  · intro s a hs
    rw [(_resetActiveIgnore_kept s a).1.nextAddress]; exact hs
  · intro s c hc _
    exact hc
  · intro s hs
    exact hs

/-- As long as no store goes beyond the end of an array (such a store is dropped here), the
liveness bitmaps are written only by `_markActive`, `_markIgnore`, `_resetActiveIgnore` and the
`memset` of `begin`: in every object reached from a successful `begin` (on any object `s0`) by
a sequence of public calls, each with its received bytes, clock values and commit-receive
replies, no address `0..GNMSUP1_MAXSLAVEADDRESS` has both its active bit and its ignore bit
set. -/
theorem exclusive_after_begin (s0 s s1 : gnMsup1) (baudRate address : Nat)
    (calls : List Call) (hbegin : s0.begin baudRate address = some (s, true))
    (hrun : s.run calls = some s1) :
    ∀ a, a ≤ GNMSUP1_MAXSLAVEADDRESS →
      ¬ (storeBit s1._activeStore a = true ∧ storeBit s1._ignoreStore a = true) := by
  have hs : Exclusive s := by
    unfold gnMsup1.begin at hbegin
    split_ifs at hbegin
    · simp at hbegin
    · simp only [Option.some.injEq, Prod.mk.injEq, and_true] at hbegin
      rw [← hbegin]
      intro b _ hb
      have := storeBit_zero (GNMSUP1_MAXSLAVEADDRESS + 1) b
      simp only [this] at hb
      exact absurd hb.2 (by simp)
  exact steady_run Exclusive_steady calls s s1 hs hrun

set_option maxRecDepth 1000000 in
/-- C34 (active and ignore are mutually exclusive), evaluation of the code on the failing
input. A master after `begin` reads, in one call of `_readInput` at clock value 1, the header
`AA 55 40 05 FF 10 01` of a frame with payload size 0xFF = 255 and then payload bytes `FF`.
Every one of them takes the payload branch and is stored at frame-buffer index
`GNMSUP1_FRAMEBUF_PAYLOADSTART + _framePosition - 7`: the first 8 within `_frameBuffer`, the
9th at index 13 behind its end (`bufferOverrun`), the 183rd at index 187 and the 215th at
index 219, and after 218 payload bytes `_readInput` has returned `false` with the frame
position 225, no frame dispatched. In the object, `_frameBuffer + 187` is `_ignoreStore[0]` and
`_frameBuffer + 219` is `_activeStore[0]` (members in the order of `gnMsup1.h`). -/
theorem C34_active_ignore_exclusive_failing_input :
    (afterBegin 0xFF)._ownsMasterRole = true ∧
    (wideFrame 8)._framePosition = 15 ∧ (wideFrame 8).bufferOverrun = false ∧
    (wideFrame 9).bufferOverrun = true ∧
    (wideFrame 182)._framePosition = 189 ∧
    (wideFrame 182).readInputByte 1 0xFF =
      (nextPosition ((wideFrame 182).setFrameByte 187 0xFF), none) ∧
    (wideFrame 214)._framePosition = 221 ∧
    (wideFrame 214).readInputByte 1 0xFF =
      (nextPosition ((wideFrame 214).setFrameByte 219 0xFF), none) ∧
    (wideFrame 218)._framePosition = 225 ∧
    ((afterBegin 0xFF)._readInput 1
      ([0xAA, 0x55, 0x40, 0x05, 0xFF, 0x10, 0x01] ++ List.replicate 218 0xFF)).2 =
      ([], false) := by
  decide

end gnMsup1

namespace gnMsup1

/-! ## The probe of the scavenger and its cursor -/

/-- `_sendFrame` with commit-receive and without retry, to a node that is not ignored, returns
`true` exactly when the reply starts with the two bytes of the checksum it sent. -/
theorem _sendFrame_sent_iff (s : gnMsup1) (first second : Attempt)
    (a serviceNumber subserviceNumber : Nat) (serviceFlag pushFlag : Bool)
    (payload : List Nat) (payloadSize : Nat) (hign : s._queryIgnore a = false) :
    (s._sendFrame id first second a serviceNumber subserviceNumber serviceFlag pushFlag
      false true false payload payloadSize).2 = true ↔
    ∃ rest, first.reply =
      highByte (s.emitFrame first.now a serviceNumber subserviceNumber serviceFlag pushFlag true
        payload payloadSize)._frameChecksum ::
      lowByte (s.emitFrame first.now a serviceNumber subserviceNumber serviceFlag pushFlag true
        payload payloadSize)._frameChecksum :: rest := by
  by_cases hc : ∃ rest, first.reply =
      highByte (s.emitFrame first.now a serviceNumber subserviceNumber serviceFlag pushFlag true
        payload payloadSize)._frameChecksum ::
      lowByte (s.emitFrame first.now a serviceNumber subserviceNumber serviceFlag pushFlag true
        payload payloadSize)._frameChecksum :: rest
  · obtain ⟨rest, hr⟩ := hc
    rw [_sendFrame_confirmed s id first second a serviceNumber subserviceNumber serviceFlag
      pushFlag false false payload payloadSize rest hign hr]
    exact ⟨fun _ => ⟨rest, hr⟩, fun _ => rfl⟩
  · constructor
    · intro h
      exfalso
      unfold _sendFrame at h
      by_cases hl : first.reply.length < 2
      · rw [sendFrameBody_timeout _ _ s first a serviceNumber subserviceNumber serviceFlag
          pushFlag false false payload payloadSize hign hl] at h
        simp at h
      · obtain ⟨c0, c1, rest, hr⟩ : ∃ c0 c1 rest, first.reply = c0 :: c1 :: rest := by
          rcases hrep : first.reply with _ | ⟨c0, _ | ⟨c1, rest⟩⟩
          · rw [hrep] at hl; simp at hl
          · rw [hrep] at hl; simp at hl
          · exact ⟨c0, c1, rest, rfl⟩
        have hbad : ¬ (c0 = highByte (s.emitFrame first.now a serviceNumber subserviceNumber
              serviceFlag pushFlag true payload payloadSize)._frameChecksum ∧
            c1 = lowByte (s.emitFrame first.now a serviceNumber subserviceNumber serviceFlag
              pushFlag true payload payloadSize)._frameChecksum) := by
          intro hb
          apply hc
          refine ⟨rest, ?_⟩
          rw [hr, ← hb.1, ← hb.2]
        rw [sendFrameBody_invalid _ _ s first a serviceNumber subserviceNumber serviceFlag
          pushFlag false false payload payloadSize c0 c1 rest hign hr hbad] at h
        simp at h
    · intro h
      exact absurd h hc

/-- The pass of the scavenger at an address that triggers a probe: the probe frame written,
and the liveness of the address after the pass. -/
theorem scavengingPass_outcome (st : gnMsup1) (probe : Attempt) (a : Nat)
    (ha : a ≤ GNMSUP1_MAXSLAVEADDRESS)
    (hI : a / 8 < st._ignoreStore.length) (hA : a / 8 < st._activeStore.length)
    (hdue : st.probeDue a = true) :
    (st.scavengingPass probe a).1.written =
      st.written ++ wireFrame [0x50, a, 0x00, 0xFF, 0x01] ∧
    ((∃ rest, probe.reply = highByte (ccitt [0x50, a, 0x00, 0xFF, 0x01]) ::
        lowByte (ccitt [0x50, a, 0x00, 0xFF, 0x01]) :: rest) →
      storeBit (st.scavengingPass probe a).1._activeStore a = true ∧
      storeBit (st.scavengingPass probe a).1._ignoreStore a = false) ∧
    ((¬ ∃ rest, probe.reply = highByte (ccitt [0x50, a, 0x00, 0xFF, 0x01]) ::
        lowByte (ccitt [0x50, a, 0x00, 0xFF, 0x01]) :: rest) →
      storeBit (st.scavengingPass probe a).1._activeStore a = false ∧
      storeBit (st.scavengingPass probe a).1._ignoreStore a = true) := by
  have hq : st._queryActive a = false := by
    cases h : st._queryActive a
    · rfl
    · simp [probeDue, h] at hdue
  have hi : st._queryIgnore a = true := by
    simpa [probeDue, hq] using hdue
  have hmaster : st._ownsMasterRole = true := by
    cases h : st._ownsMasterRole
    · simp [_queryIgnore, h] at hi
    · rfl
  obtain ⟨kr, -, wr⟩ := _resetActiveIgnore_kept st a
  have hbits := _resetActiveIgnore_bits st a ha hI hA
  have hmaster2 : (st._resetActiveIgnore a)._ownsMasterRole = true := by
    simp only [_ownsMasterRole, kr.address]; exact hmaster
  have hign2 : (st._resetActiveIgnore a)._queryIgnore a = false := by
    simp [_queryIgnore, hbits.2]
  have hflag : (st._resetActiveIgnore a).flagByte true false true = 0x50 := by
    simp only [flagByte, hmaster2]
    decide
  obtain ⟨e1, e2, -⟩ := emitFrame_eq (st._resetActiveIgnore a) probe.now a
    GNMSUP1_SYSTEMSERVICENUMBER GNMSUP1_SYSTEMSERVICE_IGNORE true false true [] (by simp)
  have hL : logicalFrame 0x50 a 0 GNMSUP1_SYSTEMSERVICENUMBER GNMSUP1_SYSTEMSERVICE_IGNORE []
      = [0x50, a, 0x00, 0xFF, 0x01] := by
    have hbit : bitRead 0x50 GNMSUP1_FRAMEFLAG_SERVICE = true := by decide
    simp only [logicalFrame, hbit, if_true, GNMSUP1_SYSTEMSERVICENUMBER,
      GNMSUP1_SYSTEMSERVICE_IGNORE, List.append_nil]
  simp only [List.length_nil, hflag, hL, wr] at e1 e2
  obtain ⟨w1, -, -⟩ := _sendFrame_single (st._resetActiveIgnore a) id probe probe a
    GNMSUP1_SYSTEMSERVICENUMBER GNMSUP1_SYSTEMSERVICE_IGNORE true false true [] 0 hign2
  have hsent := _sendFrame_sent_iff (st._resetActiveIgnore a) probe probe a
    GNMSUP1_SYSTEMSERVICENUMBER GNMSUP1_SYSTEMSERVICE_IGNORE true false [] 0 hign2
  have ks := _sendFrame_kept (st._resetActiveIgnore a) probe probe a
    GNMSUP1_SYSTEMSERVICENUMBER GNMSUP1_SYSTEMSERVICE_IGNORE true false false true false [] 0
  rw [e1] at w1
  rw [e2] at hsent
  unfold scavengingPass
  simp only [hq, hi, Bool.false_eq_true, if_false, if_true, Bool.true_or]
  generalize (st._resetActiveIgnore a)._sendFrame id probe probe a GNMSUP1_SYSTEMSERVICENUMBER
    GNMSUP1_SYSTEMSERVICE_IGNORE true false false true false [] 0 = r at w1 hsent ks
  obtain ⟨s3, sent⟩ := r
  simp only [] at w1 hsent ks ⊢
  have hI3 : a / 8 < s3._ignoreStore.length := by
    rw [ks.ignoreLength, kr.ignoreLength]; exact hI
  have hA3 : a / 8 < s3._activeStore.length := by
    rw [ks.activeLength, kr.activeLength]; exact hA
  cases sent
  · simp only [Bool.false_eq_true, if_false]
    have hb := _markIgnore_bits s3 a ha hI3 hA3
    have hw := (_markIgnore_kept s3 a).2.2.1
    refine ⟨hw.trans w1, ?_, ?_⟩
    · intro hrep
      exact absurd (hsent.2 hrep) (by simp)
    · intro _
      exact hb
  · simp only [if_true]
    have hb := _markActive_bits s3 a ha hI3 hA3
    have hw := (_markActive_kept s3 a).2.2.1
    refine ⟨hw.trans w1, ?_, ?_⟩
    · intro _
      exact hb
    · intro hrep
      exact absurd (hsent.1 rfl) hrep

theorem Kept_cursor (s : gnMsup1) (c : Nat) (h : c = s._scavengingInactiveNextAddress) :
    Kept s { s with _scavengingInactiveNextAddress := c } := by
  constructor <;> first | rfl | exact h

/-- The walk of the scavenger from offset `j` behind the cursor, with `n = 32 - j` addresses
left. When offset `k` is the first one from `j` on whose address triggers a probe, the walk is
the pass at that address, made on an object that differs from the one at the start in the
liveness bits of the addresses passed only, followed by the store of the next address in the
cursor. When no address from offset `j` on triggers a probe, the walk writes nothing and
leaves the cursor as it is. -/
theorem scavengingWalk_first (probe : Attempt) :
    ∀ (n : Nat) (st : gnMsup1) (j fuel : Nat), j + n = 32 → 1 ≤ n → n ≤ fuel →
      st._scavengingInactiveNextAddress ≤ 31 →
      (∀ k, j ≤ k → k < 32 →
        (∀ i, j ≤ i → i < k →
          st.probeDue ((st._scavengingInactiveNextAddress + i) % 32) = false) →
        st.probeDue ((st._scavengingInactiveNextAddress + k) % 32) = true →
        ∃ st1, Kept st st1 ∧ st1.written = st.written ∧
          st1.probeDue ((st._scavengingInactiveNextAddress + k) % 32) = true ∧
          (∀ b, (∀ i, j ≤ i → i < k → b ≠ (st._scavengingInactiveNextAddress + i) % 32) →
            storeBit st1._activeStore b = storeBit st._activeStore b ∧
            storeBit st1._ignoreStore b = storeBit st._ignoreStore b) ∧
          scavengingWalk fuel st probe ((st._scavengingInactiveNextAddress + j) % 32) =
            some { (st1.scavengingPass probe
                ((st._scavengingInactiveNextAddress + k) % 32)).1 with
              _scavengingInactiveNextAddress :=
                ((st._scavengingInactiveNextAddress + k) % 32 + 1) % 32 }) ∧
      ((∀ i, j ≤ i → i < 32 →
          st.probeDue ((st._scavengingInactiveNextAddress + i) % 32) = false) →
        ∃ s1, scavengingWalk fuel st probe ((st._scavengingInactiveNextAddress + j) % 32)
            = some s1 ∧ Kept st s1 ∧ s1.written = st.written) := by
  intro n
  induction n with
  | zero => intro st j fuel _ h; omega
  | succ n ih =>
    intro st j fuel hjn _ hfuel hc
    obtain ⟨fuel1, rfl⟩ : ∃ f, fuel = f + 1 := ⟨fuel - 1, by omega⟩
    generalize hcur : st._scavengingInactiveNextAddress = c at hc ⊢
    have ha : (c + j) % 32 ≤ 31 := by omega
    have hnext := scavenging_next ((c + j) % 32) ha
    have hnext2 : ((c + j) % 32 + 1) % 32 = (c + (j + 1)) % 32 := by omega
    simp only [scavengingWalk]
    cases hdue : st.probeDue ((c + j) % 32)
    · -- no probe at this address
      obtain ⟨h1, h2, h3⟩ := scavengingPass_quiet st probe ((c + j) % 32) hdue
      rw [hnext, hnext2] at h2 h3
      rw [hcur] at h3
      generalize hst1 : (if st._queryActive ((c + j) % 32) = true
        then st._resetActiveIgnore ((c + j) % 32) else st) = st1 at h1
      have k1 : Kept st st1 := by
        rw [← hst1]; split
        · exact (_resetActiveIgnore_kept st _).1
        · exact Kept_refl st
      have o1 : SameOthers ((c + j) % 32) st st1 := by
        rw [← hst1]; split
        · exact _resetActiveIgnore_others st _
        · exact SameOthers_refl _ st
      have w1 : st1.written = st.written := by
        rw [← hst1]; split
        · exact (_resetActiveIgnore_kept st _).2.2
        · rfl
      rcases hp : st.scavengingPass probe ((c + j) % 32) with ⟨p1, p2, p3⟩
      rw [hp] at h1 h2 h3
      simp only [] at h1 h2 h3
      subst h1 h2
      have hcur1 : p1._scavengingInactiveNextAddress = c := k1.nextAddress.trans hcur
      by_cases hj : j = 31
      · -- the walk is back at the cursor
        subst hj
        have hback : (c + (31 + 1)) % 32 = c := by omega
        have hp3 : p3 = true := by
          rw [h3]; simp [hback]
        subst hp3
        refine ⟨?_, ?_⟩
        · intro k hk1 hk2 _ hk
          have hk31 : k = 31 := by omega
          subst hk31
          rw [hdue] at hk
          exact absurd hk (by simp)
        · intro _
          refine ⟨_, rfl, Kept_trans k1 (Kept_cursor p1 _ ?_), w1⟩
          rw [hback, hcur1]
      · have hp3 : p3 = false := by
          rw [h3]
          have : (c + (j + 1)) % 32 ≠ c := by omega
          simp [this]
        subst hp3
        simp only []
        obtain ⟨ihA, ihB⟩ := ih p1 (j + 1) fuel1 (by omega) (by omega) (by omega)
          (by rw [hcur1]; exact hc)
        rw [hcur1] at ihA ihB
        have hdue1 : ∀ i, j + 1 ≤ i → i < 32 →
            p1.probeDue ((c + i) % 32) = st.probeDue ((c + i) % 32) := by
          intro i hi1 hi2
          have hne : (c + i) % 32 ≠ (c + j) % 32 := by omega
          have := queries_congr st p1 _ _ k1 o1 hne
          simp only [probeDue, this.1, this.2]
        refine ⟨?_, ?_⟩
        · intro k hk1 hk2 hquiet hk
          have hkj : k ≠ j := by
            intro h; subst h
            rw [hdue] at hk
            exact absurd hk (by simp)
          obtain ⟨st1, kk, ww, dd, bb, hw⟩ := ihA k (by omega) hk2
            (fun i hi1 hi2 => (hdue1 i hi1 (by omega)).trans (hquiet i (by omega) hi2))
            ((hdue1 k (by omega) hk2).trans hk)
          refine ⟨st1, Kept_trans k1 kk, ww.trans w1, dd, ?_, hw⟩
          intro b hb
          have hbj : b ≠ (c + j) % 32 := hb j (le_refl j) (by omega)
          have hb1 := bb b (fun i hi1 hi2 => hb i (by omega) hi2)
          exact ⟨hb1.1.trans (o1 b hbj).1, hb1.2.trans (o1 b hbj).2⟩
        · intro hquiet
          obtain ⟨s1, hw, kk, ww⟩ := ihB
            (fun i hi1 hi2 => (hdue1 i hi1 hi2).trans (hquiet i (by omega) hi2))
          exact ⟨s1, hw, Kept_trans k1 kk, ww.trans w1⟩
    · -- a probe is sent: the walk stops here
      obtain ⟨h1, -, -⟩ := scavengingPass_probe st probe ((c + j) % 32) hdue
      have h2 := (scavengingPass_kept st probe ((c + j) % 32)).2.2.2.2.1
      rw [hnext] at h2
      rcases hp : st.scavengingPass probe ((c + j) % 32) with ⟨p1, p2, p3⟩
      rw [hp] at h1 h2
      simp only [] at h1 h2
      subst h1 h2
      refine ⟨?_, ?_⟩
      · intro k hk1 hk2 hquiet hk
        have hkj : k = j := by
          by_contra hne
          have := hquiet j (le_refl j) (by omega)
          rw [hdue] at this
          exact absurd this (by simp)
        subst hkj
        refine ⟨st, Kept_refl st, rfl, hdue, fun b _ => ⟨rfl, rfl⟩, ?_⟩
        rw [hp]
      · intro hquiet
        have := hquiet j (le_refl j) (by omega)
        rw [hdue] at this
        exact absurd this (by simp)


/-- On a master with ignoring enabled and exclusive liveness bits, the scavenger probes an
address `0..GNMSUP1_MAXSLAVEADDRESS` exactly when its ignore bit is set. -/
theorem probeDue_ignored (s : gnMsup1) (a : Nat) (hmaster : s._ownsMasterRole = true)
    (henabled : s._ignoreInactiveNodes = true) (hexcl : s.Exclusive)
    (ha : a ≤ GNMSUP1_MAXSLAVEADDRESS) :
    s.probeDue a = storeBit s._ignoreStore a := by
  have hn : ¬ a > GNMSUP1_MAXSLAVEADDRESS := by omega
  have hx := hexcl a ha
  simp only [probeDue, _queryActive, _queryIgnore, hmaster, henabled, hn, Bool.not_true,
    Bool.or_self, Bool.false_eq_true, if_false]
  cases hi : storeBit s._ignoreStore a
  · simp
  · rw [hi] at hx
    cases hact : storeBit s._activeStore a
    · rfl
    · rw [hact] at hx
      exact absurd ⟨rfl, rfl⟩ hx

/-- C36 (one probe per scavenger run). On a master with ignoring enabled, the interval
elapsed, the cursor within `0..GNMSUP1_MAXSLAVEADDRESS`, bitmaps of their declared size and no
address both active and ignored (C34), a scavenger run returns. When no address is ignored it
writes nothing. Otherwise, with `a` the first ignored address from the cursor upwards,
wrapping behind `GNMSUP1_MAXSLAVEADDRESS`, it writes exactly one frame, the probe
`AA 55 50 a 00 FF 01 crc CC 33` (service 0xFF, subservice 0x01, flag 0x50: service bit and
commit-receive bit set, push bit clear); after the run `a` is active and not ignored when the
reply starts with the two bytes of the checksum, and ignored and not active otherwise; every
other address that was ignored before the run is still ignored and not active. -/
theorem C36_one_probe_per_run (s : gnMsup1) (now : Nat) (probe : Attempt)
    (hmaster : s._ownsMasterRole = true)
    (henabled : s._ignoreInactiveNodes = true)
    (hinterval : sub32 now s._scavengingInactiveLastTimestamp >
      GNMSUP1_SCAVENGINGINACTIVEINTERVAL)
    (hcursor : s._scavengingInactiveNextAddress ≤ GNMSUP1_MAXSLAVEADDRESS)
    (hI : s._ignoreStore.length = GNMSUP1_MAXSLAVEADDRESS + 1)
    (hA : s._activeStore.length = GNMSUP1_MAXSLAVEADDRESS + 1)
    (hexcl : s.Exclusive) :
    ∃ s1, s._scavengingInactive now probe = some s1 ∧
      ((∀ b, b ≤ GNMSUP1_MAXSLAVEADDRESS → storeBit s._ignoreStore b = false) →
        s1.written = s.written) ∧
      ∀ k, k ≤ GNMSUP1_MAXSLAVEADDRESS →
        (∀ i, i < k → storeBit s._ignoreStore ((s._scavengingInactiveNextAddress + i) %
          (GNMSUP1_MAXSLAVEADDRESS + 1)) = false) →
        storeBit s._ignoreStore ((s._scavengingInactiveNextAddress + k) %
          (GNMSUP1_MAXSLAVEADDRESS + 1)) = true →
        s1.written = s.written ++ wireFrame [0x50, (s._scavengingInactiveNextAddress + k) %
          (GNMSUP1_MAXSLAVEADDRESS + 1), 0x00, 0xFF, 0x01] ∧
        (bitRead 0x50 GNMSUP1_FRAMEFLAG_SERVICE = true ∧
          bitRead 0x50 GNMSUP1_FRAMEFLAG_COMMITRECEIVE = true ∧
          bitRead 0x50 GNMSUP1_FRAMEFLAG_PUSH = false) ∧
        ((∃ rest, probe.reply =
            highByte (ccitt [0x50, (s._scavengingInactiveNextAddress + k) %
              (GNMSUP1_MAXSLAVEADDRESS + 1), 0x00, 0xFF, 0x01]) ::
            lowByte (ccitt [0x50, (s._scavengingInactiveNextAddress + k) %
              (GNMSUP1_MAXSLAVEADDRESS + 1), 0x00, 0xFF, 0x01]) :: rest) →
          storeBit s1._activeStore ((s._scavengingInactiveNextAddress + k) %
            (GNMSUP1_MAXSLAVEADDRESS + 1)) = true ∧
          storeBit s1._ignoreStore ((s._scavengingInactiveNextAddress + k) %
            (GNMSUP1_MAXSLAVEADDRESS + 1)) = false) ∧
        ((¬ ∃ rest, probe.reply =
            highByte (ccitt [0x50, (s._scavengingInactiveNextAddress + k) %
              (GNMSUP1_MAXSLAVEADDRESS + 1), 0x00, 0xFF, 0x01]) ::
            lowByte (ccitt [0x50, (s._scavengingInactiveNextAddress + k) %
              (GNMSUP1_MAXSLAVEADDRESS + 1), 0x00, 0xFF, 0x01]) :: rest) →
          storeBit s1._ignoreStore ((s._scavengingInactiveNextAddress + k) %
            (GNMSUP1_MAXSLAVEADDRESS + 1)) = true ∧
          storeBit s1._activeStore ((s._scavengingInactiveNextAddress + k) %
            (GNMSUP1_MAXSLAVEADDRESS + 1)) = false) ∧
        (∀ b, b ≤ GNMSUP1_MAXSLAVEADDRESS →
          b ≠ (s._scavengingInactiveNextAddress + k) % (GNMSUP1_MAXSLAVEADDRESS + 1) →
          storeBit s._ignoreStore b = true →
          storeBit s1._ignoreStore b = true ∧ storeBit s1._activeStore b = false) := by
  have hdue : ∀ a, a ≤ 31 →
      ({ s with _scavengingInactiveLastTimestamp := now } : gnMsup1).probeDue a =
        storeBit s._ignoreStore a :=
    fun a ha => probeDue_ignored s a hmaster henabled hexcl ha
  simp only [GNMSUP1_MAXSLAVEADDRESS] at hcursor hI hA ⊢
  obtain ⟨hwA, hwB⟩ := scavengingWalk_first probe 32
    { s with _scavengingInactiveLastTimestamp := now } 0 256 (by omega) (by omega) (by omega)
    hcursor
  have hrun : s._scavengingInactive now probe =
      scavengingWalk 256 { s with _scavengingInactiveLastTimestamp := now } probe
        ((s._scavengingInactiveNextAddress + 0) % 32) := by
    unfold _scavengingInactive
    rw [if_pos henabled,
      if_pos (by simpa [GNMSUP1_SCAVENGINGINACTIVEINTERVAL] using hinterval)]
    have hc0 : (s._scavengingInactiveNextAddress + 0) % 32 = s._scavengingInactiveNextAddress := by
      omega
    rw [hc0]
  obtain ⟨s1, hs1, -⟩ := _scavengingInactive_total s now probe
    (by simp only [GNMSUP1_MAXSLAVEADDRESS]; exact hcursor)
  refine ⟨s1, hs1, ?_, ?_⟩
  · intro hnone
    obtain ⟨s2, h2, -, w2⟩ := hwB (fun i _ hi => by
      rw [hdue _ (by omega)]
      exact hnone _ (by omega))
    rw [hrun] at hs1
    have : s2 = s1 := by
      have := h2.symm.trans hs1
      simpa using this
    rw [← this]
    exact w2
  · intro k hk hquiet hign
    obtain ⟨st1, kk, ww, dd, bb, hw⟩ := hwA k (Nat.zero_le k) (by omega)
      (fun i _ hi => by
        rw [hdue _ (by omega)]
        exact hquiet i hi)
      (by rw [hdue _ (by omega)]; exact hign)
    rw [hrun] at hs1
    have hs : ({ (st1.scavengingPass probe ((s._scavengingInactiveNextAddress + k) % 32)).1 with
        _scavengingInactiveNextAddress :=
          ((s._scavengingInactiveNextAddress + k) % 32 + 1) % 32 } : gnMsup1) = s1 := by
      have := hw.symm.trans hs1
      simpa using this
    have ha : (s._scavengingInactiveNextAddress + k) % 32 ≤ GNMSUP1_MAXSLAVEADDRESS := by
      simp only [GNMSUP1_MAXSLAVEADDRESS]; omega
    obtain ⟨o1, o2, o3⟩ := scavengingPass_outcome st1 probe
      ((s._scavengingInactiveNextAddress + k) % 32) ha
      (by rw [kk.ignoreLength]; show _ < s._ignoreStore.length; omega)
      (by rw [kk.activeLength]; show _ < s._activeStore.length; omega) dd
    obtain ⟨-, -, so⟩ := scavengingPass_probe st1 probe
      ((s._scavengingInactiveNextAddress + k) % 32) dd
    rw [← hs]
    refine ⟨?_, ⟨by decide, by decide, by decide⟩, ?_, ?_, ?_⟩
    · exact o1.trans (by rw [ww])
    · intro hrep
      exact o2 hrep
    · intro hrep
      exact ⟨(o3 hrep).2, (o3 hrep).1⟩
    · intro b hb hne hbi
      have hvis : ∀ i, 0 ≤ i → i < k → b ≠ (s._scavengingInactiveNextAddress + i) % 32 := by
        intro i _ hi heq
        have := hquiet i hi
        rw [← heq, hbi] at this
        exact absurd this (by simp)
      have hb1 := bb b hvis
      have hb2 := so b hne
      have hact : storeBit s._activeStore b = false := by
        cases h : storeBit s._activeStore b
        · rfl
        · exact absurd ⟨h, hbi⟩ (hexcl b hb)
      exact ⟨(hb2.2.trans hb1.2).trans hbi, (hb2.1.trans hb1.1).trans hact⟩

set_option maxRecDepth 100000 in
/-- C36 on a master with ignoring enabled, cursor 0 and node 0x03 ignored: the run at clock
value 10001 writes the probe to 0x03, gets no reply, and 0x03 is ignored and not active
afterwards. -/
theorem C36_one_probe_per_run_witness :
    ∃ s1, (((afterBegin 0xFF).setIgnoreInactiveNodes true)._markIgnore 0x03)._scavengingInactive
        10001 ⟨10001, []⟩ = some s1 ∧
      s1.written = wireFrame [0x50, 0x03, 0x00, 0xFF, 0x01] ∧
      storeBit s1._ignoreStore 0x03 = true ∧ storeBit s1._activeStore 0x03 = false := by
  obtain ⟨s1, h1, -, h3⟩ := C36_one_probe_per_run
    (((afterBegin 0xFF).setIgnoreInactiveNodes true)._markIgnore 0x03) 10001 ⟨10001, []⟩
    (by decide) (by decide) (by decide) (by decide) (by decide) (by decide)
    (by unfold Exclusive; decide)
  obtain ⟨w, -, -, hno, -⟩ := h3 3 (by decide) (by decide) (by decide)
  have hrep : ¬ ∃ rest, ([] : List Nat) =
      highByte (ccitt [0x50, (0 + 3) % (GNMSUP1_MAXSLAVEADDRESS + 1), 0x00, 0xFF, 0x01]) ::
      lowByte (ccitt [0x50, (0 + 3) % (GNMSUP1_MAXSLAVEADDRESS + 1), 0x00, 0xFF, 0x01]) ::
        rest := by
    rintro ⟨_, h⟩
    cases h
  exact ⟨s1, h1, w, hno hrep⟩

/-- C38 (the scavenger walk terminates and keeps its cursor in range). With the cursor within
`0..GNMSUP1_MAXSLAVEADDRESS`: the walk ends within `GNMSUP1_MAXSLAVEADDRESS + 1` passes of its
loop (the 256 passes the model allows give the same result) and stores a cursor within the
range; `_scavengingInactive` returns with the cursor within the range; after a run that probed
address `a` (the first address from the cursor upwards that is ignored and not active) the
cursor is `(a + 1) mod (GNMSUP1_MAXSLAVEADDRESS + 1)`, and after a run that met no such address
the cursor is unchanged. In every object reached from the constructed object (cursor 0) by a
sequence of public calls in which no store went beyond the end of an array of the object
(`bufferOverrun` is false at the end; no call resets it) the cursor is within the range. -/
theorem C38_scavenger_walk_bounded (s : gnMsup1) (now : Nat) (probe : Attempt)
    (hcursor : s._scavengingInactiveNextAddress ≤ GNMSUP1_MAXSLAVEADDRESS) :
    (∃ s1, scavengingWalk (GNMSUP1_MAXSLAVEADDRESS + 1) s probe
          s._scavengingInactiveNextAddress = some s1 ∧
        scavengingWalk 256 s probe s._scavengingInactiveNextAddress = some s1 ∧
        s1._scavengingInactiveNextAddress ≤ GNMSUP1_MAXSLAVEADDRESS) ∧
    (∃ s1, s._scavengingInactive now probe = some s1 ∧
      s1._scavengingInactiveNextAddress ≤ GNMSUP1_MAXSLAVEADDRESS ∧
      (s._ignoreInactiveNodes = true →
        sub32 now s._scavengingInactiveLastTimestamp > GNMSUP1_SCAVENGINGINACTIVEINTERVAL →
        (∀ k, k ≤ GNMSUP1_MAXSLAVEADDRESS →
          (∀ i, i < k → s.probeDue ((s._scavengingInactiveNextAddress + i) %
            (GNMSUP1_MAXSLAVEADDRESS + 1)) = false) →
          s.probeDue ((s._scavengingInactiveNextAddress + k) %
            (GNMSUP1_MAXSLAVEADDRESS + 1)) = true →
          s1._scavengingInactiveNextAddress =
            ((s._scavengingInactiveNextAddress + k) % (GNMSUP1_MAXSLAVEADDRESS + 1) + 1) %
              (GNMSUP1_MAXSLAVEADDRESS + 1)) ∧
        ((∀ i, i ≤ GNMSUP1_MAXSLAVEADDRESS → s.probeDue ((s._scavengingInactiveNextAddress + i) %
            (GNMSUP1_MAXSLAVEADDRESS + 1)) = false) →
          s1._scavengingInactiveNextAddress = s._scavengingInactiveNextAddress))) ∧
    (∀ (master : Bool) (calls : List Call) (s2 : gnMsup1),
      (constructed master).run calls = some s2 →
      s2.bufferOverrun = false →
      s2._scavengingInactiveNextAddress ≤ GNMSUP1_MAXSLAVEADDRESS) := by
  have hc31 : s._scavengingInactiveNextAddress ≤ 31 := hcursor
  have hc0 : (s._scavengingInactiveNextAddress + 0) % 32 = s._scavengingInactiveNextAddress := by
    omega
  refine ⟨?_, ?_, ?_⟩
  · obtain ⟨s1, h1, h2, h3⟩ := scavengingWalk_total probe 32 s 0 256 rfl (by omega) (by omega)
      hc31
    rw [hc0] at h1 h2
    exact ⟨s1, h2, h1, h3⟩
  · obtain ⟨s1, hs1, hle⟩ := _scavengingInactive_total s now probe hcursor
    refine ⟨s1, hs1, hle, ?_⟩
    intro henabled hinterval
    obtain ⟨hwA, hwB⟩ := scavengingWalk_first probe 32
      { s with _scavengingInactiveLastTimestamp := now } 0 256 (by omega) (by omega) (by omega)
      hc31
    have hrun : s._scavengingInactive now probe =
        scavengingWalk 256 { s with _scavengingInactiveLastTimestamp := now } probe
          ((s._scavengingInactiveNextAddress + 0) % 32) := by
      unfold _scavengingInactive
      rw [if_pos henabled,
        if_pos (by simpa [GNMSUP1_SCAVENGINGINACTIVEINTERVAL] using hinterval), hc0]
    rw [hrun] at hs1
    simp only [GNMSUP1_MAXSLAVEADDRESS]
    refine ⟨?_, ?_⟩
    · intro k hk hquiet hdue
      obtain ⟨st1, -, -, -, -, hw⟩ := hwA k (Nat.zero_le k) (by omega)
        (fun i _ hi => hquiet i hi) hdue
      have hs := hw.symm.trans hs1
      simp only [Option.some.injEq] at hs
      rw [← hs]
    · intro hquiet
      obtain ⟨s2, h2, kk, -⟩ := hwB (fun i _ hi => hquiet i (by omega))
      have hs := h2.symm.trans hs1
      simp only [Option.some.injEq] at hs
      rw [← hs]
      exact kk.nextAddress
  · intro master calls s2 hrun _
    exact steady_run cursor_steady calls (constructed master) s2 (by cases master <;> decide)
      hrun

set_option maxRecDepth 100000 in
/-- C38 on a master with ignoring enabled, cursor 0 and node 0x03 ignored: the run at clock
value 10001 probes 0x03 and leaves the cursor at 0x04. -/
theorem C38_scavenger_walk_bounded_witness :
    (((afterBegin 0xFF).setIgnoreInactiveNodes true)._markIgnore
      0x03)._scavengingInactiveNextAddress ≤ GNMSUP1_MAXSLAVEADDRESS ∧
    ∃ s1, (((afterBegin 0xFF).setIgnoreInactiveNodes true)._markIgnore 0x03)._scavengingInactive
        10001 ⟨10001, []⟩ = some s1 ∧
      s1._scavengingInactiveNextAddress = 0x04 := by
  obtain ⟨-, ⟨s1, h1, -, h3⟩, -⟩ := C38_scavenger_walk_bounded
    (((afterBegin 0xFF).setIgnoreInactiveNodes true)._markIgnore 0x03) 10001 ⟨10001, []⟩
    (by decide)
  exact ⟨by decide, s1, h1,
    ((h3 (by decide) (by decide)).1 3 (by decide) (by decide) (by decide)).trans (by decide)⟩

end gnMsup1
